import Mathlib

/-!
SIO2BSD: frame checksum, PERCOM geometry and ATR sector I/O.

A shallow embedding of the disk side of `sio2bsd.c` (the Atari SIO peripheral
emulator) together with theorems about it.

Conventions of the embedding

* C integers are `Nat`/`Int`; every narrowing store is written out as an explicit
  `% 256` (`uchar`), `% 65536` (`ushort`) or `% 2 ^ 64` (`ulong`); `int` is 32 bits and
  `long`/`ulong` 64 bits (LP64). Signed `long` offsets computed from a sector number
  are kept as exact integers: the dispatcher only passes `aux1 + (aux2 << 8)`, for
  which `(sector - 1) * bps` is far below `2 ^ 63`.
* Byte buffers are `List Nat`; a buffer is well formed when every element is below 256.
* The functions act on the record `device[devno][d]` that the call addresses, the file
  open on its `fd`, the two static buffers and the serial line. `printf` logging and
  `usleep` delays are left out.
-/

set_option linter.unusedVariables false
set_option maxRecDepth 100000

namespace SIO2BSD

/-! ## Checksum -/

/-- One iteration of the loop body of `calc_checksum`:
`nck = cksum + buf[i]` stored in a `ushort`, then
`cksum = (nck > 0x00ff) ? ((nck & 0x00ff) + 1) : (nck & 0x00ff)` stored in a `uchar`. -/
def cksum_step (cksum b : Nat) : Nat :=
  let nck := (cksum + b) % 65536
  (if nck > 0x00ff then (nck &&& 0x00ff) + 1 else nck &&& 0x00ff) % 256

/-- The function `calc_checksum(buf, how_much)`: the loop runs over the first `how_much`
bytes of `buf`, starting from `cksum = 0`. -/
def calc_checksum (buf : List Nat) (how_much : Nat) : Nat :=
  (buf.take how_much).foldl cksum_step 0

/-- The checksum step as the specification words it: add the byte and, when the sum
exceeds 255, replace it by `(sum AND 0xff) + 1`. Nothing is truncated here. -/
def spec_cksum_step (acc b : Nat) : Nat :=
  if acc + b > 255 then ((acc + b) &&& 0xff) + 1 else acc + b

/-- The checksum as the specification words it: accumulator starts at 0 and the step is
applied to each byte in order. -/
def spec_checksum (bytes : List Nat) : Nat :=
  bytes.foldl spec_cksum_step 0

/-- A buffer of `uchar`: every element is below 256. -/
def isBytes (buf : List Nat) : Prop := ∀ b ∈ buf, b < 256

instance (buf : List Nat) : Decidable (isBytes buf) := by
  unfold isBytes; infer_instance

/-! ## Records of `sio2bsd.h` -/

/-- The Atari SIO status block (`STATUS`); every field is a `uchar`. -/
structure STATUS where
  stat : Nat
  err : Nat
  tmot : Nat
  none : Nat
  deriving DecidableEq, Repr

/-- The Atari SIO PERCOM block (`PERCOM`); every field is a `uchar`. -/
structure PERCOM where
  trk : Nat
  step : Nat
  spt_hi : Nat
  spt_lo : Nat
  heads : Nat
  flags : Nat
  bps_hi : Nat
  bps_lo : Nat
  deriving DecidableEq, Repr

/-- The ATR file header as kept in memory (`ATR`): `ushort sig, wpars, bps`,
`uchar hipars`, `ulong crc`, `long costam` (kept as its 64-bit pattern), `uchar prot`. -/
structure ATR where
  sig : Nat
  wpars : Nat
  bps : Nat
  hipars : Nat
  crc : Nat
  costam : Nat
  prot : Nat
  deriving DecidableEq, Repr

/-- The disk part of a `DEVICE` record: `atr`, `fd`, `percom`, `status`, `maxsec`
(`ulong`), `bps` (`ushort`), `full13` and `full13force` (`int`). The PCLink members
(`on`, `dirname`, `cwd`, `parbuf`) are not read or written by the disk functions; `parbuf`
is kept in the state `PCL` of the PCLink functions. -/
structure DEVICE where
  atr : ATR
  fd : Int
  percom : PERCOM
  status : STATUS
  maxsec : Nat
  bps : Nat
  full13 : Int
  full13force : Int
  deriving DecidableEq, Repr

/-- The result of `bzero(&device[devno][d], sizeof(DEVICE))`. -/
def DEVICE.zero : DEVICE :=
  { atr := { sig := 0, wpars := 0, bps := 0, hipars := 0, crc := 0, costam := 0, prot := 0 },
    fd := 0,
    percom := { trk := 0, step := 0, spt_hi := 0, spt_lo := 0, heads := 0, flags := 0,
                bps_hi := 0, bps_lo := 0 },
    status := { stat := 0, err := 0, tmot := 0, none := 0 },
    maxsec := 0, bps := 0, full13 := 0, full13force := 0 }

/-- The function `device_reset(devno, d)`. -/
def device_reset : DEVICE :=
  { DEVICE.zero with
    status := { DEVICE.zero.status with err := 0xff, tmot := 0xe0 },
    fd := -1 }

/-- The assignment `device[devno][d].status.stat = v`. -/
def with_stat (dev : DEVICE) (v : Nat) : DEVICE :=
  { dev with status := { dev.status with stat := v } }

/-- The conversion `(long)x` of a `ulong`. -/
def toLong (x : Nat) : Int :=
  if x % 2 ^ 64 < 2 ^ 63 then ((x % 2 ^ 64 : Nat) : Int) else ((x % 2 ^ 64 : Nat) : Int) - 2 ^ 64

/-- The conversion of a `ulong` value to `int` (32 bits, two's complement). -/
def toInt32 (x : Nat) : Int :=
  if x % 2 ^ 32 < 2 ^ 31 then ((x % 2 ^ 32 : Nat) : Int) else ((x % 2 ^ 32 : Nat) : Int) - 2 ^ 32

/-! ## PERCOM and geometry -/

/-- The function `setup_percom(d, ibuf)` on the record `device[3][d]`: the eight bytes are
stored first, the checks come afterwards; the result is the record and the return value.
`ibuf[k]` is `ibuf.getD k 0` (all callers pass at least eight bytes). -/
def setup_percom (dev : DEVICE) (ibuf : List Nat) : DEVICE × Int :=
  let pc : PERCOM :=
    { trk := ibuf.getD 0 0, step := ibuf.getD 1 0, spt_hi := ibuf.getD 2 0,
      spt_lo := ibuf.getD 3 0, heads := ibuf.getD 4 0, flags := ibuf.getD 5 0,
      bps_hi := ibuf.getD 6 0, bps_lo := ibuf.getD 7 0 }
  let dev1 := { dev with percom := pc }
  let maxsec0 := (pc.spt_hi * 256 + pc.spt_lo) % 2 ^ 64
  let maxsec1 := (maxsec0 * pc.trk) % 2 ^ 64
  let bps := (pc.bps_hi * 256 + pc.bps_lo) % 65536
  let spt := (pc.spt_hi * 256 + pc.spt_lo) % 65536
  if bps ≠ 0x0080 ∧ bps ≠ 0x0100 ∧ bps ≠ 0x0200 ∧ bps ≠ 0x0400 then (dev1, -1)
  else if bps ≥ 256 ∧ (pc.flags &&& 0x04) = 0 then (dev1, -1)
  else if spt > 18 ∧ (pc.flags &&& 0x04) = 0 then (dev1, -1)
  else
    let maxsec2 :=
      if (pc.flags &&& 0x08) ≠ 0 then (maxsec1 + pc.heads * 65536) % 2 ^ 64
      else if pc.trk = 40 ∨ pc.trk = 80 ∨ pc.trk = 77 then (maxsec1 * (pc.heads + 1)) % 2 ^ 64
      else maxsec1
    ({ dev1 with maxsec := maxsec2, bps := bps }, 0)

/-- The sector count that `drive_setup` infers, with the flag telling whether the branch
`size % bps == 0` was taken; `size` is a `ulong`, so `size - 384` wraps modulo `2 ^ 64`.
(`bps` is never 0 in a call: `atr_open` admits 128, 256, 512, 1024 and `main` passes 128.) -/
def drive_sectors (size bps : Nat) : Bool × Nat :=
  if size % bps = 0 then (true, size / bps)
  else (false, (((size + 2 ^ 64 - 384) % 2 ^ 64) / bps + 3) % 2 ^ 64)

/-- The PERCOM ladder of `drive_setup`: the geometry fields for a sector count. -/
def drive_percom (pc : PERCOM) (sectors bps : Nat) : PERCOM :=
  let pc := { pc with step := 3, bps_hi := (bps / 256) % 256, bps_lo := (bps % 256) % 256 }
  if sectors = 720 then
    { pc with trk := 40, spt_hi := 0, spt_lo := 18, heads := 0,
              flags := if bps = 128 then 0x00 else 0x04 }
  else if bps = 128 ∧ sectors = 1040 then
    { pc with trk := 40, spt_hi := 0, spt_lo := 26, heads := 0, flags := 0x04 }
  else if sectors = 1440 then
    { pc with trk := 40, spt_hi := 0, spt_lo := 18, heads := 1,
              flags := if bps = 128 then 0x00 else 0x04 }
  else if sectors = 2002 then
    { pc with trk := 77, spt_hi := 0, spt_lo := 26, heads := 0,
              flags := if bps = 128 then 0x02 else 0x06 }
  else if sectors = 2880 then
    { pc with trk := 80, spt_hi := 0, spt_lo := 18, heads := 1,
              flags := if bps = 128 then 0x00 else 0x04 }
  else if sectors = 4004 then
    { pc with trk := 77, spt_hi := 0, spt_lo := 26, heads := 1,
              flags := if bps = 128 then 0x02 else 0x06 }
  else if sectors = 5760 then
    { pc with trk := 80, spt_hi := 0, spt_lo := 36, heads := 1,
              flags := if bps = 128 then 0x00 else 0x04 }
  else
    let flags := if bps = 128 then 0x00 else 0x04
    { pc with trk := 1,
              spt_hi := ((sectors % 65536) / 256) % 256,
              spt_lo := ((sectors % 65536) % 256) % 256,
              heads := (sectors / 65536) % 256,
              flags := if sectors / 65536 ≠ 0 then flags ||| 0x08 else flags }

/-- The function `drive_setup(d, size, bps)` on the record `device[3][d]`. -/
def drive_setup (dev : DEVICE) (size bps : Nat) : DEVICE × Int :=
  let dev1 := { dev with bps := bps }
  let dev2 := if (drive_sectors size bps).1 then { dev1 with full13 := 1 } else dev1
  let sectors := (drive_sectors size bps).2
  if sectors < 1 then (dev2, -1)
  else ({ dev2 with percom := drive_percom dev2.percom sectors bps, maxsec := sectors }, 0)

/-- The function `setup_status(d)` on the record `device[3][d]`. -/
def setup_status (dev : DEVICE) : DEVICE :=
  let stat := dev.status.stat &&& (0xff ^^^ 0xa0)
  let stat := if dev.bps ≥ 256 then stat ||| 0x20 else stat
  let stat :=
    if dev.maxsec = 1040 ∧ dev.bps = 128 ∧ (dev.percom.flags &&& 0x04) ≠ 0 ∧
        dev.percom.heads = 0 ∧ dev.percom.trk = 40 then stat ||| 0x80 else stat
  with_stat dev stat

/-- The sector count of the geometry ladder as the specification words it:
`size / bps` when `size` is a multiple of `bps`, otherwise `(size - 384) / bps + 3`. -/
def spec_sectors (size bps : Nat) : Nat :=
  if size % bps = 0 then size / bps else (size - 384) / bps + 3

/-- The rows of the specified geometry table: tracks, sectors per track, heads and flags
for a canonical sector count, with step rate 3 and `bps` split into high and low byte. -/
def spec_table_row (sectors bps : Nat) : Option PERCOM :=
  let row (trk spt heads flags : Nat) : Option PERCOM :=
    some { trk := trk, step := 3, spt_hi := 0, spt_lo := spt, heads := heads, flags := flags,
           bps_hi := bps / 256, bps_lo := bps % 256 }
  if sectors = 720 then row 40 18 0 (if bps = 128 then 0 else 0x04)
  else if sectors = 1040 ∧ bps = 128 then row 40 26 0 0x04
  else if sectors = 1440 then row 40 18 1 (if bps = 128 then 0 else 0x04)
  else if sectors = 2002 then row 77 26 0 (if bps = 128 then 0x02 else 0x06)
  else if sectors = 2880 then row 80 18 1 (if bps = 128 then 0 else 0x04)
  else if sectors = 4004 then row 77 26 1 (if bps = 128 then 0x02 else 0x06)
  else if sectors = 5760 then row 80 36 1 (if bps = 128 then 0 else 0x04)
  else none

/-! ## Files and the serial line

The operating system is not part of the program. A file descriptor is modelled as a
regular file with the POSIX behaviour the code relies on: `lseek` fails on a negative
offset and may move past the end, `write` fills a gap before the write position with
zero bytes, `read` returns the bytes present (fewer than asked for at the end of the
file); a descriptor opened `O_RDONLY` (the fallback of `atr_open`) refuses `write` and
`ftruncate`; every call on a descriptor below 0 returns -1. -/

/-- An open regular file: its bytes, the file offset, and whether it was opened `O_RDWR`. -/
structure FILE where
  data : List Nat
  pos : Nat
  writable : Bool
  deriving DecidableEq, Repr

/-- The call `lseek(fd, off, SEEK_SET)`: the file afterwards and the return value. -/
def lseek (fd : Int) (f : FILE) (off : Int) : FILE × Int :=
  if fd < 0 ∨ off < 0 then (f, -1) else ({ f with pos := off.toNat }, off)

/-- The bytes of a file after `bytes` are written at offset `pos`. -/
def pwrite_data (data : List Nat) (pos : Nat) (bytes : List Nat) : List Nat :=
  data.take pos ++ List.replicate (pos - data.length) 0 ++ bytes ++
    data.drop (pos + bytes.length)

/-- The call `write(fd, buf, n)`: the file afterwards and the return value. -/
def write (fd : Int) (f : FILE) (buf : List Nat) (n : Nat) : FILE × Int :=
  if fd < 0 ∨ f.writable = false then (f, -1)
  else
    let bytes := buf.take n
    ({ f with data := pwrite_data f.data f.pos bytes, pos := f.pos + bytes.length },
      (bytes.length : Int))

/-- The call `read(fd, buf, n)`: the file afterwards, the bytes delivered and the return
value. -/
def read (fd : Int) (f : FILE) (n : Nat) : FILE × List Nat × Int :=
  if fd < 0 then (f, [], -1)
  else
    let bytes := (f.data.drop f.pos).take n
    ({ f with pos := f.pos + bytes.length }, bytes, (bytes.length : Int))

/-- The call `ftruncate(fd, 0)`: the file afterwards and the return value. -/
def ftruncate0 (fd : Int) (f : FILE) : FILE × Int :=
  if fd < 0 ∨ f.writable = false then (f, -1) else ({ f with data := [] }, 0)

/-- The bytes of buffer `buf` after `bytes` have been stored at its start. -/
def store (buf bytes : List Nat) : List Nat :=
  bytes ++ buf.drop bytes.length

/-- The state the sector functions work on: the addressed record `device[devno][d]`, the
file open on its `fd`, the static buffers `outbuf` and `inpbuf` (1026 bytes each), the
bytes still to arrive on the serial line (`rx`) and the bytes sent so far (`tx`). -/
structure SIO where
  dev : DEVICE
  file : FILE
  outbuf : List Nat
  inpbuf : List Nat
  rx : List Nat
  tx : List Nat
  deriving DecidableEq, Repr

/-- The constant `COM_COMD`. -/
def COM_COMD : Nat := 0

/-- The constant `COM_DATA`. -/
def COM_DATA : Nat := 1

/-- The read loop of `com_read` (built without `COMMAND_LINE`): one byte is taken from the
line per iteration; in a command read a byte `0xff` arriving while `i == 0` is dropped.
The result is `none` when the line runs dry before `size` bytes are in: the loop then
waits for ever. Otherwise it is the bytes stored and the rest of the line. -/
def com_read_loop (type : Nat) : List Nat → Nat → Nat → List Nat → Option (List Nat × List Nat)
  | rx, 0, _, acc => some (acc, rx)
  | [], _ + 1, _, _ => none
  | b :: rest, size + 1, i, acc =>
    if type = COM_COMD ∧ i = 0 ∧ b = 0xff then com_read_loop type rest (size + 1) i acc
    else com_read_loop type rest size (i + 1) (acc ++ [b])

/-- The function `com_read(buf, size, type)`: the bytes read and the state afterwards. -/
def com_read (st : SIO) (size type : Nat) : Option (List Nat × SIO) :=
  match com_read_loop type st.rx size 0 [] with
  | none => none
  | some (bytes, rest) => some (bytes, { st with rx := rest })

/-- The function `com_write(buf, size)`. -/
def com_write (st : SIO) (buf : List Nat) (size : Nat) : SIO :=
  { st with tx := st.tx ++ buf.take size }

/-- The function `sio_ack(devno, d, what)` on the addressed record. -/
def sio_ack (st : SIO) (what : Nat) : SIO :=
  let st := com_write st [what] 1
  let stat := st.dev.status.stat &&& (0xff ^^^ (0x01 ||| 0x04))
  let stat :=
    if what = 0x45 then stat ||| 0x04
    else if what = 0x4e then stat ||| 0x01
    else stat
  { st with dev := with_stat st.dev stat }

/-! ## Sector I/O on the image -/

/-- The file offset that `atr_seek` computes for a sector (before the `lseek`). -/
def atr_offset (dev : DEVICE) (sector : Int) : Int :=
  let bps := dev.bps
  let off := (sector - 1) * bps
  let off :=
    if bps = 256 then
      if dev.full13 ≠ 0 then
        if sector < 4 then (sector - 1) * 128 else off
      else
        if sector < 4 then (sector - 1) * 128 else ((sector - 4) * bps) + 384
    else off
  off + 16

/-- The function `atr_seek(i, sector)`. -/
def atr_seek (st : SIO) (sector : Int) : SIO × Int :=
  let off := atr_offset st.dev sector
  let (f, r) := lseek st.dev.fd st.file off
  if r ≠ off then ({ st with file := f }, -1) else ({ st with file := f }, 0)

/-- The transfer length of `send_sector` and `receive_sector`: `bps`, lowered to 128
`if ((devno == 3) && (bps == 256) && (sector < 4))`. -/
def xfer_bps (devno : Nat) (dev : DEVICE) (sector : Int) : Nat :=
  if devno = 3 ∧ dev.bps = 256 ∧ sector < 4 then 128 else dev.bps

/-- The function `send_sector(devno, i, ccom, sector)`. -/
def send_sector (devno i ccom : Nat) (sector : Int) (st : SIO) : SIO :=
  if devno = 3 ∧ (sector = 0 ∨ sector > toLong st.dev.maxsec) then sio_ack st 0x4e
  else
    let st := sio_ack st 0x41
    let bps := xfer_bps devno st.dev sector
    let (st, r) := if devno = 3 then atr_seek st sector else (st, 0)
    let error (st : SIO) : SIO :=
      let st := sio_ack st 0x45
      if ccom ≠ 0x56 then
        let st := { st with outbuf := st.outbuf.set bps (calc_checksum st.outbuf bps) }
        com_write st st.outbuf (bps + 1)
      else st
    if r < 0 then error st
    else
      let (f, bytes, n) := read st.dev.fd st.file bps
      let st := { st with file := f, outbuf := store st.outbuf bytes }
      if n < bps then error st
      else
        let st := sio_ack st 0x43
        if ccom ≠ 0x56 then
          let st := { st with outbuf := st.outbuf.set bps (calc_checksum st.outbuf bps) }
          com_write st st.outbuf (bps + 1)
        else st

/-- The function `receive_sector(devno, i, sector)`; `none` when the payload or its
checksum byte never arrives. -/
def receive_sector (devno i : Nat) (sector : Int) (st : SIO) : Option SIO :=
  if devno = 3 ∧ i ≠ 0 ∧ (sector = 0 ∨ sector > toLong st.dev.maxsec) then
    some (sio_ack st 0x4e)
  else
    let st := sio_ack st 0x41
    let bps := xfer_bps devno st.dev sector
    match com_read st bps COM_DATA with
    | none => none
    | some (bytes, st) =>
      let st := { st with inpbuf := store st.inpbuf bytes }
      let ck := calc_checksum st.inpbuf bps
      let st := { st with dev := with_stat st.dev (st.dev.status.stat &&& (0xff ^^^ 0x02)) }
      match com_read st 1 COM_DATA with
      | none => none
      | some (sckb, st) =>
        let sck := sckb.getD 0 0
        if ck ≠ sck then
          let st := { st with dev := with_stat st.dev (st.dev.status.stat ||| 0x02) }
          some (sio_ack st 0x45)
        else
          let st := sio_ack st 0x41
          let (st, r) := if devno = 3 then atr_seek st sector else (st, 0)
          if r < 0 then some (sio_ack st 0x45)
          else if st.dev.fd > -1 then
            let (f, n) := write st.dev.fd st.file st.inpbuf bps
            let st := { st with file := f }
            if n ≠ bps then some (sio_ack st 0x45) else some (sio_ack st 0x43)
          else some (sio_ack st 0x43)

/-! ## Format -/

/-- The `width` low bytes of `v`, least significant first. -/
def le_bytes : Nat → Nat → List Nat
  | 0, _ => []
  | width + 1, v => v % 256 :: le_bytes width (v / 256)

/-- The value `sizeof(ATR)`: the members of `ATR` with their natural alignment on an LP64
target (`hipars` is followed by one byte of padding, `prot` by seven). -/
def ATR_SIZE : Nat := 32

/-- The bytes of a zeroed local `ATR` filled from the record and handed to
`write(fd, &atr, sizeof(ATR))` (little-endian host, where `SSWAP` and `LSWAP` are the
identity). -/
def atr_image (a : ATR) : List Nat :=
  le_bytes 2 a.sig ++ le_bytes 2 a.wpars ++ le_bytes 2 a.bps ++ [a.hipars % 256, 0] ++
    le_bytes 8 a.crc ++ le_bytes 8 a.costam ++ [a.prot % 256] ++ List.replicate 7 0

/-- The paragraph count `pars` of `format_atr` (an `int`): the `ulong` product
`maxsec * bps`, less `3 * 128` when `!full13force && bps == 256`, converted to `int` and
divided by 16. -/
def format_pars (dev : DEVICE) : Int :=
  let bytes :=
    if dev.full13force = 0 ∧ dev.bps = 256 then (dev.maxsec * dev.bps + 2 ^ 64 - 3 * 128) % 2 ^ 64
    else (dev.maxsec * dev.bps) % 2 ^ 64
  Int.tdiv (toInt32 bytes) 16

/-- The record updates of `format_atr` before the file is touched:
`full13 = full13force`, then `atr.wpars = pars % 65536` (a `ushort`), `atr.bps = bps`,
`atr.hipars = pars / 65536` (a `uchar`) and `atr.crc = 0`. -/
def format_header (dev : DEVICE) : DEVICE :=
  let dev := { dev with full13 := dev.full13force }
  let pars := format_pars dev
  { dev with atr := { dev.atr with
      wpars := (Int.tmod pars 65536 % 65536).toNat,
      bps := dev.bps,
      hipars := (Int.tdiv pars 65536 % 256).toNat,
      crc := 0 } }

/-- The inner loop `for (s = 1; s <= spt; s++)` of `format_atr` with `n` iterations left:
the state, the local `bps` and whether the loop ran to its end (`false`: `goto fterror`). -/
def format_spt (i spt : Nat) : Nat → Nat → SIO → Nat → SIO × Nat × Bool
  | 0, _, st, bps => (st, bps, true)
  | n + 1, s, st, _ =>
    let bps := st.dev.bps
    let bps := if i = 0 ∧ s < 4 ∧ bps = 256 ∧ st.dev.full13force = 0 then 128 else bps
    let cs := i * spt + s
    let (st, r) := atr_seek st (cs : Int)
    if r < 0 then (st, bps, false)
    else
      let (f, r) := write st.dev.fd st.file st.outbuf bps
      let st := { st with file := f }
      if r < bps then (st, bps, false)
      else format_spt i spt n (s + 1) st bps

/-- The outer loop `for (i = 0; i < trk; i++)` of `format_atr` with `n` iterations left. -/
def format_trk (spt : Nat) : Nat → Nat → SIO → Nat → SIO × Nat × Bool
  | 0, _, st, bps => (st, bps, true)
  | n + 1, i, st, bps =>
    match format_spt i spt spt 1 st bps with
    | (st, bps, false) => (st, bps, false)
    | (st, bps, true) => format_trk spt n (i + 1) st bps

/-- The locals `spt` and `trk` of `format_atr` (both `ushort`) after their adjustment:
`spt += heads * 65536` when flag `0x08` is set, otherwise `trk *= heads + 1` when `trk` is
40, 80 or 77. -/
def format_geometry (pc : PERCOM) : Nat × Nat :=
  let spt := (pc.spt_hi * 256 + pc.spt_lo) % 65536
  let trk := pc.trk % 65536
  if (pc.flags &&& 0x08) ≠ 0 then ((spt + pc.heads * 65536) % 65536, trk)
  else if trk = 40 ∨ trk = 80 ∨ trk = 77 then (spt, (trk * (pc.heads + 1)) % 65536)
  else (spt, trk)

/-- The function `format_atr(d, no_delay)` on the record `device[3][d]`. -/
def format_atr (d : Nat) (no_delay : Int) (st : SIO) : SIO :=
  let bps := st.dev.bps % 65536
  if d ≠ 0 ∧ st.dev.percom.trk = 1 then sio_ack st 0x4e
  else
    let st := if d ≠ 0 then sio_ack st 0x41 else st
    let st := { st with outbuf := List.replicate 1026 0 }
    let spt := (format_geometry st.dev.percom).1
    let trk := (format_geometry st.dev.percom).2
    let st := { st with dev := format_header st.dev }
    let error (st : SIO) : SIO := if d ≠ 0 then sio_ack st 0x45 else st
    let (f, r) := lseek st.dev.fd st.file 0
    let st := { st with file := f }
    if r < 0 then error st
    else
      let (f, r) := ftruncate0 st.dev.fd st.file
      let st := { st with file := f }
      if r < 0 then error st
      else
        let (f, r) := write st.dev.fd st.file (atr_image st.dev.atr) ATR_SIZE
        let st := { st with file := f }
        if r < 0 then error st
        else
          let st := (atr_seek st 1).1
          match format_trk spt trk 0 st bps with
          | (st, _, false) => error st
          | (st, bps, true) =>
            let st := { st with dev := setup_status st.dev }
            let st := { st with outbuf := (st.outbuf.set 0 0xff).set 1 0xff }
            let ck := calc_checksum st.outbuf bps
            if d ≠ 0 then
              let st := sio_ack st 0x43
              let st := com_write st st.outbuf bps
              com_write st [ck] 1
            else st

/-! ## Commands of the main loop: validation, status, clock -/

/-- The function `check_desync(cmd, cksum, cka)`; `pclsio` is the build constant `PCLSIO`.
The result 1 means "apparent desync". -/
def check_desync (pclsio : Nat) (cmd : List Nat) (cksum cka : Nat) : Nat :=
  if cksum ≠ cka then 1
  else
    let ccom := cmd.getD 1 0
    if ccom < 0x21 then 1
    else
      let cdev := cmd.getD 0 0
      let cid := cdev &&& 0xf0
      if cid ≠ 0x20 ∧ cid ≠ 0x30 ∧ cid ≠ 0x40 ∧ cid ≠ 0x50 ∧ cdev ≠ pclsio ∧ cdev ≠ 0x6f then 1
      else 0

/-- The members of `struct tm` that `unix_time_2_sdx` reads (all `int`). -/
structure TM where
  tm_sec : Int
  tm_min : Int
  tm_hour : Int
  tm_mday : Int
  tm_mon : Int
  tm_year : Int
  deriving DecidableEq, Repr

/-- The conversion of an `int` to `uchar`. -/
def toUchar (x : Int) : Nat := (x % 256).toNat

/-- The loop `while (yy >= 100) yy -= 100;` of `unix_time_2_sdx` on the `uchar yy`, with
`n` iterations allowed; a `uchar` needs at most two. -/
def year_loop : Nat → Nat → Nat
  | 0, yy => yy
  | n + 1, yy => if yy ≥ 100 then year_loop n (yy - 100) else yy

/-- The function `unix_time_2_sdx(todp, ob)`: the six bytes stored at `ob`. `tod` is
`*todp` and `t` the result of `localtime(todp)`. -/
def unix_time_2_sdx (tod : Int) (t : TM) : List Nat :=
  if tod = 0 then List.replicate 6 0
  else
    [toUchar t.tm_mday, toUchar (t.tm_mon + 1), year_loop 2 (toUchar t.tm_year),
      toUchar t.tm_hour, toUchar t.tm_min, toUchar t.tm_sec]

/-- The function `get_sdx_time(ob)`: the buffer `ob` afterwards; `tod` is the `tv_sec` that
`gettimeofday` delivers and `t` its local time. -/
def get_sdx_time (ob : List Nat) (tod : Int) (t : TM) : List Nat :=
  store ob (0xff :: unix_time_2_sdx tod t)

/-- The function `sio_send_status(devno, d)` on the addressed record `device[devno][d]`;
`setup_status(d)` works on `device[3][d]`, which is the addressed record when
`devno = 3`. -/
def sio_send_status (devno : Nat) (st : SIO) : SIO :=
  let st := sio_ack st 0x41
  let st := if devno = 3 then { st with dev := setup_status st.dev } else st
  let ob := st.outbuf.set 0 st.dev.status.stat
  let ob := ob.set 1 st.dev.status.err
  let ob := ob.set 2 st.dev.status.tmot
  let ob := ob.set 3 st.dev.status.none
  let ob := ob.set 4 (calc_checksum ob 4)
  let st := { st with outbuf := ob }
  let st := sio_ack st 0x43
  com_write st st.outbuf 5

/-- The branch of the dispatcher in `main` that takes a validated command frame. -/
inductive TARGET where
  | pclink
  | disk
  | sio2
  | printer
  | ape_time
  | nothing
  deriving DecidableEq, Repr

/-- The chain of `if`/`else if` in `main` that selects the device class of a frame:
`pclsio` is the build constant `PCLSIO`, `fd` is `device[devno][cunit].fd`. -/
def main_target (pclsio : Nat) (pclcnt printer_fd fd : Int) (cmd : List Nat) : TARGET :=
  let cdev := cmd.getD 0 0
  let cunit := cdev &&& 0x0f
  let cid := cdev &&& 0xf0
  let devno := cid >>> 4
  if pclcnt > 1 ∧ (cdev = pclsio ∨ cdev = 0x6f) then TARGET.pclink
  else if devno = 0x03 ∧ fd > -1 then TARGET.disk
  else if devno = 0x02 ∧ cunit = 1 then TARGET.sio2
  else if printer_fd > -1 ∧ cdev = 0x40 then TARGET.printer
  else if cdev = 0x45 then TARGET.ape_time
  else TARGET.nothing

/-- The value `sec = caux1 + (caux2 << 8)` of `main`. -/
def main_sec (cmd : List Nat) : Int :=
  ((cmd.getD 2 0 + (cmd.getD 3 0 <<< 8) : Nat) : Int)

/-- The assignment `device[devno][d].status.none = v`. -/
def with_none (dev : DEVICE) (v : Nat) : DEVICE :=
  { dev with status := { dev.status with none := v } }

/-- The case `'S'` of the disk switch in `main`, with the locals `toff` and `sdxtime`:
their values afterwards and the state. (`wait_for_command_drop` returns at once when
`use_command` is 0 and changes no data otherwise.) -/
def main_disk_status (toff : Int) (sdxtime : List Nat) (tod : Int) (t : TM) (st : SIO) :
    Int × List Nat × SIO :=
  let sdxtime := if toff = 0 then get_sdx_time sdxtime tod t else sdxtime
  let st := { st with dev := with_none st.dev (sdxtime.getD toff.toNat 0) }
  let toff := toff + 1
  let st := sio_send_status 3 st
  (if toff > 6 then 0 else toff, sdxtime, st)

/-- The switch of the "APE time protocol" branch in `main`: the buffer `sdxtime`
afterwards and the state. -/
def main_ape_time (cmd : List Nat) (sdxtime : List Nat) (tod : Int) (t : TM) (st : SIO) :
    List Nat × SIO :=
  let ccom := cmd.getD 1 0
  if ccom = 0x93 ∧ main_sec cmd = 0xa0ee then
    let st := sio_ack st 0x41
    let sdxtime := get_sdx_time sdxtime tod t
    let sdxtime := sdxtime.set 7 (calc_checksum (sdxtime.drop 1) 6)
    let st := sio_ack st 0x43
    (sdxtime, com_write st (sdxtime.drop 1) 7)
  else (sdxtime, sio_ack st 0x4e)

/-- The call `turbo(&com, turbo_on ? 0 : 1)` seen from the flag `turbo_on` (build with
`ULTRA`). -/
def turbo_toggle (turbo_on : Nat) : Nat :=
  if turbo_on ≠ 0 then 0 else 1

/-- The frame validation of `main` from the label `retry` on: `left` is the number of
retries still allowed (`4 - sync_attempts`), `cmd` the five bytes of the frame, `rx` the
input bytes that have arrived and are unread (`poll(insp, 1, 0) > 0` exactly when there
is one), `turbo_on` the flag. The result is the frame to dispatch (`none` after
`continue`), the unread input and the flag. -/
def main_retry (pclsio : Nat) : Nat → List Nat → List Nat → Nat → Option (List Nat) × List Nat × Nat
  | left, cmd, rx, turbo_on =>
    let cka := cmd.getD 4 0
    let cksum := calc_checksum cmd 4
    if check_desync pclsio cmd cksum cka ≠ 0 then
      match left, rx with
      | left + 1, b :: rest =>
        main_retry pclsio left ((cmd.drop 1).take 4 ++ [b]) rest turbo_on
      | _ + 1, [] => (none, rx, turbo_toggle turbo_on)
      | 0, _ => (none, rx, turbo_toggle turbo_on)
    else (some cmd, rx, turbo_on)

/-- The frame validation of `main` for a frame just read: `sync_attempts = 0`. -/
def main_validate (pclsio : Nat) (cmd rx : List Nat) (turbo_on : Nat) :
    Option (List Nat) × List Nat × Nat :=
  main_retry pclsio 4 cmd rx turbo_on

/-- Whether the five bytes at offset `k` of a byte stream fail `check_desync`. -/
def bad_frame (pclsio : Nat) (stream : List Nat) (k : Nat) : Prop :=
  check_desync pclsio ((stream.drop k).take 5)
    (calc_checksum ((stream.drop k).take 5) 4) (((stream.drop k).take 5).getD 4 0) ≠ 0

instance (pclsio : Nat) (stream : List Nat) (k : Nat) : Decidable (bad_frame pclsio stream k) := by
  unfold bad_frame; infer_instance

/-! ## PCLink: parameter phase and FREAD

The parameter buffer `PARBUF` is kept as its `sizeof(PARBUF) = 100` bytes (all members are
`uchar`): `fno` is byte 0, `handle` byte 1, `f1`, `f2`, `f3` bytes 2, 3, 4. A host file
open on a handle is a byte list; `fseek` fails on a negative offset, `fread` delivers the
bytes present and sets the end-of-file indicator when they are fewer than asked for, and
on a stream in error it delivers nothing without end-of-file. -/

/-- The value `sizeof(PARBUF)`. -/
def sizeof_PARBUF : Nat := 100

/-- A stream `FILE *` of the host: the bytes of the file and whether reads fail. -/
structure STREAM where
  data : List Nat
  ioerr : Bool
  deriving DecidableEq, Repr

/-- The members of an entry of `iodesc[]` that FREAD works with: the pointer in the union
`fps` (`none` is `NULL`; for a file it is the stream `fps.file`), `dir_cache` (its bytes),
`fpmode`, `fpstat.st_size`, `fppos`, `fpread`, `eof`. -/
structure IODESC where
  file : Option STREAM
  dir_cache : List Nat
  fpmode : Nat
  st_size : Int
  fppos : Int
  fpread : Int
  eof : Int
  deriving DecidableEq, Repr

/-- A closed entry of `iodesc[]`. -/
def IODESC.closed : IODESC :=
  { file := none, dir_cache := [], fpmode := 0, st_size := 0, fppos := 0, fpread := 0, eof := 0 }

/-- The state `do_pclink` works on: the addressed record `device[devno][cunit]` with the
serial line and buffers (`unit`), its member `parbuf`, the table `iodesc[16]` and the
static local `old_ccom`. -/
structure PCL where
  unit : SIO
  parbuf : List Nat
  iodesc : List IODESC
  old_ccom : Nat
  deriving DecidableEq, Repr

/-- The assignment `device[devno][d].status.err = v`. -/
def with_err (dev : DEVICE) (v : Nat) : DEVICE :=
  { dev with status := { dev.status with err := v } }

/-- The function `set_status_size(devno, cunit, size)`; `size` is a `ushort`. -/
def set_status_size (dev : DEVICE) (size : Nat) : DEVICE :=
  { dev with status := { dev.status with
      tmot := (size % 65536) &&& 0x00ff,
      none := ((size % 65536) &&& 0xff00) >>> 8 } }

/-- The conversion of a `long` to `ulong`. -/
def toUlong (x : Int) : Nat := (x % 2 ^ 64).toNat

/-- The function `dir_read(mem, blk_size, handle, eof_sig)` on the entry `io`: the block
`mem` afterwards, the return value and `eof_sig[0]`. -/
def dir_read (mem : List Nat) (blk_size : Nat) (io : IODESC) : List Nat × Nat × Int :=
  let dirlen := toUlong io.st_size
  let newblk := (dirlen + 2 ^ 64 - toUlong io.fppos) % 2 ^ 64
  let r : Nat × Int := if newblk < blk_size then (newblk, 1) else (blk_size, 0)
  let mem :=
    if r.1 ≠ 0 then store mem ((io.dir_cache.drop (toUlong io.fppos)).take r.1) else mem
  (mem, r.1, r.2)

/-- The labels `complete:` and `exit:` of `do_pclink`. -/
def pcl_complete (ccom : Nat) (st : PCL) : PCL :=
  { st with unit := sio_ack st.unit 0x43, old_ccom := ccom }

/-- The block `if (ccom == 'P')` of `do_pclink` up to the `memcpy` into `parbuf`: the
state and whether control goes on to the function blocks (`false`: `goto complete`);
`none` when the parameter block or its checksum byte never arrives. -/
def pcl_param_block (parsize : Nat) (st : PCL) : Option (PCL × Bool) :=
  let u := sio_ack st.unit 0x41
  match com_read u parsize COM_DATA with
  | none => none
  | some (bytes, u) =>
    let pbuf := store (List.replicate sizeof_PARBUF 0) bytes
    match com_read u 1 COM_DATA with
    | none => none
    | some (sckb, u) =>
      let sck := sckb.getD 0 0
      let ck := calc_checksum pbuf parsize
      let u := { u with dev := with_stat u.dev (u.dev.status.stat &&& (0xff ^^^ 0x02)) }
      let u := sio_ack u 0x41
      if ck ≠ sck then
        let u := { u with dev := with_stat u.dev (u.dev.status.stat ||| 0x02) }
        let u := { u with dev := with_err u.dev 143 }
        some ({ st with unit := u }, false)
      else
        let u := { u with dev := with_stat u.dev (u.dev.status.stat &&& (0xff ^^^ 0x04)) }
        let fno := pbuf.getD 0 0
        if pbuf = st.parbuf then
          if fno ≠ 0x00 ∧ fno ≠ 0x01 ∧ fno ≠ 0x03 ∧ fno ≠ 0x04 ∧ fno ≠ 0x06 ∧ fno ≠ 0x11 ∧
              fno ≠ 0x13 then
            some ({ st with unit := u }, false)
          else some ({ st with unit := u, parbuf := pbuf }, true)
        else some ({ st with unit := u, parbuf := pbuf }, true)

/-- The call `fseek(file, off, SEEK_SET)`: the return value. A call on `NULL` is not
defined by C; the model lets it fail. -/
def fseek (file : Option STREAM) (off : Int) : Int :=
  match file with
  | none => -1
  | some _ => if off < 0 then -1 else 0

/-- The call `fread(mem, 1, n, file)` on a stream positioned at `pos`: the bytes
delivered, the return value and `feof(file)` afterwards. -/
def fread (file : Option STREAM) (pos : Int) (n : Nat) : List Nat × Int × Bool :=
  match file with
  | none => ([], 0, false)
  | some s =>
    if s.ioerr then ([], 0, false)
    else
      let bytes := (s.data.drop pos.toNat).take n
      (bytes, (bytes.length : Int), decide (bytes.length < n))

/-- The block `if (fno == 0x00)` (FREAD) of `do_pclink` with what follows it at the labels
`complete:` and `exit:`; `mem` is the block that `malloc(blk_size + 1)` delivers.
`iodesc[handle]` is `iodesc.getD handle` (the execute phase does not check `handle`). -/
def pcl_fread (ccom : Nat) (mem : List Nat) (st : PCL) : PCL :=
  let handle := st.parbuf.getD 1 0
  let faux := (st.parbuf.getD 2 0 + st.parbuf.getD 3 0 * 256 + st.parbuf.getD 4 0 * 65536) % 2 ^ 64
  let blk_size := faux &&& 0x0000FFFF
  let io := st.iodesc.getD handle IODESC.closed
  if ccom = 0x50 then
    if handle > 15 ∨ io.file = none then
      pcl_complete ccom { st with unit := { st.unit with dev := with_err st.unit.dev 134 } }
    else if blk_size = 0 then
      pcl_complete ccom
        { st with unit := { st.unit with dev := set_status_size (with_err st.unit.dev 176) 0 } }
    else
      let dev := with_err st.unit.dev 1
      let io : IODESC := { io with eof := 0 }
      let buffer := toUlong (io.st_size - io.fppos)
      if buffer < blk_size then
        let blk_size := buffer
        let parbuf := st.parbuf.set 2 ((buffer &&& 0x00ff) % 256)
        let parbuf := parbuf.set 3 (((buffer &&& 0xff00) >>> 8) % 256)
        let io : IODESC := { io with eof := 1 }
        let dev := if blk_size = 0 then with_err dev 136 else dev
        let dev := set_status_size dev blk_size
        pcl_complete ccom
          { st with unit := { st.unit with dev := dev }, parbuf := parbuf,
                    iodesc := st.iodesc.set handle io }
      else
        let dev := set_status_size dev blk_size
        pcl_complete ccom
          { st with unit := { st.unit with dev := dev }, iodesc := st.iodesc.set handle io }
  else if ccom = 0x52 ∧ st.old_ccom = 0x52 then
    { st with unit := sio_ack st.unit 0x4e }
  else
    let u := sio_ack st.unit 0x41
    let r : IODESC × List Nat × Nat :=
      if u.dev.status.err = 1 then
        let io : IODESC := { io with fpread := (blk_size : Int) }
        if io.fpmode &&& 0x10 ≠ 0 then
          let d := dir_read mem blk_size io
          if d.2.1 ≠ blk_size then
            if d.2.2 ≠ 0 then ({ io with fpread := (d.2.1 : Int) }, d.1, 136)
            else ({ io with fpread := 0 }, d.1, 255)
          else (io, d.1, 1)
        else if fseek io.file io.fppos ≠ 0 then (io, mem, 166)
        else
          let f := fread io.file io.fppos blk_size
          if toUlong f.2.1 ≠ blk_size then
            if f.2.2 = true then ({ io with fpread := f.2.1 }, store mem f.1, 136)
            else ({ io with fpread := 0 }, store mem f.1, 255)
          else (io, store mem f.1, 1)
      else (io, mem, u.dev.status.err)
    let io : IODESC := { r.1 with fppos := r.1.fppos + r.1.fpread }
    let err :=
      if r.2.2 = 1 then
        if io.eof ≠ 0 then 136 else if io.fppos = io.st_size then 3 else r.2.2
      else r.2.2
    let dev := set_status_size (with_err u.dev err) (io.fpread % 65536).toNat
    let sck := calc_checksum r.2.1 blk_size
    let mem := r.2.1.set blk_size sck
    let u := sio_ack { u with dev := dev } 0x43
    let u := com_write u mem (blk_size + 1)
    { st with unit := u, iodesc := st.iodesc.set handle io, old_ccom := ccom }

/-- How a call of `do_pclink` ends: it returned (`done`), or control reached the block of
a function other than FREAD, which this development does not follow (`other`). -/
inductive PCL_OUT where
  | done (st : PCL)
  | other (st : PCL)
  deriving DecidableEq, Repr

/-- The function `do_pclink(devno, ccom, caux1, caux2)` as far as FREAD; `none` when the
parameter block never arrives. -/
def do_pclink (ccom caux1 caux2 : Nat) (mem : List Nat) (st : PCL) : Option PCL_OUT :=
  let parsize := if caux1 ≠ 0 then caux1 else 256
  if caux2 &&& 0xf0 ≠ 0 then some (PCL_OUT.done { st with unit := sio_ack st.unit 0x4e })
  else if parsize > sizeof_PARBUF then
    some (PCL_OUT.done { st with unit := sio_ack st.unit 0x4e })
  else
    match (if ccom = 0x50 then pcl_param_block parsize st else some (st, true)) with
    | none => none
    | some (st, false) => some (PCL_OUT.done (pcl_complete ccom st))
    | some (st, true) =>
      if st.parbuf.getD 0 0 = 0x00 then some (PCL_OUT.done (pcl_fread ccom mem st))
      else some (PCL_OUT.other st)

/-! ## PERCOM commands -/

/-- The function `send_percom(d)` on the record `device[3][d]`. -/
def send_percom (st : SIO) : SIO :=
  let st := sio_ack st 0x41
  let pc := st.dev.percom
  let block : List Nat :=
    [pc.trk, pc.step, pc.spt_hi, pc.spt_lo, pc.heads, pc.flags, pc.bps_hi, pc.bps_lo,
      0xff, 0x00, 0x00, 0x00]
  let st := { st with outbuf := store st.outbuf block }
  let st := { st with outbuf := st.outbuf.set 12 (calc_checksum st.outbuf 12) }
  let st := sio_ack st 0x43
  com_write st st.outbuf 13

/-- The function `receive_percom(d)` on the record `device[3][d]`; `none` when the 13
bytes never arrive. -/
def receive_percom (st : SIO) : Option SIO :=
  let st := sio_ack st 0x41
  let st := { st with dev := with_stat st.dev (st.dev.status.stat &&& (0xff ^^^ 0x02)) }
  match com_read st 13 COM_DATA with
  | none => none
  | some (bytes, st) =>
    let st := { st with inpbuf := store st.inpbuf bytes }
    let ck := calc_checksum st.inpbuf 12
    if ck ≠ st.inpbuf.getD 12 0 then
      some { st with dev := with_stat st.dev (st.dev.status.stat ||| 0x02) }
    else
      let r : DEVICE × Int :=
        if st.dev.percom.trk = 1 then (st.dev, 0) else setup_percom st.dev st.inpbuf
      let st := { st with dev := r.1 }
      if r.2 = 0 then
        let st := sio_ack st 0x41
        let st := { st with dev := setup_status st.dev }
        some (sio_ack st 0x43)
      else some (sio_ack st 0x45)

/-! ## Host names and the 8+3 form

A C string is the list of its bytes before the terminating NUL; a read at or after the
terminator delivers 0 (`getD`). The character classes are those of the C locale (the
program never calls `setlocale`). The parameter `upper_dir` is the variable of that name,
which the option `-u` toggles. -/

/-- The function `toupper` of the C locale. -/
def toupper (c : Nat) : Nat := if 0x61 ≤ c ∧ c ≤ 0x7a then c - 0x20 else c

/-- The function `tolower` of the C locale. -/
def tolower (c : Nat) : Nat := if 0x41 ≤ c ∧ c ≤ 0x5a then c + 0x20 else c

/-- The function `isupper` of the C locale. -/
def isupper (c : Nat) : Bool := decide (0x41 ≤ c ∧ c ≤ 0x5a)

/-- The function `islower` of the C locale. -/
def islower (c : Nat) : Bool := decide (0x61 ≤ c ∧ c ≤ 0x7a)

/-- The function `isdigit`. -/
def isdigit (c : Nat) : Bool := decide (0x30 ≤ c ∧ c ≤ 0x39)

/-- The function `dos_2_allowed(c)` (not the Cygwin build): whether it returns non-zero. -/
def dos_2_allowed (upper_dir : Nat) (c : Nat) : Bool :=
  if upper_dir ≠ 0 then isupper c || isdigit c || c == 0x5f || c == 0x40
  else islower c || isdigit c || c == 0x5f || c == 0x40

/-- The function `dos_2_term(c)`: whether it returns non-zero. -/
def dos_2_term (c : Nat) : Bool := c == 0 || c == 0x20

/-- The loop of `validate_fn` from index `x` on, with `n` iterations left. -/
def validate_fn_loop (upper_dir : Nat) (name : List Nat) : Nat → Nat → Int
  | 0, _ => 1
  | n + 1, x =>
    if dos_2_term (name.getD x 0) then (if x ≠ 0 then 1 else 0)
    else if name.getD x 0 = 0x2e then 1
    else if ¬ dos_2_allowed upper_dir (name.getD x 0) then 0
    else validate_fn_loop upper_dir name n (x + 1)

/-- The function `validate_fn(name, len)`. -/
def validate_fn (upper_dir : Nat) (name : List Nat) (len : Nat) : Int :=
  validate_fn_loop upper_dir name len 0

/-- The function `strlen`. -/
def strlen (s : List Nat) : Nat := s.length

/-- The function `strchr(s, c)` for a byte `c` other than NUL: the index of the first
occurrence, `none` for `NULL`. -/
def strchr (s : List Nat) (c : Nat) : Option Nat :=
  let p := (s.takeWhile (fun b => decide (b ≠ c))).length
  if p < s.length then some p else none

/-- The first loop of `ugefina` (the extension) from index `i` of `dot` on, with `n`
iterations left. -/
def ugefina_ext (dot : List Nat) : Nat → Nat → List Nat → List Nat
  | 0, _, out => out
  | n + 1, i, out =>
    if dot.getD i 0 ≠ 0 ∧ i < 4 then
      ugefina_ext dot n (i + 1) (out.set (i + 7) (toupper (dot.getD i 0)))
    else out

/-- The second loop of `ugefina` (the name) from index `i` of `src` on, with `n`
iterations left. -/
def ugefina_base (src : List Nat) : Nat → Nat → List Nat → List Nat
  | 0, _, out => out
  | n + 1, i, out =>
    if src.getD i 0 ≠ 0x2e ∧ dos_2_term (src.getD i 0) = false ∧ i < 8 then
      ugefina_base src n (i + 1) (out.set i (toupper (src.getD i 0)))
    else out

/-- The function `ugefina(src, out)`: the 11 bytes stored at `out`. The first loop runs
at most three times and the second at most eight times. -/
def ugefina (src : List Nat) : List Nat :=
  let out := List.replicate 11 0x20
  let out :=
    match strchr src 0x2e with
    | some p => ugefina_ext (src.drop p) 3 1 out
    | none => out
  ugefina_base src 8 0 out

/-- The conversion `upper_dir ? toupper(t) : tolower(t)` of `uexpand`. -/
def dir_case (upper_dir : Nat) (t : Nat) : Nat :=
  if upper_dir ≠ 0 then toupper t else tolower t

/-- The `for` loop of `uexpand` from index `x` on, with `n` iterations left; `name83` is
what has been stored so far (the bytes at the indices below `x`). -/
def uexpand_base (upper_dir : Nat) (rawname : List Nat) : Nat → Nat → List Nat → List Nat
  | 0, _, name83 => name83
  | n + 1, x, name83 =>
    if rawname.getD x 0 ≠ 0 ∧ rawname.getD x 0 ≠ 0x20 then
      uexpand_base upper_dir rawname n (x + 1) (name83 ++ [dir_case upper_dir (rawname.getD x 0)])
    else name83

/-- The `while` loop of `uexpand` from index `y` on, with `n` iterations left. -/
def uexpand_ext (upper_dir : Nat) (rawname : List Nat) : Nat → Nat → List Nat → List Nat
  | 0, _, name83 => name83
  | n + 1, y, name83 =>
    if y < 11 ∧ rawname.getD y 0 ≠ 0 ∧ rawname.getD y 0 ≠ 0x20 then
      uexpand_ext upper_dir rawname n (y + 1) (name83 ++ [dir_case upper_dir (rawname.getD y 0)])
    else name83

/-- The function `uexpand(rawname, name83)`: the C string left in `name83`. The index `x`
of the source is always the number of bytes stored so far, so that a store at `name83[x]`
appends. -/
def uexpand (upper_dir : Nat) (rawname : List Nat) : List Nat :=
  let name83 := uexpand_base upper_dir rawname 8 0 []
  if rawname.getD 8 0 ≠ 0 ∧ rawname.getD 8 0 ≠ 0x20 then
    uexpand_ext upper_dir rawname 3 8 (name83 ++ [0x2e])
  else name83

/-- The members of `struct stat` that the program reads. -/
structure STAT where
  st_mode : Nat
  st_uid : Nat
  st_size : Int
  st_mtime : Int
  deriving DecidableEq, Repr

/-- The macro `S_ISDIR(m)`: `(m & S_IFMT) == S_IFDIR`. -/
def S_ISDIR (m : Nat) : Bool := m &&& 0xf000 == 0x4000

/-- The macro `S_ISREG(m)`: `(m & S_IFMT) == S_IFREG`. -/
def S_ISREG (m : Nat) : Bool := m &&& 0xf000 == 0x8000

/-- The owner permission bits `S_IRUSR`, `S_IWUSR`, `S_IXUSR`. -/
def S_IRUSR : Nat := 0x100

/-- The bit `S_IWUSR`. -/
def S_IWUSR : Nat := 0x80

/-- The bit `S_IXUSR`. -/
def S_IXUSR : Nat := 0x40

/-- The function `match_dos_names(name, mask, fatr1, sb)`; `fatr1` is a `uchar`. -/
def match_dos_names (name mask : List Nat) (fatr1 : Nat) (sb : STAT) : Int :=
  if (List.range 11).any (fun i =>
      decide (mask.getD i 0 ≠ 0x3f ∧ toupper (name.getD i 0) ≠ toupper (mask.getD i 0))) then 1
  else
    let fatr1 := fatr1 &&& (0xff ^^^ (0x20 ||| 0x40))
    if fatr1 &&& (0x02 ||| 0x04) ≠ 0 then 1
    else if fatr1 &&& 0x01 ≠ 0 ∧ sb.st_mode &&& S_IWUSR ≠ 0 then 1
    else if fatr1 &&& 0x10 ≠ 0 ∧ sb.st_mode &&& S_IWUSR = 0 then 1
    else if fatr1 &&& 0x08 ≠ 0 ∧ S_ISDIR sb.st_mode = false then 1
    else if fatr1 &&& 0x80 ≠ 0 ∧ S_ISDIR sb.st_mode = true then 1
    else 0

/-- The function `validate_dos_name(fname)`. -/
def validate_dos_name (upper_dir : Nat) (fname : List Nat) : Int :=
  let dot := strchr fname 0x2e
  if dot = none ∧ strlen fname > 8 then 1
  else
    let bad : Bool :=
      match dot with
      | none => false
      | some p =>
        let dd := strlen (fname.drop p)
        decide (dd > 4) || decide (p > 8) || decide (p = 0 ∧ dd = 1) ||
        decide (dd = 2 ∧ fname.getD (p + 1) 0 = 0x2e) ||
        decide (dd = 3 ∧ (fname.getD (p + 1) 0 = 0x2e ∨ fname.getD (p + 2) 0 = 0x2e)) ||
        decide (dd = 4 ∧ (fname.getD (p + 1) 0 = 0x2e ∨ fname.getD (p + 2) 0 = 0x2e ∨
          fname.getD (p + 3) 0 = 0x2e))
    if bad then 1
    else
      let valid_fn := validate_fn upper_dir fname 8
      let valid_xx :=
        match dot with
        | some p => validate_fn upper_dir (fname.drop (p + 1)) 3
        | none => 1
      if valid_fn = 0 ∨ valid_xx = 0 then 1 else 0

/-! ## Host directories and the directory snapshot

A directory stream is the list of the entries `readdir` delivers, in this order; an entry
carries what `stat` delivers for it (`none` when the call fails). `our_uid` is the
variable of that name and `localtime` the function of the host. -/

/-- An entry of a directory stream: the member `d_name` of the `struct dirent` and the
result of `stat` on the entry. -/
structure DIRENT where
  d_name : List Nat
  sb : Option STAT
  deriving DecidableEq, Repr

/-- The constant `SDX_MAXLEN`. -/
def SDX_MAXLEN : Nat := 16777215

/-- The function `check_dos_name(newpath, dp, sb)`: `none` when it returns 1, and when it
returns 0 the `struct stat` it leaves in `*sb`; `st` is what `stat` delivers for
`newpath/d_name`. -/
def check_dos_name (upper_dir our_uid : Nat) (d_name : List Nat) (st : Option STAT) :
    Option STAT :=
  if validate_dos_name upper_dir d_name ≠ 0 then none
  else
    match st with
    | none => none
    | some sb =>
      if S_ISREG sb.st_mode = false ∧ S_ISDIR sb.st_mode = false then none
      else if sb.st_uid ≠ our_uid then none
      else if sb.st_mode &&& S_IRUSR = 0 then none
      else if S_ISDIR sb.st_mode = true ∧ sb.st_mode &&& S_IXUSR = 0 then none
      else some sb

/-- The loop of `get_file_len` over the rest of the directory stream; `filelen` is a
`ulong`. -/
def get_file_len_loop (upper_dir our_uid : Nat) : List DIRENT → Nat → Nat
  | [], filelen => filelen
  | dp :: rest, filelen =>
    match check_dos_name upper_dir our_uid dp.d_name dp.sb with
    | none => get_file_len_loop upper_dir our_uid rest filelen
    | some _ => get_file_len_loop upper_dir our_uid rest ((filelen + 23) % 2 ^ 64)

/-- The function `get_file_len(handle)`: `fpmode` and `st_size` are those of
`iodesc[handle]` and `dir` is the stream `fps.dir` after `rewinddir`. -/
def get_file_len (upper_dir our_uid : Nat) (fpmode : Nat) (st_size : Int)
    (dir : List DIRENT) : Nat :=
  let filelen :=
    if fpmode &&& 0x10 ≠ 0 then get_file_len_loop upper_dir our_uid dir 23
    else toUlong st_size
  if filelen > SDX_MAXLEN then SDX_MAXLEN else filelen

/-- The function `strrchr(s, c)` for a byte `c` other than NUL: the index of the last
occurrence, `none` for `NULL`. -/
def strrchr (s : List Nat) (c : Nat) : Option Nat :=
  match strchr s.reverse c with
  | none => none
  | some p => some (s.length - 1 - p)

/-- The 23 bytes of a `DIRENTRY` in the order of its members. -/
def DIRENTRY (status map_l map_h len_l len_m len_h : Nat) (fname stamp : List Nat) :
    List Nat :=
  [status, map_l, map_h, len_l, len_m, len_h] ++ fname ++ stamp

/-- What one turn of the loop of `cache_dir` stores at `dir` for an entry that
`check_dos_name` lets pass: `dirnode` is a `uchar`, `node` and `map` are `ushort`. -/
def cache_dir_entry (localtime : Int → TM) (dirnode node : Nat) (d_name : List Nat)
    (sb : STAT) : List Nat :=
  let dlen := toUlong sb.st_size
  let dlen := if dlen > SDX_MAXLEN then SDX_MAXLEN else dlen
  let status := if sb.st_mode &&& S_IWUSR ≠ 0 then 0x08 else 0x09
  let status := if S_ISDIR sb.st_mode = true then status ||| 0x20 else status
  let dlen := if S_ISDIR sb.st_mode = true then 23 else dlen
  let map := (dirnode <<< 11) % 65536
  let map := map ||| (node &&& 0x07ff)
  DIRENTRY status (map &&& 0x00ff) ((map &&& 0xff00) >>> 8)
    (dlen &&& 0x000000ff) ((dlen &&& 0x0000ff00) >>> 8) ((dlen &&& 0x00ff0000) >>> 16)
    (ugefina d_name) (unix_time_2_sdx sb.st_mtime (localtime sb.st_mtime))

/-- The loop of `cache_dir` over the rest of the directory stream: `acc` is what has been
stored from the start of `dbuf` up to `dir`. -/
def cache_dir_loop (upper_dir our_uid : Nat) (localtime : Int → TM) (dirnode dirlen : Nat) :
    List DIRENT → Nat → Nat → List Nat → List Nat
  | [], _, _, acc => acc
  | dp :: rest, node, flen, acc =>
    match check_dos_name upper_dir our_uid dp.d_name dp.sb with
    | none => cache_dir_loop upper_dir our_uid localtime dirnode dirlen rest node flen acc
    | some sb =>
      let acc := acc ++ cache_dir_entry localtime dirnode node dp.d_name sb
      let node := (node + 1) % 65536
      let flen := (flen + 23) % 2 ^ 64
      if flen ≥ dirlen then acc
      else cache_dir_loop upper_dir our_uid localtime dirnode dirlen rest node flen acc

/-- The function `cache_dir(handle)`: the `dirlen + 23` bytes at `dbuf`. `dirname` is
that of the unit, `pathname` and `dirlen` (`fpstat.st_size`), `st_mtime` are those of
`iodesc[handle]`, and `dir` is the stream `fps.dir`. -/
def cache_dir (upper_dir our_uid : Nat) (localtime : Int → TM) (dirname pathname : List Nat)
    (dirlen : Nat) (st_mtime : Int) (dir : List DIRENT) : List Nat :=
  let dbuf := List.replicate (dirlen + 23) 0
  let cwd := pathname.drop (strlen dirname)
  let bs := strrchr cwd 0x2f
  let fname : List Nat :=
    match bs with
    | none => store (List.replicate 11 0x20) [0x4d, 0x41, 0x49, 0x4e]
    | some p => ugefina (cwd.drop (p + 1))
  let dirnode : Nat :=
    match bs with
    | none => 0x00
    | some p => ((cwd.take (p + 1)).count 0x2f) % 256
  let map_h : Nat :=
    match bs with
    | none => 0x00
    | some _ => ((dirnode &&& 0x1f) <<< 3) % 256
  let head := DIRENTRY 0x28 0x00 map_h (dirlen &&& 0x000000ff) ((dirlen &&& 0x0000ff00) >>> 8)
    ((dirlen &&& 0x00ff0000) >>> 16) fname (unix_time_2_sdx st_mtime (localtime st_mtime))
  store dbuf (cache_dir_loop upper_dir our_uid localtime dirnode dirlen dir 1 23 head)

/-! ## PCLink paths and RENAME

The host answers are parameters: `resolve newpath` is what `getcwd` delivers after
`chdir(newpath)` (`none` when `chdir` fails), `rename_ok` tells whether a call of `rename`
succeeds. The directory a function works in is the list of its entries; names are taken
relative to it, so that a name with a '/' is outside this model. -/

/-- The function `ispathsep(c)`: whether it returns non-zero. -/
def ispathsep (c : Nat) : Bool := c == 0x3e || c == 0x5c

/-- The function `path_copy(dst, src)`: the C string left at `dst`. A separator is copied
and the separators that follow it are skipped; `skip` tells that the byte before was a
separator. -/
def path_copy : List Nat → Bool → List Nat
  | [], _ => []
  | a :: src, skip =>
    if ispathsep a then (if skip then path_copy src true else a :: path_copy src true)
    else a :: path_copy src false

/-- The loop of `path2unix` with `n` iterations left: the bytes stored at `out`. -/
def path2unix_loop (upper_dir : Nat) : List Nat → Nat → List Nat
  | [], _ => []
  | _ :: _, 0 => []
  | c :: path, n + 1 =>
    if ispathsep (dir_case upper_dir c) then 0x2f :: path2unix_loop upper_dir path n
    else if dir_case upper_dir c = 0x3c then 0x2e :: 0x2e :: path2unix_loop upper_dir path n
    else dir_case upper_dir c :: path2unix_loop upper_dir path n

/-- The step `if (sl && (s[sl-1] != '/')) strcat(s, "/")`. -/
def add_slash (s : List Nat) : List Nat :=
  if s ≠ [] ∧ s.getLast? ≠ some 0x2f then s ++ [0x2f] else s

/-- The function `path2unix(out, path)`: the C string left at `out`. -/
def path2unix (upper_dir : Nat) (path : List Nat) : List Nat :=
  add_slash (path2unix_loop upper_dir path 64)

/-- The function `create_user_path(devno, cunit, newpath)`: the C string left at `newpath`;
`dirname`, `cwd` and `path` are the C strings in `device[devno][cunit].dirname`, `.cwd` and
`.parbuf.path`. -/
def create_user_path (upper_dir : Nat) (dirname cwd path : List Nat) : List Nat :=
  let upath := path2unix upper_dir (path_copy path false)
  let newpath :=
    if upath.head? ≠ some 0x2f then
      add_slash (add_slash dirname ++ cwd.drop (if cwd.head? = some 0x2f then 1 else 0))
    else dirname
  let newpath := newpath ++ upath
  if newpath ≠ [] ∧ newpath.getLast? = some 0x2f then newpath.dropLast else newpath

/-- The function `strstr(haystack, needle)`: the index of the first occurrence, `none` for
`NULL`. -/
def strstr : List Nat → List Nat → Option Nat
  | [], needle => if needle = [] then some 0 else none
  | c :: rest, needle =>
    if needle.isPrefixOf (c :: rest) then some 0
    else (strstr rest needle).map (fun d => d + 1)

/-- The function `validate_user_path(defwd, newpath)`. -/
def validate_user_path (resolve : List Nat → Option (List Nat)) (defwd newpath : List Nat) :
    Int :=
  match resolve newpath with
  | none => 0
  | some newwd =>
    match strstr newwd defwd with
    | none => 0
    | some d => if d ≠ 0 then 0 else 1

/-- The C string in a byte array: the bytes before the first NUL. -/
def cstr (bytes : List Nat) : List Nat := bytes.takeWhile (fun b => decide (b ≠ 0))

/-- The call `stat(newpath/name)` in the directory `dir`. -/
def host_stat (dir : List DIRENT) (name : List Nat) : Option STAT :=
  match dir.find? (fun e => decide (e.d_name = name)) with
  | none => none
  | some e => e.sb

/-- Whether `stat(newpath/name)` returns 0; the empty name gives the directory itself. -/
def target_exists (dir : List DIRENT) (name : List Nat) : Bool :=
  decide (name = []) || (host_stat dir name).isSome

/-- The directory after a successful `rename(newpath/a, newpath/b)`. -/
def host_rename (dir : List DIRENT) (a b : List Nat) : List DIRENT :=
  (dir.filter (fun e => decide (e.d_name ≠ b))).map
    (fun e => if e.d_name = a then { e with d_name := b } else e)

/-- The new name RENAME gives to an entry with the 8+3 form `raw_name`: every '?' of
`names` is replaced by the byte of `raw_name` at the same index (index 11 of `raw_name` is
not set by `ugefina` and not read by `uexpand`), and `uexpand` converts the result. -/
def rename_target (upper_dir : Nat) (names raw_name : List Nat) : List Nat :=
  uexpand upper_dir ((List.range 12).map (fun x =>
    if names.getD x 0 = 0x3f then raw_name.getD x 0 else names.getD x 0))

/-- The loop of RENAME over the names `readdir` delivers: the directory, `status.err` and
`fcnt` afterwards. The names are those the directory had when it was opened. -/
def pcl_rename_loop (upper_dir our_uid : Nat) (name names : List Nat) (fatr1 : Nat)
    (rename_ok : List Nat → List Nat → Bool) :
    List (List Nat) → List DIRENT → Nat → Nat → List DIRENT × Nat × Nat
  | [], dir, err, fcnt => (dir, err, fcnt)
  | d_name :: rest, dir, err, fcnt =>
    match check_dos_name upper_dir our_uid d_name (host_stat dir d_name) with
    | none => pcl_rename_loop upper_dir our_uid name names fatr1 rename_ok rest dir err fcnt
    | some sb =>
      if match_dos_names (ugefina d_name) name ((fatr1 ||| 0x10) % 256) sb = 0 then
        if target_exists dir (rename_target upper_dir names (ugefina d_name)) = true then
          (dir, 151, (fcnt + 1) % 2 ^ 64)
        else if rename_ok d_name (rename_target upper_dir names (ugefina d_name)) = true then
          pcl_rename_loop upper_dir our_uid name names fatr1 rename_ok rest
            (host_rename dir d_name (rename_target upper_dir names (ugefina d_name))) err
            ((fcnt + 1) % 2 ^ 64)
        else
          pcl_rename_loop upper_dir our_uid name names fatr1 rename_ok rest dir 255
            ((fcnt + 1) % 2 ^ 64)
      else pcl_rename_loop upper_dir our_uid name names fatr1 rename_ok rest dir err fcnt



/-- The block `if (fno == 0x0b)` (RENAME) of `do_pclink` with what follows it at the
labels `complete:` and `exit:`: the state and the directory afterwards. `dir` is the
directory at the path `create_user_path` builds (`none` when `opendir` fails on it). -/
def pcl_rename (upper_dir our_uid : Nat) (resolve : List Nat → Option (List Nat))
    (rename_ok : List Nat → List Nat → Bool) (ccom : Nat) (dirname cwd : List Nat)
    (dir : Option (List DIRENT)) (st : PCL) : PCL × Option (List DIRENT) :=
  if ccom = 0x52 then
    let u := sio_ack st.unit 0x41
    (pcl_complete ccom { st with unit := { u with dev := with_err u.dev 176 } }, dir)
  else
    let newpath := create_user_path upper_dir dirname cwd (cstr (st.parbuf.drop 35))
    if validate_user_path resolve dirname newpath = 0 then
      (pcl_complete ccom { st with unit := { st.unit with dev := with_err st.unit.dev 150 } },
        dir)
    else
      match dir with
      | none =>
        (pcl_complete ccom
          { st with unit := { st.unit with dev := with_err st.unit.dev 255 } }, dir)
      | some d =>
        let r := pcl_rename_loop upper_dir our_uid ((st.parbuf.drop 11).take 12)
          ((st.parbuf.drop 23).take 12) (st.parbuf.getD 9 0) rename_ok
          (d.map (fun e => e.d_name)) d 1 0
        let err := if r.2.2 = 0 ∧ r.2.1 = 1 then 170 else r.2.1
        (pcl_complete ccom { st with unit := { st.unit with dev := with_err st.unit.dev err } },
          some r.1)

/-! ## PCLink FOPEN and FFIRST

The answers of the host are the members of `HOST`: `resolve` (`chdir` and `getcwd`),
`stat`, `opendir` (the directory stream, `none` for `NULL`), `fopen` with the mode string
(`none` for `NULL`), `localtime`, `mktime` and the user `our_uid`. The members of
`iodesc[i]` that FOPEN sets and `IODESC` keeps are the pointer of the union `fps` (for a
directory a stream without bytes stands for the `DIR *`), `dir_cache`, `fpmode`,
`fpstat.st_size` and `fppos`. -/

/-- The host as FOPEN sees it. -/
structure HOST where
  our_uid : Nat
  resolve : List Nat → Option (List Nat)
  stat : List Nat → Option STAT
  opendir : List Nat → Option (List DIRENT)
  fopen : List Nat → List Nat → Option STREAM
  localtime : Int → TM
  mktime : TM → Int

/-- The function `timestamp2mtime(stamp)`. -/
def timestamp2mtime (mktime : TM → Int) (stamp : List Nat) : Int :=
  if stamp.getD 0 0 = 0 ∨ stamp.getD 1 0 = 0 then 0
  else
    let year : Int := if stamp.getD 2 0 < 80 then stamp.getD 2 0 + 2000 else stamp.getD 2 0 + 1900
    mktime { tm_sec := stamp.getD 5 0, tm_min := stamp.getD 4 0, tm_hour := stamp.getD 3 0,
             tm_mday := stamp.getD 0 0, tm_mon := (stamp.getD 1 0 : Int) - 1,
             tm_year := year - 1900 }

/-- The loop of FOPEN that looks for a free entry of `iodesc[]` from index `i` on, with `n`
iterations left: the value of `i` after it. -/
def fopen_scan (iodesc : List IODESC) : Nat → Nat → Nat
  | 0, i => i
  | n + 1, i =>
    if (iodesc.getD i IODESC.closed).file = none then i else fopen_scan iodesc n (i + 1)

/-- The loop of FOPEN over the directory stream: the entry at which it breaks, with the
`struct stat` that `check_dos_name` left, or `none` when `readdir` ends the loop. -/
def fopen_find (upper_dir our_uid : Nat) (name : List Nat) (fatr1 : Nat) :
    List DIRENT → Option (List Nat × STAT)
  | [] => none
  | dp :: rest =>
    match check_dos_name upper_dir our_uid dp.d_name dp.sb with
    | none => fopen_find upper_dir our_uid name fatr1 rest
    | some sb =>
      if match_dos_names (ugefina dp.d_name) name fatr1 sb = 0 then some (dp.d_name, sb)
      else fopen_find upper_dir our_uid name fatr1 rest

/-- What the execute phase of FOPEN has when it reaches the assignment of `handle`: the
index `i`, the pointer in `iodesc[i].fps`, `sb`, `newpath`, `raw_name` and, in directory
mode, the directory stream. -/
structure FOPEN_OK where
  i : Nat
  file : STREAM
  sb : STAT
  newpath : List Nat
  raw_name : List Nat
  dir : List DIRENT

/-- The part of FOPEN in file mode from the `readdir` loop to the second `stat`: the full
local path, `raw_name` and `sb`, or the error code with which it goes to
`complete_fopen`. -/
def fopen_target (h : HOST) (upper_dir : Nat) (parbuf : List Nat) (newpath : List Nat)
    (dh : List DIRENT) : Except Nat (List Nat × List Nat × STAT) :=
  let fmode := parbuf.getD 8 0
  let name := (parbuf.drop 11).take 12
  let newpath := add_slash newpath
  match fopen_find upper_dir h.our_uid name (parbuf.getD 9 0) dh with
  | some (d_name, sb) =>
    let sb :=
      if fmode &&& 0x0c = 0x08 then
        { sb with st_mtime := timestamp2mtime h.mktime ((parbuf.drop 2).take 6) }
      else sb
    Except.ok (newpath ++ d_name, ugefina d_name ++ [0], sb)
  | none =>
    if fmode &&& 0x0c = 0x04 then Except.error 170
    else
      let name83 := uexpand upper_dir name
      if validate_dos_name upper_dir name83 ≠ 0 then Except.error 165
      else
        Except.ok (newpath ++ name83, ugefina name83 ++ [0],
          { st_mode := 0x8000 ||| S_IRUSR ||| S_IWUSR, st_uid := 0, st_size := 0,
            st_mtime := timestamp2mtime h.mktime ((parbuf.drop 2).take 6) })

/-- The second `stat` of FOPEN in file mode with the tests that follow it: the error code
with which it goes to `complete_fopen`, if any. -/
def fopen_check (h : HOST) (fmode : Nat) (newpath : List Nat) : Option Nat :=
  match h.stat newpath with
  | none => if fmode &&& 0x0c = 0x04 then some 170 else none
  | some tempstat =>
    if fmode &&& 0x08 ≠ 0 ∧ tempstat.st_mode &&& S_IWUSR = 0 then some 151 else none

/-- The calls of `fopen` of FOPEN: the pointer left in `iodesc[i].fps.file` (which was
`NULL` before) and `sb`. -/
def fopen_stream (h : HOST) (fmode : Nat) (newpath : List Nat) (sb : STAT) :
    Option STREAM × STAT :=
  if fmode &&& 0x0d = 0x04 then (h.fopen newpath [0x72], sb)
  else if fmode &&& 0x0d = 0x08 then
    match h.fopen newpath [0x77] with
    | some f => (some f, { sb with st_size := 0 })
    | none => (none, sb)
  else if fmode &&& 0x0d = 0x09 then (h.fopen newpath [0x72, 0x2b], sb)
  else if fmode &&& 0x0d = 0x0c then (h.fopen newpath [0x72, 0x2b], sb)
  else (none, sb)

/-- The part of the execute phase of FOPEN in file mode from the `readdir` loop to the
test `iodesc[i].fps.file == NULL`: the error code with which it goes to `complete_fopen`,
or what it has when it goes on. -/
def fopen_file (h : HOST) (upper_dir : Nat) (parbuf : List Nat) (i : Nat)
    (newpath : List Nat) (dh : List DIRENT) : Except Nat FOPEN_OK :=
  let fmode := parbuf.getD 8 0
  match fopen_target h upper_dir parbuf newpath dh with
  | Except.error e => Except.error e
  | Except.ok (newpath, raw_name, sb) =>
    match fopen_check h fmode newpath with
    | some e => Except.error e
    | none =>
      match (fopen_stream h fmode newpath sb).1 with
      | none => Except.error (if fmode &&& 0x04 ≠ 0 then 170 else 151)
      | some f =>
        Except.ok { i := i, file := f, sb := (fopen_stream h fmode newpath sb).2,
                    newpath := newpath, raw_name := raw_name, dir := [] }

/-- The execute phase of FOPEN from the test of `fmode` to the test
`iodesc[i].fps.file == NULL`: the error code with which it goes to `complete_fopen`, or
what it has when it goes on; `none` when `readdir` is called on a `NULL` stream. -/
def fopen_open (h : HOST) (upper_dir : Nat) (dirname cwd : List Nat) (st : PCL) :
    Option (Except Nat FOPEN_OK) :=
  let fmode := st.parbuf.getD 8 0
  if fmode &&& 0x0c = 0 ∨ fmode &&& 0x18 = 0x18 then some (Except.error 146)
  else
    let newpath := create_user_path upper_dir dirname cwd (cstr (st.parbuf.drop 35))
    if validate_user_path h.resolve dirname newpath = 0 then some (Except.error 150)
    else
      let i := fopen_scan st.iodesc 16 0
      if i > 15 then some (Except.error 161)
      else
        match h.stat newpath with
        | none => some (Except.error 150)
        | some tempstat =>
          if fmode &&& 0x10 ≠ 0 then
            match h.opendir newpath with
            | none => some (Except.error (if fmode &&& 0x04 ≠ 0 then 170 else 151))
            | some dh =>
              some (Except.ok { i := i, file := { data := [], ioerr := false }, sb := tempstat,
                                newpath := newpath, raw_name := (st.parbuf.drop 11).take 12,
                                dir := dh })
          else
            match h.opendir newpath with
            | none => none
            | some dh => some (fopen_file h upper_dir st.parbuf i newpath dh)

/-- The label `complete_fopen:` with `exit:`. -/
def complete_fopen (ccom : Nat) (pcl_dbf : List Nat) (st : PCL) : PCL :=
  let sck := calc_checksum pcl_dbf 24
  let u := sio_ack st.unit 0x43
  let u := com_write u pcl_dbf 24
  let u := com_write u [sck] 1
  { st with unit := u, old_ccom := ccom }

/-- The execute phase of FOPEN from the assignment of `handle` to `complete_fopen:`: the
state and `pcl_dbf` (the byte `handle` and the 23 bytes `dirbuf`). -/
def fopen_finish (h : HOST) (upper_dir : Nat) (dirname : List Nat) (ok : FOPEN_OK)
    (st : PCL) : PCL × List Nat :=
  let handle := ok.i
  let parbuf := st.parbuf.set 1 handle
  let fpmode := parbuf.getD 8 0
  let st_size := get_file_len upper_dir h.our_uid fpmode ok.sb.st_size ok.dir
  let fppos : Int := if fpmode &&& 0x1d = 0x09 then (st_size : Int) else 0
  let io : IODESC :=
    { st.iodesc.getD handle IODESC.closed with
      file := some ok.file, fpmode := fpmode, st_size := (st_size : Int), fppos := fppos }
  let dirbuf := List.replicate 23 0
  if handle > 15 ∨ io.file = none then
    ({ st with unit := { st.unit with dev := with_err st.unit.dev 134 }, parbuf := parbuf,
               iodesc := st.iodesc.set handle io }, 134 :: dirbuf)
  else
    let ob := unix_time_2_sdx ok.sb.st_mtime (h.localtime ok.sb.st_mtime)
    if fpmode &&& 0x10 ≠ 0 then
      let io : IODESC :=
        { io with dir_cache := cache_dir upper_dir h.our_uid h.localtime dirname ok.newpath
                    st_size ok.sb.st_mtime ok.dir }
      let r := dir_read dirbuf 23 io
      let io : IODESC := { io with fppos := io.fppos + (r.2.1 : Int) }
      let dev :=
        if r.2.2 ≠ 0 then with_err st.unit.dev 136
        else if io.fppos = io.st_size then with_err st.unit.dev 3
        else st.unit.dev
      ({ st with unit := { st.unit with dev := dev }, parbuf := parbuf,
                 iodesc := st.iodesc.set handle io }, handle :: r.1)
    else
      let dlen := toUlong io.st_size
      let status := 0x08
      let status := if ok.sb.st_mode &&& S_IWUSR = 0 then status ||| 0x01 else status
      let status := if S_ISDIR ok.sb.st_mode = true then status ||| 0x20 else status
      let fname := store (List.replicate 11 0x20) (cstr (ok.raw_name.take 11))
      let dirbuf :=
        [status, 0, 0, (dlen &&& 0x000000ff) % 256, ((dlen &&& 0x0000ff00) >>> 8) % 256,
          ((dlen &&& 0x00ff0000) >>> 16) % 256] ++ fname ++ ob
      ({ st with parbuf := parbuf, iodesc := st.iodesc.set handle io }, handle :: dirbuf)

/-- The block `if ((fno == 0x09) || (fno == 0x0a))` (FOPEN/FFIRST) of `do_pclink` with
what follows it: the state and `pcl_dbf` afterwards; `none` when `readdir` is called on a
`NULL` stream. -/
def pcl_fopen (h : HOST) (upper_dir : Nat) (ccom : Nat) (dirname cwd : List Nat)
    (pcl_dbf : List Nat) (st : PCL) : Option (PCL × List Nat) :=
  if ccom = 0x50 then
    let dev := with_err st.unit.dev 1
    let parbuf :=
      if st.parbuf.getD 0 0 = 0x0a then st.parbuf.set 8 (st.parbuf.getD 8 0 ||| 0x10)
      else st.parbuf
    some (pcl_complete ccom { st with unit := { st.unit with dev := dev }, parbuf := parbuf },
      pcl_dbf)
  else if ccom = 0x52 ∧ st.old_ccom = 0x52 then
    some ({ st with unit := sio_ack st.unit 0x4e }, pcl_dbf)
  else
    let st := { st with unit := sio_ack st.unit 0x41 }
    match fopen_open h upper_dir dirname cwd st with
    | none => none
    | some (Except.error e) =>
      some (complete_fopen ccom pcl_dbf
        { st with unit := { st.unit with dev := with_err st.unit.dev e } }, pcl_dbf)
    | some (Except.ok ok) =>
      let r := fopen_finish h upper_dir dirname ok st
      some (complete_fopen ccom r.2 r.1, r.2)

/-! ## Mounting and specification-side definitions -/

/-- The part of `atr_open` that follows the reading of the 16-byte header into `atr`
(regular-file branch): signature and sector-size checks, the copy of the header into
the freshly reset record, `size = (wpars + hipars * 65536) * 16`, `drive_setup` and
`setup_status`. The result is `none` on `goto error`. -/
def atr_open_record (fd full13force : Int) (atr : ATR) : Option DEVICE :=
  if atr.sig ≠ 0x0296 then none
  else if atr.bps ≠ 0x0080 ∧ atr.bps ≠ 0x0100 ∧ atr.bps ≠ 0x0200 ∧ atr.bps ≠ 0x0400 then none
  else
    let dev := { device_reset with fd := fd, full13force := full13force, atr := atr }
    let size := ((atr.wpars + atr.hipars * 65536) % 2 ^ 64 * 16) % 2 ^ 64
    let (dev, r) := drive_setup dev size atr.bps
    if r < 0 then none else some (setup_status dev)

/-- The header of an image with `pars` paragraphs of payload and `bps` bytes per sector. -/
def header (pars bps : Nat) : ATR :=
  { sig := 0x0296, wpars := pars % 65536, bps := bps, hipars := pars / 65536, crc := 0,
    costam := 0, prot := 0 }

/-- A unit as it is after `atr_open` of an image with the given header on descriptor 3,
opened read/write, with file contents `data`; the two static buffers are still zero. -/
def mounted_unit (pars bps : Nat) (data : List Nat) : SIO :=
  { dev := (atr_open_record 3 0 (header pars bps)).getD device_reset,
    file := { data := data, pos := 0, writable := true },
    outbuf := List.replicate 1026 0,
    inpbuf := List.replicate 1026 0,
    rx := [],
    tx := [] }

/-- The acceptance condition of a PERCOM block as the specification words it: bytes per
sector is 128, 256, 512 or 1024, and it is not the case that flag bit 2 is clear while
sectors per track exceed 18 or bytes per sector are 256 or more. -/
def spec_percom_ok (ibuf : List Nat) : Prop :=
  let bps := ibuf.getD 6 0 * 256 + ibuf.getD 7 0
  let spt := ibuf.getD 2 0 * 256 + ibuf.getD 3 0
  let flags := ibuf.getD 5 0
  (bps = 128 ∨ bps = 256 ∨ bps = 512 ∨ bps = 1024) ∧
    ¬ (flags.testBit 2 = false ∧ (spt > 18 ∨ bps ≥ 256))

instance (ibuf : List Nat) : Decidable (spec_percom_ok ibuf) := by
  unfold spec_percom_ok; infer_instance

/-- The file offset of sector `s ≥ 1` in closed form over the naturals (proved equal to
`atr_offset` below). -/
def seek_off (dev : DEVICE) (s : Nat) : Nat :=
  16 + (if dev.bps = 256 then
          (if s < 4 then (s - 1) * 128
           else if dev.full13 ≠ 0 then (s - 1) * 256 else (s - 4) * 256 + 384)
        else (s - 1) * dev.bps)

/-- The value of `status.stat` after `sio_ack(devno, d, what)`. -/
def ack_stat (stat what : Nat) : Nat :=
  let stat := stat &&& (0xff ^^^ (0x01 ||| 0x04))
  if what = 0x45 then stat ||| 0x04 else if what = 0x4e then stat ||| 0x01 else stat

/-- A mounted disk unit: the image is open, the sector size is one `atr_open` and
`setup_percom` admit, and the static buffers have their declared size of 1026 bytes. -/
def mounted (st : SIO) : Prop :=
  st.dev.fd > -1 ∧
  (st.dev.bps = 128 ∨ st.dev.bps = 256 ∨ st.dev.bps = 512 ∨ st.dev.bps = 1024) ∧
  st.outbuf.length = 1026 ∧ st.inpbuf.length = 1026

instance (st : SIO) : Decidable (mounted st) := by
  unfold mounted; infer_instance

/-- The size `format_atr` writes for sector `cs`. -/
def fmt_size (dev : DEVICE) (cs : Nat) : Nat :=
  if cs < 4 ∧ dev.bps = 256 ∧ dev.full13force = 0 then 128 else dev.bps

/-- The end of the slot `format_atr` writes for sector `cs`. -/
def fmt_end (dev : DEVICE) (cs : Nat) : Nat :=
  seek_off dev cs + fmt_size dev cs

/-- What the loops of `format_atr` rely on. -/
def fmt_ready (st : SIO) : Prop :=
  st.dev.fd > -1 ∧ st.file.writable = true ∧ st.outbuf.length = 1026 ∧
  (st.dev.bps = 128 ∨ st.dev.bps = 256 ∨ st.dev.bps = 512 ∨ st.dev.bps = 1024) ∧
  st.dev.full13 = st.dev.full13force ∧ 16 ≤ st.file.data.length

/-- A canonical geometry: a sector size of the ladder and the PERCOM block of the table
row for `maxsec` sectors. -/
def canonical_geometry (dev : DEVICE) : Prop :=
  (dev.bps = 128 ∨ dev.bps = 256 ∨ dev.bps = 512 ∨ dev.bps = 1024) ∧
  spec_table_row dev.maxsec dev.bps = some dev.percom

instance (dev : DEVICE) : Decidable (canonical_geometry dev) := by
  unfold canonical_geometry; infer_instance

/-- The state `format_atr` has produced when the loops start, given the state after the
first acknowledge. -/
def fmt_start (st0 : SIO) : SIO :=
  { st0 with
    outbuf := List.replicate 1026 0,
    dev := format_header st0.dev,
    file := { data := atr_image (format_header st0.dev).atr,
              pos := seek_off (format_header st0.dev) 1,
              writable := st0.file.writable } }

/-- The end of `format_atr` after the loops ran through, with the local `bps`. -/
def fmt_finish (d : Nat) (st : SIO) (bps : Nat) : SIO :=
  let st := { st with dev := setup_status st.dev }
  let st := { st with outbuf := (st.outbuf.set 0 0xff).set 1 0xff }
  let ck := calc_checksum st.outbuf bps
  if d ≠ 0 then
    let st := sio_ack st 0x43
    let st := com_write st st.outbuf bps
    com_write st [ck] 1
  else st

/-- The invariant of a PERCOM block as the specification words it: sectors per track are
at most 18 and bytes per sector at most 128 unless flag bit 2 is set. -/
def spec_percom_invariant (pc : PERCOM) : Prop :=
  pc.flags.testBit 2 = false →
    pc.spt_hi * 256 + pc.spt_lo ≤ 18 ∧ pc.bps_hi * 256 + pc.bps_lo ≤ 128

instance (pc : PERCOM) : Decidable (spec_percom_invariant pc) := by
  unfold spec_percom_invariant; infer_instance

/-- The local `bps` of `format_atr` while it writes sector `s` of track `i`. -/
def fmt_bps (i s : Nat) (dev : DEVICE) : Nat :=
  if i = 0 ∧ s < 4 ∧ dev.bps = 256 ∧ dev.full13force = 0 then 128 else dev.bps

/-- One iteration of the inner loop of `format_atr` seen from the file: the file after the
`atr_seek` and the `write`, and whether the loop goes on. -/
def fmt_step_file (dev : DEVICE) (f : FILE) (outbuf : List Nat) (i spt s : Nat) : FILE × Bool :=
  let off := atr_offset dev ((i * spt + s : Nat) : Int)
  if (lseek dev.fd f off).2 ≠ off then ((lseek dev.fd f off).1, false)
  else
    let w := write dev.fd (lseek dev.fd f off).1 outbuf (fmt_bps i s dev)
    if w.2 < (fmt_bps i s dev : Int) then (w.1, false) else (w.1, true)

/-- Two states the loops of `format_atr` cannot tell apart: the same descriptor, sector
size, boot-sector flags, file and output buffer. -/
def fmt_same (a b : SIO) : Prop :=
  a.dev.fd = b.dev.fd ∧ a.dev.bps = b.dev.bps ∧ a.dev.full13 = b.dev.full13 ∧
  a.dev.full13force = b.dev.full13force ∧ a.file = b.file ∧ a.outbuf = b.outbuf

/-- The exit of `format_atr` through `fterror` before the loops, with the file as the
failed call left it, given the state after the first acknowledge. -/
def fmt_fail (d : Nat) (st0 : SIO) (f : FILE) : SIO :=
  let st : SIO :=
    { st0 with outbuf := List.replicate 1026 0, dev := format_header st0.dev, file := f }
  if d ≠ 0 then sio_ack st 0x45 else st

/-- The bytes `a` and `b` are equal ignoring ASCII letter case: they are equal, or one is
an upper-case letter and the other the same letter in lower case. -/
def same_ignoring_case (a b : Nat) : Prop :=
  a = b ∨ (0x41 ≤ a ∧ a ≤ 0x5a ∧ b = a + 0x20) ∨ (0x41 ≤ b ∧ b ≤ 0x5a ∧ a = b + 0x20)

instance (a b : Nat) : Decidable (same_ignoring_case a b) := by
  unfold same_ignoring_case; infer_instance



/-- The allowed set of the specification: the digits, '_', '@' and the letters of the
configured case. -/
def name_char (upper_dir : Nat) (c : Nat) : Bool :=
  isdigit c || c == 0x5f || c == 0x40 || (if upper_dir ≠ 0 then isupper c else islower c)

/-- The form of a name the specification states: 1 to 8 characters of the allowed set,
optionally followed by a single '.' and 1 to 3 characters of the allowed set. -/
def spec_dos_name (upper_dir : Nat) (s : List Nat) : Bool :=
  let base := s.takeWhile (fun b => decide (b ≠ 0x2e))
  let rest := s.dropWhile (fun b => decide (b ≠ 0x2e))
  decide (1 ≤ base.length ∧ base.length ≤ 8) && base.all (name_char upper_dir) &&
    (rest.isEmpty ||
      (decide (1 ≤ rest.tail.length ∧ rest.tail.length ≤ 3) &&
        rest.tail.all (name_char upper_dir)))

/-- The form of a name with the part before the '.' allowed to be empty when an extension
follows: up to 8 characters of the allowed set, then either nothing (and the name is not
empty) or a single '.' and 1 to 3 characters of the allowed set. -/
def dos_name_form (upper_dir : Nat) (s : List Nat) : Bool :=
  let base := s.takeWhile (fun b => decide (b ≠ 0x2e))
  let rest := s.dropWhile (fun b => decide (b ≠ 0x2e))
  decide (base.length ≤ 8) && base.all (name_char upper_dir) &&
    (if rest.isEmpty then decide (1 ≤ base.length)
     else decide (1 ≤ rest.tail.length ∧ rest.tail.length ≤ 3) &&
        rest.tail.all (name_char upper_dir))

/-- Whether the bytes up to the first '.' all pass `dos_2_allowed`. -/
def fn_ok (upper_dir : Nat) (l : List Nat) : Bool :=
  (l.takeWhile (fun b => decide (b ≠ 0x2e))).all (dos_2_allowed upper_dir)

/-- The children of a directory stream that `check_dos_name` lets pass, in enumeration
order, each with its name and its `struct stat`. -/
def accepted (upper_dir our_uid : Nat) (dir : List DIRENT) : List (List Nat × STAT) :=
  dir.filterMap (fun dp =>
    (check_dos_name upper_dir our_uid dp.d_name dp.sb).map (fun sb => (dp.d_name, sb)))

/-- The entries of the accepted children from ordinal `j` on, one after the other. -/
def child_entries (localtime : Int → TM) (dirnode : Nat) :
    Nat → List (List Nat × STAT) → List Nat
  | _, [] => []
  | j, p :: rest =>
    cache_dir_entry localtime dirnode (j % 65536) p.1 p.2 ++
      child_entries localtime dirnode (j + 1) rest

/-- The 23 bytes of entry `k` of a snapshot. -/
def snapshot_entry (buf : List Nat) (k : Nat) : List Nat := (buf.drop (23 * k)).take 23

/-- The last component of a path: what follows its last '/'. -/
def last_component (path : List Nat) : List Nat :=
  (path.reverse.takeWhile (fun b => decide (b ≠ 0x2f))).reverse

/-- The depth ordinal of a directory: the number of '/' in its path after the mount
root. -/
def depth_ordinal (dirname pathname : List Nat) : Nat :=
  (pathname.drop dirname.length).count 0x2f

/-- The name of entry 0 of a snapshot: "MAIN" padded with spaces when nothing with a '/'
follows the mount root in the path of the handle, otherwise the 8+3 form of the last
component of that path. -/
def header_name (dirname pathname : List Nat) : List Nat :=
  if 0x2f ∈ pathname.drop dirname.length then
    ugefina (last_component (pathname.drop dirname.length))
  else [0x4d, 0x41, 0x49, 0x4e, 0x20, 0x20, 0x20, 0x20, 0x20, 0x20, 0x20]



/-- The components of a path: the byte lists between its '/' bytes; `cur` is the component
being read. -/
def split_path : List Nat → List Nat → List (List Nat)
  | [], cur => [cur]
  | c :: rest, cur => if c = 0x2f then cur :: split_path rest [] else split_path rest (cur ++ [c])

/-- One component in the resolution of an absolute path: an empty component and "." change
nothing, ".." drops the last directory, any other name is entered. -/
def canonical_step (stack : List (List Nat)) (comp : List Nat) : List (List Nat) :=
  if comp = [] ∨ comp = [0x2e] then stack
  else if comp = [0x2e, 0x2e] then stack.dropLast
  else stack ++ [comp]

/-- The canonical form of an absolute path none of whose components is a symbolic link:
what `getcwd` delivers after a `chdir` to it. -/
def canonical_path (path : List Nat) : List Nat :=
  let dirs := (split_path path []).foldl canonical_step []
  if dirs = [] then [0x2f] else dirs.foldr (fun c acc => 0x2f :: c ++ acc) []

/-- Whether RENAME takes the entry `e`: `check_dos_name` lets it pass and
`match_dos_names` returns 0 for its 8+3 form against `name` with the attribute byte
`fatr1 | RA_NO_PROTECT`. -/
def rename_matches (upper_dir our_uid : Nat) (name : List Nat) (fatr1 : Nat) (e : DIRENT) :
    Bool :=
  match check_dos_name upper_dir our_uid e.d_name e.sb with
  | none => false
  | some sb => decide (match_dos_names (ugefina e.d_name) name ((fatr1 ||| 0x10) % 256) sb = 0)

/-- The entry `e` after RENAME: under its new name when it is taken, as it was otherwise. -/
def rename_result (upper_dir our_uid : Nat) (name names : List Nat) (fatr1 : Nat)
    (e : DIRENT) : DIRENT :=
  if rename_matches upper_dir our_uid name fatr1 e = true then
    { e with d_name := rename_target upper_dir names (ugefina e.d_name) }
  else e

/-- Whether the canonical path `p` is the mount root `root` itself or lies beneath it. -/
def inside_root (root p : List Nat) : Bool :=
  decide (p = root) || (add_slash root).isPrefixOf p

/-- The condition under which the execute phase of FOPEN refuses `fmode`. -/
def fmode_refused (fmode : Nat) : Prop := fmode &&& 0x0c = 0 ∨ fmode &&& 0x18 = 0x18

instance (fmode : Nat) : Decidable (fmode_refused fmode) := by
  unfold fmode_refused; infer_instance

/-! ## Example units -/

/-- A complete small image: the 16 header bytes for 32 paragraphs of 128-byte sectors
followed by four zeroed sectors. -/
def small_image : List Nat :=
  (atr_image (header 32 128)).take 16 ++ List.replicate 512 0

/-- The unit mounted on `small_image` (four sectors of 128 bytes), with a write request
for one sector on the line: 128 bytes `07` and their checksum. -/
def write_request_unit : SIO :=
  { mounted_unit 32 128 small_image with
    rx := List.replicate 128 7 ++ [calc_checksum (List.replicate 128 7) 128] }

/-- The unit `write_request_unit` after `receive_sector` for sector 1. -/
def written_unit : SIO :=
  (receive_sector 3 1 1 write_request_unit).getD write_request_unit

/-- The unit mounted on `small_image` opened read-only (the `O_RDONLY` fallback of
`atr_open`), with a write request carrying a correct checksum on the line. -/
def readonly_unit : SIO :=
  { mounted_unit 32 128 small_image with
    file := { data := small_image, pos := 0, writable := false },
    rx := List.replicate 128 7 ++ [calc_checksum (List.replicate 128 7) 128] }

/-- Unit 0 as `make_atr` prepares it for a 90k image: reset record, fresh empty file from
`atr_create` (with the signature stored), then `setup_percom` with the block
`28 03 00 12 00 00 00 80`. -/
def fresh_90k_unit : SIO :=
  { dev := (setup_percom
      { device_reset with fd := 3, atr := { device_reset.atr with sig := 0x0296 } }
      [0x28, 0x03, 0x00, 0x12, 0x00, 0x00, 0x00, 0x80]).1,
    file := { data := [], pos := 0, writable := true },
    outbuf := List.replicate 1026 0,
    inpbuf := List.replicate 1026 0,
    rx := [],
    tx := [] }

/-- A single-density unit mounted on an image file that ends after sector 1 (the header
announces 720 sectors; `atr_open` does not compare it with the file length); sector 1
holds 128 bytes `aa`. -/
def truncated_unit : SIO :=
  mounted_unit 5760 128 ((atr_image (header 5760 128)).take 16 ++ List.replicate 128 0xaa)

/-- The unit `truncated_unit` after the host has read sector 1 (`outbuf` now holds that
sector), with a write request of 128 zero bytes on the line. -/
def truncated_unit_after_read : SIO :=
  { send_sector 3 1 0x52 1 truncated_unit with rx := List.replicate 128 0 ++ [0] }

/-- A freshly mounted single-density disk: the unit after `atr_open` of a complete image
of 720 sectors of 128 bytes (5760 paragraphs), all sectors zero. -/
def sd_720_unit : SIO :=
  mounted_unit 5760 128 ((atr_image (header 5760 128)).take 16 ++ List.replicate 92160 0)

/-- The record `device[4][5]` that a frame for device `0x45` addresses: as `device_reset`
left it at start-up (no file is open on it), with zeroed buffers and an idle line. -/
def clock_unit : SIO :=
  { dev := device_reset,
    file := { data := [], pos := 0, writable := false },
    outbuf := List.replicate 1026 0,
    inpbuf := List.replicate 1026 0,
    rx := [],
    tx := [] }

/-- A PCLink unit with no file open: the record as `device_reset` left it, a zeroed
parameter buffer and sixteen closed handles, with `rx` pending on the line. -/
def pcl_unit (rx : List Nat) : PCL :=
  { unit := { clock_unit with rx := rx },
    parbuf := List.replicate sizeof_PARBUF 0,
    iodesc := List.replicate 16 IODESC.closed,
    old_ccom := 0 }



/-- A parameter block of 11 bytes for function `fno` on handle 1. -/
def pcl_block (fno : Nat) : List Nat :=
  [fno, 0x01, 0x10, 0, 0, 0, 0, 0, 0, 0, 0]

/-- A PCLink unit whose stored parameter block is `pcl_block fno` and on whose line the
same block arrives once more, with its checksum. -/
def pcl_retry_unit (fno : Nat) : PCL :=
  { pcl_unit (pcl_block fno ++ [calc_checksum (pcl_block fno) 11]) with
    parbuf := store (List.replicate sizeof_PARBUF 0) (pcl_block fno) }

/-- An open host file of ten bytes `01 .. 0a` on a handle, positioned at `pos`. -/
def pcl_file10 (pos : Int) : IODESC :=
  { IODESC.closed with
    file := some { data := [1, 2, 3, 4, 5, 6, 7, 8, 9, 10], ioerr := false },
    st_size := 10, fppos := pos }

/-- A parameter block of 11 bytes: FREAD of `n` bytes on handle 1. -/
def fread_block (n : Nat) : List Nat :=
  [0x00, 0x01, n % 256, n / 256 % 256, 0, 0, 0, 0, 0, 0, 0]

/-- A PCLink unit with the ten-byte file open on handle 1 at position `pos`, and on the
line the block for an FREAD of `n` bytes with its checksum. -/
def fread_unit (n : Nat) (pos : Int) : PCL :=
  { pcl_unit (fread_block n ++ [calc_checksum (fread_block n) 11]) with
    iodesc := (List.replicate 16 IODESC.closed).set 1 (pcl_file10 pos) }

/-- The state a call of `do_pclink` leaves (the state before it when the call does not
return from a block this development follows). -/
def pcl_after (ccom caux1 caux2 : Nat) (mem : List Nat) (st : PCL) : PCL :=
  match do_pclink ccom caux1 caux2 mem st with
  | some (PCL_OUT.done st') => st'
  | _ => st

/-- The unit `fread_unit 20 0` (a request of 20 bytes on the ten-byte file) after the P
frame. -/
def fread_after_param : PCL :=
  pcl_after 0x50 11 0x01 [] (fread_unit 20 0)

/-- The unit `fread_after_param` after the R frame that follows. -/
def fread_after_exec : PCL :=
  pcl_after 0x52 11 0x01 (List.replicate 11 0) fread_after_param

/-- A PERCOM block with 300 bytes per sector (which `setup_percom` rejects) and its four
padding bytes. -/
def percom_block_300 : List Nat :=
  [0x28, 0x03, 0x00, 0x12, 0x00, 0x00, 0x01, 0x2c, 0x00, 0x00, 0x00, 0x00]

/-- The freshly mounted single-density disk with a PERCOM set for `percom_block_300` on
the line (the block and its checksum). -/
def percom_reject_unit : SIO :=
  { sd_720_unit with rx := percom_block_300 ++ [calc_checksum percom_block_300 12] }

/-- The unit `percom_reject_unit` after `receive_percom`. -/
def percom_rejected_unit : SIO :=
  (receive_percom percom_reject_unit).getD percom_reject_unit

/-- The single-density disk after a PERCOM set for the block `02 03 00 00 20 0c 00 80`
(flag `0x08`: 32 * 65536 = 2097152 sectors of 128 bytes, 2 ^ 28 bytes in all). -/
def big_geometry_unit : SIO :=
  { sd_720_unit with
    dev := (setup_percom sd_720_unit.dev [0x02, 0x03, 0x00, 0x00, 0x20, 0x0c, 0x00, 0x80]).1 }

/-- A local time for the examples: 04.06.2026 03:02:01. -/
def snapshot_time : Int → TM :=
  fun _ => { tm_sec := 1, tm_min := 2, tm_hour := 3, tm_mday := 4, tm_mon := 5, tm_year := 126 }

/-- The mount root "/r" of the examples. -/
def snapshot_root : List Nat := [0x2f, 0x72]

/-- The path "/r/s/..", which names the mount root "/r". -/
def snapshot_dotdot : List Nat := [0x2f, 0x72, 0x2f, 0x73, 0x2f, 0x2e, 0x2e]

/-- A directory stream of user 1000: ".", "..", the file "a.txt" of 5 bytes, the directory
"s", the read-only file "ro.dat" of 70000 bytes and the file "Bad". -/
def snapshot_dir : List DIRENT :=
  [{ d_name := [0x2e],
     sb := some { st_mode := 0x41ed, st_uid := 1000, st_size := 4096, st_mtime := 100 } },
   { d_name := [0x2e, 0x2e],
     sb := some { st_mode := 0x41ed, st_uid := 1000, st_size := 4096, st_mtime := 100 } },
   { d_name := [0x61, 0x2e, 0x74, 0x78, 0x74],
     sb := some { st_mode := 0x81a4, st_uid := 1000, st_size := 5, st_mtime := 100 } },
   { d_name := [0x73],
     sb := some { st_mode := 0x41ed, st_uid := 1000, st_size := 4096, st_mtime := 100 } },
   { d_name := [0x72, 0x6f, 0x2e, 0x64, 0x61, 0x74],
     sb := some { st_mode := 0x8124, st_uid := 1000, st_size := 70000, st_mtime := 100 } },
   { d_name := [0x42, 0x61, 0x64],
     sb := some { st_mode := 0x81a4, st_uid := 1000, st_size := 5, st_mtime := 100 } }]

/-- The host of the examples resolves a path without symbolic links. -/
def example_resolve : List Nat → Option (List Nat) := fun p => some (canonical_path p)

/-- The parameter block of a RENAME with name `????????TXT`, names `????????BAK`, no
attribute and an empty path. -/
def rename_block : List Nat :=
  [0x0b, 0, 0, 0, 0, 0, 0, 0, 0, 0, 0] ++
    [0x3f, 0x3f, 0x3f, 0x3f, 0x3f, 0x3f, 0x3f, 0x3f, 0x54, 0x58, 0x54, 0] ++
    [0x3f, 0x3f, 0x3f, 0x3f, 0x3f, 0x3f, 0x3f, 0x3f, 0x42, 0x41, 0x4b, 0] ++
    List.replicate 65 0

/-- A PCLink unit that holds `rename_block`. -/
def rename_unit : PCL := { pcl_unit [] with parbuf := rename_block }

/-- An entry of user 1000 with the mode `mode` and 5 bytes. -/
def example_entry (name : List Nat) (mode : Nat) : DIRENT :=
  { d_name := name,
    sb := some { st_mode := mode, st_uid := 1000, st_size := 5, st_mtime := 100 } }

/-- The directory ".", "..", "a.txt", "b.txt", "c.dat" (regular files, mode 0644). -/
def rename_dir : List DIRENT :=
  [example_entry [0x2e] 0x41ed, example_entry [0x2e, 0x2e] 0x41ed,
   example_entry [0x61, 0x2e, 0x74, 0x78, 0x74] 0x81a4,
   example_entry [0x62, 0x2e, 0x74, 0x78, 0x74] 0x81a4,
   example_entry [0x63, 0x2e, 0x64, 0x61, 0x74] 0x81a4]

/-- The directory ".", "..", "a.txt" (read-only, mode 0444). -/
def rename_dir_protected : List DIRENT :=
  [example_entry [0x2e] 0x41ed, example_entry [0x2e, 0x2e] 0x41ed,
   example_entry [0x61, 0x2e, 0x74, 0x78, 0x74] 0x8124]

/-- The directory ".", "..", "a.txt", "b.txt", "b.bak", "c.txt" (regular files, mode
0644). -/
def rename_dir_taken : List DIRENT :=
  [example_entry [0x2e] 0x41ed, example_entry [0x2e, 0x2e] 0x41ed,
   example_entry [0x61, 0x2e, 0x74, 0x78, 0x74] 0x81a4,
   example_entry [0x62, 0x2e, 0x74, 0x78, 0x74] 0x81a4,
   example_entry [0x62, 0x2e, 0x62, 0x61, 0x6b] 0x81a4,
   example_entry [0x63, 0x2e, 0x74, 0x78, 0x74] 0x81a4]

/-- The directory "x.txt" (a regular file of user 1000) with "." and "..". -/
def sibling_dir : List DIRENT :=
  [example_entry [0x2e] 0x41ed, example_entry [0x2e, 0x2e] 0x41ed,
   example_entry [0x78, 0x2e, 0x74, 0x78, 0x74] 0x81a4]

/-- A host with the directories "/srv/pcl" (empty) and "/srv/pcl2" (holding "x.txt" with
the bytes 1 to 5), owned by user 1000; paths are resolved without symbolic links. -/
def example_host : HOST :=
  { our_uid := 1000,
    resolve := fun p =>
      if canonical_path p = [0x2f, 0x73, 0x72, 0x76, 0x2f, 0x70, 0x63, 0x6c] ∨
          canonical_path p = [0x2f, 0x73, 0x72, 0x76, 0x2f, 0x70, 0x63, 0x6c, 0x32] ∨
          canonical_path p = [0x2f, 0x73, 0x72, 0x76] then
        some (canonical_path p)
      else none,
    stat := fun p =>
      if canonical_path p = [0x2f, 0x73, 0x72, 0x76, 0x2f, 0x70, 0x63, 0x6c] ∨
          canonical_path p = [0x2f, 0x73, 0x72, 0x76, 0x2f, 0x70, 0x63, 0x6c, 0x32] ∨
          canonical_path p = [0x2f, 0x73, 0x72, 0x76] then
        some { st_mode := 0x41ed, st_uid := 1000, st_size := 4096, st_mtime := 100 }
      else if canonical_path p =
          [0x2f, 0x73, 0x72, 0x76, 0x2f, 0x70, 0x63, 0x6c, 0x32, 0x2f, 0x78, 0x2e, 0x74, 0x78, 0x74]
        then some { st_mode := 0x81a4, st_uid := 1000, st_size := 5, st_mtime := 100 }
      else none,
    opendir := fun p =>
      if canonical_path p = [0x2f, 0x73, 0x72, 0x76, 0x2f, 0x70, 0x63, 0x6c] then
        some [example_entry [0x2e] 0x41ed, example_entry [0x2e, 0x2e] 0x41ed]
      else if canonical_path p = [0x2f, 0x73, 0x72, 0x76, 0x2f, 0x70, 0x63, 0x6c, 0x32] then
        some sibling_dir
      else none,
    fopen := fun p mode =>
      if canonical_path p =
          [0x2f, 0x73, 0x72, 0x76, 0x2f, 0x70, 0x63, 0x6c, 0x32, 0x2f, 0x78, 0x2e, 0x74, 0x78, 0x74]
        then some { data := [1, 2, 3, 4, 5], ioerr := false }
      else none,
    localtime := fun _ =>
      { tm_sec := 1, tm_min := 2, tm_hour := 3, tm_mday := 4, tm_mon := 5, tm_year := 126 },
    mktime := fun _ => 0 }

/-- The mount root "/srv/pcl" of the examples. -/
def example_root : List Nat := [0x2f, 0x73, 0x72, 0x76, 0x2f, 0x70, 0x63, 0x6c]

/-- The parameter block of an FOPEN with the mode `fmode`, the name `X       TXT` and the
request path `path`. -/
def fopen_block (fmode : Nat) (path : List Nat) : List Nat :=
  store (List.replicate sizeof_PARBUF 0)
    ([0x09, 0, 0, 0, 0, 0, 0, 0, fmode, 0, 0] ++
      [0x58, 0x20, 0x20, 0x20, 0x20, 0x20, 0x20, 0x20, 0x54, 0x58, 0x54, 0] ++
      List.replicate 12 0 ++ path)

/-- A PCLink unit after the parameter phase of an FOPEN: it holds `fopen_block fmode path`
and `status.err` is 1. -/
def fopen_unit (fmode : Nat) (path : List Nat) : PCL :=
  { pcl_unit [] with
    unit := { clock_unit with dev := with_err clock_unit.dev 1 },
    parbuf := fopen_block fmode path,
    old_ccom := 0x50 }

/-- The mount root "/srv/pcl2" of the examples. -/
def example_root2 : List Nat := [0x2f, 0x73, 0x72, 0x76, 0x2f, 0x70, 0x63, 0x6c, 0x32]

/-- The request path `<>PCL2`: up one directory and into "pcl2". -/
def sibling_path : List Nat := [0x3c, 0x3e, 0x50, 0x43, 0x4c, 0x32]

/-- The unit `fopen_unit fmode path` with handle 0 occupied. -/
def fopen_busy_unit (fmode : Nat) (path : List Nat) : PCL :=
  { fopen_unit fmode path with
    iodesc := (List.replicate 16 IODESC.closed).set 0
      { IODESC.closed with file := some { data := [9], ioerr := false }, st_size := 1 } }

/-! ## Lemmas on the checksum -/

theorem and_ff_eq_mod (x : Nat) : x &&& 0xff = x % 256 :=
  Nat.and_pow_two_sub_one_eq_mod x 8

theorem cksum_step_eq_spec (c b : Nat) (hc : c < 256) (hb : b < 256) :
    cksum_step c b = spec_cksum_step c b ∧ cksum_step c b < 256 := by
  unfold cksum_step spec_cksum_step
  simp only [and_ff_eq_mod]
  have h1 : (c + b) % 65536 = c + b := Nat.mod_eq_of_lt (by omega)
  rw [h1]
  by_cases h : c + b > 255
  · simp only [h, if_true]
    have h2 : (c + b) % 256 = c + b - 256 := by omega
    rw [h2]
    have h3 : (c + b - 256 + 1) % 256 = c + b - 256 + 1 := Nat.mod_eq_of_lt (by omega)
    rw [h3]
    exact ⟨rfl, by omega⟩
  · simp only [h, if_false]
    have h2 : (c + b) % 256 = c + b := Nat.mod_eq_of_lt (by omega)
    rw [h2, h2]
    exact ⟨rfl, by omega⟩

theorem cksum_step_lt (c b : Nat) : cksum_step c b < 256 := by
  unfold cksum_step
  exact Nat.mod_lt _ (by decide)

theorem foldl_cksum_eq_spec (l : List Nat) (hl : isBytes l) (c : Nat) (hc : c < 256) :
    l.foldl cksum_step c = l.foldl spec_cksum_step c ∧ l.foldl cksum_step c < 256 := by
  induction l generalizing c with
  | nil => exact ⟨rfl, hc⟩
  | cons b t ih =>
    have hb : b < 256 := hl b (List.mem_cons_self b t)
    have ht : isBytes t := fun x hx => hl x (List.mem_cons_of_mem b hx)
    obtain ⟨e, lt⟩ := cksum_step_eq_spec c b hc hb
    simp only [List.foldl_cons]
    rw [← e]
    exact ih ht (cksum_step c b) lt

theorem foldl_cksum_lt (l : List Nat) (c : Nat) (hc : c < 256) :
    l.foldl cksum_step c < 256 := by
  induction l generalizing c with
  | nil => exact hc
  | cons b t ih => exact ih (cksum_step c b) (cksum_step_lt c b)

theorem calc_checksum_lt (buf : List Nat) (n : Nat) : calc_checksum buf n < 256 :=
  foldl_cksum_lt _ 0 (by decide)

theorem isBytes_take (buf : List Nat) (n : Nat) (h : isBytes buf) : isBytes (buf.take n) :=
  fun b hb => h b (List.mem_of_mem_take hb)

theorem isBytes_drop (buf : List Nat) (n : Nat) (h : isBytes buf) : isBytes (buf.drop n) :=
  fun b hb => h b (List.mem_of_mem_drop hb)

theorem isBytes_append (a b : List Nat) (ha : isBytes a) (hb : isBytes b) :
    isBytes (a ++ b) := by
  intro x hx
  rcases List.mem_append.mp hx with h | h
  · exact ha x h
  · exact hb x h

/-! ## Claims C1 and C2 -/

/-- C1: for every byte sequence, `calc_checksum` over its first `n` bytes returns the
value of the specified accumulation (start at 0; for each byte add it and, when the sum
exceeds 255, replace the sum by `(sum AND 0xff) + 1`), computed without any truncation,
and the result fits in one byte. -/
theorem C1_calc_checksum_refines_spec (buf : List Nat) (n : Nat) (hbuf : isBytes buf) :
    calc_checksum buf n = spec_checksum (buf.take n) ∧ spec_checksum (buf.take n) ≤ 255 := by
  obtain ⟨e, lt⟩ := foldl_cksum_eq_spec (buf.take n) (isBytes_take buf n hbuf) 0 (by decide)
  unfold calc_checksum spec_checksum
  rw [← e]
  exact ⟨rfl, by omega⟩

/-- C1 at the status command frame `31 53 00 00`: the checksum is `0x84`. -/
theorem C1_calc_checksum_refines_spec_witness :
    isBytes [0x31, 0x53, 0x00, 0x00] ∧
    (calc_checksum [0x31, 0x53, 0x00, 0x00] 4 = spec_checksum (List.take 4 [0x31, 0x53, 0x00, 0x00]) ∧
      spec_checksum (List.take 4 [0x31, 0x53, 0x00, 0x00]) ≤ 255) :=
  ⟨by decide, C1_calc_checksum_refines_spec [0x31, 0x53, 0x00, 0x00] 4 (by decide)⟩

/-- C2 (as stated, refuted): for the prefix `01 00 00 00` the checksum is 1, and the
checksum of the five bytes `01 00 00 00 01` is 2. -/
theorem C2_counterexample :
    calc_checksum ([1, 0, 0, 0] ++ [calc_checksum [1, 0, 0, 0] 4]) 5 ≠
      calc_checksum [1, 0, 0, 0] 4 := by
  decide

/-- C2 (amended): for every 4-byte prefix `P`, the frame `P` followed by
`calc_checksum(P)` passes the comparison the dispatcher makes, the checksum of its first
four bytes against its fifth byte; the checksum over all five bytes equals
`calc_checksum(P)` exactly when that value is 0 or 255. -/
theorem C2_frame_checksum_accepted (P : List Nat) (hP : P.length = 4) :
    calc_checksum (P ++ [calc_checksum P 4]) 4 = (P ++ [calc_checksum P 4]).getD 4 0 ∧
    (calc_checksum (P ++ [calc_checksum P 4]) 5 = calc_checksum P 4 ↔
      calc_checksum P 4 = 0 ∨ calc_checksum P 4 = 255) := by
  have hc : calc_checksum P 4 < 256 := calc_checksum_lt P 4
  generalize hcdef : calc_checksum P 4 = c at hc ⊢
  have e4 : (P ++ [c]).take 4 = P := List.take_left' hP
  have e5 : (P ++ [c]).take 5 = P ++ [c] := List.take_of_length_le (by simp [hP])
  have eP : P.take 4 = P := List.take_of_length_le (by omega)
  have hfold : P.foldl cksum_step 0 = c := by
    rw [← hcdef]; unfold calc_checksum; rw [eP]
  constructor
  · unfold calc_checksum
    rw [e4, hfold]
    simp [List.getD_eq_getElem?_getD, hP]
  · unfold calc_checksum
    rw [e5, List.foldl_append, hfold]
    simp only [List.foldl_cons, List.foldl_nil]
    obtain ⟨e, _⟩ := cksum_step_eq_spec c c hc hc
    rw [e]
    unfold spec_cksum_step
    rw [and_ff_eq_mod]
    split_ifs <;> omega

/-- C2 (amended) at the status command `31 53 00 00`. -/
theorem C2_frame_checksum_accepted_witness :
    [0x31, 0x53, 0x00, 0x00].length = 4 ∧
    calc_checksum ([0x31, 0x53, 0x00, 0x00] ++ [calc_checksum [0x31, 0x53, 0x00, 0x00] 4]) 4 =
      ([0x31, 0x53, 0x00, 0x00] ++ [calc_checksum [0x31, 0x53, 0x00, 0x00] 4]).getD 4 0 :=
  ⟨rfl, (C2_frame_checksum_accepted [0x31, 0x53, 0x00, 0x00] rfl).1⟩

/-! ## Geometry: C3 and C4 -/

theorem drive_sectors_eq_spec (size bps : Nat) (hsize : size < 2 ^ 64)
    (h : 4 ≤ spec_sectors size bps) : (drive_sectors size bps).2 = spec_sectors size bps := by
  unfold drive_sectors spec_sectors at *
  by_cases hm : size % bps = 0
  · simp only [hm, if_true]
  · simp only [hm, if_false] at h ⊢
    have h384 : 384 ≤ size := by
      by_contra hlt
      have : size - 384 = 0 := by omega
      rw [this] at h
      simp at h
    have e1 : (size + 2 ^ 64 - 384) % 2 ^ 64 = size - 384 := by omega
    rw [e1]
    have h2 : (size - 384) / bps ≤ size - 384 := Nat.div_le_self _ _
    exact Nat.mod_eq_of_lt (by omega)

theorem drive_percom_eq_row (p : PERCOM) (n bps : Nat) (pc : PERCOM) (hbps : bps < 65536)
    (hrow : spec_table_row n bps = some pc) : drive_percom p n bps = pc := by
  have hb1 : bps / 256 % 256 = bps / 256 := Nat.mod_eq_of_lt (by omega)
  have hb2 : bps % 256 % 256 = bps % 256 := by omega
  have hcases : n = 720 ∨ (n = 1040 ∧ bps = 128) ∨ n = 1440 ∨ n = 2002 ∨ n = 2880 ∨
      n = 4004 ∨ n = 5760 := by
    unfold spec_table_row at hrow
    by_contra hc
    simp only [not_or] at hc
    obtain ⟨c1, c2, c3, c4, c5, c6, c7⟩ := hc
    simp [c1, c2, c3, c4, c5, c6, c7] at hrow
  rcases hcases with h | ⟨h, hb⟩ | h | h | h | h | h
  · subst h
    simp only [spec_table_row, if_true, Option.some.injEq] at hrow
    rw [← hrow]
    simp only [drive_percom, if_true, hb1, hb2]
  · subst h; subst hb
    simp [spec_table_row] at hrow
    rw [← hrow]
    simp [drive_percom]
  all_goals
    subst h
    simp [spec_table_row] at hrow
    rw [← hrow]
    simp [drive_percom, hb1, hb2]

/-- C3: for every payload size and bytes-per-sector whose inferred sector count is a row
of the geometry table, `drive_setup` returns 0 and stores that row's PERCOM (tracks,
sectors per track, heads, flags, step rate 3, `bps` split into high and low byte), the
sector count as `maxsec` and `bps`. -/
theorem C3_drive_setup_canonical (dev : DEVICE) (size bps : Nat) (pc : PERCOM)
    (hsize : size < 2 ^ 64) (hbps : bps < 65536)
    (hrow : spec_table_row (spec_sectors size bps) bps = some pc) :
    (drive_setup dev size bps).2 = 0 ∧
    (drive_setup dev size bps).1.percom = pc ∧
    (drive_setup dev size bps).1.maxsec = spec_sectors size bps ∧
    (drive_setup dev size bps).1.bps = bps := by
  have h4 : 4 ≤ spec_sectors size bps := by
    unfold spec_table_row at hrow
    split_ifs at hrow <;> omega
  have hsec := drive_sectors_eq_spec size bps hsize h4
  generalize spec_sectors size bps = n at *
  have hn : ¬ n < 1 := by omega
  unfold drive_setup
  simp only [hsec, hn, if_false]
  refine ⟨trivial, drive_percom_eq_row _ n bps pc hbps hrow, trivial, ?_⟩
  split_ifs <;> rfl

/-- C3 at a compact double-density image of 720 sectors (183936 payload bytes). -/
theorem C3_drive_setup_canonical_witness :
    (183936 < 2 ^ 64 ∧ 256 < 65536 ∧
      spec_table_row (spec_sectors 183936 256) 256 =
        some { trk := 40, step := 3, spt_hi := 0, spt_lo := 18, heads := 0, flags := 0x04,
               bps_hi := 1, bps_lo := 0 }) ∧
    (drive_setup device_reset 183936 256).1.percom =
      { trk := 40, step := 3, spt_hi := 0, spt_lo := 18, heads := 0, flags := 0x04,
        bps_hi := 1, bps_lo := 0 } :=
  ⟨⟨by decide, by decide, by decide⟩,
   (C3_drive_setup_canonical device_reset 183936 256 _ (by decide) (by decide) (by decide)).2.1⟩

theorem and_four_eq_zero_iff (f : Nat) : (f &&& 0x04 = 0) ↔ f.testBit 2 = false := by
  have h := Nat.and_two_pow f 2
  have h4 : (2:Nat)^2 = 4 := by norm_num
  rw [h4] at h
  rw [h]
  cases f.testBit 2 <;> simp

theorem getD_lt_of_isBytes (buf : List Nat) (h : isBytes buf) (k : Nat) : buf.getD k 0 < 256 := by
  rw [List.getD_eq_getElem?_getD]
  by_cases hk : k < buf.length
  · rw [List.getElem?_eq_getElem hk]
    exact h _ (List.getElem_mem hk)
  · rw [List.getElem?_eq_none (by omega)]
    decide

theorem setup_percom_snd (dev : DEVICE) (ibuf : List Nat) :
    (setup_percom dev ibuf).2 =
      if ((ibuf.getD 6 0 * 256 + ibuf.getD 7 0) % 65536 ≠ 0x0080 ∧
          (ibuf.getD 6 0 * 256 + ibuf.getD 7 0) % 65536 ≠ 0x0100 ∧
          (ibuf.getD 6 0 * 256 + ibuf.getD 7 0) % 65536 ≠ 0x0200 ∧
          (ibuf.getD 6 0 * 256 + ibuf.getD 7 0) % 65536 ≠ 0x0400) ∨
         ((ibuf.getD 6 0 * 256 + ibuf.getD 7 0) % 65536 ≥ 256 ∧ ibuf.getD 5 0 &&& 0x04 = 0) ∨
         ((ibuf.getD 2 0 * 256 + ibuf.getD 3 0) % 65536 > 18 ∧ ibuf.getD 5 0 &&& 0x04 = 0)
      then -1 else 0 := by
  unfold setup_percom
  simp only []
  split_ifs <;> first | rfl | tauto

theorem setup_percom_ret (dev : DEVICE) (ibuf : List Nat) (hb : isBytes ibuf) :
    ((setup_percom dev ibuf).2 = 0 ↔ spec_percom_ok ibuf) ∧
    ((setup_percom dev ibuf).2 = 0 ∨ (setup_percom dev ibuf).2 = -1) := by
  have h2 := getD_lt_of_isBytes ibuf hb 2
  have h3 := getD_lt_of_isBytes ibuf hb 3
  have h6 := getD_lt_of_isBytes ibuf hb 6
  have h7 := getD_lt_of_isBytes ibuf hb 7
  rw [setup_percom_snd]
  unfold spec_percom_ok
  simp only []
  have e1 : (ibuf.getD 6 0 * 256 + ibuf.getD 7 0) % 65536 = ibuf.getD 6 0 * 256 + ibuf.getD 7 0 :=
    Nat.mod_eq_of_lt (by omega)
  have e2 : (ibuf.getD 2 0 * 256 + ibuf.getD 3 0) % 65536 = ibuf.getD 2 0 * 256 + ibuf.getD 3 0 :=
    Nat.mod_eq_of_lt (by omega)
  simp only [e1, e2, and_four_eq_zero_iff]
  generalize ibuf.getD 6 0 * 256 + ibuf.getD 7 0 = bps
  generalize ibuf.getD 2 0 * 256 + ibuf.getD 3 0 = spt
  generalize (ibuf.getD 5 0).testBit 2 = bit
  split_ifs with c
  · refine ⟨⟨fun h => absurd h (by decide), fun h => ?_⟩, Or.inr rfl⟩
    rcases c with c | c | c
    · omega
    · exact absurd ⟨c.2, Or.inr c.1⟩ h.2
    · exact absurd ⟨c.2, Or.inl c.1⟩ h.2
  · refine ⟨⟨fun _ => ⟨by omega, ?_⟩, fun _ => rfl⟩, Or.inl rfl⟩
    rintro ⟨hbit, hor⟩
    rcases hor with h | h
    · exact c (Or.inr (Or.inr ⟨h, hbit⟩))
    · exact c (Or.inr (Or.inl ⟨h, hbit⟩))

/-- C4: `setup_percom` returns 0 exactly when the block's bytes per sector is 128, 256,
512 or 1024 and it is not the case that flag bit 2 is clear while sectors per track exceed
18 or bytes per sector is at least 256, and returns -1 otherwise; `bps=128, spt=18,
trk=40, flags=0` and `spt=26, bps=128, flags=0x04, trk=40` are accepted, `bps=256,
flags=0` and `bps=300` are rejected. -/
theorem C4_setup_percom_accepts_iff (dev : DEVICE) (ibuf : List Nat) (hb : isBytes ibuf) :
    ((setup_percom dev ibuf).2 = 0 ↔ spec_percom_ok ibuf) ∧
    ((setup_percom dev ibuf).2 = 0 ∨ (setup_percom dev ibuf).2 = -1) ∧
    (∀ step heads, (setup_percom dev [40, step, 0, 18, heads, 0x00, 0, 128]).2 = 0) ∧
    (∀ step heads, (setup_percom dev [40, step, 0, 26, heads, 0x04, 0, 128]).2 = 0) ∧
    (∀ trk step spt_hi spt_lo heads,
      (setup_percom dev [trk, step, spt_hi, spt_lo, heads, 0x00, 1, 0]).2 = -1) ∧
    (∀ trk step spt_hi spt_lo heads flags,
      (setup_percom dev [trk, step, spt_hi, spt_lo, heads, flags, 1, 44]).2 = -1) := by
  obtain ⟨h1, h2⟩ := setup_percom_ret dev ibuf hb
  refine ⟨h1, h2, ?_, ?_, ?_, ?_⟩
  · intro step heads; rw [setup_percom_snd]; simp
  · intro step heads; rw [setup_percom_snd]; simp
  · intro trk step spt_hi spt_lo heads; rw [setup_percom_snd]; simp
  · intro trk step spt_hi spt_lo heads flags; rw [setup_percom_snd]; simp

/-- C4 at the enhanced-density block `28 03 00 1a 00 04 00 80`. -/
theorem C4_setup_percom_accepts_iff_witness :
    isBytes [0x28, 0x03, 0x00, 0x1a, 0x00, 0x04, 0x00, 0x80] ∧
    ((setup_percom device_reset [0x28, 0x03, 0x00, 0x1a, 0x00, 0x04, 0x00, 0x80]).2 = 0 ↔
      spec_percom_ok [0x28, 0x03, 0x00, 0x1a, 0x00, 0x04, 0x00, 0x80]) :=
  ⟨by decide,
   (C4_setup_percom_accepts_iff device_reset [0x28, 0x03, 0x00, 0x1a, 0x00, 0x04, 0x00, 0x80]
      (by decide)).1⟩

/-! ## Sector seek: C5 and C6 -/

theorem atr_offset_eq (dev : DEVICE) (s : Nat) (hs : 1 ≤ s) :
    atr_offset dev (s : Int) = ((seek_off dev s : Nat) : Int) := by
  obtain ⟨k, rfl⟩ : ∃ k, s = k + 1 := ⟨s - 1, by omega⟩
  unfold atr_offset seek_off
  simp only []
  by_cases hb : dev.bps = 256
  · simp only [hb, if_true]
    by_cases h4 : k + 1 < 4
    · have h4i : ((k + 1 : Nat) : Int) < 4 := by omega
      simp only [h4, h4i, if_true]
      rw [Nat.add_sub_cancel]
      split_ifs <;> (push_cast; ring)
    · have h4i : ¬ ((k + 1 : Nat) : Int) < 4 := by omega
      simp only [h4, h4i, if_false]
      obtain ⟨j, rfl⟩ : ∃ j, k = j + 3 := ⟨k - 3, by omega⟩
      have e1 : j + 3 + 1 - 4 = j := by omega
      have e2 : j + 3 + 1 - 1 = j + 3 := by omega
      rw [e1, e2]
      split_ifs <;> (push_cast; ring)
  · simp only [hb, if_false]
    rw [Nat.add_sub_cancel]
    push_cast; ring

theorem atr_seek_eq (st : SIO) (s : Nat) (hs : 1 ≤ s) (hfd : st.dev.fd > -1) :
    atr_seek st (s : Int) =
      ({ st with file := { st.file with pos := seek_off st.dev s } }, 0) := by
  unfold atr_seek lseek
  rw [atr_offset_eq st.dev s hs]
  have h1 : ¬ (st.dev.fd < 0 ∨ ((seek_off st.dev s : Nat) : Int) < 0) := by omega
  simp only [h1, if_false, ne_eq, not_true_eq_false, Int.toNat_ofNat]

/-- C5: on an open image `atr_seek` succeeds for every sector `s ≥ 1`, leaves the file
contents alone and positions the file at `16 + (s-1)*bps` when `bps` is not 256; for 256
byte sectors in compact mode (`full13 = 0`) the position is `16 + (s-1)*128` for `s` in
1..3 and `16 + 384 + (s-4)*256` for `s ≥ 4`, so sectors 1, 2, 3, 4 are at 16, 144, 272,
400. -/
theorem C5_atr_seek_offsets (st : SIO) (s : Nat) (hs : 1 ≤ s) (hfd : st.dev.fd > -1) :
    (atr_seek st (s : Int)).2 = 0 ∧
    (atr_seek st (s : Int)).1.file.data = st.file.data ∧
    (st.dev.bps ≠ 256 → (atr_seek st (s : Int)).1.file.pos = 16 + (s - 1) * st.dev.bps) ∧
    (st.dev.bps = 256 → st.dev.full13 = 0 →
      (s ≤ 3 → (atr_seek st (s : Int)).1.file.pos = 16 + (s - 1) * 128) ∧
      (4 ≤ s → (atr_seek st (s : Int)).1.file.pos = 16 + 384 + (s - 4) * 256) ∧
      (atr_seek st 1).1.file.pos = 16 ∧ (atr_seek st 2).1.file.pos = 144 ∧
      (atr_seek st 3).1.file.pos = 272 ∧ (atr_seek st 4).1.file.pos = 400) := by
  rw [atr_seek_eq st s hs hfd]
  refine ⟨rfl, rfl, ?_, ?_⟩
  · intro hb
    simp [seek_off, hb]
  · intro hb hf
    have e1 := atr_seek_eq st 1 (by decide) hfd
    have e2 := atr_seek_eq st 2 (by decide) hfd
    have e3 := atr_seek_eq st 3 (by decide) hfd
    have e4 := atr_seek_eq st 4 (by decide) hfd
    simp only [Nat.cast_ofNat, Nat.cast_one] at e1 e2 e3 e4
    rw [e1, e2, e3, e4]
    simp only [seek_off, hb, hf, if_true]
    refine ⟨fun h => ?_, fun h => ?_, by decide, by decide, by decide, by decide⟩
    · have : s < 4 := by omega
      simp [this]
    · have : ¬ s < 4 := by omega
      simp [this]; omega

/-- C5 at sector 4 of a mounted compact double-density image. -/
theorem C5_atr_seek_offsets_witness :
    (1 ≤ 4 ∧ (mounted_unit 11496 256 []).dev.fd > -1) ∧
    (atr_seek (mounted_unit 11496 256 []) ((4 : Nat) : Int)).2 = 0 :=
  ⟨⟨by decide, by decide⟩,
   (C5_atr_seek_offsets (mounted_unit 11496 256 []) 4 (by decide) (by decide)).1⟩

/-- C6 (as stated, refuted): on a mounted 256-byte-sector image in full mode (720 full
sectors, `full13 = 1`) sector 2 is placed at offset 144, inside the first 256 bytes after
the header, and sector 4 at offset 784, not 1040. -/
theorem C6_counterexample :
    (mounted_unit 11520 256 []).dev.bps = 256 ∧
    (mounted_unit 11520 256 []).dev.full13 = 1 ∧
    (atr_seek (mounted_unit 11520 256 []) 2).1.file.pos = 144 ∧
    (atr_seek (mounted_unit 11520 256 []) 4).1.file.pos = 784 ∧
    (atr_seek (mounted_unit 11520 256 []) 4).1.file.pos ≠ 1040 := by
  decide

/-- C6 (amended): for a 256-byte-sector image in full mode (`full13 ≠ 0`) sectors 1-3 are
transferred as 128 bytes and lie back to back at `16 + (s-1)*128` (offsets 16, 144, 272,
the first half of the 768-byte boot area), every sector `s ≥ 4` is at `16 + (s-1)*256`,
and `atr_seek` places sector 4 at file offset 784. -/
theorem C6_atr_seek_full_mode (st : SIO) (s : Nat) (hs : 1 ≤ s) (hfd : st.dev.fd > -1)
    (hb : st.dev.bps = 256) (hf : st.dev.full13 ≠ 0) :
    (atr_seek st (s : Int)).2 = 0 ∧
    (s ≤ 3 → (atr_seek st (s : Int)).1.file.pos = 16 + (s - 1) * 128 ∧
             xfer_bps 3 st.dev (s : Int) = 128) ∧
    (4 ≤ s → (atr_seek st (s : Int)).1.file.pos = 16 + (s - 1) * 256) ∧
    (atr_seek st 4).1.file.pos = 784 := by
  have e4 := atr_seek_eq st 4 (by decide) hfd
  simp only [Nat.cast_ofNat] at e4
  rw [atr_seek_eq st s hs hfd, e4]
  simp only [seek_off, hb, if_true]
  refine ⟨trivial, fun h => ?_, fun h => ?_, by simp [hf]⟩
  · have h4 : s < 4 := by omega
    have h4i : (s : Int) < 4 := by omega
    simp [h4, xfer_bps, hb, h4i]
  · have : ¬ s < 4 := by omega
    simp [this, hf]

/-- C6 (amended) at sector 4 of a mounted full-mode double-density image. -/
theorem C6_atr_seek_full_mode_witness :
    (1 ≤ 4 ∧ (mounted_unit 11520 256 []).dev.fd > -1 ∧
      (mounted_unit 11520 256 []).dev.bps = 256 ∧ (mounted_unit 11520 256 []).dev.full13 ≠ 0) ∧
    (atr_seek (mounted_unit 11520 256 []) 4).1.file.pos = 784 :=
  ⟨⟨by decide, by decide, by decide, by decide⟩,
   (C6_atr_seek_full_mode (mounted_unit 11520 256 []) 4 (by decide) (by decide) (by decide)
      (by decide)).2.2.2⟩


/-! ## Sector transfer: lemmas -/

theorem com_read_loop_data (rx : List Nat) (size i : Nat) (acc : List Nat) :
    com_read_loop COM_DATA rx size i acc =
      if size ≤ rx.length then some (acc ++ rx.take size, rx.drop size) else none := by
  induction rx generalizing size i acc with
  | nil =>
    cases size with
    | zero => simp [com_read_loop]
    | succ n => simp [com_read_loop]
  | cons b rest ih =>
    cases size with
    | zero => simp [com_read_loop]
    | succ n =>
      have hne : ¬ (COM_DATA = COM_COMD ∧ i = 0 ∧ b = 0xff) := by
        intro h; exact absurd h.1 (by decide)
      simp only [com_read_loop, hne, if_false]
      rw [ih]
      simp only [List.length_cons, Nat.add_le_add_iff_right, List.take_succ_cons,
        List.drop_succ_cons, List.append_assoc, List.singleton_append]

theorem com_read_data (st : SIO) (size : Nat) :
    com_read st size COM_DATA =
      if size ≤ st.rx.length then some (st.rx.take size, { st with rx := st.rx.drop size })
      else none := by
  unfold com_read
  rw [com_read_loop_data]
  split_ifs <;> simp

theorem pwrite_data_length (data : List Nat) (pos : Nat) (bytes : List Nat) :
    (pwrite_data data pos bytes).length = max data.length (pos + bytes.length) := by
  unfold pwrite_data
  simp only [List.length_append, List.length_take, List.length_replicate, List.length_drop]
  omega

theorem pwrite_data_getElem? (data : List Nat) (pos : Nat) (bytes : List Nat) (k : Nat) :
    (pwrite_data data pos bytes)[k]? =
      if k < pos then (if k < data.length then data[k]? else some 0)
      else if k < pos + bytes.length then bytes[k - pos]?
      else data[k]? := by
  unfold pwrite_data
  have hl : (List.take pos data ++ List.replicate (pos - data.length) 0).length = pos := by
    simp only [List.length_append, List.length_take, List.length_replicate]; omega
  by_cases h1 : k < pos
  · simp only [h1, if_true]
    rw [List.append_assoc, List.append_assoc]
    by_cases h2 : k < data.length
    · simp only [h2, if_true]
      rw [List.getElem?_append_left (by simp only [List.length_take]; omega)]
      rw [List.getElem?_take_of_lt h1]
    · simp only [h2, if_false]
      rw [List.getElem?_append_right (by simp only [List.length_take]; omega)]
      rw [List.getElem?_append_left (by
        simp only [List.length_take, List.length_replicate]; omega)]
      rw [List.getElem?_replicate]
      simp only [List.length_take]
      have : k - min pos data.length < pos - data.length := by omega
      simp only [this, if_true]
  · simp only [h1, if_false]
    by_cases h2 : k < pos + bytes.length
    · simp only [h2, if_true]
      rw [List.getElem?_append_left (by simp only [List.length_append, hl]; omega)]
      rw [List.getElem?_append_right (by rw [hl]; omega), hl]
    · simp only [h2, if_false]
      rw [List.getElem?_append_right (by simp only [List.length_append, hl]; omega)]
      simp only [List.length_append, hl]
      rw [List.getElem?_drop]
      congr 1
      omega

theorem pwrite_data_read_back (data : List Nat) (pos : Nat) (bytes : List Nat) :
    ((pwrite_data data pos bytes).drop pos).take bytes.length = bytes := by
  apply List.ext_getElem?
  intro k
  rw [List.getElem?_take, List.getElem?_drop, pwrite_data_getElem?]
  by_cases hk : k < bytes.length
  · have h1 : ¬ pos + k < pos := by omega
    have h2 : pos + k < pos + bytes.length := by omega
    simp only [hk, h1, h2, if_true, if_false]
    congr 1; omega
  · simp only [hk, if_false]
    exact (List.getElem?_eq_none (by omega)).symm

theorem pwrite_data_frame (data : List Nat) (pos : Nat) (bytes : List Nat) (p n : Nat)
    (hin : p + n ≤ data.length) (hdis : p + n ≤ pos ∨ pos + bytes.length ≤ p) :
    ((pwrite_data data pos bytes).drop p).take n = (data.drop p).take n := by
  apply List.ext_getElem?
  intro k
  rw [List.getElem?_take, List.getElem?_take, List.getElem?_drop, List.getElem?_drop,
    pwrite_data_getElem?]
  by_cases hk : k < n
  · simp only [hk, if_true]
    rcases hdis with h | h
    · have h1 : p + k < pos := by omega
      have h2 : p + k < data.length := by omega
      simp only [h1, h2, if_true]
    · have h1 : ¬ p + k < pos := by omega
      have h2 : ¬ p + k < pos + bytes.length := by omega
      simp only [h1, h2, if_false]
  · simp only [hk, if_false]

theorem store_take (buf bytes : List Nat) : (store buf bytes).take bytes.length = bytes := by
  unfold store
  exact List.take_left bytes _

theorem store_length (buf bytes : List Nat) (h : bytes.length ≤ buf.length) :
    (store buf bytes).length = buf.length := by
  unfold store
  simp only [List.length_append, List.length_drop]
  omega

theorem calc_checksum_store (buf bytes : List Nat) :
    calc_checksum (store buf bytes) bytes.length = calc_checksum bytes bytes.length := by
  unfold calc_checksum
  rw [store_take, List.take_of_length_le (Nat.le_refl _)]

theorem take_succ_set (l : List Nat) (n v : Nat) (h : n < l.length) :
    (l.set n v).take (n + 1) = l.take n ++ [v] := by
  apply List.ext_getElem?
  intro k
  rw [List.getElem?_take, List.getElem?_set, List.getElem?_append, List.length_take]
  have hmin : min n l.length = n := by omega
  rw [hmin]
  by_cases hk : k < n
  · have h1 : k < n + 1 := by omega
    have h2 : ¬ n = k := by omega
    simp only [h1, h2, hk, if_true, if_false]
    rw [List.getElem?_take_of_lt hk]
  · by_cases hk2 : k = n
    · subst hk2
      simp [h]
    · have h1 : ¬ k < n + 1 := by omega
      simp only [h1, hk, if_false]
      exact (List.getElem?_eq_none (by simp; omega)).symm

theorem calc_checksum_set (l : List Nat) (n v : Nat) :
    calc_checksum (l.set n v) n = calc_checksum l n := by
  unfold calc_checksum
  congr 1
  apply List.ext_getElem?
  intro k
  rw [List.getElem?_take, List.getElem?_take, List.getElem?_set]
  by_cases hk : k < n
  · have : ¬ n = k := by omega
    simp only [hk, this, if_true, if_false]
  · simp only [hk, if_false]
theorem sio_ack_eq (st : SIO) (w : Nat) :
    sio_ack st w =
      { st with tx := st.tx ++ [w], dev := with_stat st.dev (ack_stat st.dev.status.stat w) } := by
  simp [sio_ack, com_write, ack_stat]

@[simp] theorem with_stat_fd (dev : DEVICE) (v : Nat) : (with_stat dev v).fd = dev.fd := rfl
@[simp] theorem with_stat_bps (dev : DEVICE) (v : Nat) : (with_stat dev v).bps = dev.bps := rfl
@[simp] theorem with_stat_maxsec (dev : DEVICE) (v : Nat) :
    (with_stat dev v).maxsec = dev.maxsec := rfl
@[simp] theorem with_stat_full13 (dev : DEVICE) (v : Nat) :
    (with_stat dev v).full13 = dev.full13 := rfl
@[simp] theorem with_stat_stat (dev : DEVICE) (v : Nat) :
    (with_stat dev v).status.stat = v := rfl
@[simp] theorem with_stat_with_stat (dev : DEVICE) (v w : Nat) :
    with_stat (with_stat dev v) w = with_stat dev w := rfl
@[simp] theorem xfer_bps_with_stat (devno : Nat) (dev : DEVICE) (v : Nat) (s : Int) :
    xfer_bps devno (with_stat dev v) s = xfer_bps devno dev s := rfl
@[simp] theorem seek_off_with_stat (dev : DEVICE) (v : Nat) (s : Nat) :
    seek_off (with_stat dev v) s = seek_off dev s := rfl

theorem atr_seek_cases (st : SIO) (s : Nat) (hs : 1 ≤ s) :
    atr_seek st (s : Int) =
      if st.dev.fd > -1 then
        ({ st with file := { st.file with pos := seek_off st.dev s } }, 0)
      else (st, -1) := by
  by_cases hfd : st.dev.fd > -1
  · rw [if_pos hfd]; exact atr_seek_eq st s hs hfd
  · rw [if_neg hfd]
    unfold atr_seek lseek
    have h1 : st.dev.fd < 0 ∨ atr_offset st.dev (s : Int) < 0 := Or.inl (by omega)
    have h2 : (-1 : Int) ≠ atr_offset st.dev (s : Int) := by
      rw [atr_offset_eq st.dev s hs]; omega
    simp only [h1, if_true, h2, ne_eq, not_false_eq_true]

/-- The outcome of `receive_sector` on unit `i` of the disk class for a sector `s ≥ 1`,
branch by branch. -/
theorem receive_sector_eq (i s : Nat) (st : SIO) (hs : 1 ≤ s) :
    receive_sector 3 i (s : Int) st =
      if i ≠ 0 ∧ ((s : Int) = 0 ∨ (s : Int) > toLong st.dev.maxsec) then
        some { st with tx := st.tx ++ [0x4e],
                       dev := with_stat st.dev (ack_stat st.dev.status.stat 0x4e) }
      else if st.rx.length < xfer_bps 3 st.dev s + 1 then none
      else if calc_checksum (st.rx.take (xfer_bps 3 st.dev s)) (xfer_bps 3 st.dev s) ≠
          st.rx.getD (xfer_bps 3 st.dev s) 0 then
        some { st with
          tx := st.tx ++ [0x41, 0x45],
          rx := st.rx.drop (xfer_bps 3 st.dev s + 1),
          inpbuf := store st.inpbuf (st.rx.take (xfer_bps 3 st.dev s)),
          dev := with_stat st.dev (ack_stat
            ((ack_stat st.dev.status.stat 0x41 &&& (0xff ^^^ 0x02)) ||| 0x02) 0x45) }
      else if st.dev.fd > -1 ∧ st.file.writable = true then
        some { st with
          tx := st.tx ++ [0x41, 0x41, 0x43],
          rx := st.rx.drop (xfer_bps 3 st.dev s + 1),
          inpbuf := store st.inpbuf (st.rx.take (xfer_bps 3 st.dev s)),
          file := { st.file with
            data := pwrite_data st.file.data (seek_off st.dev s)
              (st.rx.take (xfer_bps 3 st.dev s)),
            pos := seek_off st.dev s + xfer_bps 3 st.dev s },
          dev := with_stat st.dev (ack_stat (ack_stat
            (ack_stat st.dev.status.stat 0x41 &&& (0xff ^^^ 0x02)) 0x41) 0x43) }
      else
        some { st with
          tx := st.tx ++ [0x41, 0x41, 0x45],
          rx := st.rx.drop (xfer_bps 3 st.dev s + 1),
          inpbuf := store st.inpbuf (st.rx.take (xfer_bps 3 st.dev s)),
          file := { st.file with
            pos := if st.dev.fd > -1 then seek_off st.dev s else st.file.pos },
          dev := with_stat st.dev (ack_stat (ack_stat
            (ack_stat st.dev.status.stat 0x41 &&& (0xff ^^^ 0x02)) 0x41) 0x45) } := by
  generalize hb : xfer_bps 3 st.dev s = bps
  have hseek := fun st' : SIO => atr_seek_cases st' s hs
  unfold receive_sector
  simp only [true_and, sio_ack_eq, xfer_bps_with_stat, hb, com_read_data]
  by_cases hr : i ≠ 0 ∧ ((s : Int) = 0 ∨ (s : Int) > toLong st.dev.maxsec)
  · rw [if_pos hr, if_pos hr]
  · rw [if_neg hr, if_neg hr]
    by_cases hlen : st.rx.length < bps + 1
    · simp only [hlen, if_true]
      by_cases h1 : bps ≤ st.rx.length
      · have h2 : ¬ 1 ≤ (st.rx.drop bps).length := by rw [List.length_drop]; omega
        simp only [h1, h2, if_true, if_false]
      · simp only [h1, if_false]
    · have h1 : bps ≤ st.rx.length := by omega
      have h2 : 1 ≤ (st.rx.drop bps).length := by rw [List.length_drop]; omega
      have hDlen : (st.rx.take bps).length = bps := by rw [List.length_take]; omega
      have hck : calc_checksum (store st.inpbuf (st.rx.take bps)) bps =
          calc_checksum (st.rx.take bps) bps := by
        have := calc_checksum_store st.inpbuf (st.rx.take bps)
        rwa [hDlen] at this
      have hsck : (List.take 1 (List.drop bps st.rx)).getD 0 0 = st.rx.getD bps 0 := by
        simp only [List.getD_eq_getElem?_getD, List.getElem?_take, List.getElem?_drop]
        simp
      have htake : (store st.inpbuf (st.rx.take bps)).take bps = st.rx.take bps := by
        have := store_take st.inpbuf (st.rx.take bps)
        rwa [hDlen] at this
      simp only [hlen, h1, h2, if_true, if_false, hck, hsck, List.drop_drop, with_stat_stat,
        with_stat_with_stat, List.append_assoc, List.singleton_append]
      by_cases hbad : calc_checksum (st.rx.take bps) bps ≠ st.rx.getD bps 0
      · simp only [hbad, if_true, ne_eq, not_false_eq_true]
      · simp only [hbad, if_false, ne_eq, hseek, with_stat_fd, seek_off_with_stat]
        by_cases hfd : st.dev.fd > -1
        · have hfd' : ¬ st.dev.fd < 0 := by omega
          simp only [hfd, if_true, true_and, write, htake, hDlen, with_stat_fd, hfd', false_or,
            lt_self_iff_false, if_false]
          by_cases hw : st.file.writable = true
          · simp [hw, hfd']
          · have hw' : st.file.writable = false := by simpa using hw
            simp [hw']
        · simp [hfd]
theorem send_sector_nak (i ccom : Nat) (s : Int) (st : SIO)
    (hr : s = 0 ∨ s > toLong st.dev.maxsec) :
    (send_sector 3 i ccom s st).tx = st.tx ++ [0x4e] := by
  unfold send_sector
  rw [if_pos ⟨rfl, hr⟩, sio_ack_eq]

theorem send_sector_ok (i ccom s : Nat) (st : SIO) (hs : 1 ≤ s)
    (hr : ¬ ((s : Int) = 0 ∨ (s : Int) > toLong st.dev.maxsec))
    (hfd : st.dev.fd > -1)
    (hin : seek_off st.dev s + xfer_bps 3 st.dev s ≤ st.file.data.length)
    (hout : xfer_bps 3 st.dev s < st.outbuf.length) :
    (send_sector 3 i ccom s st).tx =
      st.tx ++ [0x41, 0x43] ++
        (if ccom ≠ 0x56 then
          (st.file.data.drop (seek_off st.dev s)).take (xfer_bps 3 st.dev s) ++
            [calc_checksum ((st.file.data.drop (seek_off st.dev s)).take (xfer_bps 3 st.dev s))
              (xfer_bps 3 st.dev s)]
         else []) := by
  generalize hb : xfer_bps 3 st.dev s = bps at *
  generalize hD : (st.file.data.drop (seek_off st.dev s)).take bps = D
  have hDlen : D.length = bps := by
    rw [← hD, List.length_take, List.length_drop]; omega
  have hfd' : ¬ st.dev.fd < 0 := by omega
  have hr' : ¬ (3 = 3 ∧ ((s : Int) = 0 ∨ (s : Int) > toLong st.dev.maxsec)) := fun h => hr h.2
  have hck : calc_checksum (store st.outbuf D) bps = calc_checksum D bps := by
    have := calc_checksum_store st.outbuf D
    rwa [hDlen] at this
  have hslen : bps < (store st.outbuf D).length := by
    rw [store_length _ _ (by omega)]; exact hout
  have htk : ((store st.outbuf D).set bps (calc_checksum D bps)).take (bps + 1) =
      D ++ [calc_checksum D bps] := by
    rw [take_succ_set _ _ _ hslen]
    have := store_take st.outbuf D
    rw [hDlen] at this
    rw [this]
  unfold send_sector
  rw [if_neg hr']
  simp only [sio_ack_eq, xfer_bps_with_stat, hb, if_true, atr_seek_cases _ s hs, with_stat_fd,
    hfd, seek_off_with_stat, lt_self_iff_false, if_false, read, hfd', hD, hDlen, hck,
    com_write, htk, Int.lt_irrefl]
  split_ifs <;> simp
theorem ack_stat_bit1 (x w : Nat) : (ack_stat x w).testBit 1 = x.testBit 1 := by
  have a : Nat.testBit 250 1 = true := by decide
  have b : Nat.testBit 4 1 = false := by decide
  have c : Nat.testBit 1 1 = false := by decide
  unfold ack_stat
  simp only []
  split_ifs <;> simp [Nat.testBit_and, Nat.testBit_or, a, b, c]

theorem ack_stat_bit2 (x w : Nat) : (ack_stat x w).testBit 2 = decide (w = 0x45) := by
  have a : Nat.testBit 250 2 = false := by decide
  have b : Nat.testBit 4 2 = true := by decide
  have c : Nat.testBit 1 2 = false := by decide
  unfold ack_stat
  simp only []
  split_ifs with h1 h2 <;> simp [Nat.testBit_and, Nat.testBit_or, h1, a, b, c]

theorem clear_bit1 (x : Nat) : (x &&& (0xff ^^^ 0x02)).testBit 1 = false := by
  have a : Nat.testBit 253 1 = false := by decide
  simp [Nat.testBit_and, a]

theorem set_bit1 (x : Nat) : (x ||| 0x02).testBit 1 = true := by
  have a : Nat.testBit 2 1 = true := by decide
  simp [Nat.testBit_or, a]

theorem toLong_of_lt (n : Nat) (h : n < 2 ^ 63) : toLong n = (n : Int) := by
  unfold toLong
  have h1 : n % 2 ^ 64 = n := Nat.mod_eq_of_lt (by omega)
  rw [h1, if_pos h]

theorem xfer_bps_nat (dev : DEVICE) (s : Nat) :
    xfer_bps 3 dev (s : Int) = if dev.bps = 256 ∧ s < 4 then 128 else dev.bps := by
  unfold xfer_bps
  by_cases h : dev.bps = 256 ∧ s < 4
  · have h' : 3 = 3 ∧ dev.bps = 256 ∧ (s : Int) < 4 := ⟨rfl, h.1, by omega⟩
    rw [if_pos h, if_pos h']
  · have h' : ¬ (3 = 3 ∧ dev.bps = 256 ∧ (s : Int) < 4) := by
      rintro ⟨_, h1, h2⟩; exact h ⟨h1, by omega⟩
    rw [if_neg h, if_neg h']

theorem slots_disjoint (dev : DEVICE) (s t : Nat) (hs : 1 ≤ s) (ht : 1 ≤ t) (hst : s ≠ t)
    (hb : dev.bps = 128 ∨ dev.bps = 256 ∨ dev.bps = 512 ∨ dev.bps = 1024) :
    seek_off dev s + xfer_bps 3 dev (s : Int) ≤ seek_off dev t ∨
    seek_off dev t + xfer_bps 3 dev (t : Int) ≤ seek_off dev s := by
  rw [xfer_bps_nat, xfer_bps_nat]
  unfold seek_off
  rcases hb with h | h | h | h
  · simp only [h, Nat.reduceEqDiff, false_and, if_false]; omega
  · simp only [h, true_and, if_true]; split_ifs <;> omega
  · simp only [h, Nat.reduceEqDiff, false_and, if_false]; omega
  · simp only [h, Nat.reduceEqDiff, false_and, if_false]; omega
theorem seek_off_ge (dev : DEVICE) (s : Nat) : 16 ≤ seek_off dev s := by
  unfold seek_off; omega

theorem xfer_bps_le (dev : DEVICE) (s : Int)
    (hb : dev.bps = 128 ∨ dev.bps = 256 ∨ dev.bps = 512 ∨ dev.bps = 1024) :
    xfer_bps 3 dev s ≤ 1024 := by
  unfold xfer_bps
  split_ifs <;> omega

/-- What `receive_sector` can have done to the image and to the rest of the state. -/
theorem receive_sector_effect (i s : Nat) (st st1 : SIO) (hs : 1 ≤ s)
    (hrecv : receive_sector 3 i (s : Int) st = some st1) :
    (∃ v, st1.dev = with_stat st.dev v) ∧ st1.outbuf = st.outbuf ∧
    (st1.file.data = st.file.data ∨
      (st1.file.data = pwrite_data st.file.data (seek_off st.dev s)
          (st.rx.take (xfer_bps 3 st.dev s)) ∧
        (st.rx.take (xfer_bps 3 st.dev s)).length = xfer_bps 3 st.dev s)) := by
  rw [receive_sector_eq i s st hs] at hrecv
  split_ifs at hrecv <;>
    (injection hrecv with e; subst e
     first
     | exact ⟨⟨_, rfl⟩, rfl, Or.inl rfl⟩
     | (refine ⟨⟨_, rfl⟩, rfl, Or.inr ⟨rfl, ?_⟩⟩
        rw [List.length_take]; omega))

/-! ## Sector transfer: C7, C8 and C9 -/

/-- C7: on a mounted disk unit, for a sector `s` with `1 ≤ s ≤ maxsec`, when
`receive_sector` has written the payload successfully (it answered 'A', 'A', 'C'), the
payload `D` taken from the line had the transfer length (128 bytes for sectors 1-3 of a
256-byte-sector image, `bps` bytes otherwise) and a correct checksum, and a following
read of sector `s` by `send_sector` transmits 'A', 'C', then exactly `D` followed by
`calc_checksum(D)`; the boot-sector mode `full13` is arbitrary. -/
theorem C7_write_then_read_round_trip (i s ccom : Nat) (st st1 : SIO)
    (hm : mounted st) (hi : 1 ≤ i) (hs1 : 1 ≤ s) (hs2 : s ≤ st.dev.maxsec)
    (hccom : ccom ≠ 0x56)
    (hrecv : receive_sector 3 i (s : Int) st = some st1)
    (hsucc : st1.tx = st.tx ++ [0x41, 0x41, 0x43]) :
    (st.rx.take (xfer_bps 3 st.dev s)).length = xfer_bps 3 st.dev s ∧
    xfer_bps 3 st.dev s = (if st.dev.bps = 256 ∧ s ≤ 3 then 128 else st.dev.bps) ∧
    st.rx.getD (xfer_bps 3 st.dev s) 0 =
      calc_checksum (st.rx.take (xfer_bps 3 st.dev s)) (xfer_bps 3 st.dev s) ∧
    (send_sector 3 i ccom (s : Int) st1).tx =
      st1.tx ++ [0x41, 0x43] ++ st.rx.take (xfer_bps 3 st.dev s) ++
        [calc_checksum (st.rx.take (xfer_bps 3 st.dev s)) (xfer_bps 3 st.dev s)] := by
  obtain ⟨hfd, hbps, hout, hinp⟩ := hm
  have hx : xfer_bps 3 st.dev s = (if st.dev.bps = 256 ∧ s ≤ 3 then 128 else st.dev.bps) := by
    rw [xfer_bps_nat]
    by_cases h : st.dev.bps = 256 ∧ s ≤ 3
    · rw [if_pos h, if_pos ⟨h.1, by omega⟩]
    · rw [if_neg h, if_neg (fun h' => h ⟨h'.1, by omega⟩)]
  have hle := xfer_bps_le st.dev (s : Int) hbps
  rw [receive_sector_eq i s st hs1] at hrecv
  generalize hb : xfer_bps 3 st.dev s = bps at *
  split_ifs at hrecv with h1 h2 h3 h4
  · injection hrecv with e; subst e
    have := List.append_cancel_left hsucc
    exact absurd this (by decide)
  · injection hrecv with e; subst e
    have := List.append_cancel_left hsucc
    exact absurd this (by decide)
  · injection hrecv with e; subst e
    have hDlen : (st.rx.take bps).length = bps := by rw [List.length_take]; omega
    have hr : ¬ ((s : Int) = 0 ∨ (s : Int) > toLong st.dev.maxsec) := by
      intro h; exact h1 ⟨by omega, h⟩
    refine ⟨hDlen, hx, ?_, ?_⟩
    · exact (not_not.mp h3).symm
    · have := send_sector_ok i ccom s
        { st with
          tx := st.tx ++ [0x41, 0x41, 0x43],
          rx := st.rx.drop (bps + 1),
          inpbuf := store st.inpbuf (st.rx.take bps),
          file := { st.file with
            data := pwrite_data st.file.data (seek_off st.dev s) (st.rx.take bps),
            pos := seek_off st.dev s + bps },
          dev := with_stat st.dev (ack_stat (ack_stat
            (ack_stat st.dev.status.stat 0x41 &&& (0xff ^^^ 0x02)) 0x41) 0x43) }
        hs1 hr h4.1
        (by
          simp only [seek_off_with_stat, xfer_bps_with_stat, hb, pwrite_data_length, hDlen]
          omega)
        (by simp only [xfer_bps_with_stat, hb]; omega)
      simp only [seek_off_with_stat, xfer_bps_with_stat, hb, if_pos hccom] at this
      rw [this]
      have hrb := pwrite_data_read_back st.file.data (seek_off st.dev s) (st.rx.take bps)
      rw [hDlen] at hrb
      rw [hrb]
      simp only [List.append_assoc]
  · injection hrecv with e; subst e
    have := List.append_cancel_left hsucc
    exact absurd this (by decide)

/-- C7 at sector 1 of the small image: 128 bytes `07` are written and read back. -/
theorem C7_write_then_read_round_trip_witness :
    (mounted write_request_unit ∧ 1 ≤ 1 ∧ 1 ≤ 1 ∧ 1 ≤ write_request_unit.dev.maxsec ∧
      0x52 ≠ 0x56 ∧
      receive_sector 3 1 ((1 : Nat) : Int) write_request_unit = some written_unit ∧
      written_unit.tx = write_request_unit.tx ++ [0x41, 0x41, 0x43]) ∧
    (send_sector 3 1 0x52 ((1 : Nat) : Int) written_unit).tx =
      written_unit.tx ++ [0x41, 0x43] ++
        write_request_unit.rx.take (xfer_bps 3 write_request_unit.dev ((1 : Nat) : Int)) ++
        [calc_checksum
          (write_request_unit.rx.take (xfer_bps 3 write_request_unit.dev ((1 : Nat) : Int)))
          (xfer_bps 3 write_request_unit.dev ((1 : Nat) : Int))] :=
  ⟨⟨by decide, by decide, by decide, by decide, by decide, by decide, by decide⟩,
   (C7_write_then_read_round_trip 1 1 0x52 write_request_unit written_unit (by decide)
      (by decide) (by decide) (by decide) (by decide) (by decide) (by decide)).2.2.2⟩

/-- C8 (as stated, refuted): on a unit whose image file ends after sector 1, a read of
sector 2 is answered 'A', 'E' and the stale buffer contents (`aa aa ...`); after sector 3
has been written the file has grown over sector 2 and the same read is answered 'A', 'C'
and zero bytes. -/
theorem C8_counterexample :
    ((send_sector 3 1 0x52 2 truncated_unit_after_read).tx.drop
        truncated_unit_after_read.tx.length).take 4 = [0x41, 0x45, 0xaa, 0xaa] ∧
    (receive_sector 3 1 3 truncated_unit_after_read).map
      (fun st1 => ((send_sector 3 1 0x52 2 st1).tx.drop st1.tx.length).take 4) =
      some [0x41, 0x43, 0, 0] := by
  decide

/-- C8 (amended): on a mounted disk unit, for distinct sectors `s, t ≥ 1`, whatever
`receive_sector` does for sector `s`, every byte that was in the file before and lies
outside the slot of `s` is unchanged, in particular the 16-byte header; the slots that
`atr_seek` and the transfer length give to `s` and `t` do not overlap; and when the slot
of `t` lay within the file before the write, `send_sector` transmits the same bytes for
`t` before and after it. -/
theorem C8_write_frame (i s t ccom : Nat) (st st1 : SIO)
    (hm : mounted st) (hs : 1 ≤ s) (ht : 1 ≤ t) (hst : s ≠ t)
    (hrecv : receive_sector 3 i (s : Int) st = some st1) :
    (∀ k, k < st.file.data.length →
      ¬ (seek_off st.dev s ≤ k ∧ k < seek_off st.dev s + xfer_bps 3 st.dev s) →
      st1.file.data[k]? = st.file.data[k]?) ∧
    (16 ≤ st.file.data.length → st1.file.data.take 16 = st.file.data.take 16) ∧
    (seek_off st.dev s + xfer_bps 3 st.dev s ≤ seek_off st.dev t ∨
      seek_off st.dev t + xfer_bps 3 st.dev t ≤ seek_off st.dev s) ∧
    (seek_off st.dev t + xfer_bps 3 st.dev t ≤ st.file.data.length →
      (send_sector 3 i ccom (t : Int) st1).tx.drop st1.tx.length =
        (send_sector 3 i ccom (t : Int) st).tx.drop st.tx.length) := by
  obtain ⟨hfd, hbps, hout, hinp⟩ := hm
  obtain ⟨⟨v, hdev⟩, hob, hdata⟩ := receive_sector_effect i s st st1 hs hrecv
  have hdis := slots_disjoint st.dev s t hs ht hst hbps
  have hle := xfer_bps_le st.dev (t : Int) hbps
  generalize hbs : xfer_bps 3 st.dev (s : Int) = bs at *
  generalize hbt : xfer_bps 3 st.dev (t : Int) = bt at *
  have h16 := seek_off_ge st.dev s
  refine ⟨?_, ?_, hdis, ?_⟩
  · intro k hk hout
    rcases hdata with hd | ⟨hd, hlen⟩
    · rw [hd]
    · rw [hd, pwrite_data_getElem?, hlen]
      by_cases h1 : k < seek_off st.dev s
      · simp only [h1, hk, if_true]
      · have h2 : ¬ k < seek_off st.dev s + bs := fun h => hout ⟨by omega, h⟩
        simp only [h1, h2, if_false]
  · intro hlen16
    rcases hdata with hd | ⟨hd, hlen⟩
    · rw [hd]
    · rw [hd]
      have := pwrite_data_frame st.file.data (seek_off st.dev s) (st.rx.take bs) 0 16
        (by omega) (Or.inl (by omega))
      simpa using this
  · intro hin
    by_cases hr : (t : Int) = 0 ∨ (t : Int) > toLong st.dev.maxsec
    · rw [send_sector_nak i ccom t st hr,
        send_sector_nak i ccom t st1 (by rw [hdev]; exact hr)]
      rw [List.drop_left, List.drop_left]
    · have hlen1 : st.file.data.length ≤ st1.file.data.length := by
        rcases hdata with hd | ⟨hd, _⟩
        · rw [hd]
        · rw [hd, pwrite_data_length]; omega
      have hD : (st1.file.data.drop (seek_off st.dev t)).take bt =
          (st.file.data.drop (seek_off st.dev t)).take bt := by
        rcases hdata with hd | ⟨hd, hlen⟩
        · rw [hd]
        · rw [hd]
          exact pwrite_data_frame _ _ _ _ _ hin (by rw [hlen]; omega)
      have e0 := send_sector_ok i ccom t st ht hr hfd (by rw [hbt]; exact hin)
        (by rw [hbt]; omega)
      have e1 := send_sector_ok i ccom t st1 ht (by rw [hdev]; exact hr)
        (by rw [hdev]; exact hfd)
        (by rw [hdev, seek_off_with_stat, xfer_bps_with_stat, hbt]; omega)
        (by rw [hdev, xfer_bps_with_stat, hbt, hob]; omega)
      rw [hdev, seek_off_with_stat, xfer_bps_with_stat, hbt, hD] at e1
      rw [hbt] at e0
      rw [e0, e1, List.append_assoc, List.append_assoc, List.drop_left, List.drop_left]

/-- C8 (amended) at a write of sector 1 of the small image, with `t = 2`. -/
theorem C8_write_frame_witness :
    (mounted write_request_unit ∧ 1 ≤ 1 ∧ 1 ≤ 2 ∧ 1 ≠ 2 ∧
      receive_sector 3 1 ((1 : Nat) : Int) write_request_unit = some written_unit) ∧
    (16 ≤ write_request_unit.file.data.length →
      written_unit.file.data.take 16 = write_request_unit.file.data.take 16) :=
  ⟨⟨by decide, by decide, by decide, by decide, by decide⟩,
   (C8_write_frame 1 1 2 0x52 write_request_unit written_unit (by decide) (by decide)
      (by decide) (by decide) (by decide)).2.1⟩

/-- C9 (as stated, refuted): on a unit whose image is open read-only the payload for
sector 1 arrives with a matching checksum and the answers are 'A', 'A', 'E'. -/
theorem C9_counterexample :
    calc_checksum (readonly_unit.rx.take 128) 128 = readonly_unit.rx.getD 128 0 ∧
    (receive_sector 3 1 1 readonly_unit).map (fun st1 => st1.tx) =
      some [0x41, 0x41, 0x45] := by
  decide

/-- C9 (amended): for a sector that passes the range check, with payload `D` and checksum
byte `sck` on the line, `receive_sector` returns; when `sck` differs from
`calc_checksum(D)` it sets status bit 1, answers 'A' then 'E' (status bit 2 set) and leaves
the file as it was; when `sck` matches, status bit 1 is cleared and the answers are 'A',
'A', then 'C' if the image is open for writing, and 'E' (status bit 2 set, file contents
unchanged) if it is not. -/
theorem C9_receive_sector_checksum (i s : Nat) (st : SIO) (D : List Nat) (sck : Nat)
    (rest : List Nat)
    (hs1 : 1 ≤ s) (hs2 : (s : Int) ≤ toLong st.dev.maxsec)
    (hD : D.length = xfer_bps 3 st.dev s) (hrx : st.rx = D ++ sck :: rest) :
    ∃ st1, receive_sector 3 i (s : Int) st = some st1 ∧
      (sck ≠ calc_checksum D D.length →
        st1.dev.status.stat.testBit 1 = true ∧ st1.dev.status.stat.testBit 2 = true ∧
        st1.tx = st.tx ++ [0x41, 0x45] ∧ st1.file = st.file) ∧
      (sck = calc_checksum D D.length →
        st1.dev.status.stat.testBit 1 = false ∧
        (st.dev.fd > -1 ∧ st.file.writable = true →
          st1.tx = st.tx ++ [0x41, 0x41, 0x43] ∧ st1.dev.status.stat.testBit 2 = false) ∧
        (¬ (st.dev.fd > -1 ∧ st.file.writable = true) →
          st1.tx = st.tx ++ [0x41, 0x41, 0x45] ∧ st1.dev.status.stat.testBit 2 = true ∧
          st1.file.data = st.file.data)) := by
  rw [receive_sector_eq i s st hs1]
  generalize hb : xfer_bps 3 st.dev s = bps at *
  have hr : ¬ (i ≠ 0 ∧ ((s : Int) = 0 ∨ (s : Int) > toLong st.dev.maxsec)) := by
    rintro ⟨_, h | h⟩ <;> omega
  have hlen : ¬ st.rx.length < bps + 1 := by
    rw [hrx, List.length_append, List.length_cons]; omega
  have htake : st.rx.take bps = D := by rw [hrx]; exact List.take_left' hD
  have hget : st.rx.getD bps 0 = sck := by
    rw [hrx, List.getD_append_right _ _ _ _ (by omega), hD, Nat.sub_self]; rfl
  rw [if_neg hr, if_neg hlen, htake, hget, hD]
  by_cases hck : calc_checksum D bps ≠ sck
  · rw [if_pos hck]
    refine ⟨_, rfl, fun _ => ⟨?_, ?_, rfl, rfl⟩, fun h => absurd h.symm hck⟩
    · simp only [with_stat_stat, ack_stat_bit1, set_bit1]
    · simp only [with_stat_stat, ack_stat_bit2]; decide
  · rw [if_neg hck]
    by_cases hw : st.dev.fd > -1 ∧ st.file.writable = true
    · rw [if_pos hw]
      refine ⟨_, rfl, fun h => absurd h.symm (not_not.mp hck ▸ fun h' => h' rfl), fun _ =>
        ⟨?_, fun _ => ⟨rfl, ?_⟩, fun h => absurd hw h⟩⟩
      · simp only [with_stat_stat, ack_stat_bit1, clear_bit1]
      · simp only [with_stat_stat, ack_stat_bit2]; decide
    · rw [if_neg hw]
      refine ⟨_, rfl, fun h => absurd h.symm (not_not.mp hck ▸ fun h' => h' rfl), fun _ =>
        ⟨?_, fun h => absurd h hw, fun _ => ⟨rfl, ?_, rfl⟩⟩⟩
      · simp only [with_stat_stat, ack_stat_bit1, clear_bit1]
      · simp only [with_stat_stat, ack_stat_bit2]; decide

/-- C9 (amended) at the write request of `write_request_unit` for sector 1. -/
theorem C9_receive_sector_checksum_witness :
    (1 ≤ 1 ∧ ((1 : Nat) : Int) ≤ toLong write_request_unit.dev.maxsec ∧
      (List.replicate 128 7).length = xfer_bps 3 write_request_unit.dev ((1 : Nat) : Int) ∧
      write_request_unit.rx =
        List.replicate 128 7 ++ calc_checksum (List.replicate 128 7) 128 :: []) ∧
    ∃ st1, receive_sector 3 1 ((1 : Nat) : Int) write_request_unit = some st1 :=
  ⟨⟨by decide, by decide, by decide, by decide⟩,
   (C9_receive_sector_checksum 1 1 write_request_unit (List.replicate 128 7)
      (calc_checksum (List.replicate 128 7) 128) [] (by decide) (by decide) (by decide)
      (by decide)).imp (fun _ h => h.1)⟩

/-! ## Format: lemmas -/

theorem write_ok (fd : Int) (f : FILE) (buf : List Nat) (n : Nat)
    (hfd : fd > -1) (hw : f.writable = true) (hn : n ≤ buf.length) :
    write fd f buf n =
      ({ f with data := pwrite_data f.data f.pos (buf.take n), pos := f.pos + n }, (n : Int)) := by
  unfold write
  have h : ¬ (fd < 0 ∨ f.writable = false) := by
    rw [hw]; simp; omega
  have hl : (buf.take n).length = n := by rw [List.length_take]; omega
  simp only [h, if_false, hl]

theorem fmt_end_mono (dev : DEVICE) (a b : Nat) (ha : 1 ≤ a) (hab : a ≤ b)
    (hb : dev.bps = 128 ∨ dev.bps = 256 ∨ dev.bps = 512 ∨ dev.bps = 1024) :
    fmt_end dev a ≤ fmt_end dev b := by
  unfold fmt_end fmt_size seek_off
  rcases hb with h | h | h | h
  · simp only [h, Nat.reduceEqDiff, false_and, and_false, if_false]; omega
  · simp only [h, true_and, if_true]; split_ifs <;> omega
  · simp only [h, Nat.reduceEqDiff, false_and, and_false, if_false]; omega
  · simp only [h, Nat.reduceEqDiff, false_and, and_false, if_false]; omega

theorem format_spt_step (i spt n s : Nat) (st : SIO) (b : Nat) (hr : fmt_ready st)
    (hs : 1 ≤ s) (hcs : (i = 0 ∧ s < 4) ↔ i * spt + s < 4) :
    format_spt i spt (n + 1) s st b =
      format_spt i spt n (s + 1)
        { st with file := { st.file with
            data := pwrite_data st.file.data (seek_off st.dev (i * spt + s))
              (st.outbuf.take (fmt_size st.dev (i * spt + s))),
            pos := seek_off st.dev (i * spt + s) + fmt_size st.dev (i * spt + s) } }
        (fmt_size st.dev (i * spt + s)) := by
  obtain ⟨hfd, hw, hout, hbps, hfull, hlen⟩ := hr
  have hsz : (if i = 0 ∧ s < 4 ∧ st.dev.bps = 256 ∧ st.dev.full13force = 0 then 128
      else st.dev.bps) = fmt_size st.dev (i * spt + s) := by
    unfold fmt_size
    by_cases h : i * spt + s < 4 ∧ st.dev.bps = 256 ∧ st.dev.full13force = 0
    · have h' : i = 0 ∧ s < 4 ∧ st.dev.bps = 256 ∧ st.dev.full13force = 0 :=
        ⟨(hcs.mpr h.1).1, (hcs.mpr h.1).2, h.2⟩
      rw [if_pos h, if_pos h']
    · have h' : ¬ (i = 0 ∧ s < 4 ∧ st.dev.bps = 256 ∧ st.dev.full13force = 0) :=
        fun h' => h ⟨hcs.mp ⟨h'.1, h'.2.1⟩, h'.2.2⟩
      rw [if_neg h, if_neg h']
  have hszle : fmt_size st.dev (i * spt + s) ≤ 1024 := by
    unfold fmt_size; split_ifs <;> omega
  rw [format_spt]
  simp only [hsz]
  have hseek := atr_seek_eq st (i * spt + s) (by omega) hfd
  rw [hseek]
  simp only [lt_self_iff_false, if_false]
  rw [write_ok _ { st.file with pos := seek_off st.dev (i * spt + s) } _ _ hfd hw
    (by rw [hout]; omega)]
  simp only [Int.ofNat_lt, lt_self_iff_false, if_false]

theorem fmt_ready_step (st : SIO) (cs : Nat) (hr : fmt_ready st) :
    fmt_ready { st with file := { st.file with
      data := pwrite_data st.file.data (seek_off st.dev cs) (st.outbuf.take (fmt_size st.dev cs)),
      pos := seek_off st.dev cs + fmt_size st.dev cs } } := by
  obtain ⟨hfd, hw, hout, hbps, hfull, hlen⟩ := hr
  refine ⟨hfd, hw, hout, hbps, hfull, ?_⟩
  show 16 ≤ (pwrite_data _ _ _).length
  rw [pwrite_data_length]; omega

theorem fmt_size_le (dev : DEVICE) (cs : Nat)
    (hb : dev.bps = 128 ∨ dev.bps = 256 ∨ dev.bps = 512 ∨ dev.bps = 1024) :
    fmt_size dev cs ≤ 1024 := by
  unfold fmt_size; split_ifs <;> omega

/-- The inner loop of `format_atr` on a writable image: it runs to its end, touches only
the file, keeps the first 16 bytes, and leaves the file ending where the last sector
written ends (or longer, if it was longer before). -/
theorem format_spt_ok (i spt : Nat) (hspt : 3 ≤ spt) (n : Nat) :
    ∀ (s : Nat) (st : SIO) (b : Nat), fmt_ready st → 1 ≤ s →
      ∃ st', format_spt i spt n s st b =
          (st', (if n = 0 then b else fmt_size st.dev (i * spt + s + n - 1)), true) ∧
        fmt_ready st' ∧ st'.dev = st.dev ∧ st'.outbuf = st.outbuf ∧ st'.tx = st.tx ∧
        st'.rx = st.rx ∧ st'.inpbuf = st.inpbuf ∧
        st'.file.data.take 16 = st.file.data.take 16 ∧
        st'.file.data.length =
          max st.file.data.length (if n = 0 then 0 else fmt_end st.dev (i * spt + s + n - 1)) := by
  induction n with
  | zero =>
    intro s st b hr hs
    exact ⟨st, by simp [format_spt], hr, rfl, rfl, rfl, rfl, rfl, rfl, by simp⟩
  | succ n ih =>
    intro s st b hr hs
    have hcs : (i = 0 ∧ s < 4) ↔ i * spt + s < 4 := by
      constructor
      · rintro ⟨h0, h4⟩; subst h0; omega
      · intro h
        rcases Nat.eq_zero_or_pos i with h0 | h0
        · subst h0; exact ⟨rfl, by omega⟩
        · have : spt ≤ i * spt := Nat.le_mul_of_pos_left spt h0
          omega
    rw [format_spt_step i spt n s st b hr hs hcs]
    have hr' := fmt_ready_step st (i * spt + s) hr
    obtain ⟨st', he, hr'', hdev, hob, htx, hrx, hinp, htake, hlen⟩ :=
      ih (s + 1) _ (fmt_size st.dev (i * spt + s)) hr' (by omega)
    obtain ⟨hfd, hw, hout, hbps, hfull, hlen16⟩ := hr
    have hsz := fmt_size_le st.dev (i * spt + s) hbps
    have hlt : (st.outbuf.take (fmt_size st.dev (i * spt + s))).length =
        fmt_size st.dev (i * spt + s) := by rw [List.length_take]; omega
    refine ⟨st', ?_, hr'', hdev, hob, htx, hrx, hinp, ?_, ?_⟩
    · rw [he]
      by_cases hn : n = 0
      · subst hn; simp
      · have e : i * spt + (s + 1) + n - 1 = i * spt + s + (n + 1) - 1 := by omega
        simp only [hn, if_false, Nat.succ_ne_zero, e]
    · rw [htake]
      have := pwrite_data_frame st.file.data (seek_off st.dev (i * spt + s))
        (st.outbuf.take (fmt_size st.dev (i * spt + s))) 0 16 (by omega)
        (Or.inl (by have := seek_off_ge st.dev (i * spt + s); omega))
      simpa using this
    · rw [hlen]
      simp only [pwrite_data_length, hlt, Nat.succ_ne_zero, if_false]
      have hmono := fmt_end_mono st.dev (i * spt + s) (i * spt + s + (n + 1) - 1) (by omega)
        (by omega) hbps
      have hend : seek_off st.dev (i * spt + s) + fmt_size st.dev (i * spt + s) =
          fmt_end st.dev (i * spt + s) := rfl
      rw [hend]
      by_cases hn : n = 0
      · subst hn; simp
      · have e : i * spt + (s + 1) + n - 1 = i * spt + s + (n + 1) - 1 := by omega
        simp only [hn, if_false, e]
        omega
theorem format_trk_ok (spt : Nat) (hspt : 4 ≤ spt) (n : Nat) :
    ∀ (i : Nat) (st : SIO) (b : Nat), fmt_ready st →
      ∃ st', format_trk spt n i st b =
          (st', (if n = 0 then b else st.dev.bps), true) ∧
        fmt_ready st' ∧ st'.dev = st.dev ∧ st'.outbuf = st.outbuf ∧ st'.tx = st.tx ∧
        st'.rx = st.rx ∧ st'.inpbuf = st.inpbuf ∧
        st'.file.data.take 16 = st.file.data.take 16 ∧
        st'.file.data.length =
          max st.file.data.length (if n = 0 then 0 else fmt_end st.dev ((i + n) * spt)) := by
  induction n with
  | zero =>
    intro i st b hr
    exact ⟨st, by simp [format_trk], hr, rfl, rfl, rfl, rfl, rfl, rfl, by simp⟩
  | succ n ih =>
    intro i st b hr
    obtain ⟨st1, he1, hr1, hdev1, hob1, htx1, hrx1, hinp1, htake1, hlen1⟩ :=
      format_spt_ok i spt (by omega) spt 1 st b hr (Nat.le_refl 1)
    have hne : spt ≠ 0 := by omega
    simp only [hne, if_false] at he1 hlen1
    have ecs : i * spt + 1 + spt - 1 = (i + 1) * spt := by
      rw [Nat.succ_mul]; omega
    rw [ecs] at he1 hlen1
    have hbps := hr.2.2.2.1
    have hge : spt ≤ (i + 1) * spt := Nat.le_mul_of_pos_left spt (by omega)
    have hsize : fmt_size st.dev ((i + 1) * spt) = st.dev.bps := by
      unfold fmt_size
      have : ¬ ((i + 1) * spt < 4 ∧ st.dev.bps = 256 ∧ st.dev.full13force = 0) := by
        intro h; omega
      rw [if_neg this]
    rw [hsize] at he1
    obtain ⟨st2, he2, hr2, hdev2, hob2, htx2, hrx2, hinp2, htake2, hlen2⟩ :=
      ih (i + 1) st1 st.dev.bps hr1
    refine ⟨st2, ?_, hr2, hdev2.trans hdev1, hob2.trans hob1, htx2.trans htx1,
      hrx2.trans hrx1, hinp2.trans hinp1, htake2.trans htake1, ?_⟩
    · rw [format_trk, he1]
      simp only []
      rw [he2, hdev1]
      simp only [Nat.succ_ne_zero, if_false]
      split_ifs <;> rfl
    · rw [hlen2, hlen1, hdev1]
      simp only [Nat.succ_ne_zero, if_false]
      have e : i + (n + 1) = i + 1 + n := by omega
      rw [e]
      by_cases hn : n = 0
      · subst hn; simp
      · simp only [hn, if_false]
        have hmul : (i + 1) * spt ≤ (i + 1 + n) * spt := Nat.mul_le_mul_right spt (by omega)
        have hmono := fmt_end_mono st.dev ((i + 1) * spt) ((i + 1 + n) * spt) (by omega) hmul hbps
        omega
theorem canonical_format_geometry (dev : DEVICE) (h : canonical_geometry dev) :
    (format_geometry dev.percom).2 * (format_geometry dev.percom).1 = dev.maxsec ∧
    4 ≤ (format_geometry dev.percom).1 ∧ 1 ≤ (format_geometry dev.percom).2 ∧
    dev.percom.trk ≠ 1 ∧ 720 ≤ dev.maxsec ∧ dev.maxsec ≤ 5760 := by
  obtain ⟨hb, hrow⟩ := h
  have hcases : dev.maxsec = 720 ∨ (dev.maxsec = 1040 ∧ dev.bps = 128) ∨ dev.maxsec = 1440 ∨
      dev.maxsec = 2002 ∨ dev.maxsec = 2880 ∨ dev.maxsec = 4004 ∨ dev.maxsec = 5760 := by
    unfold spec_table_row at hrow
    by_contra hc
    simp only [not_or] at hc
    obtain ⟨c1, c2, c3, c4, c5, c6, c7⟩ := hc
    simp [c1, c2, c3, c4, c5, c6, c7] at hrow
  rcases hcases with h | ⟨h, hb'⟩ | h | h | h | h | h
  · rw [h] at hrow ⊢
    simp only [spec_table_row, if_true, Option.some.injEq] at hrow
    rw [← hrow]
    rcases hb with hb | hb | hb | hb <;> rw [hb] <;> decide
  · rw [h] at hrow ⊢
    rw [hb'] at hrow
    simp [spec_table_row] at hrow
    rw [← hrow]
    decide
  all_goals
    rw [h] at hrow ⊢
    simp [spec_table_row] at hrow
    rw [← hrow]
    rcases hb with hb | hb | hb | hb <;> rw [hb] <;> decide

theorem toInt32_of_lt (x : Nat) (h : x < 2 ^ 31) : toInt32 x = (x : Int) := by
  unfold toInt32
  have h1 : x % 2 ^ 32 = x := Nat.mod_eq_of_lt (by omega)
  rw [h1, if_pos h]

theorem format_pars_eq (dev : DEVICE) (h1 : 384 ≤ dev.maxsec * dev.bps)
    (h2 : dev.maxsec * dev.bps < 2 ^ 31) :
    format_pars dev =
      (((dev.maxsec * dev.bps -
        (if dev.full13force = 0 ∧ dev.bps = 256 then 384 else 0)) / 16 : Nat) : Int) := by
  unfold format_pars
  generalize dev.maxsec * dev.bps = m at *
  by_cases hc : dev.full13force = 0 ∧ dev.bps = 256
  · simp only [hc, and_self, if_true]
    have e : (m + 2 ^ 64 - 3 * 128) % 2 ^ 64 = m - 384 := by omega
    rw [e, toInt32_of_lt _ (by omega), Int.ofNat_tdiv]
    rfl
  · simp only [hc, if_false]
    have e : m % 2 ^ 64 = m := Nat.mod_eq_of_lt (by omega)
    rw [e, toInt32_of_lt _ h2, Int.ofNat_tdiv]
    rfl

theorem format_header_pars (dev : DEVICE) (h1 : 384 ≤ dev.maxsec * dev.bps)
    (h2 : dev.maxsec * dev.bps < 2 ^ 28) :
    (format_header dev).atr.wpars + 65536 * (format_header dev).atr.hipars =
      (dev.maxsec * dev.bps - (if dev.full13force = 0 ∧ dev.bps = 256 then 384 else 0)) / 16 := by
  have hp := format_pars_eq { dev with full13 := dev.full13force } h1
    (Nat.lt_of_lt_of_le h2 (by decide))
  simp only [] at hp
  unfold format_header
  simp only [hp]
  have hP : (dev.maxsec * dev.bps -
      (if dev.full13force = 0 ∧ dev.bps = 256 then 384 else 0)) / 16 < 2 ^ 24 := by
    have : dev.maxsec * dev.bps -
      (if dev.full13force = 0 ∧ dev.bps = 256 then 384 else 0) ≤ dev.maxsec * dev.bps :=
      Nat.sub_le _ _
    omega
  generalize (dev.maxsec * dev.bps -
    (if dev.full13force = 0 ∧ dev.bps = 256 then 384 else 0)) / 16 = P at *
  rw [Int.tmod_eq_emod (Int.ofNat_nonneg P) (by decide),
    Int.tdiv_eq_ediv (Int.ofNat_nonneg P) (by decide)]
  have e1 : ((P : Int) % 65536 % 65536) = ((P % 65536 : Nat) : Int) := by omega
  have e2 : ((P : Int) / 65536 % 256) = ((P / 65536 : Nat) : Int) := by omega
  rw [e1, e2, Int.toNat_ofNat, Int.toNat_ofNat]
  omega

theorem le_bytes_length (w v : Nat) : (le_bytes w v).length = w := by
  induction w generalizing v with
  | zero => rfl
  | succ n ih => simp [le_bytes, ih]

theorem atr_image_length (a : ATR) : (atr_image a).length = 32 := by
  unfold atr_image
  simp [le_bytes_length]

theorem pwrite_data_nil (bytes : List Nat) : pwrite_data [] 0 bytes = bytes := by
  unfold pwrite_data; simp

@[simp] theorem format_header_fd (dev : DEVICE) : (format_header dev).fd = dev.fd := rfl
@[simp] theorem format_header_bps (dev : DEVICE) : (format_header dev).bps = dev.bps := rfl
@[simp] theorem format_header_maxsec (dev : DEVICE) :
    (format_header dev).maxsec = dev.maxsec := rfl
@[simp] theorem format_header_percom (dev : DEVICE) :
    (format_header dev).percom = dev.percom := rfl
@[simp] theorem format_header_full13 (dev : DEVICE) :
    (format_header dev).full13 = dev.full13force := rfl
@[simp] theorem format_header_full13force (dev : DEVICE) :
    (format_header dev).full13force = dev.full13force := rfl
@[simp] theorem format_header_with_stat_atr (dev : DEVICE) (v : Nat) :
    (format_header (with_stat dev v)).atr = (format_header dev).atr := rfl
@[simp] theorem with_stat_percom (dev : DEVICE) (v : Nat) :
    (with_stat dev v).percom = dev.percom := rfl
@[simp] theorem with_stat_full13force (dev : DEVICE) (v : Nat) :
    (with_stat dev v).full13force = dev.full13force := rfl
@[simp] theorem with_stat_atr (dev : DEVICE) (v : Nat) : (with_stat dev v).atr = dev.atr := rfl

theorem format_atr_eq (d : Nat) (no_delay : Int) (st : SIO)
    (hfd : st.dev.fd > -1) (hw : st.file.writable = true) (htrk : st.dev.percom.trk ≠ 1)
    (hbps : st.dev.bps < 65536) :
    format_atr d no_delay st =
      match format_trk (format_geometry st.dev.percom).1 (format_geometry st.dev.percom).2 0
          (fmt_start (if d ≠ 0 then sio_ack st 0x41 else st)) st.dev.bps with
      | (st, _, false) => if d ≠ 0 then sio_ack st 0x45 else st
      | (st, bps, true) => fmt_finish d st bps := by
  have hfd' : ¬ st.dev.fd < 0 := by omega
  have hb : st.dev.bps % 65536 = st.dev.bps := Nat.mod_eq_of_lt hbps
  have hnak : ¬ (d ≠ 0 ∧ st.dev.percom.trk = 1) := fun h => htrk h.2
  have hwr : ∀ (f : FILE) (a : ATR), f.writable = true →
      write st.dev.fd f (atr_image a) ATR_SIZE =
        ({ f with data := pwrite_data f.data f.pos (atr_image a), pos := f.pos + 32 }, 32) := by
    intro f a hf
    have := write_ok st.dev.fd f (atr_image a) 32 hfd hf (by rw [atr_image_length])
    rw [List.take_of_length_le (by rw [atr_image_length])] at this
    exact this
  have hsk : ∀ st' : SIO, st'.dev.fd > -1 → atr_seek st' 1 =
      ({ st' with file := { st'.file with pos := seek_off st'.dev 1 } }, 0) := by
    intro st' h
    have := atr_seek_eq st' 1 (by decide) h
    simpa using this
  unfold format_atr
  rw [if_neg hnak, hb]
  by_cases hd : d ≠ 0
  · simp only [hd, if_true, ne_eq, not_false_eq_true, sio_ack_eq, lseek, ftruncate0,
      format_header_fd, with_stat_fd, hfd', lt_self_iff_false, or_false, if_false, hw,
      Bool.true_eq_false, with_stat_percom, Int.toNat_zero]
    rw [hwr { data := [], pos := 0, writable := true } _ rfl]
    simp only [show ¬ ((32 : Int) < 0) by decide, if_false, pwrite_data_nil]
    simp only [hsk, format_header_fd, with_stat_fd, hfd, fmt_start, fmt_finish, hd, ne_eq,
      not_false_eq_true, if_true, sio_ack_eq, com_write, hw]
  · simp only [hd, if_false, lseek, ftruncate0,
      format_header_fd, hfd', lt_self_iff_false, or_false, hw,
      Bool.true_eq_false, Int.toNat_zero]
    rw [hwr { data := [], pos := 0, writable := true } _ rfl]
    simp only [show ¬ ((32 : Int) < 0) by decide, if_false, pwrite_data_nil]
    simp only [hsk, format_header_fd, hfd, fmt_start, fmt_finish, hd, if_false, hw]
theorem fmt_finish_file (d : Nat) (st : SIO) (b : Nat) : (fmt_finish d st b).file = st.file := by
  unfold fmt_finish
  simp only [sio_ack_eq, com_write]
  split_ifs <;> rfl

theorem fmt_finish_atr (d : Nat) (st : SIO) (b : Nat) :
    (fmt_finish d st b).dev.atr = st.dev.atr := by
  unfold fmt_finish
  simp only [sio_ack_eq, com_write]
  split_ifs <;> rfl

theorem fmt_finish_tx (d : Nat) (st : SIO) (b : Nat) (hd : d ≠ 0) :
    (fmt_finish d st b).tx =
      st.tx ++ [0x43] ++ ((st.outbuf.set 0 0xff).set 1 0xff).take b ++
        [calc_checksum ((st.outbuf.set 0 0xff).set 1 0xff) b] := by
  unfold fmt_finish
  simp only [sio_ack_eq, com_write, hd, ne_eq, not_false_eq_true, if_true]
  simp

theorem fmt_end_closed (dev : DEVICE) (n : Nat) (hn : 4 ≤ n)
    (hb : dev.bps = 128 ∨ dev.bps = 256 ∨ dev.bps = 512 ∨ dev.bps = 1024)
    (hf : dev.full13 = dev.full13force) :
    fmt_end dev n =
      16 + (n * dev.bps - (if dev.full13force = 0 ∧ dev.bps = 256 then 384 else 0)) := by
  unfold fmt_end fmt_size seek_off
  rw [hf]
  have h4 : ¬ n < 4 := by omega
  rcases hb with h | h | h | h
  · simp only [h, h4, Nat.reduceEqDiff, false_and, and_false, if_false]
    have := Nat.sub_add_cancel (show 1 ≤ n by omega)
    have e : (n - 1) * 128 + 128 = n * 128 := by omega
    omega
  · simp only [h, h4, true_and, and_true, false_and, if_true, if_false]
    split_ifs <;> omega
  · simp only [h, h4, Nat.reduceEqDiff, false_and, and_false, if_false]
    omega
  · simp only [h, h4, Nat.reduceEqDiff, false_and, and_false, if_false]
    omega

/-! ## Format: C10 -/

/-- C10: on a unit with a canonical geometry of `maxsec` sectors of `bps` bytes whose
image is open for writing, `format_atr` succeeds (for `d ≠ 0` it answers 'A', 'C'); the
paragraph count `wpars + 65536 * hipars` it stores equals `maxsec * bps / 16`, reduced by
24 when `bps = 256` and `full13force` is off; the file is exactly `16 + 16 * paragraphs`
bytes long and begins with the first 16 bytes of the header image; for 720 sectors of 128
bytes the count is 5760 and the file length is 92176. -/
theorem C10_format_atr_paragraphs_and_length (d : Nat) (no_delay : Int) (st : SIO)
    (hfd : st.dev.fd > -1) (hw : st.file.writable = true)
    (hcanon : canonical_geometry st.dev) :
    (d ≠ 0 → ∃ rest, (format_atr d no_delay st).tx = st.tx ++ [0x41, 0x43] ++ rest) ∧
    (format_atr d no_delay st).dev.atr.wpars + 65536 * (format_atr d no_delay st).dev.atr.hipars =
      st.dev.maxsec * st.dev.bps / 16 -
        (if st.dev.bps = 256 ∧ st.dev.full13force = 0 then 24 else 0) ∧
    (format_atr d no_delay st).file.data.length =
      16 + 16 * ((format_atr d no_delay st).dev.atr.wpars +
        65536 * (format_atr d no_delay st).dev.atr.hipars) ∧
    (format_atr d no_delay st).file.data.take 16 =
      (atr_image (format_atr d no_delay st).dev.atr).take 16 ∧
    (st.dev.maxsec = 720 → st.dev.bps = 128 →
      (format_atr d no_delay st).dev.atr.wpars +
        65536 * (format_atr d no_delay st).dev.atr.hipars = 5760 ∧
      (format_atr d no_delay st).file.data.length = 92176) := by
  obtain ⟨hmul, hspt, htrk1, htrk, hlo, hhi⟩ := canonical_format_geometry st.dev hcanon
  obtain ⟨hb, _⟩ := hcanon
  have hbps : st.dev.bps < 65536 := by omega
  have hbig' : 92160 ≤ st.dev.maxsec * st.dev.bps := by
    have : 720 * 128 ≤ st.dev.maxsec * st.dev.bps := Nat.mul_le_mul hlo (by omega)
    omega
  have hbig : 384 ≤ st.dev.maxsec * st.dev.bps := by omega
  have hsmall : st.dev.maxsec * st.dev.bps < 2 ^ 28 := by
    have : st.dev.maxsec * st.dev.bps ≤ 5760 * 1024 := Nat.mul_le_mul hhi (by omega)
    omega
  generalize hst0 : (if d ≠ 0 then sio_ack st 0x41 else st) = st0
  have h0 : st0.file = st.file ∧ st0.dev.fd = st.dev.fd ∧ st0.dev.bps = st.dev.bps ∧
      st0.dev.full13force = st.dev.full13force ∧
      (format_header st0.dev).atr = (format_header st.dev).atr ∧
      st0.tx = st.tx ++ (if d ≠ 0 then [0x41] else []) := by
    rw [← hst0]
    by_cases hd : d ≠ 0
    · rw [if_pos hd, if_pos hd, sio_ack_eq]
      exact ⟨rfl, rfl, rfl, rfl, rfl, rfl⟩
    · rw [if_neg hd, if_neg hd]
      exact ⟨rfl, rfl, rfl, rfl, rfl, (List.append_nil _).symm⟩
  obtain ⟨h0file, h0fd, h0bps, h0ff, h0atr, h0tx⟩ := h0
  have hready : fmt_ready (fmt_start st0) := by
    refine ⟨?_, ?_, ?_, ?_, rfl, ?_⟩
    · show (format_header st0.dev).fd > -1
      rw [format_header_fd, h0fd]; exact hfd
    · show st0.file.writable = true
      rw [h0file]; exact hw
    · show (List.replicate 1026 0).length = 1026
      exact List.length_replicate _ _
    · show st0.dev.bps = 128 ∨ st0.dev.bps = 256 ∨ st0.dev.bps = 512 ∨ st0.dev.bps = 1024
      rw [h0bps]; exact hb
    · show 16 ≤ (atr_image _).length
      rw [atr_image_length]; decide
  obtain ⟨stL, he, _, hdevL, hobL, htxL, _, _, htakeL, hlenL⟩ :=
    format_trk_ok (format_geometry st.dev.percom).1 hspt (format_geometry st.dev.percom).2 0
      (fmt_start st0) st.dev.bps hready
  have hne : (format_geometry st.dev.percom).2 ≠ 0 := by omega
  simp only [hne, if_false, Nat.zero_add, hmul] at he hlenL
  have hrun : format_atr d no_delay st = fmt_finish d stL (fmt_start st0).dev.bps := by
    rw [format_atr_eq d no_delay st hfd hw htrk hbps, hst0, he]
  have hatr : (format_atr d no_delay st).dev.atr = (format_header st.dev).atr := by
    rw [hrun, fmt_finish_atr, hdevL]
    exact h0atr
  have hpars := format_header_pars st.dev hbig hsmall
  have hdev' : (fmt_start st0).dev = format_header st0.dev := rfl
  have hend := fmt_end_closed (format_header st0.dev) st.dev.maxsec (by omega)
    (by rw [format_header_bps, h0bps]; exact hb) rfl
  rw [format_header_bps, format_header_full13force, h0bps, h0ff] at hend
  have hlen : (format_atr d no_delay st).file.data.length =
      16 + (st.dev.maxsec * st.dev.bps -
        (if st.dev.full13force = 0 ∧ st.dev.bps = 256 then 384 else 0)) := by
    have e1 : (fmt_start st0).file.data.length = 32 := atr_image_length _
    have e2 : fmt_end (fmt_start st0).dev st.dev.maxsec = _ := hend
    rw [hrun, fmt_finish_file, hlenL, e1, e2]
    split_ifs <;> omega
  rw [hatr, hpars, hlen]
  generalize hm : st.dev.maxsec * st.dev.bps = m at *
  have hdvd : m % 16 = 0 := by
    rw [← hm]
    rcases hb with h | h | h | h <;> rw [h] <;> omega
  refine ⟨?_, ?_, ?_, ?_, ?_⟩
  · intro hd
    have e3 : (fmt_start st0).tx = st0.tx := rfl
    rw [hrun, fmt_finish_tx d stL _ hd, htxL, e3, h0tx, if_pos hd]
    refine ⟨((stL.outbuf.set 0 0xff).set 1 0xff).take (fmt_start st0).dev.bps ++
      [calc_checksum ((stL.outbuf.set 0 0xff).set 1 0xff) (fmt_start st0).dev.bps], ?_⟩
    simp only [List.append_assoc, List.singleton_append, List.cons_append, List.nil_append]
  · split_ifs <;> omega
  · split_ifs <;> omega
  · rw [hrun, fmt_finish_file, htakeL]
    show (atr_image (format_header st0.dev).atr).take 16 = _
    rw [h0atr]
  · intro h720 h128
    have hm' : m = 92160 := by rw [← hm, h720, h128]
    simp only [h128, Nat.reduceEqDiff, and_false, if_false]
    omega

/-- C10 at the fresh 90k image of `make_atr` (720 sectors of 128 bytes, unit 0): the
format leaves a header count of 5760 paragraphs and a file of 92176 bytes. -/
theorem C10_format_atr_paragraphs_and_length_witness :
    (fresh_90k_unit.dev.fd > -1 ∧ fresh_90k_unit.file.writable = true ∧
      canonical_geometry fresh_90k_unit.dev) ∧
    ((format_atr 0 1 fresh_90k_unit).dev.atr.wpars +
        65536 * (format_atr 0 1 fresh_90k_unit).dev.atr.hipars = 5760 ∧
      (format_atr 0 1 fresh_90k_unit).file.data.length = 92176) :=
  ⟨⟨by decide, by decide, by decide⟩,
   (C10_format_atr_paragraphs_and_length 0 1 fresh_90k_unit (by decide) (by decide)
      (by decide)).2.2.2.2 (by decide) (by decide)⟩

/-! ## Geometry of other sector counts: C13 -/

theorem drive_setup_ok (dev : DEVICE) (size bps : Nat) (h1 : 1 ≤ (drive_sectors size bps).2) :
    (drive_setup dev size bps).2 = 0 ∧
    (drive_setup dev size bps).1.percom =
      drive_percom dev.percom (drive_sectors size bps).2 bps := by
  unfold drive_setup
  have h : ¬ (drive_sectors size bps).2 < 1 := by omega
  rw [if_neg h]
  refine ⟨rfl, ?_⟩
  split_ifs <;> rfl

theorem drive_percom_other (pc : PERCOM) (n bps : Nat) (hrow : spec_table_row n bps = none) :
    drive_percom pc n bps =
      { pc with step := 3, bps_hi := (bps / 256) % 256, bps_lo := (bps % 256) % 256,
                trk := 1, spt_hi := ((n % 65536) / 256) % 256,
                spt_lo := ((n % 65536) % 256) % 256, heads := (n / 65536) % 256,
                flags := if n / 65536 ≠ 0 then (if bps = 128 then 0x00 else 0x04) ||| 0x08
                         else (if bps = 128 then 0x00 else 0x04) } := by
  unfold spec_table_row at hrow
  simp only at hrow
  unfold drive_percom
  split_ifs at hrow with a1 a2 a3 a4 a5 a6 a7
  have a2' : ¬ (bps = 128 ∧ n = 1040) := fun h => a2 ⟨h.2, h.1⟩
  simp only [a1, a2', a3, a4, a5, a6, a7, if_false]

/-- C13 fails as stated: an image of five 128-byte sectors (640 bytes) has a sector count
outside the table, and `drive_setup` stores flags `0x00`, not `0x04`. -/
theorem C13_counterexample :
    (drive_sectors 640 128).2 = 5 ∧ spec_table_row 5 128 = none ∧
    (drive_setup device_reset 640 128).2 = 0 ∧
    (drive_setup device_reset 640 128).1.percom.trk = 1 ∧
    (drive_setup device_reset 640 128).1.percom.flags = 0x00 ∧
    (drive_setup device_reset 640 128).1.percom.flags ≠ 0x04 := by
  decide

/-- C13 (amended): for every sector count `n` that `drive_setup` infers with
`1 ≤ n < 2 ^ 24` and that is not a row of the table, the call succeeds and stores tracks 1,
sectors per track `n mod 65536` (high and low byte), heads `n / 65536`, and flags `0x00`
at 128 bytes per sector and `0x04` otherwise, with `0x08` added exactly when
`n > 65535`. -/
theorem C13_drive_setup_other_counts (dev : DEVICE) (size bps : Nat)
    (h1 : 1 ≤ (drive_sectors size bps).2) (h24 : (drive_sectors size bps).2 < 2 ^ 24)
    (hrow : spec_table_row (drive_sectors size bps).2 bps = none) :
    (drive_setup dev size bps).2 = 0 ∧
    (drive_setup dev size bps).1.percom.trk = 1 ∧
    (drive_setup dev size bps).1.percom.spt_hi * 256 +
      (drive_setup dev size bps).1.percom.spt_lo = (drive_sectors size bps).2 % 65536 ∧
    (drive_setup dev size bps).1.percom.heads = (drive_sectors size bps).2 / 65536 ∧
    (drive_setup dev size bps).1.percom.flags =
      (if bps = 128 then 0x00 else 0x04) +
        (if (drive_sectors size bps).2 > 65535 then 0x08 else 0) := by
  obtain ⟨hr, hp⟩ := drive_setup_ok dev size bps h1
  rw [hp, drive_percom_other _ _ _ hrow]
  generalize (drive_sectors size bps).2 = n at *
  refine ⟨hr, rfl, ?_, ?_, ?_⟩
  · show (n % 65536 / 256) % 256 * 256 + (n % 65536 % 256) % 256 = n % 65536
    omega
  · show (n / 65536) % 256 = n / 65536
    omega
  · show (if n / 65536 ≠ 0 then (if bps = 128 then 0x00 else 0x04) ||| 0x08
          else (if bps = 128 then 0x00 else 0x04)) = _
    by_cases hb : bps = 128 <;> by_cases hn : n > 65535
    · have : n / 65536 ≠ 0 := by omega
      simp [hb, hn, this]
    · have : n / 65536 = 0 := by omega
      simp [hb, hn, this]
    · have : n / 65536 ≠ 0 := by omega
      simp [hb, hn, this]
    · have : n / 65536 = 0 := by omega
      simp [hb, hn, this]

/-- C13 (amended) at an image of 70000 sectors of 256 bytes: tracks 1, sectors per track
4464, heads 1, flags `0x0c`. -/
theorem C13_drive_setup_other_counts_witness :
    (1 ≤ (drive_sectors 17920000 256).2 ∧ (drive_sectors 17920000 256).2 < 2 ^ 24 ∧
      spec_table_row (drive_sectors 17920000 256).2 256 = none) ∧
    ((drive_setup device_reset 17920000 256).2 = 0 ∧
    (drive_setup device_reset 17920000 256).1.percom.trk = 1 ∧
    (drive_setup device_reset 17920000 256).1.percom.spt_hi * 256 +
      (drive_setup device_reset 17920000 256).1.percom.spt_lo =
        (drive_sectors 17920000 256).2 % 65536 ∧
    (drive_setup device_reset 17920000 256).1.percom.heads =
      (drive_sectors 17920000 256).2 / 65536 ∧
    (drive_setup device_reset 17920000 256).1.percom.flags =
      (if 256 = 128 then 0x00 else 0x04) +
        (if (drive_sectors 17920000 256).2 > 65535 then 0x08 else 0)) :=
  ⟨by decide, C13_drive_setup_other_counts device_reset 17920000 256 (by decide) (by decide)
    (by decide)⟩

/-! ## PERCOM invariant: C12 -/

theorem setup_percom_percom (dev : DEVICE) (ibuf : List Nat) :
    (setup_percom dev ibuf).1.percom =
      { trk := ibuf.getD 0 0, step := ibuf.getD 1 0, spt_hi := ibuf.getD 2 0,
        spt_lo := ibuf.getD 3 0, heads := ibuf.getD 4 0, flags := ibuf.getD 5 0,
        bps_hi := ibuf.getD 6 0, bps_lo := ibuf.getD 7 0 } := by
  unfold setup_percom
  simp only []
  split_ifs <;> rfl

theorem drive_setup_ret (dev : DEVICE) (size bps : Nat) (h : (drive_setup dev size bps).2 = 0) :
    1 ≤ (drive_sectors size bps).2 := by
  unfold drive_setup at h
  by_contra hc
  have h1 : (drive_sectors size bps).2 < 1 := by omega
  simp only [h1, if_true] at h
  exact absurd h (by decide)

theorem drive_percom_invariant (pc : PERCOM) (n bps : Nat) (hbps : bps < 65536) :
    ((drive_percom pc n bps).flags.testBit 2 = false →
      (drive_percom pc n bps).bps_hi * 256 + (drive_percom pc n bps).bps_lo = 128) ∧
    (n = 720 ∨ n = 1440 ∨ n = 2880 ∨ bps ≠ 128 →
      spec_percom_invariant (drive_percom pc n bps)) := by
  have t0 : Nat.testBit 0 2 = false := by decide
  have t2 : Nat.testBit 2 2 = false := by decide
  have t4 : Nat.testBit 4 2 = true := by decide
  have t6 : Nat.testBit 6 2 = true := by decide
  have t8 : Nat.testBit 8 2 = false := by decide
  have t12 : Nat.testBit 12 2 = true := by decide
  have o1 : (0 : Nat) ||| 8 = 8 := by decide
  have o2 : (4 : Nat) ||| 8 = 12 := by decide
  unfold spec_percom_invariant drive_percom
  by_cases hb : bps = 128
  · subst hb
    simp only [if_true, true_and, o1]
    split_ifs <;> simp_all
  · simp only [hb, if_false, false_and, o2]
    split_ifs <;> simp_all



/-- C12 fails as stated: mounting an image of 5760 sectors of 128 bytes, `drive_setup`
succeeds and stores 36 sectors per track with flag bit 2 clear. -/
theorem C12_counterexample :
    (drive_setup device_reset 737280 128).2 = 0 ∧
    (drive_setup device_reset 737280 128).1.percom.flags.testBit 2 = false ∧
    (drive_setup device_reset 737280 128).1.percom.spt_hi * 256 +
      (drive_setup device_reset 737280 128).1.percom.spt_lo = 36 ∧
    ¬ spec_percom_invariant (drive_setup device_reset 737280 128).1.percom := by
  decide

/-- C12 (amended): a block that `setup_percom` accepts (return value 0) satisfies the
invariant "flag bit 2 clear implies sectors per track at most 18 and bytes per sector at
most 128"; a block stored by a successful `drive_setup` has bytes per sector exactly 128
whenever flag bit 2 is clear, and satisfies the whole invariant when the sector count is
720, 1440 or 2880 or the sector size is not 128. -/
theorem C12_percom_invariant (dev : DEVICE) (ibuf : List Nat) (size bps : Nat)
    (hib : isBytes ibuf) (hbps : bps < 65536) :
    ((setup_percom dev ibuf).2 = 0 → spec_percom_invariant (setup_percom dev ibuf).1.percom) ∧
    ((drive_setup dev size bps).2 = 0 →
      ((drive_setup dev size bps).1.percom.flags.testBit 2 = false →
        (drive_setup dev size bps).1.percom.bps_hi * 256 +
          (drive_setup dev size bps).1.percom.bps_lo = 128) ∧
      ((drive_sectors size bps).2 = 720 ∨ (drive_sectors size bps).2 = 1440 ∨
          (drive_sectors size bps).2 = 2880 ∨ bps ≠ 128 →
        spec_percom_invariant (drive_setup dev size bps).1.percom)) := by
  constructor
  · intro h0
    have hok := ((setup_percom_ret dev ibuf hib).1).1 h0
    rw [setup_percom_percom]
    unfold spec_percom_ok at hok
    unfold spec_percom_invariant
    simp only [] at hok ⊢
    intro hf
    obtain ⟨hb, hn⟩ := hok
    have hn' : ¬ (ibuf.getD 2 0 * 256 + ibuf.getD 3 0 > 18 ∨
        ibuf.getD 6 0 * 256 + ibuf.getD 7 0 ≥ 256) := fun h => hn ⟨hf, h⟩
    omega
  · intro h0
    have h1 := drive_setup_ret dev size bps h0
    rw [(drive_setup_ok dev size bps h1).2]
    exact drive_percom_invariant _ _ _ hbps

/-- C12 (amended) at the PERCOM block `28 03 00 12 00 00 00 80` (accepted) and at the
mount of a 720-sector single-density image. -/
theorem C12_percom_invariant_witness :
    (isBytes [0x28, 0x03, 0x00, 0x12, 0x00, 0x00, 0x00, 0x80] ∧ 128 < 65536 ∧
      (setup_percom device_reset [0x28, 0x03, 0x00, 0x12, 0x00, 0x00, 0x00, 0x80]).2 = 0 ∧
      (drive_setup device_reset 92160 128).2 = 0 ∧ (drive_sectors 92160 128).2 = 720) ∧
    spec_percom_invariant
      (setup_percom device_reset [0x28, 0x03, 0x00, 0x12, 0x00, 0x00, 0x00, 0x80]).1.percom ∧
    spec_percom_invariant (drive_setup device_reset 92160 128).1.percom :=
  ⟨by decide,
   (C12_percom_invariant device_reset [0x28, 0x03, 0x00, 0x12, 0x00, 0x00, 0x00, 0x80]
      92160 128 (by decide) (by decide)).1 (by decide),
   ((C12_percom_invariant device_reset [0x28, 0x03, 0x00, 0x12, 0x00, 0x00, 0x00, 0x80]
      92160 128 (by decide) (by decide)).2 (by decide)).2 (Or.inl (by decide))⟩

/-! ## Format: the loops on any unit -/

theorem format_spt_succ (i spt n s : Nat) (st : SIO) (b : Nat) :
    format_spt i spt (n + 1) s st b =
      if (fmt_step_file st.dev st.file st.outbuf i spt s).2 = true then
        format_spt i spt n (s + 1)
          { st with file := (fmt_step_file st.dev st.file st.outbuf i spt s).1 }
          (fmt_bps i s st.dev)
      else
        ({ st with file := (fmt_step_file st.dev st.file st.outbuf i spt s).1 },
          fmt_bps i s st.dev, false) := by
  rw [format_spt]
  unfold fmt_step_file atr_seek fmt_bps
  simp only []
  by_cases h1 : (lseek st.dev.fd st.file (atr_offset st.dev ((i * spt + s : Nat) : Int))).2 ≠
      atr_offset st.dev ((i * spt + s : Nat) : Int)
  · simp only [h1, if_true, ne_eq, not_false_eq_true, Bool.false_eq_true, if_false]
    simp
  · simp only [h1, if_false, lt_self_iff_false]
    split_ifs <;> simp_all



theorem fmt_step_file_writable (dev : DEVICE) (f : FILE) (outbuf : List Nat) (i spt s : Nat) :
    (fmt_step_file dev f outbuf i spt s).1.writable = f.writable := by
  unfold fmt_step_file lseek write
  simp only []
  split_ifs <;> rfl

theorem fmt_step_file_congr (a b : SIO) (h : fmt_same a b) (i spt s : Nat) :
    fmt_step_file a.dev a.file a.outbuf i spt s = fmt_step_file b.dev b.file b.outbuf i spt s := by
  obtain ⟨h1, h2, h3, h4, h5, h6⟩ := h
  unfold fmt_step_file fmt_bps atr_offset
  simp only [h1, h2, h3, h4, h5, h6]

/-- The inner loop of `format_atr` touches only the file (and not its access mode); when
it runs to its end the local `bps` is the size of the last sector written. -/
theorem format_spt_frame (i spt n : Nat) :
    ∀ (s : Nat) (st : SIO) (b : Nat),
      (format_spt i spt n s st b).1.dev = st.dev ∧
      (format_spt i spt n s st b).1.outbuf = st.outbuf ∧
      (format_spt i spt n s st b).1.inpbuf = st.inpbuf ∧
      (format_spt i spt n s st b).1.rx = st.rx ∧
      (format_spt i spt n s st b).1.tx = st.tx ∧
      (format_spt i spt n s st b).1.file.writable = st.file.writable ∧
      ((format_spt i spt n s st b).2.2 = true →
        (format_spt i spt n s st b).2.1 = if n = 0 then b else fmt_bps i (s + n - 1) st.dev) := by
  induction n with
  | zero =>
    intro s st b
    simp [format_spt]
  | succ n ih =>
    intro s st b
    rw [format_spt_succ]
    by_cases hc : (fmt_step_file st.dev st.file st.outbuf i spt s).2 = true
    · rw [if_pos hc]
      obtain ⟨h1, h2, h3, h4, h5, h6, h7⟩ :=
        ih (s + 1) { st with file := (fmt_step_file st.dev st.file st.outbuf i spt s).1 }
          (fmt_bps i s st.dev)
      refine ⟨h1, h2, h3, h4, h5, ?_, ?_⟩
      · rw [h6]; exact fmt_step_file_writable _ _ _ _ _ _
      · intro hok
        rw [h7 hok]
        by_cases hn : n = 0
        · subst hn; simp
        · have e : s + 1 + n - 1 = s + (n + 1) - 1 := by omega
          simp only [hn, if_false, Nat.succ_ne_zero, e]
    · rw [if_neg hc]
      refine ⟨rfl, rfl, rfl, rfl, rfl, fmt_step_file_writable _ _ _ _ _ _, ?_⟩
      intro h; exact absurd h (by simp)

theorem format_spt_congr (i spt n : Nat) :
    ∀ (s : Nat) (a b : SIO) (ba bb : Nat), fmt_same a b →
      fmt_same (format_spt i spt n s a ba).1 (format_spt i spt n s b bb).1 ∧
      (format_spt i spt n s a ba).2.2 = (format_spt i spt n s b bb).2.2 := by
  induction n with
  | zero =>
    intro s a b ba bb h
    simp only [format_spt]
    exact ⟨h, trivial⟩
  | succ n ih =>
    intro s a b ba bb h
    rw [format_spt_succ, format_spt_succ, fmt_step_file_congr a b h]
    obtain ⟨h1, h2, h3, h4, h5, h6⟩ := h
    by_cases hc : (fmt_step_file b.dev b.file b.outbuf i spt s).2 = true
    · rw [if_pos hc, if_pos hc]
      exact ih (s + 1) _ _ _ _ ⟨h1, h2, h3, h4, rfl, h6⟩
    · rw [if_neg hc, if_neg hc]
      exact ⟨⟨h1, h2, h3, h4, rfl, h6⟩, rfl⟩

theorem format_trk_succ (spt n i : Nat) (st : SIO) (b : Nat) :
    format_trk spt (n + 1) i st b =
      if (format_spt i spt spt 1 st b).2.2 = true then
        format_trk spt n (i + 1) (format_spt i spt spt 1 st b).1 (format_spt i spt spt 1 st b).2.1
      else ((format_spt i spt spt 1 st b).1, (format_spt i spt spt 1 st b).2.1, false) := by
  rw [format_trk]
  rcases h : format_spt i spt spt 1 st b with ⟨st1, b1, ok⟩
  cases ok <;> simp

/-- The outer loop of `format_atr` touches only the file; when it runs to its end the
local `bps` is the size of the last sector written. -/
theorem format_trk_frame (spt n : Nat) :
    ∀ (i : Nat) (st : SIO) (b : Nat),
      (format_trk spt n i st b).1.dev = st.dev ∧
      (format_trk spt n i st b).1.outbuf = st.outbuf ∧
      (format_trk spt n i st b).1.inpbuf = st.inpbuf ∧
      (format_trk spt n i st b).1.rx = st.rx ∧
      (format_trk spt n i st b).1.tx = st.tx ∧
      (format_trk spt n i st b).1.file.writable = st.file.writable ∧
      ((format_trk spt n i st b).2.2 = true →
        (format_trk spt n i st b).2.1 =
          if n = 0 ∨ spt = 0 then b else fmt_bps (i + n - 1) spt st.dev) := by
  induction n with
  | zero =>
    intro i st b
    simp [format_trk]
  | succ n ih =>
    intro i st b
    rw [format_trk_succ]
    obtain ⟨g1, g2, g3, g4, g5, g6, g7⟩ := format_spt_frame i spt spt 1 st b
    by_cases hc : (format_spt i spt spt 1 st b).2.2 = true
    · rw [if_pos hc]
      obtain ⟨h1, h2, h3, h4, h5, h6, h7⟩ :=
        ih (i + 1) (format_spt i spt spt 1 st b).1 (format_spt i spt spt 1 st b).2.1
      refine ⟨h1.trans g1, h2.trans g2, h3.trans g3, h4.trans g4, h5.trans g5, h6.trans g6, ?_⟩
      intro hok
      rw [h7 hok, g7 hc, g1]
      by_cases hs : spt = 0
      · simp [hs]
      · have e1 : 1 + spt - 1 = spt := by omega
        have e2 : i + 1 + n - 1 = i + (n + 1) - 1 := by omega
        simp only [hs, or_false, if_false, e1, e2, Nat.succ_ne_zero]
        by_cases hn : n = 0
        · subst hn; simp
        · simp only [hn, if_false]
    · rw [if_neg hc]
      refine ⟨g1, g2, g3, g4, g5, g6, ?_⟩
      intro h; exact absurd h (by simp)

theorem format_trk_congr (spt n : Nat) :
    ∀ (i : Nat) (a b : SIO) (ba bb : Nat), fmt_same a b →
      fmt_same (format_trk spt n i a ba).1 (format_trk spt n i b bb).1 ∧
      (format_trk spt n i a ba).2.2 = (format_trk spt n i b bb).2.2 := by
  induction n with
  | zero =>
    intro i a b ba bb h
    simp only [format_trk]
    exact ⟨h, trivial⟩
  | succ n ih =>
    intro i a b ba bb h
    rw [format_trk_succ, format_trk_succ]
    obtain ⟨hs, hf⟩ := format_spt_congr i spt spt 1 a b ba bb h
    rw [hf]
    by_cases hc : (format_spt i spt spt 1 b bb).2.2 = true
    · rw [if_pos hc, if_pos hc]
      exact ih (i + 1) _ _ _ _ hs
    · rw [if_neg hc, if_neg hc]
      exact ⟨hs, rfl⟩

theorem fmt_match_eq (d : Nat) (r : SIO × Nat × Bool) :
    (match r with
      | (st, _, false) => if d ≠ 0 then sio_ack st 0x45 else st
      | (st, bps, true) => fmt_finish d st bps) =
    if r.2.2 = true then fmt_finish d r.1 r.2.1
    else if d ≠ 0 then sio_ack r.1 0x45 else r.1 := by
  rcases r with ⟨a, b, c⟩
  cases c <;> simp

/-- The function `format_atr` in closed form on any unit: refusal, failure before the
loops (descriptor closed, or image not writable), failure inside the loops, success. -/
theorem format_atr_closed (d : Nat) (no_delay : Int) (st : SIO) :
    format_atr d no_delay st =
      if d ≠ 0 ∧ st.dev.percom.trk = 1 then sio_ack st 0x4e
      else if st.dev.fd < 0 then fmt_fail d (if d ≠ 0 then sio_ack st 0x41 else st) st.file
      else if st.file.writable = false then
        fmt_fail d (if d ≠ 0 then sio_ack st 0x41 else st) { st.file with pos := 0 }
      else if (format_trk (format_geometry st.dev.percom).1 (format_geometry st.dev.percom).2 0
          (fmt_start (if d ≠ 0 then sio_ack st 0x41 else st)) (st.dev.bps % 65536)).2.2 = true then
        fmt_finish d
          (format_trk (format_geometry st.dev.percom).1 (format_geometry st.dev.percom).2 0
            (fmt_start (if d ≠ 0 then sio_ack st 0x41 else st)) (st.dev.bps % 65536)).1
          (format_trk (format_geometry st.dev.percom).1 (format_geometry st.dev.percom).2 0
            (fmt_start (if d ≠ 0 then sio_ack st 0x41 else st)) (st.dev.bps % 65536)).2.1
      else if d ≠ 0 then
        sio_ack
          (format_trk (format_geometry st.dev.percom).1 (format_geometry st.dev.percom).2 0
            (fmt_start (if d ≠ 0 then sio_ack st 0x41 else st)) (st.dev.bps % 65536)).1 0x45
      else
        (format_trk (format_geometry st.dev.percom).1 (format_geometry st.dev.percom).2 0
          (fmt_start (if d ≠ 0 then sio_ack st 0x41 else st)) (st.dev.bps % 65536)).1 := by
  by_cases hnak : d ≠ 0 ∧ st.dev.percom.trk = 1
  · unfold format_atr
    rw [if_pos hnak, if_pos hnak]
  rw [if_neg hnak]
  by_cases hfd : st.dev.fd < 0
  · rw [if_pos hfd]
    unfold format_atr fmt_fail
    rw [if_neg hnak]
    by_cases hd : d ≠ 0
    · simp only [hd, if_true, ne_eq, not_false_eq_true, sio_ack_eq, lseek,
        format_header_fd, with_stat_fd, hfd, true_or, if_true, with_stat_percom]
      simp
    · simp only [hd, if_false, lseek, format_header_fd, hfd, true_or, if_true]
      simp
  rw [if_neg hfd]
  have hfd' : st.dev.fd > -1 := by omega
  by_cases hw : st.file.writable = false
  · rw [if_pos hw]
    unfold format_atr fmt_fail
    rw [if_neg hnak]
    by_cases hd : d ≠ 0
    · simp only [hd, if_true, ne_eq, not_false_eq_true, sio_ack_eq, lseek, ftruncate0,
        format_header_fd, with_stat_fd, hfd, false_or, if_false, hw, lt_self_iff_false,
        or_true, with_stat_percom, Int.toNat_zero]
      simp
    · simp only [hd, if_false, lseek, ftruncate0, format_header_fd, hfd, false_or, hw,
        lt_self_iff_false, or_true, if_true, Int.toNat_zero]
      simp
  rw [if_neg hw]
  have hw' : st.file.writable = true := by
    cases h : st.file.writable
    · exact absurd h hw
    · rfl
  have hwr : ∀ (f : FILE) (a : ATR), f.writable = true →
      write st.dev.fd f (atr_image a) ATR_SIZE =
        ({ f with data := pwrite_data f.data f.pos (atr_image a), pos := f.pos + 32 }, 32) := by
    intro f a hf
    have := write_ok st.dev.fd f (atr_image a) 32 hfd' hf (by rw [atr_image_length])
    rw [List.take_of_length_le (by rw [atr_image_length])] at this
    exact this
  have hsk : ∀ st' : SIO, st'.dev.fd > -1 → atr_seek st' 1 =
      ({ st' with file := { st'.file with pos := seek_off st'.dev 1 } }, 0) := by
    intro st' h
    have := atr_seek_eq st' 1 (by decide) h
    simpa using this
  rw [← fmt_match_eq]
  unfold format_atr
  rw [if_neg hnak]
  by_cases hd : d ≠ 0
  · simp only [hd, if_true, ne_eq, not_false_eq_true, sio_ack_eq, lseek, ftruncate0,
      format_header_fd, with_stat_fd, hfd, lt_self_iff_false, or_false, if_false, hw',
      Bool.true_eq_false, with_stat_percom, Int.toNat_zero]
    rw [hwr { data := [], pos := 0, writable := true } _ rfl]
    simp only [show ¬ ((32 : Int) < 0) by decide, if_false, pwrite_data_nil]
    simp only [hsk, format_header_fd, with_stat_fd, hfd', fmt_start, fmt_finish, hd, ne_eq,
      not_false_eq_true, if_true, sio_ack_eq, com_write, hw']
  · simp only [hd, if_false, lseek, ftruncate0,
      format_header_fd, hfd, lt_self_iff_false, or_false, hw',
      Bool.true_eq_false, Int.toNat_zero]
    rw [hwr { data := [], pos := 0, writable := true } _ rfl]
    simp only [show ¬ ((32 : Int) < 0) by decide, if_false, pwrite_data_nil]
    simp only [hsk, format_header_fd, hfd', fmt_start, fmt_finish, hd, if_false, hw']

/-! ## Format: what is sent -/

theorem vmap_take (b : Nat) (h2 : 2 ≤ b) (hb : b ≤ 1026) :
    (((List.replicate 1026 0).set 0 0xff).set 1 0xff).take b =
      0xff :: 0xff :: List.replicate (b - 2) 0 := by
  obtain ⟨k, rfl⟩ : ∃ k, b = k + 2 := ⟨b - 2, by omega⟩
  have e : List.replicate 1026 0 = 0 :: 0 :: List.replicate 1024 0 := rfl
  rw [e]
  simp only [List.set_cons_zero, List.set_cons_succ, List.take_succ_cons, List.take_replicate]
  have : min k 1024 = k := by omega
  rw [this]
  simp

theorem format_geometry_trk_ne_one (pc : PERCOM) (h1 : pc.trk ≠ 1) (ht : pc.trk < 256)
    (hh : pc.heads < 256) : (format_geometry pc).2 ≠ 1 := by
  unfold format_geometry
  have e : pc.trk % 65536 = pc.trk := Nat.mod_eq_of_lt (by omega)
  simp only [e]
  split_ifs with a b
  · exact h1
  · rcases b with b | b | b <;> rw [b] <;> omega
  · exact h1



theorem fmt_fail_tx (d : Nat) (st0 : SIO) (f : FILE) (hd : d ≠ 0) :
    (fmt_fail d st0 f).tx = st0.tx ++ [0x45] := by
  unfold fmt_fail
  simp only [hd, ne_eq, not_false_eq_true, if_true, sio_ack_eq]

/-- What `format_atr` sends for a command from the bus (`d ≠ 0`): 'N' for a one-track
geometry; 'A', 'E' when the image cannot be rewritten; otherwise 'A', 'C', then `bps`
bytes `ff ff 00 ... 00` and their checksum. -/
theorem format_atr_tx (d : Nat) (no_delay : Int) (st : SIO) (hd : d ≠ 0)
    (ht : st.dev.percom.trk < 256) (hh : st.dev.percom.heads < 256)
    (h2 : 2 ≤ st.dev.bps) (hb : st.dev.bps ≤ 1026) :
    (format_atr d no_delay st).tx = st.tx ++
      (if st.dev.percom.trk = 1 then [0x4e]
       else if st.dev.fd < 0 ∨ st.file.writable = false ∨
           (format_trk (format_geometry st.dev.percom).1 (format_geometry st.dev.percom).2 0
             (fmt_start (sio_ack st 0x41)) st.dev.bps).2.2 = false then [0x41, 0x45]
       else 0x41 :: 0x43 :: (0xff :: 0xff :: List.replicate (st.dev.bps - 2) 0 ++
         [calc_checksum (0xff :: 0xff :: List.replicate (st.dev.bps - 2) 0) st.dev.bps])) := by
  have hmod : st.dev.bps % 65536 = st.dev.bps := Nat.mod_eq_of_lt (by omega)
  rw [format_atr_closed, hmod]
  simp only [hd, ne_eq, not_false_eq_true, if_true, true_and]
  by_cases h1 : st.dev.percom.trk = 1
  · rw [if_pos h1, if_pos h1, sio_ack_eq]
  rw [if_neg h1, if_neg h1]
  have htx0 : (sio_ack st 0x41).tx = st.tx ++ [0x41] := by rw [sio_ack_eq]
  by_cases hfd : st.dev.fd < 0
  · rw [if_pos hfd, if_pos (Or.inl hfd), fmt_fail_tx _ _ _ hd, htx0]
    simp
  rw [if_neg hfd]
  by_cases hw : st.file.writable = false
  · rw [if_pos hw, if_pos (Or.inr (Or.inl hw)), fmt_fail_tx _ _ _ hd, htx0]
    simp
  rw [if_neg hw]
  obtain ⟨g1, g2, g3, g4, g5, g6, g7⟩ :=
    format_trk_frame (format_geometry st.dev.percom).1 (format_geometry st.dev.percom).2 0
      (fmt_start (sio_ack st 0x41)) st.dev.bps
  have htxs : (fmt_start (sio_ack st 0x41)).tx = st.tx ++ [0x41] := htx0
  have hobs : (fmt_start (sio_ack st 0x41)).outbuf = List.replicate 1026 0 := rfl
  have hbs : (fmt_start (sio_ack st 0x41)).dev.bps = st.dev.bps := by
    rw [sio_ack_eq]; rfl
  have hffs : (fmt_start (sio_ack st 0x41)).dev.full13force = st.dev.full13force := by
    rw [sio_ack_eq]; rfl
  by_cases hok : (format_trk (format_geometry st.dev.percom).1 (format_geometry st.dev.percom).2 0
      (fmt_start (sio_ack st 0x41)) st.dev.bps).2.2 = true
  · have hnf : ¬ (st.dev.fd < 0 ∨ st.file.writable = false ∨
        (format_trk (format_geometry st.dev.percom).1 (format_geometry st.dev.percom).2 0
          (fmt_start (sio_ack st 0x41)) st.dev.bps).2.2 = false) := by
      rw [hok]; simp [hfd, hw]
    rw [if_pos hok, if_neg hnf, fmt_finish_tx _ _ _ hd, g5, g2, htxs, hobs]
    have hbL : (format_trk (format_geometry st.dev.percom).1 (format_geometry st.dev.percom).2 0
        (fmt_start (sio_ack st 0x41)) st.dev.bps).2.1 = st.dev.bps := by
      rw [g7 hok]
      have hne := format_geometry_trk_ne_one st.dev.percom h1 ht hh
      unfold fmt_bps
      rw [hbs]
      split_ifs with a b
      · rfl
      · exfalso; omega
      · rfl
    rw [hbL]
    have hck : calc_checksum (((List.replicate 1026 0).set 0 0xff).set 1 0xff) st.dev.bps =
        calc_checksum (0xff :: 0xff :: List.replicate (st.dev.bps - 2) 0) st.dev.bps := by
      unfold calc_checksum
      rw [vmap_take _ h2 hb, List.take_of_length_le]
      simp only [List.length_cons, List.length_replicate]; omega
    rw [hck, vmap_take _ h2 hb]
    simp
  · have hnf : st.dev.fd < 0 ∨ st.file.writable = false ∨
        (format_trk (format_geometry st.dev.percom).1 (format_geometry st.dev.percom).2 0
          (fmt_start (sio_ack st 0x41)) st.dev.bps).2.2 = false := by
      right; right
      cases h : (format_trk (format_geometry st.dev.percom).1 (format_geometry st.dev.percom).2 0
        (fmt_start (sio_ack st 0x41)) st.dev.bps).2.2
      · rfl
      · exact absurd h hok
    rw [if_neg hok, if_pos hnf, sio_ack_eq]
    show _ ++ [0x45] = _
    rw [g5, htxs]
    simp

/-! ## Format: C14 -/

/-- On a canonical geometry with the image open for writing the loops of `format_atr`
run to their end. -/
theorem format_trk_canonical (st : SIO) (hfd : st.dev.fd > -1)
    (hw : st.file.writable = true) (hcanon : canonical_geometry st.dev) :
    (format_trk (format_geometry st.dev.percom).1 (format_geometry st.dev.percom).2 0
      (fmt_start (sio_ack st 0x41)) st.dev.bps).2.2 = true := by
  obtain ⟨hmul, hspt, htrk1, htrk, hlo, hhi⟩ := canonical_format_geometry st.dev hcanon
  obtain ⟨hb, _⟩ := hcanon
  have hready : fmt_ready (fmt_start (sio_ack st 0x41)) := by
    rw [sio_ack_eq]
    refine ⟨hfd, hw, List.length_replicate _ _, hb, rfl, ?_⟩
    show 16 ≤ (atr_image _).length
    rw [atr_image_length]; decide
  obtain ⟨stL, he, _⟩ :=
    format_trk_ok (format_geometry st.dev.percom).1 hspt (format_geometry st.dev.percom).2 0
      (fmt_start (sio_ack st 0x41)) st.dev.bps hready
  rw [he]

theorem sd_720_format_tx :
    (format_atr 1 0 sd_720_unit).tx =
      sd_720_unit.tx ++ [0x41, 0x43] ++ (0xff :: 0xff :: List.replicate 126 0 ++ [0xff]) := by
  have hok := format_trk_canonical sd_720_unit (by decide) (by decide) (by decide)
  rw [format_atr_tx 1 0 sd_720_unit (by decide) (by decide) (by decide) (by decide) (by decide)]
  have h1 : ¬ sd_720_unit.dev.percom.trk = 1 := by decide
  have h2 : ¬ (sd_720_unit.dev.fd < 0 ∨ sd_720_unit.file.writable = false ∨
      (format_trk (format_geometry sd_720_unit.dev.percom).1
        (format_geometry sd_720_unit.dev.percom).2 0
        (fmt_start (sio_ack sd_720_unit 0x41)) sd_720_unit.dev.bps).2.2 = false) := by
    rw [hok]; decide
  rw [if_neg h1, if_neg h2]
  have hb : sd_720_unit.dev.bps = 128 := by decide
  rw [hb]
  have hck : calc_checksum (0xff :: 0xff :: List.replicate (128 - 2) 0) 128 = 0xff := by decide
  rw [hck]
  rfl

/-- C14 fails as stated: the format of a freshly mounted single-density disk succeeds
('A', 'C') and the verify map that follows is `ff ff` and 126 zero bytes (then the
checksum `ff`): its third byte is 0, not `0xff`. -/
theorem C14_counterexample :
    (format_atr 1 0 sd_720_unit).tx =
      sd_720_unit.tx ++ [0x41, 0x43] ++ (0xff :: 0xff :: List.replicate 126 0 ++ [0xff]) ∧
    sd_720_unit.dev.bps = 128 ∧
    ¬ (∀ b ∈ (0xff :: 0xff :: List.replicate 126 0 ++ [0xff]).take 128, b = 0xff) :=
  ⟨sd_720_format_tx, by decide, by decide⟩

/-- C14 (amended): whenever `format_atr`, called for a command from the bus (`d ≠ 0`) on a
unit with 2 to 1026 bytes per sector, answers 'A' and 'C', the frame that follows is `bps`
bytes, the first two `0xff` and all others 0, followed by the checksum of those `bps`
bytes. -/
theorem C14_format_verify_map (d : Nat) (no_delay : Int) (st : SIO) (frame : List Nat)
    (hd : d ≠ 0) (ht : st.dev.percom.trk < 256) (hh : st.dev.percom.heads < 256)
    (h2 : 2 ≤ st.dev.bps) (hb : st.dev.bps ≤ 1026)
    (hsucc : (format_atr d no_delay st).tx = st.tx ++ [0x41, 0x43] ++ frame) :
    frame = 0xff :: 0xff :: List.replicate (st.dev.bps - 2) 0 ++
      [calc_checksum (0xff :: 0xff :: List.replicate (st.dev.bps - 2) 0) st.dev.bps] := by
  rw [format_atr_tx d no_delay st hd ht hh h2 hb, List.append_assoc] at hsucc
  have h := List.append_cancel_left hsucc
  split_ifs at h with a b
  · simp at h
  · simp at h
  · simp only [List.cons_append, List.nil_append, List.cons.injEq, true_and] at h
    exact h.symm

/-- C14 (amended) at the format of a freshly mounted single-density disk. -/
theorem C14_format_verify_map_witness :
    (1 ≠ 0 ∧ sd_720_unit.dev.percom.trk < 256 ∧ sd_720_unit.dev.percom.heads < 256 ∧
      2 ≤ sd_720_unit.dev.bps ∧ sd_720_unit.dev.bps ≤ 1026 ∧
      (format_atr 1 0 sd_720_unit).tx =
        sd_720_unit.tx ++ [0x41, 0x43] ++ (0xff :: 0xff :: List.replicate 126 0 ++ [0xff])) ∧
    (0xff :: 0xff :: List.replicate 126 0 ++ [0xff]) =
      0xff :: 0xff :: List.replicate (sd_720_unit.dev.bps - 2) 0 ++
        [calc_checksum (0xff :: 0xff :: List.replicate (sd_720_unit.dev.bps - 2) 0)
          sd_720_unit.dev.bps] :=
  ⟨⟨by decide, by decide, by decide, by decide, by decide, sd_720_format_tx⟩,
   C14_format_verify_map 1 0 sd_720_unit (0xff :: 0xff :: List.replicate 126 0 ++ [0xff])
     (by decide) (by decide) (by decide) (by decide) (by decide) sd_720_format_tx⟩

/-! ## Format: record and file afterwards -/

theorem format_header_idem (dev : DEVICE) :
    format_header (format_header dev) = format_header dev := rfl

theorem format_header_with_stat (dev : DEVICE) (v : Nat) :
    format_header (with_stat dev v) = with_stat (format_header dev) v := rfl

theorem with_stat_self (dev : DEVICE) : with_stat dev dev.status.stat = dev := rfl

theorem fmt_finish_dev (d : Nat) (st : SIO) (b : Nat) :
    ∃ v, (fmt_finish d st b).dev = with_stat st.dev v := by
  unfold fmt_finish setup_status
  by_cases hd : d ≠ 0
  · simp only [hd, ne_eq, not_false_eq_true, if_true, sio_ack_eq, com_write, with_stat_with_stat]
    exact ⟨_, rfl⟩
  · simp only [hd, if_false]
    exact ⟨_, rfl⟩

theorem fmt_fail_dev (d : Nat) (st0 : SIO) (f : FILE) :
    ∃ v, (fmt_fail d st0 f).dev = with_stat (format_header st0.dev) v := by
  unfold fmt_fail
  by_cases hd : d ≠ 0
  · simp only [hd, ne_eq, not_false_eq_true, if_true, sio_ack_eq]
    exact ⟨_, rfl⟩
  · simp only [hd, if_false]
    exact ⟨_, (with_stat_self _).symm⟩

theorem fmt_fail_file (d : Nat) (st0 : SIO) (f : FILE) : (fmt_fail d st0 f).file = f := by
  unfold fmt_fail
  simp only [sio_ack_eq]
  split_ifs <;> rfl

theorem fmt_first_ack (d : Nat) (st : SIO) :
    (∃ v, (if d ≠ 0 then sio_ack st 0x41 else st).dev = with_stat st.dev v) ∧
    (if d ≠ 0 then sio_ack st 0x41 else st).file = st.file ∧
    (if d ≠ 0 then sio_ack st 0x41 else st).outbuf = st.outbuf := by
  by_cases hd : d ≠ 0
  · simp only [hd, ne_eq, not_false_eq_true, if_true, sio_ack_eq]
    exact ⟨⟨_, rfl⟩, trivial, trivial⟩
  · simp only [hd, if_false]
    exact ⟨⟨_, (with_stat_self _).symm⟩, trivial, trivial⟩

/-- The record after `format_atr`: the old one with a new `status.stat` when the command
is refused, otherwise the one with the rebuilt header and `full13 = full13force`. -/
theorem format_atr_dev (d : Nat) (no_delay : Int) (st : SIO) :
    ∃ v, (format_atr d no_delay st).dev =
      with_stat (if d ≠ 0 ∧ st.dev.percom.trk = 1 then st.dev else format_header st.dev) v := by
  rw [format_atr_closed]
  obtain ⟨⟨v0, h0⟩, _, _⟩ := fmt_first_ack d st
  by_cases hnak : d ≠ 0 ∧ st.dev.percom.trk = 1
  · rw [if_pos hnak, if_pos hnak, sio_ack_eq]
    exact ⟨_, rfl⟩
  rw [if_neg hnak, if_neg hnak]
  have hL := (format_trk_frame (format_geometry st.dev.percom).1
    (format_geometry st.dev.percom).2 0
    (fmt_start (if d ≠ 0 then sio_ack st 0x41 else st)) (st.dev.bps % 65536)).1
  have hs : (fmt_start (if d ≠ 0 then sio_ack st 0x41 else st)).dev =
      with_stat (format_header st.dev) v0 := by
    show format_header _ = _
    rw [h0, format_header_with_stat]
  rw [hs] at hL
  generalize (if d ≠ 0 then sio_ack st 0x41 else st) = st0 at h0 hL ⊢
  generalize format_trk (format_geometry st.dev.percom).1 (format_geometry st.dev.percom).2 0
    (fmt_start st0) (st.dev.bps % 65536) = L at hL ⊢
  have hfail : ∀ f, ∃ v, (fmt_fail d st0 f).dev = with_stat (format_header st.dev) v := by
    intro f
    obtain ⟨v, hv⟩ := fmt_fail_dev d st0 f
    rw [hv, h0, format_header_with_stat, with_stat_with_stat]
    exact ⟨_, rfl⟩
  by_cases a : st.dev.fd < 0
  · rw [if_pos a]; exact hfail _
  rw [if_neg a]
  by_cases b : st.file.writable = false
  · rw [if_pos b]; exact hfail _
  rw [if_neg b]
  by_cases c : L.2.2 = true
  · rw [if_pos c]
    obtain ⟨v, hv⟩ := fmt_finish_dev d L.1 L.2.1
    rw [hv, hL, with_stat_with_stat]
    exact ⟨_, rfl⟩
  rw [if_neg c]
  by_cases e : d ≠ 0
  · rw [if_pos e, sio_ack_eq]
    show ∃ v, with_stat _ _ = _
    rw [hL, with_stat_with_stat]
    exact ⟨_, rfl⟩
  · rw [if_neg e, hL]
    exact ⟨_, rfl⟩

/-- The file after `format_atr`. -/
theorem format_atr_file (d : Nat) (no_delay : Int) (st : SIO) :
    (format_atr d no_delay st).file =
      if d ≠ 0 ∧ st.dev.percom.trk = 1 then st.file
      else if st.dev.fd < 0 then st.file
      else if st.file.writable = false then { st.file with pos := 0 }
      else (format_trk (format_geometry st.dev.percom).1 (format_geometry st.dev.percom).2 0
          (fmt_start (if d ≠ 0 then sio_ack st 0x41 else st)) (st.dev.bps % 65536)).1.file := by
  rw [format_atr_closed]
  generalize (if d ≠ 0 then sio_ack st 0x41 else st) = st0
  generalize format_trk (format_geometry st.dev.percom).1 (format_geometry st.dev.percom).2 0
    (fmt_start st0) (st.dev.bps % 65536) = L
  by_cases hnak : d ≠ 0 ∧ st.dev.percom.trk = 1
  · rw [if_pos hnak, if_pos hnak, sio_ack_eq]
  rw [if_neg hnak, if_neg hnak]
  by_cases a : st.dev.fd < 0
  · rw [if_pos a, if_pos a, fmt_fail_file]
  rw [if_neg a, if_neg a]
  by_cases b : st.file.writable = false
  · rw [if_pos b, if_pos b, fmt_fail_file]
  rw [if_neg b, if_neg b]
  by_cases c : L.2.2 = true
  · rw [if_pos c, fmt_finish_file]
  rw [if_neg c]
  by_cases e : d ≠ 0
  · rw [if_pos e, sio_ack_eq]
  · rw [if_neg e]

/-! ## Format: C11 -/

/-- C11: formatting is idempotent. On every unit state (in particular on every one on
which `format_atr` succeeds) a second `format_atr` with the same arguments leaves the
file image byte for byte as the first one left it, and the same geometry: PERCOM block,
`maxsec`, `bps`, `full13` and the header. -/
theorem C11_format_idempotent (d : Nat) (no_delay : Int) (st : SIO) :
    (format_atr d no_delay (format_atr d no_delay st)).file.data =
      (format_atr d no_delay st).file.data ∧
    (format_atr d no_delay (format_atr d no_delay st)).dev.percom =
      (format_atr d no_delay st).dev.percom ∧
    (format_atr d no_delay (format_atr d no_delay st)).dev.maxsec =
      (format_atr d no_delay st).dev.maxsec ∧
    (format_atr d no_delay (format_atr d no_delay st)).dev.bps =
      (format_atr d no_delay st).dev.bps ∧
    (format_atr d no_delay (format_atr d no_delay st)).dev.full13 =
      (format_atr d no_delay st).dev.full13 ∧
    (format_atr d no_delay (format_atr d no_delay st)).dev.atr =
      (format_atr d no_delay st).dev.atr := by
  obtain ⟨v1, hdev1⟩ := format_atr_dev d no_delay st
  obtain ⟨v2, hdev2⟩ := format_atr_dev d no_delay (format_atr d no_delay st)
  have hfile1 := format_atr_file d no_delay st
  have hfile2 := format_atr_file d no_delay (format_atr d no_delay st)
  generalize format_atr d no_delay (format_atr d no_delay st) = R2 at hdev2 hfile2 ⊢
  generalize hR : format_atr d no_delay st = R at hdev1 hdev2 hfile1 hfile2 ⊢
  by_cases hnak : d ≠ 0 ∧ st.dev.percom.trk = 1
  · rw [if_pos hnak] at hdev1 hfile1
    have hnak2 : d ≠ 0 ∧ R.dev.percom.trk = 1 := by rw [hdev1]; exact hnak
    rw [if_pos hnak2] at hdev2 hfile2
    rw [hfile2, hdev2]
    exact ⟨rfl, rfl, rfl, rfl, rfl, rfl⟩
  rw [if_neg hnak] at hdev1 hfile1
  have hnak2 : ¬ (d ≠ 0 ∧ R.dev.percom.trk = 1) := by rw [hdev1]; exact hnak
  rw [if_neg hnak2] at hdev2 hfile2
  have hgeo : R2.dev.percom = R.dev.percom ∧ R2.dev.maxsec = R.dev.maxsec ∧
      R2.dev.bps = R.dev.bps ∧ R2.dev.full13 = R.dev.full13 ∧ R2.dev.atr = R.dev.atr := by
    rw [hdev2, hdev1]
    exact ⟨rfl, rfl, rfl, rfl, rfl⟩
  refine ⟨?_, hgeo⟩
  have hfd : R.dev.fd = st.dev.fd := by rw [hdev1]; rfl
  rw [hfd] at hfile2
  by_cases a : st.dev.fd < 0
  · rw [if_pos a] at hfile1 hfile2
    rw [hfile2]
  rw [if_neg a] at hfile1 hfile2
  by_cases b : st.file.writable = false
  · rw [if_pos b] at hfile1
    have b2 : R.file.writable = false := by rw [hfile1]; exact b
    rw [if_pos b2] at hfile2
    rw [hfile2]
  rw [if_neg b] at hfile1
  obtain ⟨⟨w0, h0dev⟩, h0file, _⟩ := fmt_first_ack d st
  obtain ⟨⟨w1, h1dev⟩, h1file, _⟩ := fmt_first_ack d R
  have hLw := (format_trk_frame (format_geometry st.dev.percom).1
    (format_geometry st.dev.percom).2 0
    (fmt_start (if d ≠ 0 then sio_ack st 0x41 else st)) (st.dev.bps % 65536)).2.2.2.2.2.1
  have hRw : R.file.writable = st.file.writable := by
    rw [hfile1, hLw]
    show (if d ≠ 0 then sio_ack st 0x41 else st).file.writable = _
    rw [h0file]
  have b2 : ¬ R.file.writable = false := by rw [hRw]; exact b
  rw [if_neg b2] at hfile2
  have hpc : R.dev.percom = st.dev.percom := by rw [hdev1]; rfl
  have hbps : R.dev.bps = st.dev.bps := by rw [hdev1]; rfl
  rw [hpc, hbps] at hfile2
  have hsame : fmt_same (fmt_start (if d ≠ 0 then sio_ack R 0x41 else R))
      (fmt_start (if d ≠ 0 then sio_ack st 0x41 else st)) := by
    unfold fmt_same fmt_start
    simp only [h1dev, h0dev, h1file, h0file, hdev1, hRw]
    refine ⟨?_, ?_, ?_, ?_, ?_, ?_⟩ <;> first | rfl | trivial
  have hc := (format_trk_congr (format_geometry st.dev.percom).1
    (format_geometry st.dev.percom).2 0 _ _ (st.dev.bps % 65536) (st.dev.bps % 65536) hsame).1
  rw [hfile2, hfile1, hc.2.2.2.2.1]

/-! ## Status command: C15 -/

@[simp] theorem with_stat_err (dev : DEVICE) (v : Nat) :
    (with_stat dev v).status.err = dev.status.err := rfl
@[simp] theorem with_stat_tmot (dev : DEVICE) (v : Nat) :
    (with_stat dev v).status.tmot = dev.status.tmot := rfl
@[simp] theorem with_stat_none (dev : DEVICE) (v : Nat) :
    (with_stat dev v).status.none = dev.status.none := rfl
@[simp] theorem setup_status_err (dev : DEVICE) :
    (setup_status dev).status.err = dev.status.err := rfl
@[simp] theorem setup_status_tmot (dev : DEVICE) :
    (setup_status dev).status.tmot = dev.status.tmot := rfl
@[simp] theorem setup_status_none (dev : DEVICE) :
    (setup_status dev).status.none = dev.status.none := rfl

@[simp] theorem with_none_stat (dev : DEVICE) (v : Nat) :
    (with_none dev v).status.stat = dev.status.stat := rfl
@[simp] theorem with_none_err (dev : DEVICE) (v : Nat) :
    (with_none dev v).status.err = dev.status.err := rfl
@[simp] theorem with_none_tmot (dev : DEVICE) (v : Nat) :
    (with_none dev v).status.tmot = dev.status.tmot := rfl
@[simp] theorem with_none_none (dev : DEVICE) (v : Nat) :
    (with_none dev v).status.none = v := rfl
@[simp] theorem setup_status_with_none_stat (dev : DEVICE) (v s : Nat) :
    (setup_status (with_stat (with_none dev v) s)).status.stat =
      (setup_status (with_stat dev s)).status.stat := rfl

theorem sio_send_status_tx (st : SIO) (hlen : 5 ≤ st.outbuf.length) :
    (sio_send_status 3 st).tx =
      st.tx ++ [0x41, 0x43,
        (setup_status (with_stat st.dev (ack_stat st.dev.status.stat 0x41))).status.stat,
        st.dev.status.err, st.dev.status.tmot, st.dev.status.none,
        calc_checksum
          [(setup_status (with_stat st.dev (ack_stat st.dev.status.stat 0x41))).status.stat,
            st.dev.status.err, st.dev.status.tmot, st.dev.status.none] 4] := by
  rcases st with ⟨dev, file, outbuf, inpbuf, rx, tx⟩
  match outbuf, hlen with
  | a :: b :: c :: d :: e :: rest, _ =>
    simp [sio_send_status, sio_ack_eq, com_write, calc_checksum]



/-- C15 fails as stated: on a freshly mounted single-density disk as unit 1 the frame
`31 53 00 00 84` passes validation, goes to the disk switch and is answered with 'A', 'C'
and the status frame `00 ff e0 ff e0`: the first two bytes are `0x00` and `0xff`, not
`0x10` and `0x01`. -/
theorem C15_counterexample :
    check_desync 0x6f [0x31, 0x53, 0x00, 0x00, 0x84]
      (calc_checksum [0x31, 0x53, 0x00, 0x00, 0x84] 4) 0x84 = 0 ∧
    main_target 0x6f 1 (-1) sd_720_unit.dev.fd [0x31, 0x53, 0x00, 0x00, 0x84] = TARGET.disk ∧
    (main_disk_status 0 (List.replicate 8 0) 1793361600
      { tm_sec := 5, tm_min := 4, tm_hour := 3, tm_mday := 30, tm_mon := 9, tm_year := 126 }
      sd_720_unit).2.2.tx = [0x41, 0x43, 0x00, 0xff, 0xe0, 0xff, 0xe0] := by
  refine ⟨by decide, by decide, ?_⟩
  unfold main_disk_status
  simp only []
  rw [sio_send_status_tx _ (by decide)]
  decide

/-- C15 (amended): for a freshly mounted single-density disk (128-byte sectors, 720
sectors) as unit 1 the command frame `31 53 00 00 84` passes validation and reaches the
disk switch (unless PCLink is active with `PCLSIO = 0x31`); it is answered with 'A', 'C'
and a five-byte frame whose first three bytes are `0x00`, `0xff`, `0xe0`, whose fourth is
the byte `sdxtime[toff]` (`0xff` when `toff = 0`) and whose last is `calc_checksum` of the
first four. -/
theorem C15_disk_status_frame (pclsio : Nat) (pclcnt printer_fd toff tod : Int) (t : TM)
    (sdxtime : List Nat) (hpcl : ¬ (pclcnt > 1 ∧ pclsio = 0x31)) (hlen : sdxtime.length = 8) :
    check_desync pclsio [0x31, 0x53, 0x00, 0x00, 0x84]
      (calc_checksum [0x31, 0x53, 0x00, 0x00, 0x84] 4) 0x84 = 0 ∧
    main_target pclsio pclcnt printer_fd sd_720_unit.dev.fd [0x31, 0x53, 0x00, 0x00, 0x84] =
      TARGET.disk ∧
    (main_disk_status toff sdxtime tod t sd_720_unit).2.2.tx =
      [0x41, 0x43, 0x00, 0xff, 0xe0,
        (if toff = 0 then 0xff else sdxtime.getD toff.toNat 0),
        calc_checksum [0x00, 0xff, 0xe0,
          (if toff = 0 then 0xff else sdxtime.getD toff.toNat 0)] 4] := by
  refine ⟨?_, ?_, ?_⟩
  · have h : calc_checksum [0x31, 0x53, 0x00, 0x00, 0x84] 4 = 0x84 := by decide
    have hc : (0x31 : Nat) &&& 0xf0 = 0x30 := by decide
    rw [h]
    unfold check_desync
    simp [hc]
  · unfold main_target
    have hfd : sd_720_unit.dev.fd = 3 := by decide
    have h1 : ¬ (pclcnt > 1 ∧ (0x31 = pclsio ∨ (0x31 : Nat) = 0x6f)) := by
      rintro ⟨a, b | b⟩
      · exact hpcl ⟨a, b.symm⟩
      · exact absurd b (by decide)
    have e1 : ((0x31 : Nat) &&& 0xf0) >>> 4 = 3 := by decide
    simp only [List.getD_cons_zero, h1, if_false, hfd, e1]
    simp
  · unfold main_disk_status
    simp only []
    rw [sio_send_status_tx _ (by show 5 ≤ sd_720_unit.outbuf.length; decide)]
    have hsp : (if toff = 0 then get_sdx_time sdxtime tod t else sdxtime).getD toff.toNat 0 =
        (if toff = 0 then 0xff else sdxtime.getD toff.toNat 0) := by
      by_cases h0 : toff = 0
      · subst h0
        match sdxtime, hlen with
        | a :: rest, _ => simp [get_sdx_time, store]
      · simp only [h0, if_false]
    simp only [hsp, with_none_stat, with_none_err, with_none_tmot, with_none_none,
      setup_status_with_none_stat]
    have hs : (setup_status (with_stat sd_720_unit.dev
        (ack_stat sd_720_unit.dev.status.stat 0x41))).status.stat = 0 := by decide
    have he : sd_720_unit.dev.status.err = 0xff := by decide
    have ht : sd_720_unit.dev.status.tmot = 0xe0 := by decide
    have htx : sd_720_unit.tx = [] := by decide
    simp [hs, he, ht, htx]

/-- C15 (amended) at the first status command after the mount (`toff = 0`), with PCLink
on its usual address `0x6f`. -/
theorem C15_disk_status_frame_witness :
    (¬ ((1 : Int) > 1 ∧ (0x6f : Nat) = 0x31) ∧ (List.replicate 8 0).length = 8) ∧
    (main_disk_status 0 (List.replicate 8 0) 1793361600
      { tm_sec := 5, tm_min := 4, tm_hour := 3, tm_mday := 30, tm_mon := 9, tm_year := 126 }
      sd_720_unit).2.2.tx =
      [0x41, 0x43, 0x00, 0xff, 0xe0, (if (0 : Int) = 0 then 0xff else
          (List.replicate 8 0).getD (0 : Int).toNat 0),
        calc_checksum [0x00, 0xff, 0xe0, (if (0 : Int) = 0 then 0xff else
          (List.replicate 8 0).getD (0 : Int).toNat 0)] 4] :=
  ⟨by decide,
   (C15_disk_status_frame 0x6f 1 (-1) 0 1793361600
      { tm_sec := 5, tm_min := 4, tm_hour := 3, tm_mday := 30, tm_mon := 9, tm_year := 126 }
      (List.replicate 8 0) (by decide) (by decide)).2.2⟩

/-! ## Clock query: C16 -/

theorem year_loop_eq (yy : Nat) (h : yy < 256) : year_loop 2 yy = yy % 100 := by
  unfold year_loop
  split_ifs with a
  · unfold year_loop
    split_ifs with b
    · simp only [year_loop]; omega
    · omega
  · omega

theorem main_ape_time_tx (cmd sdxtime : List Nat) (tod : Int) (t : TM) (st : SIO)
    (hc : cmd.getD 1 0 = 0x93) (hs : main_sec cmd = 0xa0ee) (hlen : sdxtime.length = 8)
    (htod : tod ≠ 0) :
    (main_ape_time cmd sdxtime tod t st).2.tx =
      st.tx ++ [0x41, 0x43] ++
        [toUchar t.tm_mday, toUchar (t.tm_mon + 1), year_loop 2 (toUchar t.tm_year),
          toUchar t.tm_hour, toUchar t.tm_min, toUchar t.tm_sec] ++
        [calc_checksum [toUchar t.tm_mday, toUchar (t.tm_mon + 1),
          year_loop 2 (toUchar t.tm_year), toUchar t.tm_hour, toUchar t.tm_min,
          toUchar t.tm_sec] 6] := by
  unfold main_ape_time
  simp only [hc, hs, and_self, if_true]
  match sdxtime, hlen with
  | [a0, a1, a2, a3, a4, a5, a6, a7], _ =>
    simp [get_sdx_time, unix_time_2_sdx, htod, store, sio_ack_eq, com_write, calc_checksum]

/-- C16 fails as stated: the valid frame `45 93 ee 0a d1` (device `0x45`, command `0x93`,
aux1 `0xee`, aux2 `0x0a`) reaches the clock branch and is answered with 'N' alone. -/
theorem C16_counterexample :
    check_desync 0x6f [0x45, 0x93, 0xee, 0x0a, 0xd1]
      (calc_checksum [0x45, 0x93, 0xee, 0x0a, 0xd1] 4) 0xd1 = 0 ∧
    main_target 0x6f 1 (-1) (-1) [0x45, 0x93, 0xee, 0x0a, 0xd1] = TARGET.ape_time ∧
    (main_ape_time [0x45, 0x93, 0xee, 0x0a, 0xd1] (List.replicate 8 0) 1793361600
      { tm_sec := 5, tm_min := 4, tm_hour := 3, tm_mday := 30, tm_mon := 9, tm_year := 126 }
      clock_unit).2.tx = [0x4e] := by
  decide

/-- C16 (amended): the valid frame `45 93 ee a0 68` (device `0x45`, command `0x93`, aux1
`0xee`, aux2 `0xa0`) reaches the clock branch (unless PCLink is active with
`PCLSIO = 0x45`) and is answered with 'A', 'C', the six bytes day, month, year mod 100,
hour, minute, second of the local time and the checksum of those six bytes, for a clock
that does not read 0 and a year from 1900 to 2155. -/
theorem C16_clock_query (pclsio : Nat) (pclcnt printer_fd fd tod : Int) (t : TM)
    (sdxtime : List Nat) (st : SIO)
    (hpcl : ¬ (pclcnt > 1 ∧ pclsio = 0x45)) (hlen : sdxtime.length = 8) (htod : tod ≠ 0)
    (hday : 1 ≤ t.tm_mday ∧ t.tm_mday ≤ 31) (hmon : 0 ≤ t.tm_mon ∧ t.tm_mon ≤ 11)
    (hyear : 0 ≤ t.tm_year ∧ t.tm_year < 256) (hhour : 0 ≤ t.tm_hour ∧ t.tm_hour ≤ 23)
    (hmin : 0 ≤ t.tm_min ∧ t.tm_min ≤ 59) (hsec : 0 ≤ t.tm_sec ∧ t.tm_sec ≤ 60) :
    check_desync pclsio [0x45, 0x93, 0xee, 0xa0, 0x68]
      (calc_checksum [0x45, 0x93, 0xee, 0xa0, 0x68] 4) 0x68 = 0 ∧
    main_target pclsio pclcnt printer_fd fd [0x45, 0x93, 0xee, 0xa0, 0x68] = TARGET.ape_time ∧
    (main_ape_time [0x45, 0x93, 0xee, 0xa0, 0x68] sdxtime tod t st).2.tx =
      st.tx ++ [0x41, 0x43] ++
        [t.tm_mday.toNat, (t.tm_mon + 1).toNat, ((1900 + t.tm_year) % 100).toNat,
          t.tm_hour.toNat, t.tm_min.toNat, t.tm_sec.toNat] ++
        [calc_checksum [t.tm_mday.toNat, (t.tm_mon + 1).toNat,
          ((1900 + t.tm_year) % 100).toNat, t.tm_hour.toNat, t.tm_min.toNat,
          t.tm_sec.toNat] 6] := by
  refine ⟨?_, ?_, ?_⟩
  · have h : calc_checksum [0x45, 0x93, 0xee, 0xa0, 0x68] 4 = 0x68 := by decide
    have hc : (0x45 : Nat) &&& 0xf0 = 0x40 := by decide
    rw [h]
    unfold check_desync
    simp [hc]
  · unfold main_target
    have h1 : ¬ (pclcnt > 1 ∧ (0x45 = pclsio ∨ (0x45 : Nat) = 0x6f)) := by
      rintro ⟨a, b | b⟩
      · exact hpcl ⟨a, b.symm⟩
      · exact absurd b (by decide)
    have e1 : ((0x45 : Nat) &&& 0xf0) >>> 4 = 4 := by decide
    simp only [List.getD_cons_zero, h1, if_false, e1]
    simp
  · rw [main_ape_time_tx _ _ _ _ _ (by decide) (by decide) hlen htod]
    have u : ∀ x : Int, 0 ≤ x → x < 256 → toUchar x = x.toNat := by
      intro x h0 h1
      unfold toUchar
      rw [Int.emod_eq_of_lt h0 h1]
    have hy : year_loop 2 (toUchar t.tm_year) = ((1900 + t.tm_year) % 100).toNat := by
      rw [u _ hyear.1 hyear.2, year_loop_eq _ (by omega)]
      omega
    rw [hy, u _ (by omega) (by omega), u _ (by omega) (by omega), u _ (by omega) (by omega),
      u _ (by omega) (by omega), u _ (by omega) (by omega)]

/-- C16 (amended) at 30 October 2026, 03:04:05 local time: the answer is 'A', 'C',
`1e 0a 1a 03 04 05` and the checksum `4e`. -/
theorem C16_clock_query_witness :
    (¬ ((1 : Int) > 1 ∧ (0x6f : Nat) = 0x45) ∧ (List.replicate 8 0).length = 8 ∧
      (1793361600 : Int) ≠ 0) ∧
    (main_ape_time [0x45, 0x93, 0xee, 0xa0, 0x68] (List.replicate 8 0) 1793361600
      { tm_sec := 5, tm_min := 4, tm_hour := 3, tm_mday := 30, tm_mon := 9, tm_year := 126 }
      clock_unit).2.tx =
      [0x41, 0x43, 0x1e, 0x0a, 0x1a, 0x03, 0x04, 0x05, 0x4e] :=
  ⟨by decide,
   (C16_clock_query 0x6f 1 (-1) (-1) 1793361600
      { tm_sec := 5, tm_min := 4, tm_hour := 3, tm_mday := 30, tm_mon := 9, tm_year := 126 }
      (List.replicate 8 0) clock_unit
      (by decide) (by decide) (by decide) (by decide) (by decide) (by decide) (by decide)
      (by decide) (by decide)).2.2⟩

/-! ## Desync recovery: C17 -/

theorem main_retry_eq (pclsio left : Nat) (cmd rx : List Nat) (turbo_on : Nat) :
    main_retry pclsio left cmd rx turbo_on =
      if check_desync pclsio cmd (calc_checksum cmd 4) (cmd.getD 4 0) ≠ 0 then
        match left, rx with
        | left + 1, b :: rest =>
          main_retry pclsio left ((cmd.drop 1).take 4 ++ [b]) rest turbo_on
        | _ + 1, [] => (none, rx, turbo_toggle turbo_on)
        | 0, _ => (none, rx, turbo_toggle turbo_on)
      else (some cmd, rx, turbo_on) := by
  cases left <;> cases rx <;> simp [main_retry]

theorem bad_frame_zero (pclsio : Nat) (cmd rx : List Nat) (h : cmd.length = 5) :
    bad_frame pclsio (cmd ++ rx) 0 ↔
      check_desync pclsio cmd (calc_checksum cmd 4) (cmd.getD 4 0) ≠ 0 := by
  unfold bad_frame
  have e : ((cmd ++ rx).drop 0).take 5 = cmd := by
    rw [List.drop_zero, List.take_append_of_le_length (by omega), List.take_of_length_le (by omega)]
  rw [e]

theorem shift_frame (cmd rest : List Nat) (b : Nat) (h : cmd.length = 5) :
    (cmd.drop 1).take 4 ++ [b] ++ rest = (cmd ++ b :: rest).drop 1 ∧
    ((cmd.drop 1).take 4 ++ [b]).length = 5 := by
  match cmd, h with
  | [a0, a1, a2, a3, a4], _ => simp

theorem bad_frame_succ (pclsio : Nat) (cmd rest : List Nat) (b k : Nat) (h : cmd.length = 5) :
    bad_frame pclsio (cmd ++ b :: rest) (k + 1) ↔
      bad_frame pclsio ((cmd.drop 1).take 4 ++ [b] ++ rest) k := by
  unfold bad_frame
  rw [(shift_frame cmd rest b h).1, List.drop_drop]
  have e : 1 + k = k + 1 := by omega
  rw [e]

/-- The retry loop on a stream with enough pending input: it dispatches the first of the
frames at offsets `0 .. left` that passes, and toggles turbo when none does. -/
theorem main_retry_spec (pclsio : Nat) (left : Nat) :
    ∀ (cmd rx : List Nat) (turbo_on : Nat), cmd.length = 5 → left ≤ rx.length →
      ((∀ k, k ≤ left → bad_frame pclsio (cmd ++ rx) k) →
        main_retry pclsio left cmd rx turbo_on = (none, rx.drop left, turbo_toggle turbo_on)) ∧
      (∀ k, k ≤ left → (∀ j, j < k → bad_frame pclsio (cmd ++ rx) j) →
        ¬ bad_frame pclsio (cmd ++ rx) k →
        main_retry pclsio left cmd rx turbo_on =
          (some (((cmd ++ rx).drop k).take 5), rx.drop k, turbo_on)) := by
  induction left with
  | zero =>
    intro cmd rx turbo_on hc hr
    have e : ((cmd ++ rx).drop 0).take 5 = cmd := by
      rw [List.drop_zero, List.take_append_of_le_length (by omega),
        List.take_of_length_le (by omega)]
    constructor
    · intro hbad
      have h0 := (bad_frame_zero pclsio cmd rx hc).mp (hbad 0 (Nat.le_refl 0))
      rw [main_retry_eq, if_pos h0]
      rfl
    · intro k hk _ hgood
      have hk0 : k = 0 := by omega
      subst hk0
      have h0 : ¬ check_desync pclsio cmd (calc_checksum cmd 4) (cmd.getD 4 0) ≠ 0 :=
        fun h => hgood ((bad_frame_zero pclsio cmd rx hc).mpr h)
      rw [main_retry_eq, if_neg h0, e]
      rfl
  | succ n ih =>
    intro cmd rx turbo_on hc hr
    match rx, hr with
    | b :: rest, hr =>
      have hr' : n ≤ rest.length := by simpa using hr
      obtain ⟨hs1, hs2⟩ := shift_frame cmd rest b hc
      obtain ⟨ih1, ih2⟩ := ih ((cmd.drop 1).take 4 ++ [b]) rest turbo_on hs2 hr'
      constructor
      · intro hbad
        have h0 := (bad_frame_zero pclsio cmd (b :: rest) hc).mp (hbad 0 (Nat.zero_le _))
        rw [main_retry_eq, if_pos h0]
        simp only []
        rw [ih1 (fun k hk => (bad_frame_succ pclsio cmd rest b k hc).mp (hbad (k + 1) (by omega)))]
        rfl
      · intro k hk hpre hgood
        cases k with
        | zero =>
          have h0 : ¬ check_desync pclsio cmd (calc_checksum cmd 4) (cmd.getD 4 0) ≠ 0 :=
            fun h => hgood ((bad_frame_zero pclsio cmd (b :: rest) hc).mpr h)
          have e : ((cmd ++ b :: rest).drop 0).take 5 = cmd := by
            rw [List.drop_zero, List.take_append_of_le_length (by omega),
              List.take_of_length_le (by omega)]
          rw [main_retry_eq, if_neg h0, e]
          rfl
        | succ k =>
          have h0 := (bad_frame_zero pclsio cmd (b :: rest) hc).mp (hpre 0 (by omega))
          rw [main_retry_eq, if_pos h0]
          simp only []
          rw [ih2 k (by omega)
            (fun j hj => (bad_frame_succ pclsio cmd rest b j hc).mp (hpre (j + 1) (by omega)))
            (fun h => hgood ((bad_frame_succ pclsio cmd rest b k hc).mpr h))]
          rw [hs1, List.drop_drop]
          have e : 1 + k = k + 1 := by omega
          rw [e]
          rfl

/-- The retry loop on any stream: when the window at offset `k` is the first that passes
and the `k` bytes it needs are pending, it is dispatched with `k` bytes consumed and the
turbo flag untouched. -/
theorem main_retry_dispatch (pclsio : Nat) (left : Nat) :
    ∀ (cmd rx : List Nat) (turbo_on : Nat), cmd.length = 5 →
      ∀ k, k ≤ left → k ≤ rx.length → (∀ j, j < k → bad_frame pclsio (cmd ++ rx) j) →
        ¬ bad_frame pclsio (cmd ++ rx) k →
        main_retry pclsio left cmd rx turbo_on =
          (some (((cmd ++ rx).drop k).take 5), rx.drop k, turbo_on) := by
  induction left with
  | zero =>
    intro cmd rx turbo_on hc k hk _ _ hgood
    have hk0 : k = 0 := by omega
    subst hk0
    have e : ((cmd ++ rx).drop 0).take 5 = cmd := by
      rw [List.drop_zero, List.take_append_of_le_length (by omega),
        List.take_of_length_le (by omega)]
    have h0 : ¬ check_desync pclsio cmd (calc_checksum cmd 4) (cmd.getD 4 0) ≠ 0 :=
      fun h => hgood ((bad_frame_zero pclsio cmd rx hc).mpr h)
    rw [main_retry_eq, if_neg h0, e]
    rfl
  | succ n ih =>
    intro cmd rx turbo_on hc k hk hkr hpre hgood
    cases k with
    | zero =>
      have h0 : ¬ check_desync pclsio cmd (calc_checksum cmd 4) (cmd.getD 4 0) ≠ 0 :=
        fun h => hgood ((bad_frame_zero pclsio cmd rx hc).mpr h)
      have e : ((cmd ++ rx).drop 0).take 5 = cmd := by
        rw [List.drop_zero, List.take_append_of_le_length (by omega),
          List.take_of_length_le (by omega)]
      rw [main_retry_eq, if_neg h0, e]
      rfl
    | succ k =>
      match rx, hkr with
      | b :: rest, hkr =>
        have hkr' : k ≤ rest.length := by simpa using hkr
        obtain ⟨hs1, hs2⟩ := shift_frame cmd rest b hc
        have h0 := (bad_frame_zero pclsio cmd (b :: rest) hc).mp (hpre 0 (by omega))
        rw [main_retry_eq, if_pos h0]
        simp only []
        rw [ih ((cmd.drop 1).take 4 ++ [b]) rest turbo_on hs2 k (by omega) hkr'
          (fun j hj => (bad_frame_succ pclsio cmd rest b j hc).mp (hpre (j + 1) (by omega)))
          (fun h => hgood ((bad_frame_succ pclsio cmd rest b k hc).mpr h))]
        rw [hs1, List.drop_drop]
        have e : 1 + k = k + 1 := by omega
        rw [e]
        rfl

theorem turbo_toggle_ne (turbo_on : Nat) : turbo_toggle turbo_on ≠ turbo_on := by
  unfold turbo_toggle
  split_ifs with h
  · exact fun e => h e.symm
  · have : turbo_on = 0 := by omega
    rw [this]; decide

/-- C17: desync recovery on the stream `cmd ++ rx` of the frame read and the pending input,
whatever the number of pending bytes. The frames tried are the five-byte windows at
offsets 0, 1, ... of the stream, each the one before shifted left by one byte and
completed with one newly read byte. When the window at offset `k ≤ 4` is the first that
passes `check_desync` and `k` bytes are pending, exactly `k` bytes have been consumed
and that frame is dispatched with the turbo flag untouched. When four bytes are pending,
the turbo flag is toggled (its value changes) exactly when all five windows fail, and then
four bytes have been consumed. -/
theorem C17_desync_recovery (pclsio : Nat) (cmd rx : List Nat) (turbo_on : Nat)
    (hcmd : cmd.length = 5) :
    (4 ≤ rx.length → (∀ k, k ≤ 4 → bad_frame pclsio (cmd ++ rx) k) →
      main_validate pclsio cmd rx turbo_on = (none, rx.drop 4, turbo_toggle turbo_on)) ∧
    (∀ k, k ≤ 4 → k ≤ rx.length → (∀ j, j < k → bad_frame pclsio (cmd ++ rx) j) →
      ¬ bad_frame pclsio (cmd ++ rx) k →
      main_validate pclsio cmd rx turbo_on =
        (some (((cmd ++ rx).drop k).take 5), rx.drop k, turbo_on)) ∧
    (4 ≤ rx.length →
      ((main_validate pclsio cmd rx turbo_on).2.2 ≠ turbo_on ↔
        ∀ k, k ≤ 4 → bad_frame pclsio (cmd ++ rx) k)) ∧
    turbo_toggle turbo_on ≠ turbo_on := by
  have hA : 4 ≤ rx.length → (∀ k, k ≤ 4 → bad_frame pclsio (cmd ++ rx) k) →
      main_validate pclsio cmd rx turbo_on = (none, rx.drop 4, turbo_toggle turbo_on) :=
    fun hrx => (main_retry_spec pclsio 4 cmd rx turbo_on hcmd hrx).1
  have hB := main_retry_dispatch pclsio 4 cmd rx turbo_on hcmd
  refine ⟨hA, hB, ?_, turbo_toggle_ne turbo_on⟩
  intro hrx
  constructor
  · intro hne
    by_contra hall
    have hex : ∃ k, k ≤ 4 ∧ ¬ bad_frame pclsio (cmd ++ rx) k := by
      by_contra hno
      apply hall
      intro k hk
      by_contra hb
      exact hno ⟨k, hk, hb⟩
    have hmin := Nat.find_spec hex
    have hpre : ∀ j, j < Nat.find hex → bad_frame pclsio (cmd ++ rx) j := by
      intro j hj
      by_contra hb
      exact Nat.find_min hex hj ⟨by omega, hb⟩
    have hres : main_validate pclsio cmd rx turbo_on = _ :=
      hB (Nat.find hex) hmin.1 (by omega) hpre hmin.2
    rw [hres] at hne
    exact hne rfl
  · intro hall
    rw [hA hrx hall]
    exact turbo_toggle_ne turbo_on

/-- C17 on three streams: `01 01 01 01 05 | 31 53 00 00 84` has five failing windows (turbo
goes from 0 to 1, four bytes consumed); `05 31 53 00 00 | 84 09 09 09` passes at
offset 1 (the frame `31 53 00 00 84` is dispatched, turbo stays 0); and so does
`05 31 53 00 00 | 84` with its single pending byte. -/
theorem C17_desync_recovery_witness :
    ([1, 1, 1, 1, 5].length = 5 ∧ 4 ≤ [0x31, 0x53, 0, 0, 0x84].length ∧
      (∀ k, k ≤ 4 → bad_frame 0x6f ([1, 1, 1, 1, 5] ++ [0x31, 0x53, 0, 0, 0x84]) k) ∧
      (∀ j, j < 1 → bad_frame 0x6f ([5, 0x31, 0x53, 0, 0] ++ [0x84, 9, 9, 9]) j) ∧
      ¬ bad_frame 0x6f ([5, 0x31, 0x53, 0, 0] ++ [0x84, 9, 9, 9]) 1 ∧
      (∀ j, j < 1 → bad_frame 0x6f ([5, 0x31, 0x53, 0, 0] ++ [0x84]) j) ∧
      ¬ bad_frame 0x6f ([5, 0x31, 0x53, 0, 0] ++ [0x84]) 1) ∧
    main_validate 0x6f [1, 1, 1, 1, 5] [0x31, 0x53, 0, 0, 0x84] 0 = (none, [0x84], 1) ∧
    main_validate 0x6f [5, 0x31, 0x53, 0, 0] [0x84, 9, 9, 9] 0 =
      (some [0x31, 0x53, 0, 0, 0x84], [9, 9, 9], 0) ∧
    main_validate 0x6f [5, 0x31, 0x53, 0, 0] [0x84] 0 =
      (some [0x31, 0x53, 0, 0, 0x84], [], 0) :=
  ⟨by decide,
   (C17_desync_recovery 0x6f [1, 1, 1, 1, 5] [0x31, 0x53, 0, 0, 0x84] 0 (by decide)).1
      (by decide) (by decide),
   (C17_desync_recovery 0x6f [5, 0x31, 0x53, 0, 0] [0x84, 9, 9, 9] 0 (by decide)).2.1 1
      (by decide) (by decide) (by decide) (by decide),
   (C17_desync_recovery 0x6f [5, 0x31, 0x53, 0, 0] [0x84] 0 (by decide)).2.1 1
      (by decide) (by decide) (by decide) (by decide)⟩

/-! ## PCLink parameter block retry: C18 -/

@[simp] theorem with_err_err (dev : DEVICE) (v : Nat) : (with_err dev v).status.err = v := rfl
@[simp] theorem with_err_stat (dev : DEVICE) (v : Nat) :
    (with_err dev v).status.stat = dev.status.stat := rfl
@[simp] theorem with_stat_status_stat (dev : DEVICE) (v : Nat) :
    (with_stat dev v).status.stat = v := rfl

/-- The parameter phase of `do_pclink` when the block `blk` arrives with a correct
checksum: both acknowledges are sent, and the block is either ignored as a retry or
copied into `parbuf`. -/
theorem pcl_param_block_ok (parsize : Nat) (st : PCL) (blk rest : List Nat)
    (hlen : blk.length = parsize)
    (hrx : st.unit.rx =
      blk ++ calc_checksum (store (List.replicate sizeof_PARBUF 0) blk) parsize :: rest) :
    pcl_param_block parsize st =
      some (
        if store (List.replicate sizeof_PARBUF 0) blk = st.parbuf ∧
            (blk.getD 0 0 ≠ 0x00 ∧ blk.getD 0 0 ≠ 0x01 ∧ blk.getD 0 0 ≠ 0x03 ∧
              blk.getD 0 0 ≠ 0x04 ∧ blk.getD 0 0 ≠ 0x06 ∧ blk.getD 0 0 ≠ 0x11 ∧
              blk.getD 0 0 ≠ 0x13) then
          ({ st with unit := { st.unit with
              rx := rest, tx := st.unit.tx ++ [0x41, 0x41],
              dev := with_stat st.unit.dev
                (ack_stat (ack_stat st.unit.dev.status.stat 0x41 &&& (0xff ^^^ 0x02)) 0x41 &&&
                  (0xff ^^^ 0x04)) } }, false)
        else
          ({ st with
              unit := { st.unit with
                rx := rest, tx := st.unit.tx ++ [0x41, 0x41],
                dev := with_stat st.unit.dev
                  (ack_stat (ack_stat st.unit.dev.status.stat 0x41 &&& (0xff ^^^ 0x02)) 0x41 &&&
                    (0xff ^^^ 0x04)) },
              parbuf := store (List.replicate sizeof_PARBUF 0) blk }, true)) := by
  have h1 : parsize ≤ st.unit.rx.length := by
    rw [hrx, List.length_append]; omega
  have ht : st.unit.rx.take parsize = blk := by
    rw [hrx, ← hlen, List.take_left]
  have hd : st.unit.rx.drop parsize =
      calc_checksum (store (List.replicate sizeof_PARBUF 0) blk) parsize :: rest := by
    rw [hrx, ← hlen, List.drop_left]
  have hfno : (store (List.replicate sizeof_PARBUF 0) blk).getD 0 0 = blk.getD 0 0 := by
    unfold store
    cases blk with
    | nil => simp [sizeof_PARBUF, List.replicate]
    | cons a t => simp
  unfold pcl_param_block
  simp only [sio_ack_eq, com_read_data, h1, if_true, ht, hd, List.length_cons,
    Nat.le_add_left, List.take_succ_cons, List.take_zero, List.drop_succ_cons, List.drop_zero,
    List.getD_cons_zero, ne_eq, not_true_eq_false, if_false, with_stat_status_stat,
    with_stat_with_stat, hfno, List.append_assoc, List.singleton_append]
  by_cases hp : store (List.replicate sizeof_PARBUF 0) blk = st.parbuf
  · by_cases hc : blk.getD 0 0 ≠ 0x00 ∧ blk.getD 0 0 ≠ 0x01 ∧ blk.getD 0 0 ≠ 0x03 ∧
        blk.getD 0 0 ≠ 0x04 ∧ blk.getD 0 0 ≠ 0x06 ∧ blk.getD 0 0 ≠ 0x11 ∧ blk.getD 0 0 ≠ 0x13
    · simp only [hp, hc, true_and, if_true, ne_eq, not_false_eq_true, and_self]
    · have hc' : ¬ (¬ blk.getD 0 0 = 0x00 ∧ ¬ blk.getD 0 0 = 0x01 ∧ ¬ blk.getD 0 0 = 0x03 ∧
          ¬ blk.getD 0 0 = 0x04 ∧ ¬ blk.getD 0 0 = 0x06 ∧ ¬ blk.getD 0 0 = 0x11 ∧
          ¬ blk.getD 0 0 = 0x13) := hc
      simp only [hp, hc', true_and, if_true, if_false, and_false]
  · simp only [hp, false_and, if_false]



/-- C18 fails as stated: an identical FSEEK block (`0x02`) with a correct checksum is not
processed again (`goto complete`: the answer is 'A', 'A', 'C'), although the claim lists
FSEEK among the functions processed again; an identical FNEXT block (`0x06`) is processed
again, although the claim says it is ignored. -/
theorem C18_counterexample :
    (pcl_param_block 11 (pcl_retry_unit 0x02)).map Prod.snd = some false ∧
    (do_pclink 0x50 11 0x01 [] (pcl_retry_unit 0x02)).map
      (fun r => match r with
        | PCL_OUT.done st => (true, st.unit.tx)
        | PCL_OUT.other st => (false, st.unit.tx)) = some (true, [0x41, 0x41, 0x43]) ∧
    (pcl_param_block 11 (pcl_retry_unit 0x06)).map Prod.snd = some true := by
  decide



/-- C18 (amended): when the block received in a P phase (`caux1` bytes, version bits of
`caux2` zero) has a correct checksum and equals the stored parameter block, control goes
on to the function blocks exactly when the code is FREAD (`0x00`), FWRITE (`0x01`), FTELL
(`0x03`), FLEN (`0x04`), FNEXT (`0x06`), GETCWD (`0x11`) or DFREE (`0x13`); for every
other code `do_pclink` returns after 'A', 'A', 'C' with the handle table, the parameter
block and `err` unchanged. -/
theorem C18_pcl_retry (caux1 caux2 : Nat) (mem : List Nat) (st : PCL) (blk rest : List Nat)
    (h1 : 1 ≤ caux1) (h100 : caux1 ≤ 100) (hver : caux2 &&& 0xf0 = 0)
    (hlen : blk.length = caux1)
    (hrx : st.unit.rx =
      blk ++ calc_checksum (store (List.replicate sizeof_PARBUF 0) blk) caux1 :: rest)
    (hsame : store (List.replicate sizeof_PARBUF 0) blk = st.parbuf) :
    (∃ st', pcl_param_block caux1 st =
      some (st', decide (blk.getD 0 0 ∈ [0x00, 0x01, 0x03, 0x04, 0x06, 0x11, 0x13]))) ∧
    (blk.getD 0 0 ∉ [0x00, 0x01, 0x03, 0x04, 0x06, 0x11, 0x13] →
      ∃ st', do_pclink 0x50 caux1 caux2 mem st = some (PCL_OUT.done st') ∧
        st'.unit.tx = st.unit.tx ++ [0x41, 0x41, 0x43] ∧ st'.iodesc = st.iodesc ∧
        st'.parbuf = st.parbuf ∧ st'.unit.dev.status.err = st.unit.dev.status.err) := by
  have hblock := pcl_param_block_ok caux1 st blk rest hlen hrx
  have hmem : blk.getD 0 0 ∈ [0x00, 0x01, 0x03, 0x04, 0x06, 0x11, 0x13] ↔
      ¬ (blk.getD 0 0 ≠ 0x00 ∧ blk.getD 0 0 ≠ 0x01 ∧ blk.getD 0 0 ≠ 0x03 ∧
        blk.getD 0 0 ≠ 0x04 ∧ blk.getD 0 0 ≠ 0x06 ∧ blk.getD 0 0 ≠ 0x11 ∧
        blk.getD 0 0 ≠ 0x13) := by
    simp only [List.mem_cons, List.mem_singleton, List.not_mem_nil, or_false]
    tauto
  by_cases hc : blk.getD 0 0 ≠ 0x00 ∧ blk.getD 0 0 ≠ 0x01 ∧ blk.getD 0 0 ≠ 0x03 ∧
      blk.getD 0 0 ≠ 0x04 ∧ blk.getD 0 0 ≠ 0x06 ∧ blk.getD 0 0 ≠ 0x11 ∧ blk.getD 0 0 ≠ 0x13
  · have hnm : ¬ blk.getD 0 0 ∈ [0x00, 0x01, 0x03, 0x04, 0x06, 0x11, 0x13] :=
      fun h => (hmem.mp h) hc
    rw [if_pos ⟨hsame, hc⟩] at hblock
    refine ⟨⟨_, by rw [hblock, decide_eq_false hnm]⟩, ?_⟩
    intro _
    have hp1 : (if caux1 ≠ 0 then caux1 else 256) = caux1 := by
      rw [if_pos (by omega)]
    have hp2 : ¬ caux1 > sizeof_PARBUF := by unfold sizeof_PARBUF; omega
    unfold do_pclink
    simp only [hp1, hver, ne_eq, not_true_eq_false, if_false, hp2, if_true, hblock]
    refine ⟨_, rfl, ?_, rfl, rfl, rfl⟩
    simp [pcl_complete, sio_ack_eq]
  · have hm : blk.getD 0 0 ∈ [0x00, 0x01, 0x03, 0x04, 0x06, 0x11, 0x13] := hmem.mpr hc
    have hne : ¬ (store (List.replicate sizeof_PARBUF 0) blk = st.parbuf ∧
        (blk.getD 0 0 ≠ 0x00 ∧ blk.getD 0 0 ≠ 0x01 ∧ blk.getD 0 0 ≠ 0x03 ∧
        blk.getD 0 0 ≠ 0x04 ∧ blk.getD 0 0 ≠ 0x06 ∧ blk.getD 0 0 ≠ 0x11 ∧
        blk.getD 0 0 ≠ 0x13)) := fun h => hc h.2
    rw [if_neg hne] at hblock
    refine ⟨⟨_, by rw [hblock, decide_eq_true hm]⟩, ?_⟩
    intro h
    exact absurd hm h

/-- C18 (amended) at an identical FSEEK block (ignored as a retry) and, in the same
theorem, its first part at that block. -/
theorem C18_pcl_retry_witness :
    ((1 : Nat) ≤ 11 ∧ (11 : Nat) ≤ 100 ∧ (0x01 : Nat) &&& 0xf0 = 0 ∧
      (pcl_block 0x02).length = 11 ∧
      (pcl_retry_unit 0x02).unit.rx =
        pcl_block 0x02 ++
          calc_checksum (store (List.replicate sizeof_PARBUF 0) (pcl_block 0x02)) 11 :: [] ∧
      store (List.replicate sizeof_PARBUF 0) (pcl_block 0x02) = (pcl_retry_unit 0x02).parbuf ∧
      (pcl_block 0x02).getD 0 0 ∉ [0x00, 0x01, 0x03, 0x04, 0x06, 0x11, 0x13]) ∧
    ∃ st', do_pclink 0x50 11 0x01 [] (pcl_retry_unit 0x02) = some (PCL_OUT.done st') ∧
      st'.unit.tx = (pcl_retry_unit 0x02).unit.tx ++ [0x41, 0x41, 0x43] ∧
      st'.iodesc = (pcl_retry_unit 0x02).iodesc ∧
      st'.parbuf = (pcl_retry_unit 0x02).parbuf ∧
      st'.unit.dev.status.err = (pcl_retry_unit 0x02).unit.dev.status.err :=
  ⟨by decide,
   (C18_pcl_retry 11 0x01 [] (pcl_retry_unit 0x02) (pcl_block 0x02) [] (by decide) (by decide)
      (by decide) (by decide) (by decide) (by decide)).2 (by decide)⟩

/-! ## PCLink FREAD: lemmas -/

theorem and_ff00_shift (x : Nat) : (x &&& 0xff00) >>> 8 = (x / 256) % 256 := by
  have h : (x &&& 0xff00) >>> 8 = (x >>> 8) &&& 0xff := by
    apply Nat.eq_of_testBit_eq
    intro j
    have e : (0xff : Nat) = 0xff00 >>> 8 := by decide
    rw [Nat.testBit_shiftRight, Nat.testBit_and, Nat.testBit_and, Nat.testBit_shiftRight, e,
      Nat.testBit_shiftRight]
  rw [h, and_ff_eq_mod, Nat.shiftRight_eq_div_pow]

theorem and_ffff_eq_mod (x : Nat) : x &&& 0xFFFF = x % 65536 :=
  Nat.and_pow_two_sub_one_eq_mod x 16

theorem set_status_size_eq (dev : DEVICE) (size : Nat) (h : size < 65536) :
    (set_status_size dev size).status.tmot = size % 256 ∧
    (set_status_size dev size).status.none = size / 256 ∧
    (set_status_size dev size).status.err = dev.status.err ∧
    (set_status_size dev size).status.stat = dev.status.stat := by
  unfold set_status_size
  have e : size % 65536 = size := Nat.mod_eq_of_lt h
  simp only [e, and_ff_eq_mod, and_ff00_shift]
  refine ⟨trivial, ?_, trivial, trivial⟩
  omega


theorem toUlong_of_nonneg (x : Int) (h0 : 0 ≤ x) (h1 : x < 2 ^ 63) : toUlong x = x.toNat := by
  unfold toUlong
  rw [Int.emod_eq_of_lt h0 (by omega)]

theorem getD_set_self (l : List IODESC) (k : Nat) (v d : IODESC) (h : k < l.length) :
    (l.set k v).getD k d = v := by
  rw [List.getD_eq_getElem?_getD, List.getElem?_set_self h]
  rfl

/-- The parameter phase of FREAD on an open handle with a request of `n > 0` bytes at a
position inside the file: what the status block and the handle hold afterwards. -/
theorem pcl_fread_param (mem : List Nat) (st : PCL)
    (hh : st.parbuf.getD 1 0 ≤ 15) (hlt : st.parbuf.getD 1 0 < st.iodesc.length)
    (hopen : (st.iodesc.getD (st.parbuf.getD 1 0) IODESC.closed).file ≠ none)
    (hf1 : st.parbuf.getD 2 0 < 256) (hf2 : st.parbuf.getD 3 0 < 256)
    (hn : 0 < st.parbuf.getD 2 0 + 256 * st.parbuf.getD 3 0)
    (hpos : 0 ≤ (st.iodesc.getD (st.parbuf.getD 1 0) IODESC.closed).fppos)
    (hle : (st.iodesc.getD (st.parbuf.getD 1 0) IODESC.closed).fppos ≤
      (st.iodesc.getD (st.parbuf.getD 1 0) IODESC.closed).st_size)
    (hsz : (st.iodesc.getD (st.parbuf.getD 1 0) IODESC.closed).st_size < 2 ^ 63) :
    (pcl_fread 0x50 mem st).unit.dev.status.tmot =
      min (st.parbuf.getD 2 0 + 256 * st.parbuf.getD 3 0)
        ((st.iodesc.getD (st.parbuf.getD 1 0) IODESC.closed).st_size -
          (st.iodesc.getD (st.parbuf.getD 1 0) IODESC.closed).fppos).toNat % 256 ∧
    (pcl_fread 0x50 mem st).unit.dev.status.none =
      min (st.parbuf.getD 2 0 + 256 * st.parbuf.getD 3 0)
        ((st.iodesc.getD (st.parbuf.getD 1 0) IODESC.closed).st_size -
          (st.iodesc.getD (st.parbuf.getD 1 0) IODESC.closed).fppos).toNat / 256 ∧
    (pcl_fread 0x50 mem st).unit.dev.status.err =
      (if min (st.parbuf.getD 2 0 + 256 * st.parbuf.getD 3 0)
        ((st.iodesc.getD (st.parbuf.getD 1 0) IODESC.closed).st_size -
          (st.iodesc.getD (st.parbuf.getD 1 0) IODESC.closed).fppos).toNat = 0 then 136 else 1) ∧
    ((pcl_fread 0x50 mem st).iodesc.getD (st.parbuf.getD 1 0) IODESC.closed).fppos =
      (st.iodesc.getD (st.parbuf.getD 1 0) IODESC.closed).fppos ∧
    (pcl_fread 0x50 mem st).unit.tx = st.unit.tx ++ [0x43] := by
  generalize hio : st.iodesc.getD (st.parbuf.getD 1 0) IODESC.closed = io at *
  generalize hhd : st.parbuf.getD 1 0 = handle at *
  generalize hB : (io.st_size - io.fppos).toNat = B
  have hbuf : toUlong (io.st_size - io.fppos) = B := by
    rw [toUlong_of_nonneg _ (by omega) (by omega), hB]
  have hblk : ((st.parbuf.getD 2 0 + st.parbuf.getD 3 0 * 256 + st.parbuf.getD 4 0 * 65536) %
      2 ^ 64) &&& 0x0000FFFF = st.parbuf.getD 2 0 + 256 * st.parbuf.getD 3 0 := by
    rw [and_ffff_eq_mod]
    omega
  have hn16 : st.parbuf.getD 2 0 + 256 * st.parbuf.getD 3 0 < 65536 := by omega
  generalize st.parbuf.getD 2 0 + 256 * st.parbuf.getD 3 0 = n at *
  have hc1 : ¬ (handle > 15 ∨ io.file = none) := by
    rintro (h | h)
    · omega
    · exact hopen h
  have hc2 : ¬ n = 0 := by omega
  unfold pcl_fread
  simp only [hhd, hio, hblk, if_true, hc1, hc2, if_false, hbuf]
  by_cases hlt' : B < n
  · have hmin : min n B = B := by omega
    have hB16 : B < 65536 := by omega
    obtain ⟨e1, e2, e3, e4⟩ := set_status_size_eq
      (if B = 0 then with_err (with_err st.unit.dev 1) 136 else with_err st.unit.dev 1) B hB16
    simp only [hlt', if_true, hmin, pcl_complete, sio_ack_eq, with_stat_tmot, with_stat_none,
      with_stat_err, e1, e2, e3]
    refine ⟨trivial, trivial, ?_, ?_, trivial⟩
    · split_ifs <;> rfl
    · rw [getD_set_self _ _ _ _ hlt]
  · have hmin : min n B = n := by omega
    obtain ⟨e1, e2, e3, e4⟩ := set_status_size_eq (with_err st.unit.dev 1) n hn16
    simp only [hlt', if_false, hmin, pcl_complete, sio_ack_eq, with_stat_tmot, with_stat_none,
      with_stat_err, e1, e2, e3, hc2]
    refine ⟨trivial, trivial, rfl, ?_, trivial⟩
    rw [getD_set_self _ _ _ _ hlt]

/-! ## PCLink FREAD parameter phase: C19 -/

theorem store_zero_getD (blk : List Nat) (a k : Nat) :
    (store (List.replicate a 0) blk).getD k 0 = blk.getD k 0 := by
  unfold store
  rw [List.getD_eq_getElem?_getD, List.getD_eq_getElem?_getD, List.getElem?_append,
    List.drop_replicate, List.getElem?_replicate]
  by_cases h : k < blk.length
  · rw [if_pos h]
  · rw [if_neg h, List.getElem?_eq_none (by omega)]
    split_ifs <;> rfl

/-- What `do_pclink` does with a P frame whose block `blk` arrives with a correct checksum
and carries the code FREAD: the block is stored and the FREAD block runs on it. -/
theorem do_pclink_fread_param (caux1 caux2 : Nat) (mem : List Nat) (st : PCL)
    (blk rest : List Nat) (h1 : 1 ≤ caux1) (h100 : caux1 ≤ 100) (hver : caux2 &&& 0xf0 = 0)
    (hlen : blk.length = caux1)
    (hrx : st.unit.rx =
      blk ++ calc_checksum (store (List.replicate sizeof_PARBUF 0) blk) caux1 :: rest)
    (hfno : blk.getD 0 0 = 0x00) :
    do_pclink 0x50 caux1 caux2 mem st =
      some (PCL_OUT.done (pcl_fread 0x50 mem
        { st with
          unit := { st.unit with
            rx := rest, tx := st.unit.tx ++ [0x41, 0x41],
            dev := with_stat st.unit.dev
              (ack_stat (ack_stat st.unit.dev.status.stat 0x41 &&& (0xff ^^^ 0x02)) 0x41 &&&
                (0xff ^^^ 0x04)) },
          parbuf := store (List.replicate sizeof_PARBUF 0) blk })) := by
  have hblock := pcl_param_block_ok caux1 st blk rest hlen hrx
  have hne : ¬ (store (List.replicate sizeof_PARBUF 0) blk = st.parbuf ∧
      (blk.getD 0 0 ≠ 0x00 ∧ blk.getD 0 0 ≠ 0x01 ∧ blk.getD 0 0 ≠ 0x03 ∧
      blk.getD 0 0 ≠ 0x04 ∧ blk.getD 0 0 ≠ 0x06 ∧ blk.getD 0 0 ≠ 0x11 ∧
      blk.getD 0 0 ≠ 0x13)) := fun h => h.2.1 hfno
  rw [if_neg hne] at hblock
  have hp1 : (if caux1 ≠ 0 then caux1 else 256) = caux1 := by
    rw [if_pos (by omega)]
  have hp2 : ¬ caux1 > sizeof_PARBUF := by unfold sizeof_PARBUF; omega
  have hf : (store (List.replicate sizeof_PARBUF 0) blk).getD 0 0 = 0 := by
    rw [store_zero_getD, hfno]
  unfold do_pclink
  simp only [hp1, hver, ne_eq, not_true_eq_false, if_false, hp2, if_true, hblock, hf]

/-- C19: a P frame carrying an FREAD block (correct checksum, protocol version 0) for an
open handle `≤ 15`, with requested size `n = f1 + 256 * f2 > 0` and the handle's position
between 0 and the file length: `do_pclink` returns with the size `min n (length -
position)` in the status block (`tmot` its low byte, `none` its high byte), `err` is 136
when that size is 0 and 1 otherwise, and the handle's position is unchanged. -/
theorem C19_fread_parameter_phase (caux1 caux2 : Nat) (mem : List Nat) (st : PCL)
    (blk rest : List Nat) (h1 : 1 ≤ caux1) (h100 : caux1 ≤ 100) (hver : caux2 &&& 0xf0 = 0)
    (hlen : blk.length = caux1) (hbytes : isBytes blk)
    (hrx : st.unit.rx =
      blk ++ calc_checksum (store (List.replicate sizeof_PARBUF 0) blk) caux1 :: rest)
    (hfno : blk.getD 0 0 = 0x00)
    (hh : blk.getD 1 0 ≤ 15) (hlt : blk.getD 1 0 < st.iodesc.length)
    (hopen : (st.iodesc.getD (blk.getD 1 0) IODESC.closed).file ≠ none)
    (hn : 0 < blk.getD 2 0 + 256 * blk.getD 3 0)
    (hpos : 0 ≤ (st.iodesc.getD (blk.getD 1 0) IODESC.closed).fppos)
    (hle : (st.iodesc.getD (blk.getD 1 0) IODESC.closed).fppos ≤
      (st.iodesc.getD (blk.getD 1 0) IODESC.closed).st_size)
    (hsz : (st.iodesc.getD (blk.getD 1 0) IODESC.closed).st_size < 2 ^ 63) :
    ∃ st', do_pclink 0x50 caux1 caux2 mem st = some (PCL_OUT.done st') ∧
      st'.unit.dev.status.tmot =
        min (blk.getD 2 0 + 256 * blk.getD 3 0)
          ((st.iodesc.getD (blk.getD 1 0) IODESC.closed).st_size -
            (st.iodesc.getD (blk.getD 1 0) IODESC.closed).fppos).toNat % 256 ∧
      st'.unit.dev.status.none =
        min (blk.getD 2 0 + 256 * blk.getD 3 0)
          ((st.iodesc.getD (blk.getD 1 0) IODESC.closed).st_size -
            (st.iodesc.getD (blk.getD 1 0) IODESC.closed).fppos).toNat / 256 ∧
      st'.unit.dev.status.err =
        (if min (blk.getD 2 0 + 256 * blk.getD 3 0)
          ((st.iodesc.getD (blk.getD 1 0) IODESC.closed).st_size -
            (st.iodesc.getD (blk.getD 1 0) IODESC.closed).fppos).toNat = 0 then 136 else 1) ∧
      (st'.iodesc.getD (blk.getD 1 0) IODESC.closed).fppos =
        (st.iodesc.getD (blk.getD 1 0) IODESC.closed).fppos := by
  refine ⟨_, do_pclink_fread_param caux1 caux2 mem st blk rest h1 h100 hver hlen hrx hfno, ?_⟩
  have hp := pcl_fread_param mem
    { st with
      unit := { st.unit with
        rx := rest, tx := st.unit.tx ++ [0x41, 0x41],
        dev := with_stat st.unit.dev
          (ack_stat (ack_stat st.unit.dev.status.stat 0x41 &&& (0xff ^^^ 0x02)) 0x41 &&&
            (0xff ^^^ 0x04)) },
      parbuf := store (List.replicate sizeof_PARBUF 0) blk }
  simp only [store_zero_getD] at hp
  obtain ⟨e1, e2, e3, e4, _⟩ := hp hh hlt hopen (getD_lt_of_isBytes blk hbytes 2)
    (getD_lt_of_isBytes blk hbytes 3) hn hpos hle hsz
  exact ⟨e1, e2, e3, e4⟩



/-- C19 at a request of 20 bytes on a ten-byte file at position 0 (size 10, `err` 1) and
at a request of 20 bytes at position 10, the end of the file (size 0, `err` 136). -/
theorem C19_fread_parameter_phase_witness :
    (∃ st', do_pclink 0x50 11 0x01 [] (fread_unit 20 0) = some (PCL_OUT.done st') ∧
      st'.unit.dev.status.tmot = 10 ∧ st'.unit.dev.status.none = 0 ∧
      st'.unit.dev.status.err = 1 ∧ (st'.iodesc.getD 1 IODESC.closed).fppos = 0) ∧
    (∃ st', do_pclink 0x50 11 0x01 [] (fread_unit 20 10) = some (PCL_OUT.done st') ∧
      st'.unit.dev.status.tmot = 0 ∧ st'.unit.dev.status.none = 0 ∧
      st'.unit.dev.status.err = 136 ∧ (st'.iodesc.getD 1 IODESC.closed).fppos = 10) :=
  ⟨C19_fread_parameter_phase 11 0x01 [] (fread_unit 20 0) (fread_block 20) []
      (by decide) (by decide) (by decide) (by decide) (by decide) (by decide) (by decide)
      (by decide) (by decide) (by decide) (by decide) (by decide) (by decide) (by decide),
   C19_fread_parameter_phase 11 0x01 [] (fread_unit 20 10) (fread_block 20) []
      (by decide) (by decide) (by decide) (by decide) (by decide) (by decide) (by decide)
      (by decide) (by decide) (by decide) (by decide) (by decide) (by decide) (by decide)⟩

/-! ## PCLink FREAD: lemmas on the execute phase -/

/-- The execute phase of FREAD on an open file (not a directory) after a parameter phase
that left `err = 1`, when `fseek` and `fread` succeed for the `n = f1 + 256 * f2` bytes
asked for: the position advances by `n`, the `n` bytes and their checksum follow 'A' and
'C', and `err` is 136 with the end-of-file flag of the handle set, otherwise 3 when the
new position is the file length, otherwise 1. -/
theorem pcl_fread_exec (mem : List Nat) (st : PCL) (s : STREAM)
    (hold : st.old_ccom ≠ 0x52) (herr : st.unit.dev.status.err = 1)
    (hlt : st.parbuf.getD 1 0 < st.iodesc.length)
    (hfile : (st.iodesc.getD (st.parbuf.getD 1 0) IODESC.closed).file = some s)
    (hio : s.ioerr = false)
    (hmode : (st.iodesc.getD (st.parbuf.getD 1 0) IODESC.closed).fpmode &&& 0x10 = 0)
    (hf1 : st.parbuf.getD 2 0 < 256) (hf2 : st.parbuf.getD 3 0 < 256)
    (hpos : 0 ≤ (st.iodesc.getD (st.parbuf.getD 1 0) IODESC.closed).fppos)
    (hread : (st.iodesc.getD (st.parbuf.getD 1 0) IODESC.closed).fppos.toNat +
      (st.parbuf.getD 2 0 + 256 * st.parbuf.getD 3 0) ≤ s.data.length)
    (hmem : mem.length = st.parbuf.getD 2 0 + 256 * st.parbuf.getD 3 0 + 1) :
    ((pcl_fread 0x52 mem st).iodesc.getD (st.parbuf.getD 1 0) IODESC.closed).fppos =
      (st.iodesc.getD (st.parbuf.getD 1 0) IODESC.closed).fppos +
        ((st.parbuf.getD 2 0 + 256 * st.parbuf.getD 3 0 : Nat) : Int) ∧
    (pcl_fread 0x52 mem st).unit.tx =
      st.unit.tx ++ [0x41, 0x43] ++
        ((s.data.drop (st.iodesc.getD (st.parbuf.getD 1 0) IODESC.closed).fppos.toNat).take
            (st.parbuf.getD 2 0 + 256 * st.parbuf.getD 3 0) ++
          [calc_checksum
            ((s.data.drop (st.iodesc.getD (st.parbuf.getD 1 0) IODESC.closed).fppos.toNat).take
              (st.parbuf.getD 2 0 + 256 * st.parbuf.getD 3 0))
            (st.parbuf.getD 2 0 + 256 * st.parbuf.getD 3 0)]) ∧
    (pcl_fread 0x52 mem st).unit.dev.status.err =
      (if (st.iodesc.getD (st.parbuf.getD 1 0) IODESC.closed).eof ≠ 0 then 136
       else if (st.iodesc.getD (st.parbuf.getD 1 0) IODESC.closed).fppos +
          ((st.parbuf.getD 2 0 + 256 * st.parbuf.getD 3 0 : Nat) : Int) =
            (st.iodesc.getD (st.parbuf.getD 1 0) IODESC.closed).st_size then 3
       else 1) := by
  generalize hio' : st.iodesc.getD (st.parbuf.getD 1 0) IODESC.closed = io at *
  generalize hhd : st.parbuf.getD 1 0 = handle at *
  have hblk : ((st.parbuf.getD 2 0 + st.parbuf.getD 3 0 * 256 + st.parbuf.getD 4 0 * 65536) %
      2 ^ 64) &&& 0x0000FFFF = st.parbuf.getD 2 0 + 256 * st.parbuf.getD 3 0 := by
    rw [and_ffff_eq_mod]
    omega
  have hn16 : st.parbuf.getD 2 0 + 256 * st.parbuf.getD 3 0 < 65536 := by omega
  generalize st.parbuf.getD 2 0 + 256 * st.parbuf.getD 3 0 = n at *
  generalize hD : (s.data.drop io.fppos.toNat).take n = D
  have hDlen : D.length = n := by
    rw [← hD, List.length_take, List.length_drop]; omega
  have hseek : fseek io.file io.fppos = 0 := by
    unfold fseek
    rw [hfile]
    simp only []
    rw [if_neg (by omega)]
  have hfr : fread io.file io.fppos n = (D, (n : Int), false) := by
    unfold fread
    rw [hfile]
    simp only [hio, Bool.false_eq_true, if_false, hD, hDlen, lt_self_iff_false, decide_False]
  have hu : toUlong (n : Int) = n := by
    rw [toUlong_of_nonneg _ (by omega) (by omega)]
    rfl
  have hck : calc_checksum (store mem D) n = calc_checksum D n := by
    have := calc_checksum_store mem D
    rwa [hDlen] at this
  have htake : ((store mem D).set n (calc_checksum D n)).take (n + 1) =
      D ++ [calc_checksum D n] := by
    have hl : n < (store mem D).length := by
      rw [store_length] <;> omega
    rw [take_succ_set _ _ _ hl]
    have := store_take mem D
    rw [hDlen] at this
    rw [this]
  have hc0 : ¬ ((0x52 : Nat) = 0x50) := by decide
  have hmod : ((n : Int) % 65536).toNat = n := by omega
  unfold pcl_fread
  simp only [hhd, hio', hblk, hc0, if_false, hold, and_false, sio_ack_eq, with_stat_err, herr,
    if_true, hmode, ne_eq, not_true_eq_false, hseek, hfr, hu, hck, com_write, htake]
  refine ⟨?_, ?_, ?_⟩
  · rw [getD_set_self _ _ _ _ hlt]
  · simp
  · obtain ⟨_, _, e3, _⟩ := set_status_size_eq
      (with_err (with_stat st.unit.dev (ack_stat st.unit.dev.status.stat 0x41))
        (if ¬ io.eof = 0 then 136 else if io.fppos + (n : Int) = io.st_size then 3 else 1))
      (((n : Int) % 65536).toNat) (by omega)
    rw [e3]
    rfl

theorem getD_set_ne (l : List Nat) (i j v : Nat) (h : i ≠ j) :
    (l.set i v).getD j 0 = l.getD j 0 := by
  rw [List.getD_eq_getElem?_getD, List.getD_eq_getElem?_getD, List.getElem?_set_ne h]

theorem getD_set_eq (l : List Nat) (i v : Nat) (h : i < l.length) :
    (l.set i v).getD i 0 = v := by
  rw [List.getD_eq_getElem?_getD, List.getElem?_set_self h]
  rfl

theorem parbuf_set23 (p : List Nat) (a b : Nat) (h : 4 ≤ p.length) :
    ((p.set 2 a).set 3 b).getD 0 0 = p.getD 0 0 ∧ ((p.set 2 a).set 3 b).getD 1 0 = p.getD 1 0 ∧
    ((p.set 2 a).set 3 b).getD 2 0 = a ∧ ((p.set 2 a).set 3 b).getD 3 0 = b := by
  refine ⟨?_, ?_, ?_, ?_⟩
  · rw [getD_set_ne _ 3 0 _ (by decide), getD_set_ne _ 2 0 _ (by decide)]
  · rw [getD_set_ne _ 3 1 _ (by decide), getD_set_ne _ 2 1 _ (by decide)]
  · rw [getD_set_ne _ 3 2 _ (by decide), getD_set_eq _ 2 _ (by omega)]
  · rw [getD_set_eq _ 3 _ (by rw [List.length_set]; omega)]

/-- The state after the parameter phase of FREAD (hypotheses as in `pcl_fread_param`):
function code and handle stay in `parbuf`, the size bytes hold the size granted, the
handle has its end-of-file flag set exactly when the request was shortened. -/
theorem pcl_fread_param_state (mem : List Nat) (st : PCL)
    (hplen : 4 ≤ st.parbuf.length)
    (hh : st.parbuf.getD 1 0 ≤ 15) (hlt : st.parbuf.getD 1 0 < st.iodesc.length)
    (hopen : (st.iodesc.getD (st.parbuf.getD 1 0) IODESC.closed).file ≠ none)
    (hf1 : st.parbuf.getD 2 0 < 256) (hf2 : st.parbuf.getD 3 0 < 256)
    (hn : 0 < st.parbuf.getD 2 0 + 256 * st.parbuf.getD 3 0)
    (hpos : 0 ≤ (st.iodesc.getD (st.parbuf.getD 1 0) IODESC.closed).fppos)
    (hle : (st.iodesc.getD (st.parbuf.getD 1 0) IODESC.closed).fppos ≤
      (st.iodesc.getD (st.parbuf.getD 1 0) IODESC.closed).st_size)
    (hsz : (st.iodesc.getD (st.parbuf.getD 1 0) IODESC.closed).st_size < 2 ^ 63) :
    (pcl_fread 0x50 mem st).parbuf.getD 0 0 = st.parbuf.getD 0 0 ∧
    (pcl_fread 0x50 mem st).parbuf.getD 1 0 = st.parbuf.getD 1 0 ∧
    (pcl_fread 0x50 mem st).parbuf.getD 2 0 < 256 ∧
    (pcl_fread 0x50 mem st).parbuf.getD 3 0 < 256 ∧
    (pcl_fread 0x50 mem st).parbuf.getD 2 0 + 256 * (pcl_fread 0x50 mem st).parbuf.getD 3 0 =
      min (st.parbuf.getD 2 0 + 256 * st.parbuf.getD 3 0)
        ((st.iodesc.getD (st.parbuf.getD 1 0) IODESC.closed).st_size -
          (st.iodesc.getD (st.parbuf.getD 1 0) IODESC.closed).fppos).toNat ∧
    (pcl_fread 0x50 mem st).iodesc.length = st.iodesc.length ∧
    (pcl_fread 0x50 mem st).iodesc.getD (st.parbuf.getD 1 0) IODESC.closed =
      { st.iodesc.getD (st.parbuf.getD 1 0) IODESC.closed with
        eof := if ((st.iodesc.getD (st.parbuf.getD 1 0) IODESC.closed).st_size -
            (st.iodesc.getD (st.parbuf.getD 1 0) IODESC.closed).fppos).toNat <
              st.parbuf.getD 2 0 + 256 * st.parbuf.getD 3 0 then 1 else 0 } ∧
    (pcl_fread 0x50 mem st).old_ccom = 0x50 := by
  generalize hio : st.iodesc.getD (st.parbuf.getD 1 0) IODESC.closed = io at *
  generalize hB : (io.st_size - io.fppos).toNat = B
  have hbuf : toUlong (io.st_size - io.fppos) = B := by
    rw [toUlong_of_nonneg _ (by omega) (by omega), hB]
  have hblk : ((st.parbuf.getD 2 0 + st.parbuf.getD 3 0 * 256 + st.parbuf.getD 4 0 * 65536) %
      2 ^ 64) &&& 0x0000FFFF = st.parbuf.getD 2 0 + 256 * st.parbuf.getD 3 0 := by
    rw [and_ffff_eq_mod]
    omega
  have hc1 : ¬ (st.parbuf.getD 1 0 > 15 ∨ io.file = none) := by
    rintro (h | h)
    · omega
    · exact hopen h
  have hc2 : ¬ st.parbuf.getD 2 0 + 256 * st.parbuf.getD 3 0 = 0 := by omega
  unfold pcl_fread
  simp only [hio, hblk, if_true, hc1, hc2, if_false, hbuf]
  by_cases hlt' : B < st.parbuf.getD 2 0 + 256 * st.parbuf.getD 3 0
  · have hmin : min (st.parbuf.getD 2 0 + 256 * st.parbuf.getD 3 0) B = B := by omega
    have hB16 : B < 65536 := by omega
    simp only [hlt', if_true, hmin, pcl_complete, and_ff_eq_mod, and_ff00_shift,
      (parbuf_set23 _ _ _ hplen).1, (parbuf_set23 _ _ _ hplen).2.1,
      (parbuf_set23 _ _ _ hplen).2.2.1, (parbuf_set23 _ _ _ hplen).2.2.2, List.length_set,
      getD_set_self _ _ _ _ hlt]
    refine ⟨trivial, trivial, ?_, ?_, ?_, trivial, trivial, trivial⟩
    · omega
    · omega
    · omega
  · have hmin : min (st.parbuf.getD 2 0 + 256 * st.parbuf.getD 3 0) B =
        st.parbuf.getD 2 0 + 256 * st.parbuf.getD 3 0 := by omega
    simp only [hlt', if_false, hmin, pcl_complete, List.length_set,
      getD_set_self _ _ _ _ hlt]
    exact ⟨trivial, trivial, hf1, hf2, trivial, trivial, trivial, trivial⟩

/-! ## PCLink FREAD execute phase: C20 -/

/-- What `do_pclink` does with an R frame when the stored parameter block carries the
code FREAD: the FREAD block runs. -/
theorem do_pclink_fread_exec (caux1 caux2 : Nat) (mem : List Nat) (st : PCL)
    (h1 : 1 ≤ caux1) (h100 : caux1 ≤ 100) (hver : caux2 &&& 0xf0 = 0)
    (hfno : st.parbuf.getD 0 0 = 0x00) :
    do_pclink 0x52 caux1 caux2 mem st = some (PCL_OUT.done (pcl_fread 0x52 mem st)) := by
  have hp1 : (if caux1 ≠ 0 then caux1 else 256) = caux1 := by
    rw [if_pos (by omega)]
  have hp2 : ¬ caux1 > sizeof_PARBUF := by unfold sizeof_PARBUF; omega
  have hc : ¬ ((0x52 : Nat) = 0x50) := by decide
  unfold do_pclink
  simp only [hp1, hver, ne_eq, not_true_eq_false, if_false, hp2, hc, hfno, if_true]

/-- C20 (amended): an FREAD of `n > 0` bytes on an open file handle at a position before
the end of the file, parameter phase then execute phase, with the host file as long as
`fpstat.st_size` says. The parameter phase returns `err = 1`; the execute phase sends 'A',
'C', the `min n rem` bytes (`rem` the bytes left) and their checksum, and advances the
position by that number. The resulting `err` is 136 when the request was longer than the
rest of the file (`n > rem`, although the transfer ends exactly at the file length), 3
when the request was exactly the rest of the file (`n = rem`), and 1 otherwise. -/
theorem C20_fread_execute_phase (caux1 caux2 : Nat) (mem : List Nat) (st : PCL)
    (blk rest : List Nat) (s : STREAM)
    (h1 : 1 ≤ caux1) (h100 : caux1 ≤ 100) (hver : caux2 &&& 0xf0 = 0)
    (hlen : blk.length = caux1) (hbytes : isBytes blk)
    (hrx : st.unit.rx =
      blk ++ calc_checksum (store (List.replicate sizeof_PARBUF 0) blk) caux1 :: rest)
    (hfno : blk.getD 0 0 = 0x00)
    (hh : blk.getD 1 0 ≤ 15) (hlt : blk.getD 1 0 < st.iodesc.length)
    (hfile : (st.iodesc.getD (blk.getD 1 0) IODESC.closed).file = some s)
    (hio : s.ioerr = false)
    (hmode : (st.iodesc.getD (blk.getD 1 0) IODESC.closed).fpmode &&& 0x10 = 0)
    (hn : 0 < blk.getD 2 0 + 256 * blk.getD 3 0)
    (hpos : 0 ≤ (st.iodesc.getD (blk.getD 1 0) IODESC.closed).fppos)
    (hrem : (st.iodesc.getD (blk.getD 1 0) IODESC.closed).fppos <
      (st.iodesc.getD (blk.getD 1 0) IODESC.closed).st_size)
    (hsz : (st.iodesc.getD (blk.getD 1 0) IODESC.closed).st_size < 2 ^ 63)
    (hdata : s.data.length = (st.iodesc.getD (blk.getD 1 0) IODESC.closed).st_size.toNat)
    (hmem : mem.length = min (blk.getD 2 0 + 256 * blk.getD 3 0)
      ((st.iodesc.getD (blk.getD 1 0) IODESC.closed).st_size -
        (st.iodesc.getD (blk.getD 1 0) IODESC.closed).fppos).toNat + 1) :
    ∃ st1 st2,
      do_pclink 0x50 caux1 caux2 mem st = some (PCL_OUT.done st1) ∧
      st1.unit.dev.status.err = 1 ∧
      do_pclink 0x52 caux1 caux2 mem st1 = some (PCL_OUT.done st2) ∧
      (st2.iodesc.getD (blk.getD 1 0) IODESC.closed).fppos =
        (st.iodesc.getD (blk.getD 1 0) IODESC.closed).fppos +
          ((min (blk.getD 2 0 + 256 * blk.getD 3 0)
            ((st.iodesc.getD (blk.getD 1 0) IODESC.closed).st_size -
              (st.iodesc.getD (blk.getD 1 0) IODESC.closed).fppos).toNat : Nat) : Int) ∧
      (∃ data, data.length = min (blk.getD 2 0 + 256 * blk.getD 3 0)
          ((st.iodesc.getD (blk.getD 1 0) IODESC.closed).st_size -
            (st.iodesc.getD (blk.getD 1 0) IODESC.closed).fppos).toNat ∧
        st2.unit.tx = st1.unit.tx ++ [0x41, 0x43] ++
          (data ++ [calc_checksum data data.length])) ∧
      st2.unit.dev.status.err =
        (if ((st.iodesc.getD (blk.getD 1 0) IODESC.closed).st_size -
            (st.iodesc.getD (blk.getD 1 0) IODESC.closed).fppos).toNat <
              blk.getD 2 0 + 256 * blk.getD 3 0 then 136
         else if blk.getD 2 0 + 256 * blk.getD 3 0 =
            ((st.iodesc.getD (blk.getD 1 0) IODESC.closed).st_size -
              (st.iodesc.getD (blk.getD 1 0) IODESC.closed).fppos).toNat then 3
         else 1) := by
  have hP := do_pclink_fread_param caux1 caux2 mem st blk rest h1 h100 hver hlen hrx hfno
  generalize hstP : ({ st with
      unit := { st.unit with
        rx := rest, tx := st.unit.tx ++ [0x41, 0x41],
        dev := with_stat st.unit.dev
          (ack_stat (ack_stat st.unit.dev.status.stat 0x41 &&& (0xff ^^^ 0x02)) 0x41 &&&
            (0xff ^^^ 0x04)) },
      parbuf := store (List.replicate sizeof_PARBUF 0) blk } : PCL) = stP at hP
  have hPpar : ∀ k, stP.parbuf.getD k 0 = blk.getD k 0 := by
    intro k; rw [← hstP]; exact store_zero_getD blk _ k
  have hPio : stP.iodesc = st.iodesc := by rw [← hstP]
  have hPlen : 4 ≤ stP.parbuf.length := by
    rw [← hstP]
    show 4 ≤ (store (List.replicate sizeof_PARBUF 0) blk).length
    rw [store_length _ _ (by rw [List.length_replicate]; unfold sizeof_PARBUF; omega),
      List.length_replicate]
    unfold sizeof_PARBUF; omega
  have hb2 := getD_lt_of_isBytes blk hbytes 2
  have hb3 := getD_lt_of_isBytes blk hbytes 3
  have hopen : (st.iodesc.getD (blk.getD 1 0) IODESC.closed).file ≠ none := by
    rw [hfile]; exact Option.some_ne_none s
  have hp := pcl_fread_param mem stP
  have hs := pcl_fread_param_state mem stP hPlen
  simp only [hPpar, hPio] at hp hs
  obtain ⟨_, _, pe, _, _⟩ := hp hh hlt hopen hb2 hb3 hn hpos (by omega) hsz
  obtain ⟨s0, s1, s2, s3, s23, sl, sio, sold⟩ := hs hh hlt hopen hb2 hb3 hn hpos (by omega) hsz
  generalize pcl_fread 0x50 mem stP = st1 at *
  generalize hio' : st.iodesc.getD (blk.getD 1 0) IODESC.closed = io at *
  generalize hnn : blk.getD 2 0 + 256 * blk.getD 3 0 = n at *
  generalize hR : (io.st_size - io.fppos).toNat = R at *
  have hR0 : 0 < R := by omega
  have herr1 : st1.unit.dev.status.err = 1 := by
    rw [pe, if_neg (by omega)]
  have hE := pcl_fread_exec mem st1 s (by rw [sold]; decide) herr1
  rw [s1, sio, s23] at hE
  dsimp only at hE
  have hE' := hE (by rw [sl]; exact hlt) hfile hio hmode s2 s3 hpos (by omega) hmem
  obtain ⟨x1, x2, x3⟩ := hE'
  refine ⟨st1, pcl_fread 0x52 mem st1, hP, herr1,
    do_pclink_fread_exec caux1 caux2 mem st1 h1 h100 hver (by rw [s0, hfno]), x1, ?_, ?_⟩
  · refine ⟨(s.data.drop io.fppos.toNat).take (min n R), ?_, ?_⟩
    · rw [List.length_take, List.length_drop]; omega
    · have hl : ((s.data.drop io.fppos.toNat).take (min n R)).length = min n R := by
        rw [List.length_take, List.length_drop]; omega
      rw [x2, hl]
  · rw [x3]
    by_cases hc : R < n
    · simp only [hc, if_true]
      simp
    · simp only [hc, if_false]
      have hmin : min n R = n := by omega
      rw [hmin]
      simp only [ne_eq, not_true_eq_false, if_false]
      by_cases he : n = R
      · rw [if_pos he, if_pos (by omega)]
      · rw [if_neg he, if_neg (by omega)]



/-- C20 fails as stated: an FREAD of 20 bytes on a ten-byte file at position 0. The
parameter phase returns `err = 1`; the execute phase reads successfully and sends the ten
bytes (a non-empty transfer that ends exactly at the file length: the position goes from
0 to 10), and the resulting `err` is 136, not 3. -/
theorem C20_counterexample :
    do_pclink 0x50 11 0x01 [] (fread_unit 20 0) = some (PCL_OUT.done fread_after_param) ∧
    fread_after_param.unit.dev.status.err = 1 ∧
    do_pclink 0x52 11 0x01 (List.replicate 11 0) fread_after_param =
      some (PCL_OUT.done fread_after_exec) ∧
    fread_after_exec.unit.tx =
      fread_after_param.unit.tx ++ [0x41, 0x43, 1, 2, 3, 4, 5, 6, 7, 8, 9, 10, 55] ∧
    (fread_after_param.iodesc.getD 1 IODESC.closed).fppos = 0 ∧
    (fread_after_exec.iodesc.getD 1 IODESC.closed).fppos = 10 ∧
    (fread_after_exec.iodesc.getD 1 IODESC.closed).st_size = 10 ∧
    fread_after_exec.unit.dev.status.err = 136 := by
  decide

/-- C20 (amended) at a request of exactly the ten bytes of the file (`err` 3) and at a
request of 20 bytes (`err` 136); in both the position goes from 0 to 10. -/
theorem C20_fread_execute_phase_witness :
    (∃ st1 st2,
      do_pclink 0x50 11 0x01 (List.replicate 11 0) (fread_unit 10 0) =
        some (PCL_OUT.done st1) ∧
      st1.unit.dev.status.err = 1 ∧
      do_pclink 0x52 11 0x01 (List.replicate 11 0) st1 = some (PCL_OUT.done st2) ∧
      (st2.iodesc.getD 1 IODESC.closed).fppos = 10 ∧
      (∃ data, data.length = 10 ∧
        st2.unit.tx = st1.unit.tx ++ [0x41, 0x43] ++
          (data ++ [calc_checksum data data.length])) ∧
      st2.unit.dev.status.err = 3) ∧
    (∃ st1 st2,
      do_pclink 0x50 11 0x01 (List.replicate 11 0) (fread_unit 20 0) =
        some (PCL_OUT.done st1) ∧
      st1.unit.dev.status.err = 1 ∧
      do_pclink 0x52 11 0x01 (List.replicate 11 0) st1 = some (PCL_OUT.done st2) ∧
      (st2.iodesc.getD 1 IODESC.closed).fppos = 10 ∧
      (∃ data, data.length = 10 ∧
        st2.unit.tx = st1.unit.tx ++ [0x41, 0x43] ++
          (data ++ [calc_checksum data data.length])) ∧
      st2.unit.dev.status.err = 136) :=
  ⟨C20_fread_execute_phase 11 0x01 (List.replicate 11 0) (fread_unit 10 0) (fread_block 10) []
      { data := [1, 2, 3, 4, 5, 6, 7, 8, 9, 10], ioerr := false }
      (by decide) (by decide) (by decide) (by decide) (by decide) (by decide) (by decide)
      (by decide) (by decide) (by decide) (by decide) (by decide) (by decide) (by decide)
      (by decide) (by decide) (by decide) (by decide),
   C20_fread_execute_phase 11 0x01 (List.replicate 11 0) (fread_unit 20 0) (fread_block 20) []
      { data := [1, 2, 3, 4, 5, 6, 7, 8, 9, 10], ioerr := false }
      (by decide) (by decide) (by decide) (by decide) (by decide) (by decide) (by decide)
      (by decide) (by decide) (by decide) (by decide) (by decide) (by decide) (by decide)
      (by decide) (by decide) (by decide) (by decide)⟩

/-! ## PERCOM set rejected: C29 -/

/-- C29 fails in the code: on a freshly mounted single-density disk the PERCOM set for a
block with 300 bytes per sector is rejected ('A', 'E'), `maxsec` and `bps` keep their
values, but the stored PERCOM block is now the rejected one, and the PERCOM get that
follows sends the rejected bytes `28 03 00 12 00 00 01 2c` instead of the previous
geometry `28 03 00 12 00 00 00 80`. -/
theorem C29_counterexample :
    (receive_percom percom_reject_unit).isSome = true ∧
    (setup_percom sd_720_unit.dev percom_block_300).2 = -1 ∧
    percom_rejected_unit.tx = [0x41, 0x45] ∧
    percom_rejected_unit.dev.maxsec = sd_720_unit.dev.maxsec ∧
    percom_rejected_unit.dev.bps = sd_720_unit.dev.bps ∧
    percom_rejected_unit.dev.percom ≠ sd_720_unit.dev.percom ∧
    (send_percom sd_720_unit).tx =
      [0x41, 0x43, 0x28, 0x03, 0x00, 0x12, 0x00, 0x00, 0x00, 0x80, 0xff, 0, 0, 0, 0xbd] ∧
    (send_percom percom_rejected_unit).tx =
      [0x41, 0x45, 0x41, 0x43, 0x28, 0x03, 0x00, 0x12, 0x00, 0x00, 0x01, 0x2c, 0xff, 0, 0, 0,
        0x6a] := by
  decide

/-- C29, what the code does: when `setup_percom` rejects a block (returns -1) the record
keeps `maxsec`, `bps` and every member other than `percom`, and `percom` holds the eight
bytes of the rejected block. -/
theorem C29_setup_percom_reject (dev : DEVICE) (ibuf : List Nat)
    (hrej : (setup_percom dev ibuf).2 = -1) :
    (setup_percom dev ibuf).1 = { dev with percom := (setup_percom dev ibuf).1.percom } ∧
    (setup_percom dev ibuf).1.maxsec = dev.maxsec ∧
    (setup_percom dev ibuf).1.bps = dev.bps ∧
    (setup_percom dev ibuf).1.percom =
      { trk := ibuf.getD 0 0, step := ibuf.getD 1 0, spt_hi := ibuf.getD 2 0,
        spt_lo := ibuf.getD 3 0, heads := ibuf.getD 4 0, flags := ibuf.getD 5 0,
        bps_hi := ibuf.getD 6 0, bps_lo := ibuf.getD 7 0 } := by
  refine ⟨?_, ?_, ?_, setup_percom_percom dev ibuf⟩ <;>
  · unfold setup_percom at hrej ⊢
    simp only [] at hrej ⊢
    split_ifs at hrej ⊢ <;> rfl

/-- C29 (code) at the block with 300 bytes per sector on the single-density disk. -/
theorem C29_setup_percom_reject_witness :
    (setup_percom sd_720_unit.dev percom_block_300).2 = -1 ∧
    (setup_percom sd_720_unit.dev percom_block_300).1.maxsec = 720 ∧
    (setup_percom sd_720_unit.dev percom_block_300).1.bps = 128 ∧
    (setup_percom sd_720_unit.dev percom_block_300).1.percom.bps_hi = 1 :=
  ⟨by decide,
   (C29_setup_percom_reject sd_720_unit.dev percom_block_300 (by decide)).2.1,
   (C29_setup_percom_reject sd_720_unit.dev percom_block_300 (by decide)).2.2.1,
   congrArg PERCOM.bps_hi
     (C29_setup_percom_reject sd_720_unit.dev percom_block_300 (by decide)).2.2.2⟩

/-! ## Format and mount round trip: C30 -/

theorem format_atr_header (d : Nat) (no_delay : Int) (st : SIO)
    (h : ¬ (d ≠ 0 ∧ st.dev.percom.trk = 1)) :
    (format_atr d no_delay st).dev.atr = (format_header st.dev).atr := by
  obtain ⟨v, hv⟩ := format_atr_dev d no_delay st
  rw [hv, if_neg h]
  rfl

/-- C30 fails as stated: a unit with 2097152 sectors of 128 bytes (`maxsec * bps = 2 ^ 28`,
below `2 ^ 31`) is formatted with the paragraph count 0 in the header (`2 ^ 24` does not
fit the 24 bits of `wpars` and `hipars`), and `drive_setup` on a reset unit with size 0
fails. -/
theorem C30_counterexample :
    3 ≤ big_geometry_unit.dev.maxsec ∧ big_geometry_unit.dev.bps = 128 ∧
    big_geometry_unit.dev.maxsec * big_geometry_unit.dev.bps = 2 ^ 28 ∧
    (format_atr 1 0 big_geometry_unit).dev.atr.wpars +
      65536 * (format_atr 1 0 big_geometry_unit).dev.atr.hipars = 0 ∧
    (drive_setup device_reset (16 * 0) 128).2 = -1 := by
  rw [format_atr_header 1 0 big_geometry_unit (by decide)]
  decide

/-- C30 (amended): for every unit with `maxsec ≥ 3`, `bps` one of 128, 256, 512, 1024 and
`maxsec * bps < 2 ^ 28`, the paragraph count `wpars + 65536 * hipars` of the header
`format_atr` writes, given to `drive_setup` on a reset unit as size `16 * paragraphs`
with the same `bps`, is accepted and yields the same `maxsec`; for 256-byte sectors the
mounted `full13` is 1 when `full13force` was set at format time and 0 when it was not. -/
theorem C30_format_mount_round_trip (d : Nat) (no_delay : Int) (st : SIO)
    (hnak : ¬ (d ≠ 0 ∧ st.dev.percom.trk = 1)) (hm : 3 ≤ st.dev.maxsec)
    (hb : st.dev.bps = 128 ∨ st.dev.bps = 256 ∨ st.dev.bps = 512 ∨ st.dev.bps = 1024)
    (hlt : st.dev.maxsec * st.dev.bps < 2 ^ 28) :
    (drive_setup device_reset
      (16 * ((format_atr d no_delay st).dev.atr.wpars +
        65536 * (format_atr d no_delay st).dev.atr.hipars)) st.dev.bps).2 = 0 ∧
    (drive_setup device_reset
      (16 * ((format_atr d no_delay st).dev.atr.wpars +
        65536 * (format_atr d no_delay st).dev.atr.hipars)) st.dev.bps).1.maxsec =
      st.dev.maxsec ∧
    (st.dev.bps = 256 →
      (drive_setup device_reset
        (16 * ((format_atr d no_delay st).dev.atr.wpars +
          65536 * (format_atr d no_delay st).dev.atr.hipars)) st.dev.bps).1.full13 =
        if st.dev.full13force ≠ 0 then 1 else 0) := by
  have hbig : 384 ≤ st.dev.maxsec * st.dev.bps := by
    have : 3 * 128 ≤ st.dev.maxsec * st.dev.bps := Nat.mul_le_mul hm (by omega)
    omega
  rw [format_atr_header d no_delay st hnak, format_header_pars st.dev hbig hlt]
  generalize hM : st.dev.maxsec = M at *
  generalize hB : st.dev.bps = B at *
  have hsec : (drive_sectors (16 * ((M * B -
      (if st.dev.full13force = 0 ∧ B = 256 then 384 else 0)) / 16)) B) =
      (decide (¬ (st.dev.full13force = 0 ∧ B = 256)), M) := by
    unfold drive_sectors
    by_cases hc : st.dev.full13force = 0 ∧ B = 256
    · obtain ⟨hf, hB256⟩ := hc
      subst hB256
      simp only [hf, true_and, if_true, not_true_eq_false, decide_False]
      have e1 : 16 * ((M * 256 - 384) / 16) = M * 256 - 384 := by omega
      rw [e1]
      have e2 : ¬ (M * 256 - 384) % 256 = 0 := by omega
      rw [if_neg e2]
      have e3 : ((M * 256 - 384 + 2 ^ 64 - 384) % 2 ^ 64 / 256 + 3) % 2 ^ 64 = M := by omega
      rw [e3]
    · simp only [hc, if_false, Nat.sub_zero, not_false_eq_true, decide_True]
      have e1 : 16 * (M * B / 16) = M * B := by
        rcases hb with h | h | h | h <;> subst h <;> omega
      rw [e1]
      have e2 : M * B % B = 0 := Nat.mul_mod_left M B
      rw [if_pos e2]
      have hB0 : 0 < B := by omega
      rw [Nat.mul_div_cancel _ hB0]
  unfold drive_setup
  simp only [hsec]
  have h1 : ¬ M < 1 := by omega
  simp only [h1, if_false]
  refine ⟨trivial, trivial, ?_⟩
  · intro hB256
    by_cases hf : st.dev.full13force = 0
    · simp [hf, hB256]
      decide
    · simp [hf, hB256]

/-- C30 (amended) at the format of the freshly mounted single-density disk: the header
count 5760 mounts as 720 sectors again. -/
theorem C30_format_mount_round_trip_witness :
    (¬ ((1 : Nat) ≠ 0 ∧ sd_720_unit.dev.percom.trk = 1) ∧ 3 ≤ sd_720_unit.dev.maxsec ∧
      sd_720_unit.dev.bps = 128 ∧ sd_720_unit.dev.maxsec * sd_720_unit.dev.bps < 2 ^ 28) ∧
    (drive_setup device_reset
      (16 * ((format_atr 1 0 sd_720_unit).dev.atr.wpars +
        65536 * (format_atr 1 0 sd_720_unit).dev.atr.hipars)) sd_720_unit.dev.bps).1.maxsec =
      sd_720_unit.dev.maxsec :=
  ⟨by decide,
   (C30_format_mount_round_trip 1 0 sd_720_unit (by decide) (by decide)
      (Or.inl (by decide)) (by decide)).2.1⟩

/-! ## Sector ranges and the image size: C28 -/

theorem drive_setup_fields (dev : DEVICE) (size bps : Nat)
    (h1 : 1 ≤ (drive_sectors size bps).2) :
    (drive_setup dev size bps).1.maxsec = (drive_sectors size bps).2 ∧
    (drive_setup dev size bps).1.bps = bps ∧
    (drive_setup dev size bps).1.full13 =
      if (drive_sectors size bps).1 = true then 1 else dev.full13 := by
  unfold drive_setup
  have h : ¬ (drive_sectors size bps).2 < 1 := by omega
  rw [if_neg h]
  refine ⟨?_, ?_, ?_⟩ <;> split_ifs <;> rfl

/-- C28 fails in the code: for the payload size 16 (one paragraph) and 128-byte sectors
`drive_setup` succeeds with `maxsec = 2 ^ 57` (the `ulong` difference `size - 384` wraps),
so sector 2 passes the range validation and is mapped to the bytes 144 .. 271, beyond
offset 16 + 16; for the size 400 and 512-byte sectors `maxsec` is 3 and sector 1 is mapped
to the bytes 16 .. 527, beyond 16 + 400. -/
theorem C28_counterexample :
    (drive_setup device_reset 16 128).2 = 0 ∧
    (drive_setup device_reset 16 128).1.maxsec = 2 ^ 57 ∧
    ¬ ((2 : Int) = 0 ∨ (2 : Int) > toLong (drive_setup device_reset 16 128).1.maxsec) ∧
    atr_offset (drive_setup device_reset 16 128).1 2 = 144 ∧
    xfer_bps 3 (drive_setup device_reset 16 128).1 2 = 128 ∧
    ¬ (144 + 128 ≤ 16 + 16) ∧
    (drive_setup device_reset 400 512).2 = 0 ∧
    (drive_setup device_reset 400 512).1.maxsec = 3 ∧
    atr_offset (drive_setup device_reset 400 512).1 1 = 16 ∧
    xfer_bps 3 (drive_setup device_reset 400 512).1 1 = 512 ∧
    ¬ (16 + 512 ≤ 16 + 400) := by
  decide

/-- C28 where it holds: for a record with `full13 = 0` (as `device_reset` leaves it), a
sector size of 128, 256, 512 or 1024 and a payload size that is a multiple of the sector
size, or is at least 384 with a sector size of 128 or 256, `drive_setup` succeeds on a
non-zero sector count and every sector `1 ≤ s ≤ maxsec` is mapped by `atr_seek` and the
transfer length to a byte range that ends at or before `16 + size`. -/
theorem C28_sector_range_inside_image (dev : DEVICE) (size bps s : Nat)
    (hfull : dev.full13 = 0) (hsize : size < 2 ^ 63)
    (hb : bps = 128 ∨ bps = 256 ∨ bps = 512 ∨ bps = 1024)
    (hshape : size % bps = 0 ∨ (384 ≤ size ∧ (bps = 128 ∨ bps = 256)))
    (hok : (drive_setup dev size bps).2 = 0)
    (h1 : 1 ≤ s) (hmax : s ≤ (drive_setup dev size bps).1.maxsec) :
    atr_offset (drive_setup dev size bps).1 (s : Int) =
      ((seek_off (drive_setup dev size bps).1 s : Nat) : Int) ∧
    seek_off (drive_setup dev size bps).1 s + xfer_bps 3 (drive_setup dev size bps).1 (s : Int) ≤
      16 + size := by
  have hsec := drive_setup_ret dev size bps hok
  obtain ⟨f1, f2, f3⟩ := drive_setup_fields dev size bps hsec
  refine ⟨atr_offset_eq _ s h1, ?_⟩
  rw [xfer_bps_nat]
  unfold seek_off
  rw [f1] at hmax
  rw [f2, f3, hfull]
  unfold drive_sectors at hmax ⊢
  by_cases hm : size % bps = 0
  · simp only [hm, if_true] at hmax ⊢
    have hmul : s * bps ≤ size := by
      have := Nat.mul_le_mul_right bps hmax
      have e : size / bps * bps ≤ size := Nat.div_mul_le_self size bps
      omega
    rcases hb with h | h | h | h <;> subst h <;>
      simp only [Nat.reduceEqDiff, if_false, false_and, if_true, true_and, ne_eq,
        one_ne_zero, not_false_eq_true] <;> (try split_ifs) <;> omega
  · simp only [hm, if_false] at hmax ⊢
    rcases hshape with h0 | ⟨h384, hb2⟩
    · exact absurd h0 hm
    · have e : (size + 2 ^ 64 - 384) % 2 ^ 64 = size - 384 := by omega
      rw [e] at hmax
      rcases hb2 with h | h <;> subst h <;>
        simp only [Nat.reduceEqDiff, if_false, false_and, if_true, true_and, ne_eq,
          not_true_eq_false, Bool.false_eq_true] <;> (try split_ifs) <;> omega

/-- C28 (where it holds) at sector 720 of the single-density image of 92160 bytes: the
range ends at 16 + 92160. -/
theorem C28_sector_range_inside_image_witness :
    (device_reset.full13 = 0 ∧ (92160 : Nat) % 128 = 0 ∧
      (drive_setup device_reset 92160 128).2 = 0 ∧
      720 ≤ (drive_setup device_reset 92160 128).1.maxsec) ∧
    seek_off (drive_setup device_reset 92160 128).1 720 +
      xfer_bps 3 (drive_setup device_reset 92160 128).1 ((720 : Nat) : Int) ≤ 16 + 92160 :=
  ⟨by decide,
   (C28_sector_range_inside_image device_reset 92160 128 720 (by decide) (by decide)
      (Or.inl rfl) (Or.inl (by decide)) (by decide) (by decide) (by decide)).2⟩

/-! ## Name matching: C24 -/

theorem toupper_eq_iff (a b : Nat) : toupper a = toupper b ↔ same_ignoring_case a b := by
  unfold toupper same_ignoring_case
  split_ifs <;> omega

theorem fatr1_bits : ∀ f, f < 256 →
    ((f &&& (0xff ^^^ (0x20 ||| 0x40))) &&& (0x02 ||| 0x04) = 0 ↔ (f &&& 0x02 = 0 ∧ f &&& 0x04 = 0)) ∧
    (f &&& (0xff ^^^ (0x20 ||| 0x40))) &&& 0x01 = f &&& 0x01 ∧
    (f &&& (0xff ^^^ (0x20 ||| 0x40))) &&& 0x10 = f &&& 0x10 ∧
    (f &&& (0xff ^^^ (0x20 ||| 0x40))) &&& 0x08 = f &&& 0x08 ∧
    (f &&& (0xff ^^^ (0x20 ||| 0x40))) &&& 0x80 = f &&& 0x80 ∧
    (f ||| 0x60) &&& (0xff ^^^ (0x20 ||| 0x40)) = f &&& (0xff ^^^ (0x20 ||| 0x40)) := by
  decide

theorem name_loop_iff (name mask : List Nat) :
    (List.range 11).any (fun i =>
      decide (mask.getD i 0 ≠ 0x3f ∧ toupper (name.getD i 0) ≠ toupper (mask.getD i 0))) = false ↔
    ∀ i, i < 11 → mask.getD i 0 = 0x3f ∨ same_ignoring_case (name.getD i 0) (mask.getD i 0) := by
  rw [← Bool.not_eq_true, List.any_eq_true]
  constructor
  · intro h i hi
    by_cases hm : mask.getD i 0 = 0x3f
    · exact Or.inl hm
    · right
      rw [← toupper_eq_iff]
      by_contra hne
      exact h ⟨i, List.mem_range.mpr hi, decide_eq_true ⟨hm, hne⟩⟩
  · rintro h ⟨i, hi, hd⟩
    have hi := List.mem_range.mp hi
    simp only [decide_eq_true_eq] at hd
    rcases h i hi with h1 | h1
    · exact hd.1 h1
    · exact hd.2 ((toupper_eq_iff _ _).mpr h1)

/-- C24: `match_dos_names` returns 0 exactly when every one of the 11 mask bytes is '?' or
equals the name byte ignoring ASCII letter case and the attribute byte `fatr1` is
satisfied: the bits 0x02 and 0x04 are clear, bit 0x01 needs the owner write bit clear, bit
0x10 needs it set, bit 0x08 needs a directory and bit 0x80 a non-directory; the bits 0x20
and 0x40 have no effect on the result. -/
theorem C24_match_dos_names_iff (name mask : List Nat) (fatr1 : Nat) (sb : STAT)
    (hf : fatr1 < 256) :
    (match_dos_names name mask fatr1 sb = 0 ↔
      ((∀ i, i < 11 →
          mask.getD i 0 = 0x3f ∨ same_ignoring_case (name.getD i 0) (mask.getD i 0)) ∧
        fatr1 &&& 0x02 = 0 ∧ fatr1 &&& 0x04 = 0 ∧
        (fatr1 &&& 0x01 ≠ 0 → sb.st_mode &&& S_IWUSR = 0) ∧
        (fatr1 &&& 0x10 ≠ 0 → sb.st_mode &&& S_IWUSR ≠ 0) ∧
        (fatr1 &&& 0x08 ≠ 0 → S_ISDIR sb.st_mode = true) ∧
        (fatr1 &&& 0x80 ≠ 0 → S_ISDIR sb.st_mode = false))) ∧
    match_dos_names name mask (fatr1 ||| 0x60) sb = match_dos_names name mask fatr1 sb := by
  obtain ⟨h1, h2, h3, h4, h5, h6⟩ := fatr1_bits fatr1 hf
  constructor
  · unfold match_dos_names
    rw [← name_loop_iff]
    generalize (List.range 11).any (fun i =>
        decide (mask.getD i 0 ≠ 0x3f ∧ toupper (name.getD i 0) ≠ toupper (mask.getD i 0))) = b
    cases b
    · rw [if_neg (by decide)]
      dsimp only
      rw [h2, h3, h4, h5]
      by_cases hb : (fatr1 &&& (0xff ^^^ (0x20 ||| 0x40))) &&& (0x02 ||| 0x04) = 0
      · have hb' := h1.mp hb
        rw [if_neg (not_not.mpr hb)]
        cases hd : S_ISDIR sb.st_mode <;> split_ifs <;> simp_all
      · rw [if_pos hb]
        have : ¬ (fatr1 &&& 0x02 = 0 ∧ fatr1 &&& 0x04 = 0) := fun h => hb (h1.mpr h)
        simp only [one_ne_zero, false_iff]
        tauto
    · simp
  · unfold match_dos_names
    simp only [h6]

/-- C24 at an example: the name `A       TXT` against the mask `????????TXT` with no
attribute bit required, for a regular file. -/
theorem C24_match_dos_names_iff_witness :
    (match_dos_names [0x41, 0x20, 0x20, 0x20, 0x20, 0x20, 0x20, 0x20, 0x54, 0x58, 0x54]
        [0x3f, 0x3f, 0x3f, 0x3f, 0x3f, 0x3f, 0x3f, 0x3f, 0x54, 0x58, 0x54] 0x10
        { st_mode := 0x81a4, st_uid := 1000, st_size := 5, st_mtime := 0 } = 0 ↔
      ((∀ i, i < 11 →
          [0x3f, 0x3f, 0x3f, 0x3f, 0x3f, 0x3f, 0x3f, 0x3f, 0x54, 0x58, 0x54].getD i 0 = 0x3f ∨
          same_ignoring_case
            ([0x41, 0x20, 0x20, 0x20, 0x20, 0x20, 0x20, 0x20, 0x54, 0x58, 0x54].getD i 0)
            ([0x3f, 0x3f, 0x3f, 0x3f, 0x3f, 0x3f, 0x3f, 0x3f, 0x54, 0x58, 0x54].getD i 0)) ∧
        0x10 &&& 0x02 = 0 ∧ 0x10 &&& 0x04 = 0 ∧
        (0x10 &&& 0x01 ≠ 0 → 0x81a4 &&& S_IWUSR = 0) ∧
        (0x10 &&& 0x10 ≠ 0 → 0x81a4 &&& S_IWUSR ≠ 0) ∧
        (0x10 &&& 0x08 ≠ 0 → S_ISDIR 0x81a4 = true) ∧
        (0x10 &&& 0x80 ≠ 0 → S_ISDIR 0x81a4 = false))) ∧
    match_dos_names [0x41, 0x20, 0x20, 0x20, 0x20, 0x20, 0x20, 0x20, 0x54, 0x58, 0x54]
        [0x3f, 0x3f, 0x3f, 0x3f, 0x3f, 0x3f, 0x3f, 0x3f, 0x54, 0x58, 0x54] (0x10 ||| 0x60)
        { st_mode := 0x81a4, st_uid := 1000, st_size := 5, st_mtime := 0 } =
      match_dos_names [0x41, 0x20, 0x20, 0x20, 0x20, 0x20, 0x20, 0x20, 0x54, 0x58, 0x54]
        [0x3f, 0x3f, 0x3f, 0x3f, 0x3f, 0x3f, 0x3f, 0x3f, 0x54, 0x58, 0x54] 0x10
        { st_mode := 0x81a4, st_uid := 1000, st_size := 5, st_mtime := 0 } :=
  C24_match_dos_names_iff _ _ 0x10 _ (by decide)

/-! ## Name validation: C25 -/

theorem name_char_eq (u c : Nat) : name_char u c = dos_2_allowed u c := by
  unfold name_char dos_2_allowed
  split_ifs <;>
    cases isdigit c <;> cases isupper c <;> cases islower c <;> cases (c == 0x5f) <;>
      cases (c == 0x40) <;> rfl

theorem dos_2_term_clean (c : Nat) (h : c ≠ 0 ∧ c ≠ 0x20) : dos_2_term c = false := by
  unfold dos_2_term
  simp [h.1, h.2]

theorem dot_not_allowed (u : Nat) : dos_2_allowed u 0x2e = false := by
  unfold dos_2_allowed
  split_ifs <;> decide

theorem validate_fn_loop_pos (u : Nat) (name : List Nat)
    (hs : ∀ c ∈ name, c ≠ 0 ∧ c ≠ 0x20) :
    ∀ n x, 1 ≤ x →
      validate_fn_loop u name n x = if fn_ok u ((name.drop x).take n) = true then 1 else 0 := by
  intro n
  induction n with
  | zero => intro x hx; simp [validate_fn_loop, fn_ok]
  | succ n ih =>
    intro x hx
    unfold validate_fn_loop
    by_cases hlt : x < name.length
    · have hg : name.getD x 0 = name[x] := by simp [List.getD_eq_getElem?_getD, hlt]
      have hd : name.drop x = name[x] :: name.drop (x + 1) := List.drop_eq_getElem_cons hlt
      have hc := hs name[x] (List.getElem_mem hlt)
      rw [hg, dos_2_term_clean _ hc, hd, List.take_succ_cons, ih (x + 1) (by omega)]
      simp only [Bool.false_eq_true, if_false]
      by_cases hdot : name[x] = 0x2e
      · simp [hdot, fn_ok]
      · rw [if_neg hdot]
        cases ha : dos_2_allowed u name[x] <;> simp [fn_ok, hdot, ha]
    · have hg : name.getD x 0 = 0 := by
        simp [List.getD_eq_getElem?_getD, List.getElem?_eq_none (Nat.le_of_not_lt hlt)]
      have hd : name.drop x = [] := List.drop_eq_nil_of_le (Nat.le_of_not_lt hlt)
      rw [hg, hd]
      have : x ≠ 0 := by omega
      simp [dos_2_term, fn_ok, this]

theorem validate_fn_clean (u : Nat) (name : List Nat) (len : Nat)
    (hs : ∀ c ∈ name, c ≠ 0 ∧ c ≠ 0x20) :
    validate_fn u name len =
      if len = 0 ∨ (name ≠ [] ∧ fn_ok u (name.take len) = true) then 1 else 0 := by
  unfold validate_fn
  cases len with
  | zero => simp [validate_fn_loop]
  | succ n =>
    cases name with
    | nil => simp [validate_fn_loop, dos_2_term]
    | cons c cs =>
      unfold validate_fn_loop
      have hc := hs c (List.mem_cons_self _ _)
      rw [validate_fn_loop_pos u (c :: cs) hs n 1 (le_refl 1)]
      simp only [List.getD_cons_zero, dos_2_term_clean _ hc, Bool.false_eq_true, if_false,
        List.drop_succ_cons, List.drop_zero, List.take_succ_cons]
      by_cases hdot : c = 0x2e
      · simp [hdot, fn_ok]
      · rw [if_neg hdot]
        cases ha : dos_2_allowed u c <;> simp [fn_ok, hdot, ha]



theorem strchr_none (s : List Nat) (c : Nat) (h : c ∉ s) : strchr s c = none := by
  unfold strchr
  have : s.takeWhile (fun b => decide (b ≠ c)) = s := by
    rw [List.takeWhile_eq_self_iff]
    intro x hx
    simp only [decide_eq_true_eq]
    rintro rfl
    exact h hx
  simp only [this, lt_irrefl, if_false]

theorem takeWhile_dot (c : Nat) (base ext : List Nat) (hb : c ∉ base) :
    (base ++ c :: ext).takeWhile (fun b => decide (b ≠ c)) = base := by
  rw [List.takeWhile_append_of_pos]
  · simp
  · intro x hx
    simp only [decide_eq_true_eq]
    rintro rfl
    exact hb hx

theorem dropWhile_dot (c : Nat) (base ext : List Nat) (hb : c ∉ base) :
    (base ++ c :: ext).dropWhile (fun b => decide (b ≠ c)) = c :: ext := by
  rw [List.dropWhile_append_of_pos]
  · simp
  · intro x hx
    simp only [decide_eq_true_eq]
    rintro rfl
    exact hb hx

theorem strchr_some (c : Nat) (base ext : List Nat) (hb : c ∉ base) :
    strchr (base ++ c :: ext) c = some base.length := by
  unfold strchr
  rw [takeWhile_dot c base ext hb]
  simp

theorem fn_ok_clean (u : Nat) (s : List Nat) (h : 0x2e ∉ s) :
    fn_ok u s = s.all (dos_2_allowed u) := by
  unfold fn_ok
  have : s.takeWhile (fun b => decide (b ≠ 0x2e)) = s := by
    rw [List.takeWhile_eq_self_iff]
    intro x hx
    simp only [decide_eq_true_eq]
    rintro rfl
    exact h hx
  rw [this]

theorem fn_ok_base (u : Nat) (base ext : List Nat) (h : 0x2e ∉ base) (h8 : base.length ≤ 8) :
    fn_ok u ((base ++ 0x2e :: ext).take 8) = base.all (dos_2_allowed u) := by
  unfold fn_ok
  rw [List.take_append_eq_append_take, List.take_of_length_le h8, List.takeWhile_append_of_pos]
  · have : ((0x2e :: ext).take (8 - base.length)).takeWhile (fun b => decide (b ≠ 0x2e)) = [] := by
      cases 8 - base.length <;> simp
    rw [this, List.append_nil]
  · intro x hx
    simp only [decide_eq_true_eq]
    rintro rfl
    exact h hx

/-- The function `validate_dos_name` on a name without '.', NUL and space. -/
theorem validate_dos_name_plain (u : Nat) (s : List Nat)
    (hs : ∀ c ∈ s, c ≠ 0 ∧ c ≠ 0x20) (hd : 0x2e ∉ s) :
    validate_dos_name u s =
      if 1 ≤ s.length ∧ s.length ≤ 8 ∧ s.all (dos_2_allowed u) = true then 0 else 1 := by
  unfold validate_dos_name
  rw [strchr_none s _ hd]
  simp only [strlen, true_and]
  by_cases h8 : s.length ≤ 8
  · rw [if_neg (by omega)]
    simp only [Bool.false_eq_true, if_false]
    rw [validate_fn_clean u s 8 hs, List.take_of_length_le h8, fn_ok_clean u s hd]
    by_cases hl : 1 ≤ s.length
    · have hne : s ≠ [] := by
        rintro rfl
        simp at hl
      cases ha : s.all (dos_2_allowed u) <;> simp [ha, h8, hl, hne]
    · have hne : s = [] := List.length_eq_zero.mp (by omega)
      simp [hne]
  · rw [if_pos (by omega), if_neg (by omega)]



theorem getD_after_dot (base ext : List Nat) (k : Nat) :
    (base ++ 0x2e :: ext).getD (base.length + (k + 1)) 0 = ext.getD k 0 := by
  simp [List.getD_eq_getElem?_getD, List.getElem?_append_right]

theorem drop_after_dot (base ext : List Nat) :
    (base ++ 0x2e :: ext).drop (base.length + 1) = ext := by
  rw [← List.drop_drop, List.drop_left]
  rfl

/-- The function `validate_dos_name` on a name with a '.', without NUL and space. -/
theorem validate_dos_name_dotted (u : Nat) (base ext : List Nat)
    (hb : ∀ c ∈ base, c ≠ 0 ∧ c ≠ 0x20) (hd : 0x2e ∉ base)
    (he : ∀ c ∈ ext, c ≠ 0 ∧ c ≠ 0x20) :
    validate_dos_name u (base ++ 0x2e :: ext) =
      if base.length ≤ 8 ∧ base.all (dos_2_allowed u) = true ∧ 1 ≤ ext.length ∧
          ext.length ≤ 3 ∧ ext.all (dos_2_allowed u) = true then 0 else 1 := by
  have hs : ∀ c ∈ base ++ 0x2e :: ext, c ≠ 0 ∧ c ≠ 0x20 := by
    intro c hc
    rcases List.mem_append.mp hc with h | h
    · exact hb c h
    · rcases List.mem_cons.mp h with h | h
      · subst h; decide
      · exact he c h
  have hne : base ++ 0x2e :: ext ≠ [] := by simp
  unfold validate_dos_name
  rw [strchr_some 0x2e base ext hd]
  simp only [strlen, List.drop_left, List.length_cons, reduceCtorEq, false_and, if_false]
  have g1 := getD_after_dot base ext 0
  have g2 := getD_after_dot base ext 1
  have g3 := getD_after_dot base ext 2
  simp only [Nat.zero_add, Nat.reduceAdd] at g1 g2 g3
  simp only [g1, g2, g3, drop_after_dot, validate_fn_clean u _ 8 hs, validate_fn_clean u ext 3 he]
  by_cases h8 : base.length ≤ 8
  · rw [fn_ok_base u base ext hd h8]
    have hdot := dot_not_allowed u
    cases hba : base.all (dos_2_allowed u)
    · simp [hne]
    · match ext, he with
      | [], _ => simp [hne]
      | [a], _ =>
        by_cases ha : a = 0x2e
        · subst ha; simp [hne, h8, hdot, fn_ok]
        · cases haa : dos_2_allowed u a <;> simp [hne, h8, fn_ok, ha, haa]
      | [a, b], _ =>
        by_cases ha : a = 0x2e
        · subst ha; simp [hne, h8, hdot, fn_ok]
        · by_cases hb2 : b = 0x2e
          · subst hb2; simp [hne, h8, hdot, fn_ok, ha]
          · cases haa : dos_2_allowed u a <;> cases hbb : dos_2_allowed u b <;>
              simp [hne, h8, fn_ok, ha, hb2, haa, hbb]
      | [a, b, c], _ =>
        by_cases ha : a = 0x2e
        · subst ha; simp [hne, h8, hdot, fn_ok]
        · by_cases hb2 : b = 0x2e
          · subst hb2; simp [hne, h8, hdot, fn_ok, ha]
          · by_cases hc2 : c = 0x2e
            · subst hc2; simp [hne, h8, hdot, fn_ok, ha, hb2]
            · cases haa : dos_2_allowed u a <;> cases hbb : dos_2_allowed u b <;>
                cases hcc : dos_2_allowed u c <;>
                simp [hne, h8, fn_ok, ha, hb2, hc2, haa, hbb, hcc]
      | a :: b :: c :: d :: t, _ => simp [h8]
  · have : base.length > 8 := by omega
    simp [this, h8]



theorem name_char_fun (u : Nat) : name_char u = dos_2_allowed u :=
  funext (name_char_eq u)

theorem dos_name_form_plain (u : Nat) (s : List Nat) (hd : 0x2e ∉ s) :
    dos_name_form u s =
      (decide (s.length ≤ 8) && s.all (dos_2_allowed u) && decide (1 ≤ s.length)) := by
  have h1 : s.takeWhile (fun b => decide (b ≠ 0x2e)) = s := by
    rw [List.takeWhile_eq_self_iff]
    intro x hx
    simp only [decide_eq_true_eq]
    rintro rfl
    exact hd hx
  have h2 : s.dropWhile (fun b => decide (b ≠ 0x2e)) = [] := by
    rw [List.dropWhile_eq_nil_iff]
    intro x hx
    simp only [decide_eq_true_eq]
    rintro rfl
    exact hd hx
  unfold dos_name_form
  simp only [h1, h2, name_char_fun, List.isEmpty_nil, if_true]

theorem dos_name_form_dotted (u : Nat) (base ext : List Nat) (hd : 0x2e ∉ base) :
    dos_name_form u (base ++ 0x2e :: ext) =
      (decide (base.length ≤ 8) && base.all (dos_2_allowed u) &&
        (decide (1 ≤ ext.length ∧ ext.length ≤ 3) && ext.all (dos_2_allowed u))) := by
  unfold dos_name_form
  simp only [takeWhile_dot 0x2e base ext hd, dropWhile_dot 0x2e base ext hd, name_char_fun,
    List.isEmpty_cons, Bool.false_eq_true, if_false, List.tail_cons]

/-- C25, amended: on a host name without a space byte, `validate_dos_name` returns 0
exactly when the name is up to 8 characters of the allowed set followed either by nothing
(the name being non-empty) or by a single '.' and 1 to 3 characters of the allowed set;
"Abc" is rejected in uppercase mode and "abc" is accepted in lowercase mode. -/
theorem C25_validate_dos_name_form (u : Nat) (s : List Nat)
    (hs : ∀ c ∈ s, c ≠ 0 ∧ c ≠ 0x20) :
    (validate_dos_name u s = 0 ↔ dos_name_form u s = true) ∧
    (u ≠ 0 → validate_dos_name u [0x41, 0x62, 0x63] = 1) ∧
    validate_dos_name 0 [0x61, 0x62, 0x63] = 0 := by
  refine ⟨?_, ?_, by decide⟩
  · by_cases hd : 0x2e ∈ s
    · obtain ⟨base, ext, rfl, hb⟩ := List.eq_append_cons_of_mem hd
      have hbc : ∀ c ∈ base, c ≠ 0 ∧ c ≠ 0x20 :=
        fun c hc => hs c (List.mem_append_left _ hc)
      have hec : ∀ c ∈ ext, c ≠ 0 ∧ c ≠ 0x20 :=
        fun c hc => hs c (List.mem_append_right _ (List.mem_cons_of_mem _ hc))
      rw [validate_dos_name_dotted u base ext hbc hb hec, dos_name_form_dotted u base ext hb]
      by_cases h : base.length ≤ 8 ∧ base.all (dos_2_allowed u) = true ∧ 1 ≤ ext.length ∧
          ext.length ≤ 3 ∧ ext.all (dos_2_allowed u) = true
      · rw [if_pos h]
        simp [h.1, h.2.1, h.2.2.1, h.2.2.2.1, h.2.2.2.2]
      · rw [if_neg h]
        simp only [one_ne_zero, false_iff]
        intro hf
        simp only [Bool.and_eq_true, decide_eq_true_eq] at hf
        exact h ⟨hf.1.1, hf.1.2, hf.2.1.1, hf.2.1.2, hf.2.2⟩
    · rw [validate_dos_name_plain u s hs hd, dos_name_form_plain u s hd]
      by_cases h : 1 ≤ s.length ∧ s.length ≤ 8 ∧ s.all (dos_2_allowed u) = true
      · rw [if_pos h]
        simp [h.1, h.2.1, h.2.2]
      · rw [if_neg h]
        simp only [one_ne_zero, false_iff]
        intro hf
        simp only [Bool.and_eq_true, decide_eq_true_eq] at hf
        exact h ⟨hf.2, hf.1.1, hf.1.2⟩
  · intro hu
    rw [validate_dos_name_plain u _ (by decide) (by decide)]
    simp [dos_2_allowed, hu, isupper, isdigit]

/-- C25 at an example: the name "README.TXT" in uppercase mode. -/
theorem C25_validate_dos_name_form_witness :
    (validate_dos_name 1 [0x52, 0x45, 0x41, 0x44, 0x4d, 0x45, 0x2e, 0x54, 0x58, 0x54] = 0 ↔
      dos_name_form 1 [0x52, 0x45, 0x41, 0x44, 0x4d, 0x45, 0x2e, 0x54, 0x58, 0x54] = true) ∧
    ((1 : Nat) ≠ 0 → validate_dos_name 1 [0x41, 0x62, 0x63] = 1) ∧
    validate_dos_name 0 [0x61, 0x62, 0x63] = 0 :=
  C25_validate_dos_name_form 1 _ (by decide)

/-- C25 fails as stated: in lowercase mode ".abc" (nothing before the '.') is accepted,
and so is "a !" (a space ends the check of the name), while neither has the stated form. -/
theorem C25_counterexample :
    validate_dos_name 0 [0x2e, 0x61, 0x62, 0x63] = 0 ∧
    spec_dos_name 0 [0x2e, 0x61, 0x62, 0x63] = false ∧
    validate_dos_name 0 [0x61, 0x20, 0x21] = 0 ∧
    spec_dos_name 0 [0x61, 0x20, 0x21] = false := by
  decide

/-! ## Directory snapshot: C27 -/

theorem accepted_cons (u uid : Nat) (dp : DIRENT) (rest : List DIRENT) :
    accepted u uid (dp :: rest) =
      match check_dos_name u uid dp.d_name dp.sb with
      | none => accepted u uid rest
      | some sb => (dp.d_name, sb) :: accepted u uid rest := by
  unfold accepted
  cases h : check_dos_name u uid dp.d_name dp.sb <;> simp [List.filterMap_cons, h]

theorem get_file_len_loop_eq (u uid : Nat) (dir : List DIRENT) :
    ∀ fl, fl + 23 * (accepted u uid dir).length < 2 ^ 64 →
      get_file_len_loop u uid dir fl = fl + 23 * (accepted u uid dir).length := by
  induction dir with
  | nil => intro fl _; simp [get_file_len_loop, accepted]
  | cons dp rest ih =>
    intro fl h
    rw [accepted_cons] at h ⊢
    unfold get_file_len_loop
    cases hc : check_dos_name u uid dp.d_name dp.sb with
    | none =>
      simp only [hc] at h ⊢
      exact ih fl h
    | some sb =>
      simp only [hc, List.length_cons] at h ⊢
      rw [Nat.mod_eq_of_lt (by omega), ih (fl + 23) (by omega)]
      omega

theorem ugefina_ext_length (dot : List Nat) :
    ∀ n i out, (ugefina_ext dot n i out).length = out.length := by
  intro n
  induction n with
  | zero => intro i out; rfl
  | succ n ih =>
    intro i out
    unfold ugefina_ext
    split_ifs
    · rw [ih, List.length_set]
    · rfl

theorem ugefina_base_length (src : List Nat) :
    ∀ n i out, (ugefina_base src n i out).length = out.length := by
  intro n
  induction n with
  | zero => intro i out; rfl
  | succ n ih =>
    intro i out
    unfold ugefina_base
    split_ifs
    · rw [ih, List.length_set]
    · rfl

theorem ugefina_length (src : List Nat) : (ugefina src).length = 11 := by
  unfold ugefina
  simp only [ugefina_base_length]
  cases strchr src 0x2e <;> simp [ugefina_ext_length]

theorem unix_time_2_sdx_length (tod : Int) (t : TM) : (unix_time_2_sdx tod t).length = 6 := by
  unfold unix_time_2_sdx
  split_ifs <;> simp

theorem cache_dir_entry_length (lt : Int → TM) (dirnode node : Nat) (nm : List Nat)
    (sb : STAT) : (cache_dir_entry lt dirnode node nm sb).length = 23 := by
  simp [cache_dir_entry, DIRENTRY, ugefina_length, unix_time_2_sdx_length]

theorem cache_dir_loop_eq (u uid : Nat) (lt : Int → TM) (dirnode dirlen : Nat)
    (dir : List DIRENT) :
    ∀ j acc, dirlen = 23 * (j + (accepted u uid dir).length) → dirlen < 2 ^ 64 →
      cache_dir_loop u uid lt dirnode dirlen dir (j % 65536) (23 * j) acc =
        acc ++ child_entries lt dirnode j (accepted u uid dir) := by
  induction dir with
  | nil => intro j acc _ _; simp [cache_dir_loop, accepted, child_entries]
  | cons dp rest ih =>
    intro j acc h hlt
    rw [accepted_cons] at h ⊢
    unfold cache_dir_loop
    cases hc : check_dos_name u uid dp.d_name dp.sb with
    | none =>
      simp only [hc] at h ⊢
      exact ih j acc h hlt
    | some sb =>
      simp only [hc, List.length_cons] at h ⊢
      have h1 : (23 * j + 23) % 2 ^ 64 = 23 * (j + 1) := by omega
      have h2 : (j % 65536 + 1) % 65536 = (j + 1) % 65536 := by omega
      rw [h1, h2]
      unfold child_entries
      by_cases hlast : (accepted u uid rest).length = 0
      · rw [if_pos (by omega)]
        have : accepted u uid rest = [] := List.length_eq_zero.mp hlast
        rw [this]
        simp [child_entries]
      · rw [if_neg (by omega), ih (j + 1) _ (by omega) hlt, List.append_assoc]



theorem and_ff0000_shift (x : Nat) : (x &&& 0xff0000) >>> 16 = (x / 65536) % 256 := by
  have h : (x &&& 0xff0000) >>> 16 = (x >>> 16) &&& 0xff := by
    apply Nat.eq_of_testBit_eq
    intro j
    have e : (0xff : Nat) = 0xff0000 >>> 16 := by decide
    rw [Nat.testBit_shiftRight, Nat.testBit_and, Nat.testBit_and, Nat.testBit_shiftRight, e,
      Nat.testBit_shiftRight]
  rw [h, and_ff_eq_mod, Nat.shiftRight_eq_div_pow]

theorem len_bytes_sum (x : Nat) (h : x < 2 ^ 24) :
    (x &&& 0x000000ff) + 256 * ((x &&& 0x0000ff00) >>> 8) +
      65536 * ((x &&& 0x00ff0000) >>> 16) = x := by
  rw [and_ff_eq_mod, and_ff00_shift, and_ff0000_shift]
  omega

theorem map_value (dirnode node : Nat) :
    (dirnode <<< 11) % 65536 ||| (node &&& 0x07ff) = 2048 * (dirnode % 32) + node % 2048 := by
  have h1 : (dirnode <<< 11) % 65536 = 2 ^ 11 * (dirnode % 32) := by
    rw [Nat.shiftLeft_eq]
    omega
  have h2 : node &&& 0x07ff = node % 2048 := Nat.and_pow_two_sub_one_eq_mod node 11
  rw [h1, h2, ← Nat.mul_add_lt_is_or (Nat.mod_lt _ (by decide))]

theorem map_bytes_sum (m : Nat) (h : m < 65536) :
    (m &&& 0x00ff) + 256 * ((m &&& 0xff00) >>> 8) = m := by
  rw [and_ff_eq_mod, and_ff00_shift]
  omega

theorem child_entries_entry (lt : Int → TM) (d : Nat) (l : List (List Nat × STAT)) :
    ∀ j i p, l[i]? = some p →
      ((child_entries lt d j l).drop (23 * i)).take 23 =
        cache_dir_entry lt d ((j + i) % 65536) p.1 p.2 := by
  induction l with
  | nil => intro j i p h; simp at h
  | cons q rest ih =>
    intro j i p h
    unfold child_entries
    cases i with
    | zero =>
      simp only [List.getElem?_cons_zero, Option.some.injEq] at h
      subst h
      rw [Nat.mul_zero, List.drop_zero, List.take_append_of_le_length
        (by rw [cache_dir_entry_length]), List.take_of_length_le
        (by rw [cache_dir_entry_length])]
      rfl
    | succ i =>
      simp only [List.getElem?_cons_succ] at h
      have hl := cache_dir_entry_length lt d (j % 65536) q.1 q.2
      have e : 23 * (i + 1) = (cache_dir_entry lt d (j % 65536) q.1 q.2).length + 23 * i := by
        rw [hl]; omega
      rw [e, List.drop_append, ih (j + 1) i p h]
      congr 2
      omega

theorem child_entries_length (lt : Int → TM) (d : Nat) (l : List (List Nat × STAT)) :
    ∀ j, (child_entries lt d j l).length = 23 * l.length := by
  induction l with
  | nil => intro j; rfl
  | cons q rest ih =>
    intro j
    unfold child_entries
    rw [List.length_append, cache_dir_entry_length, ih, List.length_cons]
    omega



theorem strrchr_none (s : List Nat) (c : Nat) (h : c ∉ s) : strrchr s c = none := by
  unfold strrchr
  rw [strchr_none s.reverse c (by simpa using h)]

theorem strrchr_some (s : List Nat) (h : 0x2f ∈ s) :
    ∃ p, strrchr s 0x2f = some p ∧ s.drop (p + 1) = last_component s ∧
      (s.take (p + 1)).count 0x2f = s.count 0x2f := by
  have hr : 0x2f ∈ s.reverse := by simpa using h
  obtain ⟨as, bs, e, hn⟩ := List.eq_append_cons_of_mem hr
  have es : s = bs.reverse ++ 0x2f :: as.reverse := by
    have := congrArg List.reverse e
    simpa using this
  refine ⟨bs.length, ?_, ?_, ?_⟩
  · unfold strrchr
    rw [e, strchr_some 0x2f as bs hn]
    have hl : s.length = bs.length + 1 + as.length := by
      rw [es]; simp; omega
    simp only [hl]
    congr 1
    omega
  · unfold last_component
    rw [e, takeWhile_dot 0x2f as bs hn, es]
    have : bs.length + 1 = (bs.reverse ++ [0x2f]).length := by simp
    rw [this, show bs.reverse ++ 0x2f :: as.reverse = (bs.reverse ++ [0x2f]) ++ as.reverse by simp,
      List.drop_left]
  · have hc : as.reverse.count 0x2f = 0 := by
      rw [List.count_eq_zero]
      simpa using hn
    have : bs.length + 1 = (bs.reverse ++ [0x2f]).length := by simp
    rw [es, this, show bs.reverse ++ 0x2f :: as.reverse = (bs.reverse ++ [0x2f]) ++ as.reverse by simp,
      List.take_left]
    simp only [List.count_append, hc, Nat.add_zero]

theorem DIRENTRY_length (s ml mh l0 l1 l2 : Nat) (fname stamp : List Nat)
    (hf : fname.length = 11) (hs : stamp.length = 6) :
    (DIRENTRY s ml mh l0 l1 l2 fname stamp).length = 23 := by
  simp [DIRENTRY, hf, hs]

theorem DIRENTRY_fname (s ml mh l0 l1 l2 : Nat) (fname stamp : List Nat)
    (hf : fname.length = 11) :
    ((DIRENTRY s ml mh l0 l1 l2 fname stamp).drop 6).take 11 = fname := by
  unfold DIRENTRY
  rw [show [s, ml, mh, l0, l1, l2] ++ fname ++ stamp = [s, ml, mh, l0, l1, l2] ++ (fname ++ stamp)
    from List.append_assoc _ _ _]
  rw [show (6 : Nat) = [s, ml, mh, l0, l1, l2].length from rfl, List.drop_left, ← hf,
    List.take_left]

theorem snapshot_entry_zero (buf head ch : List Nat) (hh : head.length = 23) :
    snapshot_entry (store buf (head ++ ch)) 0 = head := by
  unfold snapshot_entry store
  rw [Nat.mul_zero, List.drop_zero, List.append_assoc, ← hh, List.take_left]

theorem snapshot_entry_succ (buf head : List Nat) (lt : Int → TM) (d : Nat)
    (l : List (List Nat × STAT)) (i : Nat) (p : List Nat × STAT) (hh : head.length = 23)
    (hp : l[i]? = some p) :
    snapshot_entry (store buf (head ++ child_entries lt d 1 l)) (i + 1) =
      cache_dir_entry lt d ((1 + i) % 65536) p.1 p.2 := by
  have hi : i < l.length := by
    rcases Nat.lt_or_ge i l.length with h | h
    · exact h
    · rw [List.getElem?_eq_none h] at hp
      cases hp
  unfold snapshot_entry store
  rw [List.append_assoc, show 23 * (i + 1) = head.length + 23 * i by rw [hh]; omega,
    List.drop_append, List.drop_append_of_le_length (by rw [child_entries_length]; omega),
    List.take_append_of_le_length
      (by rw [List.length_drop, child_entries_length]; omega)]
  exact child_entries_entry lt d l 1 i p hp



theorem header_name_length (dirname pathname : List Nat) :
    (header_name dirname pathname).length = 11 := by
  unfold header_name
  split_ifs
  · exact ugefina_length _
  · rfl

theorem cache_dir_form (u uid : Nat) (lt : Int → TM) (dirname pathname : List Nat)
    (dirlen : Nat) (st_mtime : Int) (dir : List DIRENT)
    (h : dirlen = 23 * (1 + (accepted u uid dir).length)) (hlt : dirlen < 2 ^ 64) :
    ∃ map_h, cache_dir u uid lt dirname pathname dirlen st_mtime dir =
      store (List.replicate (dirlen + 23) 0)
        (DIRENTRY 0x28 0x00 map_h (dirlen &&& 0x000000ff) ((dirlen &&& 0x0000ff00) >>> 8)
            ((dirlen &&& 0x00ff0000) >>> 16) (header_name dirname pathname)
            (unix_time_2_sdx st_mtime (lt st_mtime)) ++
          child_entries lt (depth_ordinal dirname pathname % 256) 1 (accepted u uid dir)) := by
  have hloop := fun d acc => cache_dir_loop_eq u uid lt d dirlen dir 1 acc h hlt
  simp only [Nat.one_mod, Nat.mul_one] at hloop
  unfold cache_dir
  simp only [strlen, hloop]
  by_cases hs : 0x2f ∈ pathname.drop dirname.length
  · obtain ⟨p, hp, hdrop, hcount⟩ := strrchr_some _ hs
    refine ⟨((((pathname.drop dirname.length).take (p + 1)).count 0x2f % 256) &&& 0x1f) <<< 3 % 256,
      ?_⟩
    simp only [hp, hdrop, hcount, header_name, if_pos hs, depth_ordinal]
  · refine ⟨0, ?_⟩
    have hc : (pathname.drop dirname.length).count 0x2f = 0 := List.count_eq_zero.mpr hs
    simp only [strrchr_none _ _ hs, header_name, if_neg hs, depth_ordinal, hc, Nat.zero_mod]
    rfl



theorem cache_dir_entry_fields (lt : Int → TM) (d node : Nat) (nm : List Nat) (sb : STAT)
    (h0 : 0 ≤ sb.st_size) (h1 : sb.st_size < 2 ^ 63) :
    (cache_dir_entry lt d node nm sb).getD 0 0 =
      0x08 + (if sb.st_mode &&& S_IWUSR = 0 then 0x01 else 0) +
        (if S_ISDIR sb.st_mode = true then 0x20 else 0) ∧
    (cache_dir_entry lt d node nm sb).getD 1 0 + 256 * (cache_dir_entry lt d node nm sb).getD 2 0 =
      2048 * (d % 32) + node % 2048 ∧
    ((cache_dir_entry lt d node nm sb).drop 6).take 11 = ugefina nm ∧
    (cache_dir_entry lt d node nm sb).getD 3 0 + 256 * (cache_dir_entry lt d node nm sb).getD 4 0 +
        65536 * (cache_dir_entry lt d node nm sb).getD 5 0 =
      (if S_ISDIR sb.st_mode = true then 23 else min sb.st_size.toNat SDX_MAXLEN) := by
  refine ⟨?_, ?_, ?_, ?_⟩
  · show (if S_ISDIR sb.st_mode = true then
        (if sb.st_mode &&& S_IWUSR ≠ 0 then 0x08 else 0x09) ||| 0x20
      else (if sb.st_mode &&& S_IWUSR ≠ 0 then 0x08 else 0x09)) = _
    by_cases hw : sb.st_mode &&& S_IWUSR = 0 <;> by_cases hd : S_ISDIR sb.st_mode = true <;>
      simp [hw, hd]
  · show (((d <<< 11) % 65536 ||| (node &&& 0x07ff)) &&& 0x00ff) +
      256 * ((((d <<< 11) % 65536 ||| (node &&& 0x07ff)) &&& 0xff00) >>> 8) = _
    rw [map_value, map_bytes_sum _ (by omega)]
  · exact DIRENTRY_fname _ _ _ _ _ _ _ _ (ugefina_length nm)
  · have hu : toUlong sb.st_size = sb.st_size.toNat := toUlong_of_nonneg _ h0 h1
    show ((if S_ISDIR sb.st_mode = true then 23
        else if toUlong sb.st_size > SDX_MAXLEN then SDX_MAXLEN else toUlong sb.st_size) &&& 0x000000ff) +
      256 * (((if S_ISDIR sb.st_mode = true then 23
        else if toUlong sb.st_size > SDX_MAXLEN then SDX_MAXLEN else toUlong sb.st_size) &&&
          0x0000ff00) >>> 8) +
      65536 * (((if S_ISDIR sb.st_mode = true then 23
        else if toUlong sb.st_size > SDX_MAXLEN then SDX_MAXLEN else toUlong sb.st_size) &&&
          0x00ff0000) >>> 16) = _
    have hv : (if S_ISDIR sb.st_mode = true then 23
        else if toUlong sb.st_size > SDX_MAXLEN then SDX_MAXLEN else toUlong sb.st_size) =
        (if S_ISDIR sb.st_mode = true then 23 else min sb.st_size.toNat SDX_MAXLEN) := by
      rw [hu]
      unfold SDX_MAXLEN
      split_ifs <;> omega
    rw [hv, len_bytes_sum]
    unfold SDX_MAXLEN
    split_ifs <;> omega

/-- C27, amended: for a directory handle with `n` accepted children, `23 * (n + 1)` not
above 16777215, `get_file_len` is `23 * (n + 1)` and `cache_dir` builds `n + 1`
consecutive 23-byte entries. Entry 0 has status 0x28 and the name "MAIN" padded with
spaces when the path of the handle is the mount root path itself, otherwise the 8+3 form
of the last component of the path. Entry `k` (1 to `n`) has status 0x08, plus 0x01 when
the owner write bit of the child is clear, plus 0x20 when it is a directory; a 16-bit map
whose low 11 bits are `k mod 2048` and whose high 5 bits are the depth ordinal mod 32; the
8+3 form of the name of the child; and a 3-byte little-endian length that is 23 for a
subdirectory and `min(size, 16777215)` for a file. -/
theorem C27_cache_dir_snapshot (u uid : Nat) (lt : Int → TM) (dirname pathname : List Nat)
    (fpmode : Nat) (st_size st_mtime : Int) (dir : List DIRENT)
    (hmode : fpmode &&& 0x10 ≠ 0)
    (hn : 23 * ((accepted u uid dir).length + 1) ≤ SDX_MAXLEN)
    (hsz : ∀ p ∈ accepted u uid dir, 0 ≤ p.2.st_size ∧ p.2.st_size < 2 ^ 63) :
    get_file_len u uid fpmode st_size dir = 23 * ((accepted u uid dir).length + 1) ∧
    (snapshot_entry (cache_dir u uid lt dirname pathname
        (get_file_len u uid fpmode st_size dir) st_mtime dir) 0).getD 0 0 = 0x28 ∧
    ((snapshot_entry (cache_dir u uid lt dirname pathname
        (get_file_len u uid fpmode st_size dir) st_mtime dir) 0).drop 6).take 11 =
      header_name dirname pathname ∧
    ∀ k p, 1 ≤ k → (accepted u uid dir)[k - 1]? = some p →
      (snapshot_entry (cache_dir u uid lt dirname pathname
          (get_file_len u uid fpmode st_size dir) st_mtime dir) k).length = 23 ∧
      (snapshot_entry (cache_dir u uid lt dirname pathname
          (get_file_len u uid fpmode st_size dir) st_mtime dir) k).getD 0 0 =
        0x08 + (if p.2.st_mode &&& S_IWUSR = 0 then 0x01 else 0) +
          (if S_ISDIR p.2.st_mode = true then 0x20 else 0) ∧
      ((snapshot_entry (cache_dir u uid lt dirname pathname
          (get_file_len u uid fpmode st_size dir) st_mtime dir) k).getD 1 0 +
        256 * (snapshot_entry (cache_dir u uid lt dirname pathname
          (get_file_len u uid fpmode st_size dir) st_mtime dir) k).getD 2 0) % 2048 =
        k % 2048 ∧
      ((snapshot_entry (cache_dir u uid lt dirname pathname
          (get_file_len u uid fpmode st_size dir) st_mtime dir) k).getD 1 0 +
        256 * (snapshot_entry (cache_dir u uid lt dirname pathname
          (get_file_len u uid fpmode st_size dir) st_mtime dir) k).getD 2 0) / 2048 =
        depth_ordinal dirname pathname % 32 ∧
      ((snapshot_entry (cache_dir u uid lt dirname pathname
          (get_file_len u uid fpmode st_size dir) st_mtime dir) k).drop 6).take 11 =
        ugefina p.1 ∧
      (snapshot_entry (cache_dir u uid lt dirname pathname
          (get_file_len u uid fpmode st_size dir) st_mtime dir) k).getD 3 0 +
        256 * (snapshot_entry (cache_dir u uid lt dirname pathname
          (get_file_len u uid fpmode st_size dir) st_mtime dir) k).getD 4 0 +
        65536 * (snapshot_entry (cache_dir u uid lt dirname pathname
          (get_file_len u uid fpmode st_size dir) st_mtime dir) k).getD 5 0 =
        (if S_ISDIR p.2.st_mode = true then 23 else min p.2.st_size.toNat SDX_MAXLEN) := by
  have hmax : SDX_MAXLEN = 16777215 := rfl
  have hlen : get_file_len u uid fpmode st_size dir = 23 * ((accepted u uid dir).length + 1) := by
    unfold get_file_len
    rw [if_pos hmode, get_file_len_loop_eq u uid dir 23 (by omega), if_neg (by omega)]
    omega
  obtain ⟨map_h, hform⟩ := cache_dir_form u uid lt dirname pathname
    (23 * ((accepted u uid dir).length + 1)) st_mtime dir (by omega) (by omega)
  have hhead := DIRENTRY_length 0x28 0x00 map_h
    ((23 * ((accepted u uid dir).length + 1)) &&& 0x000000ff)
    (((23 * ((accepted u uid dir).length + 1)) &&& 0x0000ff00) >>> 8)
    (((23 * ((accepted u uid dir).length + 1)) &&& 0x00ff0000) >>> 16)
    (header_name dirname pathname) (unix_time_2_sdx st_mtime (lt st_mtime))
    (header_name_length dirname pathname) (unix_time_2_sdx_length _ _)
  rw [hlen, hform]
  refine ⟨rfl, ?_, ?_, ?_⟩
  · rw [snapshot_entry_zero _ _ _ hhead]
    rfl
  · rw [snapshot_entry_zero _ _ _ hhead]
    exact DIRENTRY_fname _ _ _ _ _ _ _ _ (header_name_length dirname pathname)
  · intro k p hk hp
    obtain ⟨i, rfl⟩ : ∃ i, k = i + 1 := ⟨k - 1, by omega⟩
    rw [Nat.add_sub_cancel] at hp
    rw [snapshot_entry_succ _ _ lt _ _ i p hhead hp]
    have hps := hsz p (List.getElem?_mem hp)
    obtain ⟨f0, f1, f2, f3⟩ :=
      cache_dir_entry_fields lt (depth_ordinal dirname pathname % 256) ((1 + i) % 65536) p.1 p.2
        hps.1 hps.2
    refine ⟨cache_dir_entry_length _ _ _ _ _, f0, ?_, ?_, f2, f3⟩
    · rw [f1]; omega
    · rw [f1]; omega



/-- C27 at the example directory opened on the mount root "/r" (three accepted children):
the snapshot has 92 bytes, entry 0 is named "MAIN" and entry 3 (the read-only file of
70000 bytes) has status 0x09. -/
theorem C27_cache_dir_snapshot_witness :
    ((0x14 : Nat) &&& 0x10 ≠ 0 ∧ 23 * ((accepted 0 1000 snapshot_dir).length + 1) ≤ SDX_MAXLEN ∧
      (accepted 0 1000 snapshot_dir).length = 3) ∧
    get_file_len 0 1000 0x14 0 snapshot_dir =
      23 * ((accepted 0 1000 snapshot_dir).length + 1) ∧
    ((snapshot_entry (cache_dir 0 1000 snapshot_time snapshot_root snapshot_root
        (get_file_len 0 1000 0x14 0 snapshot_dir) 100 snapshot_dir) 0).drop 6).take 11 =
      header_name snapshot_root snapshot_root ∧
    header_name snapshot_root snapshot_root =
      [0x4d, 0x41, 0x49, 0x4e, 0x20, 0x20, 0x20, 0x20, 0x20, 0x20, 0x20] :=
  ⟨by decide,
   (C27_cache_dir_snapshot 0 1000 snapshot_time snapshot_root snapshot_root 0x14 0 100
      snapshot_dir (by decide) (by decide) (by decide)).1,
   (C27_cache_dir_snapshot 0 1000 snapshot_time snapshot_root snapshot_root 0x14 0 100
      snapshot_dir (by decide) (by decide) (by decide)).2.2.1,
   by decide⟩

/-- C27 fails as stated: a handle opened with the path "/r/s/.." is on the mount root "/r",
yet entry 0 of its snapshot carries the map byte 0x10 (depth 2) and the name of the
component "..", eight spaces, '.' and two spaces, in place of "MAIN". -/
theorem C27_counterexample :
    canonical_path snapshot_dotdot = snapshot_root ∧
    get_file_len 0 1000 0x14 0 snapshot_dir = 92 ∧
    (snapshot_entry (cache_dir 0 1000 snapshot_time snapshot_root snapshot_dotdot 92 100
        snapshot_dir) 0).take 17 =
      [0x28, 0x00, 0x10, 92, 0, 0,
        0x20, 0x20, 0x20, 0x20, 0x20, 0x20, 0x20, 0x20, 0x2e, 0x20, 0x20] := by
  decide

/-! ## RENAME: C26 -/

theorem host_stat_none (dir : List DIRENT) (nm : List Nat)
    (h : nm ∉ dir.map (fun e => e.d_name)) : host_stat dir nm = none := by
  unfold host_stat
  have : dir.find? (fun e => decide (e.d_name = nm)) = none := by
    rw [List.find?_eq_none]
    intro x hx
    simp only [decide_eq_true_eq]
    intro hxe
    exact h (List.mem_map.mpr ⟨x, hx, hxe⟩)
  rw [this]

theorem host_stat_mid (pre rest : List DIRENT) (e : DIRENT)
    (h : e.d_name ∉ pre.map (fun e => e.d_name)) :
    host_stat (pre ++ e :: rest) e.d_name = e.sb := by
  unfold host_stat
  have h1 : pre.find? (fun x => decide (x.d_name = e.d_name)) = none := by
    rw [List.find?_eq_none]
    intro x hx
    simp only [decide_eq_true_eq]
    intro hxe
    exact h (List.mem_map.mpr ⟨x, hx, hxe⟩)
  rw [List.find?_append, h1]
  simp

theorem host_rename_mid (pre rest : List DIRENT) (e : DIRENT) (b : List Nat)
    (hb : b ∉ (pre ++ e :: rest).map (fun e => e.d_name))
    (hnd : ((pre ++ e :: rest).map (fun e => e.d_name)).Nodup) :
    host_rename (pre ++ e :: rest) e.d_name b = pre ++ { e with d_name := b } :: rest := by
  unfold host_rename
  have hf : (pre ++ e :: rest).filter (fun x => decide (x.d_name ≠ b)) = pre ++ e :: rest := by
    rw [List.filter_eq_self]
    intro x hx
    simp only [decide_eq_true_eq]
    intro hxe
    exact hb (List.mem_map.mpr ⟨x, hx, hxe⟩)
  rw [hf, List.map_append, List.map_cons]
  rw [List.map_append, List.map_cons, List.nodup_append] at hnd
  obtain ⟨_, hnd2, hdis⟩ := hnd
  have hpre : pre.map (fun x => if x.d_name = e.d_name then { x with d_name := b } else x) = pre := by
    conv_rhs => rw [← List.map_id pre]
    apply List.map_congr_left
    intro x hx
    have : x.d_name ≠ e.d_name := by
      intro hxe
      exact hdis (List.mem_map.mpr ⟨x, hx, rfl⟩) (by rw [hxe]; exact List.mem_cons_self _ _)
    rw [if_neg this]
    rfl
  have hrest : rest.map (fun x => if x.d_name = e.d_name then { x with d_name := b } else x) = rest := by
    conv_rhs => rw [← List.map_id rest]
    apply List.map_congr_left
    intro x hx
    have : x.d_name ≠ e.d_name := by
      intro hxe
      have := (List.nodup_cons.mp hnd2).1
      exact this (List.mem_map.mpr ⟨x, hx, hxe⟩)
    rw [if_neg this]
    rfl
  rw [hpre, hrest, if_pos rfl]



theorem pcl_rename_loop_inv (u uid : Nat) (name names : List Nat) (fatr1 : Nat)
    (rename_ok : List Nat → List Nat → Bool) (rest : List DIRENT) :
    ∀ (pre : List DIRENT) (fcnt : Nat),
      ((pre ++ rest).map (fun e => e.d_name)).Nodup →
      (∀ e ∈ rest, rename_matches u uid name fatr1 e = true →
        rename_ok e.d_name (rename_target u names (ugefina e.d_name)) = true ∧
        rename_target u names (ugefina e.d_name) ≠ [] ∧
        rename_target u names (ugefina e.d_name) ∉ (pre ++ rest).map (fun e => e.d_name)) →
      (((rest.filter (rename_matches u uid name fatr1)).map
        (fun e => rename_target u names (ugefina e.d_name))).Nodup) →
      fcnt + rest.length < 2 ^ 64 →
      pcl_rename_loop u uid name names fatr1 rename_ok (rest.map (fun e => e.d_name))
          (pre ++ rest) 1 fcnt =
        (pre ++ rest.map (rename_result u uid name names fatr1), 1,
          fcnt + (rest.filter (rename_matches u uid name fatr1)).length) := by
  induction rest with
  | nil => intro pre fcnt _ _ _ _; simp [pcl_rename_loop]
  | cons e rest ih =>
    intro pre fcnt hnd hok hdist hlen
    have hpre : e.d_name ∉ pre.map (fun e => e.d_name) := by
      rw [List.map_append, List.map_cons, List.nodup_append] at hnd
      intro hmem
      exact hnd.2.2 hmem (List.mem_cons_self _ _)
    have happ : pre ++ e :: rest = (pre ++ [e]) ++ rest := by simp
    simp only [List.length_cons] at hlen
    rw [List.map_cons, pcl_rename_loop, host_stat_mid pre rest e hpre]
    by_cases hm : rename_matches u uid name fatr1 e = true
    · obtain ⟨hrok, hne, hfree⟩ := hok e (List.mem_cons_self _ _) hm
      have hm' := hm
      unfold rename_matches at hm'
      cases hc : check_dos_name u uid e.d_name e.sb with
      | none => rw [hc] at hm'; cases hm'
      | some sb =>
        rw [hc] at hm'
        simp only [decide_eq_true_eq] at hm'
        simp only [hm', if_true]
        have hex : target_exists (pre ++ e :: rest)
            (rename_target u names (ugefina e.d_name)) = false := by
          unfold target_exists
          rw [host_stat_none _ _ hfree]
          simp [hne]
        rw [hex, hrok, host_rename_mid pre rest e _ hfree hnd]
        simp only [Bool.false_eq_true, if_false, if_true]
        rw [Nat.mod_eq_of_lt (by omega)]
        have happ2 : pre ++ { e with d_name := rename_target u names (ugefina e.d_name) } :: rest =
            (pre ++ [{ e with d_name := rename_target u names (ugefina e.d_name) }]) ++ rest := by
          simp
        rw [List.filter_cons_of_pos hm, List.map_cons, List.nodup_cons] at hdist
        rw [happ2, ih _ (fcnt + 1) ?_ ?_ hdist.2 (by omega)]
        · rw [List.filter_cons_of_pos hm, List.map_cons, List.length_cons]
          simp only [rename_result, hm, if_true, List.append_assoc, List.singleton_append]
          congr 2
          omega
        · rw [← happ2, List.map_append, List.map_cons]
          rw [List.map_append, List.map_cons] at hnd hfree
          have h1 := List.nodup_append.mp hnd
          rw [List.nodup_append]
          refine ⟨h1.1, ?_, ?_⟩
          · rw [List.nodup_cons]
            refine ⟨?_, (List.nodup_cons.mp h1.2.1).2⟩
            intro hmem
            exact hfree (List.mem_append_right _ (List.mem_cons_of_mem _ hmem))
          · intro a ha hb
            rcases List.mem_cons.mp hb with hb | hb
            · subst hb
              exact hfree (List.mem_append_left _ ha)
            · exact h1.2.2 ha (List.mem_cons_of_mem _ hb)
        · intro e2 he2 hm2
          obtain ⟨a, b, c⟩ := hok e2 (List.mem_cons_of_mem _ he2) hm2
          refine ⟨a, b, ?_⟩
          rw [← happ2, List.map_append, List.map_cons]
          rw [List.map_append, List.map_cons] at c
          intro hmem
          rcases List.mem_append.mp hmem with hmem | hmem
          · exact c (List.mem_append_left _ hmem)
          · rcases List.mem_cons.mp hmem with hmem | hmem
            · apply hdist.1
              have hmem2 : rename_target u names (ugefina e2.d_name) =
                  rename_target u names (ugefina e.d_name) := hmem
              rw [← hmem2]
              exact List.mem_map.mpr ⟨e2, List.mem_filter.mpr ⟨he2, hm2⟩, rfl⟩
            · exact c (List.mem_append_right _ (List.mem_cons_of_mem _ hmem))
    · have hrest : pcl_rename_loop u uid name names fatr1 rename_ok
          (rest.map (fun e => e.d_name)) (pre ++ e :: rest) 1 fcnt =
          (pre ++ e :: rest.map (rename_result u uid name names fatr1), 1,
            fcnt + (rest.filter (rename_matches u uid name fatr1)).length) := by
        rw [happ, ih (pre ++ [e]) fcnt (by rw [← happ]; exact hnd) ?_ ?_ (by omega)]
        · simp
        · intro e2 he2 hm2
          rw [← happ]
          exact hok e2 (List.mem_cons_of_mem _ he2) hm2
        · rw [List.filter_cons_of_neg hm] at hdist
          exact hdist
      rw [List.filter_cons_of_neg hm]
      simp only [List.map_cons, rename_result, hm, Bool.false_eq_true, if_false]
      unfold rename_matches at hm
      cases hc : check_dos_name u uid e.d_name e.sb with
      | none => exact hrest
      | some sb =>
        rw [hc] at hm
        simp only [decide_eq_true_eq] at hm
        simp only [hm, if_false]
        exact hrest

/-- One turn of the loop of RENAME on the entry `e` when its new name, if it is taken, is
free and `rename` succeeds: the loop goes on with `e` renamed or as it was. -/
theorem pcl_rename_loop_step (u uid : Nat) (name names : List Nat) (fatr1 : Nat)
    (rename_ok : List Nat → List Nat → Bool) (pre tail : List DIRENT) (e : DIRENT)
    (todo : List (List Nat)) (err fcnt : Nat)
    (hnd : ((pre ++ e :: tail).map (fun e => e.d_name)).Nodup)
    (hok : rename_matches u uid name fatr1 e = true →
      rename_ok e.d_name (rename_target u names (ugefina e.d_name)) = true ∧
      rename_target u names (ugefina e.d_name) ≠ [] ∧
      rename_target u names (ugefina e.d_name) ∉ (pre ++ e :: tail).map (fun e => e.d_name))
    (hlen : fcnt + 1 < 2 ^ 64) :
    pcl_rename_loop u uid name names fatr1 rename_ok (e.d_name :: todo) (pre ++ e :: tail)
        err fcnt =
      pcl_rename_loop u uid name names fatr1 rename_ok todo
        (pre ++ rename_result u uid name names fatr1 e :: tail) err
        (fcnt + (if rename_matches u uid name fatr1 e = true then 1 else 0)) := by
  have hpre : e.d_name ∉ pre.map (fun e => e.d_name) := by
    rw [List.map_append, List.map_cons, List.nodup_append] at hnd
    intro hmem
    exact hnd.2.2 hmem (List.mem_cons_self _ _)
  rw [pcl_rename_loop, host_stat_mid pre tail e hpre]
  by_cases hm : rename_matches u uid name fatr1 e = true
  · obtain ⟨hrok, hne, hfree⟩ := hok hm
    have hm' := hm
    unfold rename_matches at hm'
    cases hc : check_dos_name u uid e.d_name e.sb with
    | none => rw [hc] at hm'; cases hm'
    | some sb =>
      rw [hc] at hm'
      simp only [decide_eq_true_eq] at hm'
      have hex : target_exists (pre ++ e :: tail)
          (rename_target u names (ugefina e.d_name)) = false := by
        unfold target_exists
        rw [host_stat_none _ _ hfree]
        simp [hne]
      simp only [hm', if_true, hex, hrok, Bool.false_eq_true, if_false,
        host_rename_mid pre tail e _ hfree hnd, rename_result, hm]
      rw [Nat.mod_eq_of_lt hlen]
  · simp only [rename_result, hm, Bool.false_eq_true, if_false, Nat.add_zero]
    unfold rename_matches at hm
    cases hc : check_dos_name u uid e.d_name e.sb with
    | none => rfl
    | some sb =>
      rw [hc] at hm
      simp only [decide_eq_true_eq] at hm
      simp only [hm, if_false]

/-- One turn of the loop of RENAME on an entry that is taken while its new name exists:
the loop ends there with err 151 and the directory as it is. -/
theorem pcl_rename_loop_stop (u uid : Nat) (name names : List Nat) (fatr1 : Nat)
    (rename_ok : List Nat → List Nat → Bool) (pre tail : List DIRENT) (e : DIRENT)
    (todo : List (List Nat)) (err fcnt : Nat)
    (hpre : e.d_name ∉ pre.map (fun e => e.d_name))
    (hm : rename_matches u uid name fatr1 e = true)
    (hex : target_exists (pre ++ e :: tail) (rename_target u names (ugefina e.d_name)) = true)
    (hlen : fcnt + 1 < 2 ^ 64) :
    pcl_rename_loop u uid name names fatr1 rename_ok (e.d_name :: todo) (pre ++ e :: tail)
        err fcnt = (pre ++ e :: tail, 151, fcnt + 1) := by
  rw [pcl_rename_loop, host_stat_mid pre tail e hpre]
  unfold rename_matches at hm
  cases hc : check_dos_name u uid e.d_name e.sb with
  | none => rw [hc] at hm; cases hm
  | some sb =>
    rw [hc] at hm
    simp only [decide_eq_true_eq] at hm
    simp only [hm, if_true, hex]
    rw [Nat.mod_eq_of_lt hlen]

/-- The names of a directory stay distinct when an entry takes a new name that no entry
has. -/
theorem rename_result_nodup (u uid : Nat) (name names : List Nat) (fatr1 : Nat)
    (pre tail : List DIRENT) (e : DIRENT)
    (hnd : ((pre ++ e :: tail).map (fun e => e.d_name)).Nodup)
    (hfree : rename_matches u uid name fatr1 e = true →
      rename_target u names (ugefina e.d_name) ∉ (pre ++ e :: tail).map (fun e => e.d_name)) :
    ((pre ++ rename_result u uid name names fatr1 e :: tail).map (fun e => e.d_name)).Nodup := by
  unfold rename_result
  by_cases hm : rename_matches u uid name fatr1 e = true
  · rw [if_pos hm]
    have hf := hfree hm
    rw [List.map_append, List.map_cons] at hnd hf ⊢
    have h1 := List.nodup_append.mp hnd
    rw [List.nodup_append]
    refine ⟨h1.1, ?_, ?_⟩
    · rw [List.nodup_cons]
      refine ⟨?_, (List.nodup_cons.mp h1.2.1).2⟩
      intro hmem
      exact hf (List.mem_append_right _ (List.mem_cons_of_mem _ hmem))
    · intro a ha hb
      rcases List.mem_cons.mp hb with hb | hb
      · have hb' : a = rename_target u names (ugefina e.d_name) := hb
        subst hb'
        exact hf (List.mem_append_left _ ha)
      · exact h1.2.2 ha (List.mem_cons_of_mem _ hb)
  · rw [if_neg hm]
    exact hnd

/-- The loop of RENAME over the entries `done`, each of which, if taken, gets a new name
that is free: the loop goes on behind them with every entry of `done` renamed or as it
was, and the names of the directory are still distinct. -/
theorem pcl_rename_loop_prefix (u uid : Nat) (name names : List Nat) (fatr1 : Nat)
    (rename_ok : List Nat → List Nat → Bool) (left done : List DIRENT) :
    ∀ (pre : List DIRENT) (fcnt : Nat),
      ((pre ++ (done ++ left)).map (fun e => e.d_name)).Nodup →
      (∀ e ∈ done, rename_matches u uid name fatr1 e = true →
        rename_ok e.d_name (rename_target u names (ugefina e.d_name)) = true ∧
        rename_target u names (ugefina e.d_name) ≠ [] ∧
        rename_target u names (ugefina e.d_name) ∉
          (pre ++ (done ++ left)).map (fun e => e.d_name)) →
      (((done.filter (rename_matches u uid name fatr1)).map
        (fun e => rename_target u names (ugefina e.d_name))).Nodup) →
      fcnt + done.length < 2 ^ 64 →
      pcl_rename_loop u uid name names fatr1 rename_ok
          ((done ++ left).map (fun e => e.d_name)) (pre ++ (done ++ left)) 1 fcnt =
        pcl_rename_loop u uid name names fatr1 rename_ok (left.map (fun e => e.d_name))
          (pre ++ (done.map (rename_result u uid name names fatr1) ++ left)) 1
          (fcnt + (done.filter (rename_matches u uid name fatr1)).length) ∧
      ((pre ++ (done.map (rename_result u uid name names fatr1) ++ left)).map
        (fun e => e.d_name)).Nodup := by
  induction done with
  | nil => intro pre fcnt hnd _ _ _; exact ⟨rfl, hnd⟩
  | cons a r ih =>
    intro pre fcnt hnd hok hdist hlen
    simp only [List.length_cons] at hlen
    have hoka := hok a (List.mem_cons_self _ _)
    have hnd' := rename_result_nodup u uid name names fatr1 pre (r ++ left) a hnd
      (fun hm => (hoka hm).2.2)
    have happ : pre ++ rename_result u uid name names fatr1 a :: (r ++ left) =
        (pre ++ [rename_result u uid name names fatr1 a]) ++ (r ++ left) := by simp
    have hdist' : ((r.filter (rename_matches u uid name fatr1)).map
        (fun e => rename_target u names (ugefina e.d_name))).Nodup := by
      by_cases hm : rename_matches u uid name fatr1 a = true
      · rw [List.filter_cons_of_pos hm, List.map_cons, List.nodup_cons] at hdist
        exact hdist.2
      · rw [List.filter_cons_of_neg hm] at hdist
        exact hdist
    have hok' : ∀ e ∈ r, rename_matches u uid name fatr1 e = true →
        rename_ok e.d_name (rename_target u names (ugefina e.d_name)) = true ∧
        rename_target u names (ugefina e.d_name) ≠ [] ∧
        rename_target u names (ugefina e.d_name) ∉
          ((pre ++ [rename_result u uid name names fatr1 a]) ++ (r ++ left)).map
            (fun e => e.d_name) := by
      intro e2 he2 hm2
      obtain ⟨h1, h2, h3⟩ := hok e2 (List.mem_cons_of_mem _ he2) hm2
      refine ⟨h1, h2, ?_⟩
      rw [← happ, List.map_append, List.map_cons]
      rw [List.cons_append, List.map_append, List.map_cons] at h3
      intro hmem
      rcases List.mem_append.mp hmem with hmem | hmem
      · exact h3 (List.mem_append_left _ hmem)
      · rcases List.mem_cons.mp hmem with hmem | hmem
        · unfold rename_result at hmem
          by_cases hm : rename_matches u uid name fatr1 a = true
          · rw [if_pos hm] at hmem
            rw [List.filter_cons_of_pos hm, List.map_cons, List.nodup_cons] at hdist
            apply hdist.1
            have hmem2 : rename_target u names (ugefina e2.d_name) =
                rename_target u names (ugefina a.d_name) := hmem
            rw [← hmem2]
            exact List.mem_map.mpr ⟨e2, List.mem_filter.mpr ⟨he2, hm2⟩, rfl⟩
          · rw [if_neg hm] at hmem
            exact h3 (List.mem_append_right _ (by rw [hmem]; exact List.mem_cons_self _ _))
        · exact h3 (List.mem_append_right _ (List.mem_cons_of_mem _ hmem))
    obtain ⟨ih1, ih2⟩ := ih (pre ++ [rename_result u uid name names fatr1 a])
      (fcnt + (if rename_matches u uid name fatr1 a = true then 1 else 0))
      (by rw [← happ]; exact hnd') hok' hdist' (by split_ifs <;> omega)
    have hcount : fcnt + (if rename_matches u uid name fatr1 a = true then 1 else 0) +
        (r.filter (rename_matches u uid name fatr1)).length =
        fcnt + ((a :: r).filter (rename_matches u uid name fatr1)).length := by
      by_cases hm : rename_matches u uid name fatr1 a = true
      · rw [List.filter_cons_of_pos hm, if_pos hm, List.length_cons]; omega
      · rw [List.filter_cons_of_neg hm, if_neg hm]; omega
    have hlist : (pre ++ [rename_result u uid name names fatr1 a]) ++
        (r.map (rename_result u uid name names fatr1) ++ left) =
        pre ++ ((a :: r).map (rename_result u uid name names fatr1) ++ left) := by simp
    rw [hcount, hlist] at ih1
    rw [hlist] at ih2
    refine ⟨?_, ih2⟩
    rw [List.cons_append, List.map_cons,
      pcl_rename_loop_step u uid name names fatr1 rename_ok pre (r ++ left) a _ 1 fcnt hnd
        hoka (by omega), happ]
    exact ih1

/-- C26, amended: RENAME in a directory `done ++ left` whose names are distinct. An entry
is taken when `check_dos_name` lets it pass and `match_dos_names` returns 0 for its 8+3
form against `name` with the attribute byte `fatr1 | 0x10`. Every entry of `done` that is
taken has a new name (`uexpand` of `names` with every '?' replaced by the byte of the 8+3
form) that is not empty, is no name of the directory and differs from the new names of
the other entries taken, and its `rename` succeeds; `left` is empty or starts with an
entry that is taken while its new name exists. Then exactly the entries of `done` that
are taken are renamed, the other entries of `done` and all of `left` are as before, and
`err` is 151 when `left` is not empty (the loop stops there), otherwise 1 when an entry
was taken and 170 when none was. -/
theorem C26_rename_pattern (u uid : Nat) (resolve : List Nat → Option (List Nat))
    (rename_ok : List Nat → List Nat → Bool) (ccom : Nat) (dirname cwd : List Nat)
    (done left : List DIRENT) (st : PCL)
    (hc : ccom ≠ 0x52)
    (hv : validate_user_path resolve dirname
      (create_user_path u dirname cwd (cstr (st.parbuf.drop 35))) ≠ 0)
    (hnd : ((done ++ left).map (fun e => e.d_name)).Nodup)
    (hok : ∀ e ∈ done,
      rename_matches u uid ((st.parbuf.drop 11).take 12) (st.parbuf.getD 9 0) e = true →
        rename_ok e.d_name
          (rename_target u ((st.parbuf.drop 23).take 12) (ugefina e.d_name)) = true ∧
        rename_target u ((st.parbuf.drop 23).take 12) (ugefina e.d_name) ≠ [] ∧
        rename_target u ((st.parbuf.drop 23).take 12) (ugefina e.d_name) ∉
          (done ++ left).map (fun e => e.d_name))
    (hdist : ((done.filter
        (rename_matches u uid ((st.parbuf.drop 11).take 12) (st.parbuf.getD 9 0))).map
      (fun e => rename_target u ((st.parbuf.drop 23).take 12) (ugefina e.d_name))).Nodup)
    (hstop : ∀ e ∈ left.head?,
      rename_matches u uid ((st.parbuf.drop 11).take 12) (st.parbuf.getD 9 0) e = true ∧
      target_exists
        (done.map (rename_result u uid ((st.parbuf.drop 11).take 12)
          ((st.parbuf.drop 23).take 12) (st.parbuf.getD 9 0)) ++ left)
        (rename_target u ((st.parbuf.drop 23).take 12) (ugefina e.d_name)) = true)
    (hlen : (done ++ left).length < 2 ^ 64) :
    (pcl_rename u uid resolve rename_ok ccom dirname cwd (some (done ++ left)) st).2 =
      some (done.map (rename_result u uid ((st.parbuf.drop 11).take 12)
        ((st.parbuf.drop 23).take 12) (st.parbuf.getD 9 0)) ++ left) ∧
    (pcl_rename u uid resolve rename_ok ccom dirname cwd (some (done ++ left))
        st).1.unit.dev.status.err =
      (if left = [] then
        (if done.filter
            (rename_matches u uid ((st.parbuf.drop 11).take 12) (st.parbuf.getD 9 0)) = []
          then 170 else 1)
      else 151) := by
  rw [List.length_append] at hlen
  obtain ⟨hp1, hp2⟩ := pcl_rename_loop_prefix u uid ((st.parbuf.drop 11).take 12)
    ((st.parbuf.drop 23).take 12) (st.parbuf.getD 9 0) rename_ok left done [] 0
    (by simpa using hnd) (by simpa using hok) hdist (by omega)
  simp only [List.nil_append, Nat.zero_add] at hp1 hp2
  have hres : pcl_rename_loop u uid ((st.parbuf.drop 11).take 12)
      ((st.parbuf.drop 23).take 12) (st.parbuf.getD 9 0) rename_ok
      ((done ++ left).map (fun e => e.d_name)) (done ++ left) 1 0 =
      (done.map (rename_result u uid ((st.parbuf.drop 11).take 12)
          ((st.parbuf.drop 23).take 12) (st.parbuf.getD 9 0)) ++ left,
        if left = [] then 1 else 151,
        (done.filter (rename_matches u uid ((st.parbuf.drop 11).take 12)
          (st.parbuf.getD 9 0))).length + (if left = [] then 0 else 1)) := by
    rw [hp1]
    cases left with
    | nil => simp [pcl_rename_loop]
    | cons e rest =>
      obtain ⟨hm, hex⟩ := hstop e (by simp)
      have hpre : e.d_name ∉ (done.map (rename_result u uid ((st.parbuf.drop 11).take 12)
          ((st.parbuf.drop 23).take 12) (st.parbuf.getD 9 0))).map (fun e => e.d_name) := by
        rw [List.map_append, List.map_cons, List.nodup_append] at hp2
        intro hmem
        exact hp2.2.2 hmem (List.mem_cons_self _ _)
      have hfl : (done.filter (rename_matches u uid ((st.parbuf.drop 11).take 12)
          (st.parbuf.getD 9 0))).length ≤ done.length := List.length_filter_le _ _
      simp only [List.length_cons] at hlen
      rw [List.map_cons, pcl_rename_loop_stop u uid _ _ _ rename_ok _ rest e _ 1 _ hpre hm hex
        (by omega)]
      simp
  unfold pcl_rename
  rw [if_neg hc, if_neg hv]
  simp only [hres]
  refine ⟨trivial, ?_⟩
  by_cases hl : left = []
  · simp only [hl, if_true, Nat.add_zero]
    by_cases hf : done.filter
        (rename_matches u uid ((st.parbuf.drop 11).take 12) (st.parbuf.getD 9 0)) = []
    · rw [if_pos hf, hf]
      rfl
    · rw [if_neg hf]
      have : (done.filter
        (rename_matches u uid ((st.parbuf.drop 11).take 12) (st.parbuf.getD 9 0))).length ≠ 0 :=
        fun h => hf (List.length_eq_zero.mp h)
      simp only [pcl_complete, sio_ack, com_write, with_stat, with_err]
      rw [if_neg (fun h => this h.1)]
  · simp only [hl, if_false]
    simp only [pcl_complete, sio_ack, com_write, with_stat, with_err]
    rw [if_neg (fun h => by cases h.2)]

/-- C26 at the example of the specification and at a collision: name `????????TXT` and
names `????????BAK` over a.txt, b.txt, c.dat in lowercase mode give a.bak, b.bak, c.dat and
err 1; over a.txt, b.txt, b.bak, c.txt they give a.bak, then stop at b.txt with err 151,
leaving b.txt and c.txt. -/
theorem C26_rename_pattern_witness :
    ((pcl_rename 0 1000 example_resolve (fun _ _ => true) 0x50 [0x2f, 0x72] []
        (some (rename_dir ++ [])) rename_unit).2 =
      some (rename_dir.map (rename_result 0 1000 ((rename_unit.parbuf.drop 11).take 12)
        ((rename_unit.parbuf.drop 23).take 12) (rename_unit.parbuf.getD 9 0)) ++ []) ∧
     (pcl_rename 0 1000 example_resolve (fun _ _ => true) 0x50 [0x2f, 0x72] []
        (some (rename_dir ++ [])) rename_unit).1.unit.dev.status.err =
      (if ([] : List DIRENT) = [] then
        (if rename_dir.filter (rename_matches 0 1000 ((rename_unit.parbuf.drop 11).take 12)
            (rename_unit.parbuf.getD 9 0)) = [] then 170 else 1)
      else 151)) ∧
    ((pcl_rename 0 1000 example_resolve (fun _ _ => true) 0x50 [0x2f, 0x72] []
        (some (rename_dir_taken.take 3 ++ rename_dir_taken.drop 3)) rename_unit).2 =
      some ((rename_dir_taken.take 3).map (rename_result 0 1000
        ((rename_unit.parbuf.drop 11).take 12) ((rename_unit.parbuf.drop 23).take 12)
        (rename_unit.parbuf.getD 9 0)) ++ rename_dir_taken.drop 3) ∧
     (pcl_rename 0 1000 example_resolve (fun _ _ => true) 0x50 [0x2f, 0x72] []
        (some (rename_dir_taken.take 3 ++ rename_dir_taken.drop 3))
        rename_unit).1.unit.dev.status.err =
      (if rename_dir_taken.drop 3 = [] then
        (if (rename_dir_taken.take 3).filter (rename_matches 0 1000
            ((rename_unit.parbuf.drop 11).take 12) (rename_unit.parbuf.getD 9 0)) = []
          then 170 else 1)
      else 151)) ∧
    (rename_dir.map (rename_result 0 1000 ((rename_unit.parbuf.drop 11).take 12)
        ((rename_unit.parbuf.drop 23).take 12) (rename_unit.parbuf.getD 9 0))).map
        (fun e => e.d_name) =
      [[0x2e], [0x2e, 0x2e], [0x61, 0x2e, 0x62, 0x61, 0x6b], [0x62, 0x2e, 0x62, 0x61, 0x6b],
        [0x63, 0x2e, 0x64, 0x61, 0x74]] ∧
    (pcl_rename 0 1000 example_resolve (fun _ _ => true) 0x50 [0x2f, 0x72] []
        (some rename_dir) rename_unit).1.unit.dev.status.err = 1 ∧
    ((rename_dir_taken.take 3).map (rename_result 0 1000
        ((rename_unit.parbuf.drop 11).take 12) ((rename_unit.parbuf.drop 23).take 12)
        (rename_unit.parbuf.getD 9 0)) ++ rename_dir_taken.drop 3).map (fun e => e.d_name) =
      [[0x2e], [0x2e, 0x2e], [0x61, 0x2e, 0x62, 0x61, 0x6b], [0x62, 0x2e, 0x74, 0x78, 0x74],
        [0x62, 0x2e, 0x62, 0x61, 0x6b], [0x63, 0x2e, 0x74, 0x78, 0x74]] ∧
    (pcl_rename 0 1000 example_resolve (fun _ _ => true) 0x50 [0x2f, 0x72] []
        (some rename_dir_taken) rename_unit).1.unit.dev.status.err = 151 :=
  ⟨C26_rename_pattern 0 1000 example_resolve (fun _ _ => true) 0x50 [0x2f, 0x72] []
      rename_dir [] rename_unit (by decide) (by decide) (by decide) (by decide) (by decide)
      (by decide) (by decide),
   C26_rename_pattern 0 1000 example_resolve (fun _ _ => true) 0x50 [0x2f, 0x72] []
      (rename_dir_taken.take 3) (rename_dir_taken.drop 3) rename_unit (by decide) (by decide)
      (by decide) (by decide) (by decide) (by decide) (by decide),
   by decide, by decide, by decide, by decide⟩

/-- C26 fails as stated: the read-only file a.txt is accepted and its 8+3 form matches
`????????TXT`, yet RENAME leaves it and ends with err 170; and with b.bak present RENAME
ends with err 151 at a.txt renamed and b.txt and c.txt left, although both match. -/
theorem C26_counterexample :
    (check_dos_name 0 1000 [0x61, 0x2e, 0x74, 0x78, 0x74]
        (example_entry [0x61, 0x2e, 0x74, 0x78, 0x74] 0x8124).sb).isSome = true ∧
    (∀ i, i < 11 → ((rename_unit.parbuf.drop 11).take 12).getD i 0 = 0x3f ∨
      (ugefina [0x61, 0x2e, 0x74, 0x78, 0x74]).getD i 0 =
        ((rename_unit.parbuf.drop 11).take 12).getD i 0) ∧
    (pcl_rename 0 1000 example_resolve (fun _ _ => true) 0x50 [0x2f, 0x72] []
        (some rename_dir_protected) rename_unit).2 = some rename_dir_protected ∧
    (pcl_rename 0 1000 example_resolve (fun _ _ => true) 0x50 [0x2f, 0x72] []
        (some rename_dir_protected) rename_unit).1.unit.dev.status.err = 170 ∧
    (rename_dir_taken.map (fun e => rename_matches 0 1000
        ((rename_unit.parbuf.drop 11).take 12) (rename_unit.parbuf.getD 9 0) e)) =
      [false, false, true, true, false, true] ∧
    ((pcl_rename 0 1000 example_resolve (fun _ _ => true) 0x50 [0x2f, 0x72] []
        (some rename_dir_taken) rename_unit).2.map (fun d => d.map (fun e => e.d_name))) =
      some [[0x2e], [0x2e, 0x2e], [0x61, 0x2e, 0x62, 0x61, 0x6b], [0x62, 0x2e, 0x74, 0x78, 0x74],
        [0x62, 0x2e, 0x62, 0x61, 0x6b], [0x63, 0x2e, 0x74, 0x78, 0x74]] ∧
    (pcl_rename 0 1000 example_resolve (fun _ _ => true) 0x50 [0x2f, 0x72] []
        (some rename_dir_taken) rename_unit).1.unit.dev.status.err = 151 := by
  decide

/-! ## FOPEN and FFIRST: lemmas -/

theorem complete_fopen_err (ccom : Nat) (dbf : List Nat) (st : PCL) :
    (complete_fopen ccom dbf st).unit.dev.status.err = st.unit.dev.status.err := rfl

theorem complete_fopen_iodesc (ccom : Nat) (dbf : List Nat) (st : PCL) :
    (complete_fopen ccom dbf st).iodesc = st.iodesc := rfl

theorem complete_fopen_parbuf (ccom : Nat) (dbf : List Nat) (st : PCL) :
    (complete_fopen ccom dbf st).parbuf = st.parbuf := rfl

theorem sio_ack_status_err (st : SIO) (w : Nat) :
    (sio_ack st w).dev.status.err = st.dev.status.err := rfl

theorem fopen_target_error (h : HOST) (u : Nat) (parbuf newpath : List Nat)
    (dh : List DIRENT) (e : Nat)
    (he : fopen_target h u parbuf newpath dh = Except.error e) : e = 170 ∨ e = 165 := by
  unfold fopen_target at he
  dsimp only at he
  cases hf : fopen_find u h.our_uid ((parbuf.drop 11).take 12) (parbuf.getD 9 0) dh with
  | some p =>
    rw [hf] at he
    cases he
  | none =>
    rw [hf] at he
    dsimp only at he
    split_ifs at he
    · cases he; exact Or.inl rfl
    · cases he; exact Or.inr rfl

theorem fopen_check_error (h : HOST) (fmode : Nat) (newpath : List Nat) (e : Nat)
    (he : fopen_check h fmode newpath = some e) : e = 170 ∨ e = 151 := by
  unfold fopen_check at he
  cases hs : h.stat newpath with
  | none =>
    rw [hs] at he
    dsimp only at he
    split_ifs at he
    cases he; exact Or.inl rfl
  | some t =>
    rw [hs] at he
    dsimp only at he
    split_ifs at he
    cases he; exact Or.inr rfl

theorem fopen_file_error (h : HOST) (u : Nat) (parbuf : List Nat) (i : Nat)
    (newpath : List Nat) (dh : List DIRENT) (e : Nat)
    (he : fopen_file h u parbuf i newpath dh = Except.error e) :
    e = 170 ∨ e = 165 ∨ e = 151 := by
  unfold fopen_file at he
  dsimp only at he
  cases ht : fopen_target h u parbuf newpath dh with
  | error e1 =>
    rw [ht] at he
    cases he
    rcases fopen_target_error h u parbuf newpath dh e ht with h1 | h1
    · exact Or.inl h1
    · exact Or.inr (Or.inl h1)
  | ok v =>
    obtain ⟨np, raw, sb⟩ := v
    rw [ht] at he
    dsimp only at he
    cases hc : fopen_check h (parbuf.getD 8 0) np with
    | some e1 =>
      rw [hc] at he
      cases he
      rcases fopen_check_error h _ np e hc with h1 | h1
      · exact Or.inl h1
      · exact Or.inr (Or.inr h1)
    | none =>
      rw [hc] at he
      dsimp only at he
      cases hs : (fopen_stream h (parbuf.getD 8 0) np sb).1 with
      | none =>
        rw [hs] at he
        dsimp only at he
        cases he
        split_ifs
        · exact Or.inl rfl
        · exact Or.inr (Or.inr rfl)
      | some f =>
        rw [hs] at he
        cases he

theorem fopen_file_ok (h : HOST) (u : Nat) (parbuf : List Nat) (i : Nat)
    (newpath : List Nat) (dh : List DIRENT) (ok : FOPEN_OK)
    (he : fopen_file h u parbuf i newpath dh = Except.ok ok) : ok.i = i := by
  unfold fopen_file at he
  dsimp only at he
  cases ht : fopen_target h u parbuf newpath dh with
  | error e1 =>
    rw [ht] at he
    cases he
  | ok v =>
    obtain ⟨np, raw, sb⟩ := v
    rw [ht] at he
    dsimp only at he
    cases hc : fopen_check h (parbuf.getD 8 0) np with
    | some e1 =>
      rw [hc] at he
      cases he
    | none =>
      rw [hc] at he
      dsimp only at he
      cases hs : (fopen_stream h (parbuf.getD 8 0) np sb).1 with
      | none =>
        rw [hs] at he
        cases he
      | some f =>
        rw [hs] at he
        cases he
        rfl



theorem fopen_open_146 (h : HOST) (u : Nat) (dirname cwd : List Nat) (st : PCL)
    (hc : st.parbuf.getD 8 0 &&& 0x0c = 0 ∨ st.parbuf.getD 8 0 &&& 0x18 = 0x18) :
    fopen_open h u dirname cwd st = some (Except.error 146) := by
  unfold fopen_open
  dsimp only
  rw [if_pos hc]

theorem fopen_open_150 (h : HOST) (u : Nat) (dirname cwd : List Nat) (st : PCL)
    (hc : ¬ (st.parbuf.getD 8 0 &&& 0x0c = 0 ∨ st.parbuf.getD 8 0 &&& 0x18 = 0x18))
    (hv : validate_user_path h.resolve dirname
      (create_user_path u dirname cwd (cstr (st.parbuf.drop 35))) = 0) :
    fopen_open h u dirname cwd st = some (Except.error 150) := by
  unfold fopen_open
  dsimp only
  rw [if_neg hc, if_pos hv]

theorem fopen_open_161 (h : HOST) (u : Nat) (dirname cwd : List Nat) (st : PCL)
    (hc : ¬ (st.parbuf.getD 8 0 &&& 0x0c = 0 ∨ st.parbuf.getD 8 0 &&& 0x18 = 0x18))
    (hv : validate_user_path h.resolve dirname
      (create_user_path u dirname cwd (cstr (st.parbuf.drop 35))) ≠ 0)
    (hi : fopen_scan st.iodesc 16 0 > 15) :
    fopen_open h u dirname cwd st = some (Except.error 161) := by
  unfold fopen_open
  dsimp only
  rw [if_neg hc, if_neg hv, if_pos hi]

/-- What the execute phase of FOPEN does once a free entry is found: it stops with one of
the error codes 150, 170, 151, 165, or goes on with the index found; it calls `readdir`
on a `NULL` stream only in file mode when `opendir` fails. -/
theorem fopen_open_rest (h : HOST) (u : Nat) (dirname cwd : List Nat) (st : PCL)
    (hc : ¬ (st.parbuf.getD 8 0 &&& 0x0c = 0 ∨ st.parbuf.getD 8 0 &&& 0x18 = 0x18))
    (hv : validate_user_path h.resolve dirname
      (create_user_path u dirname cwd (cstr (st.parbuf.drop 35))) ≠ 0)
    (hi : ¬ fopen_scan st.iodesc 16 0 > 15) :
    (fopen_open h u dirname cwd st = none ∧ st.parbuf.getD 8 0 &&& 0x10 = 0 ∧
      h.opendir (create_user_path u dirname cwd (cstr (st.parbuf.drop 35))) = none) ∨
    (∃ e, fopen_open h u dirname cwd st = some (Except.error e) ∧
      (e = 150 ∨ e = 170 ∨ e = 151 ∨ e = 165)) ∨
    (∃ ok, fopen_open h u dirname cwd st = some (Except.ok ok) ∧
      ok.i = fopen_scan st.iodesc 16 0) := by
  unfold fopen_open
  dsimp only
  rw [if_neg hc, if_neg hv, if_neg hi]
  cases hs : h.stat (create_user_path u dirname cwd (cstr (st.parbuf.drop 35))) with
  | none => exact Or.inr (Or.inl ⟨150, rfl, Or.inl rfl⟩)
  | some tempstat =>
    dsimp only
    by_cases hd : st.parbuf.getD 8 0 &&& 0x10 ≠ 0
    · rw [if_pos hd]
      cases ho : h.opendir (create_user_path u dirname cwd (cstr (st.parbuf.drop 35))) with
      | none =>
        refine Or.inr (Or.inl ⟨_, rfl, ?_⟩)
        split_ifs
        · exact Or.inr (Or.inl rfl)
        · exact Or.inr (Or.inr (Or.inl rfl))
      | some dh => exact Or.inr (Or.inr ⟨_, rfl, rfl⟩)
    · rw [if_neg hd]
      cases ho : h.opendir (create_user_path u dirname cwd (cstr (st.parbuf.drop 35))) with
      | none => exact Or.inl ⟨rfl, not_not.mp hd, rfl⟩
      | some dh =>
        dsimp only
        cases hf : fopen_file h u st.parbuf (fopen_scan st.iodesc 16 0)
            (create_user_path u dirname cwd (cstr (st.parbuf.drop 35))) dh with
        | error e =>
          refine Or.inr (Or.inl ⟨e, rfl, ?_⟩)
          rcases fopen_file_error h u _ _ _ dh e hf with h1 | h1 | h1
          · exact Or.inr (Or.inl h1)
          · exact Or.inr (Or.inr (Or.inr h1))
          · exact Or.inr (Or.inr (Or.inl h1))
        | ok ok => exact Or.inr (Or.inr ⟨ok, rfl, fopen_file_ok h u _ _ _ dh ok hf⟩)

theorem fopen_finish_iodesc (h : HOST) (u : Nat) (dirname : List Nat) (ok : FOPEN_OK)
    (st : PCL) :
    ∃ io, io.file = some ok.file ∧
      (fopen_finish h u dirname ok st).1.iodesc = st.iodesc.set ok.i io := by
  unfold fopen_finish
  dsimp only
  split_ifs <;> exact ⟨_, rfl, rfl⟩

theorem fopen_finish_parbuf (h : HOST) (u : Nat) (dirname : List Nat) (ok : FOPEN_OK)
    (st : PCL) : (fopen_finish h u dirname ok st).1.parbuf = st.parbuf.set 1 ok.i := by
  unfold fopen_finish
  dsimp only
  split_ifs <;> rfl

theorem fopen_finish_handle (h : HOST) (u : Nat) (dirname : List Nat) (ok : FOPEN_OK)
    (st : PCL) (hi : ok.i ≤ 15) : (fopen_finish h u dirname ok st).2.getD 0 0 = ok.i := by
  unfold fopen_finish
  dsimp only
  have : ¬ (ok.i > 15 ∨ (some ok.file : Option STREAM) = none) := by
    rintro (h1 | h1)
    · omega
    · cases h1
  rw [if_neg this]
  split_ifs <;> rfl

theorem fopen_finish_err (h : HOST) (u : Nat) (dirname : List Nat) (ok : FOPEN_OK)
    (st : PCL) :
    (fopen_finish h u dirname ok st).1.unit.dev.status.err = 134 ∨
    (fopen_finish h u dirname ok st).1.unit.dev.status.err = 136 ∨
    (fopen_finish h u dirname ok st).1.unit.dev.status.err = 3 ∨
    (fopen_finish h u dirname ok st).1.unit.dev.status.err = st.unit.dev.status.err := by
  unfold fopen_finish
  dsimp only
  split_ifs <;>
    first
    | exact Or.inl rfl
    | exact Or.inr (Or.inl rfl)
    | exact Or.inr (Or.inr (Or.inl rfl))
    | exact Or.inr (Or.inr (Or.inr rfl))



theorem fopen_scan_free (iodesc : List IODESC) (i0 : Nat)
    (hfree : (iodesc.getD i0 IODESC.closed).file = none)
    (hocc : ∀ j, j < i0 → (iodesc.getD j IODESC.closed).file ≠ none) :
    ∀ n i, i ≤ i0 → i0 < i + n → fopen_scan iodesc n i = i0 := by
  intro n
  induction n with
  | zero => intro i h1 h2; omega
  | succ n ih =>
    intro i h1 h2
    unfold fopen_scan
    by_cases hi : i = i0
    · subst hi
      rw [if_pos hfree]
    · rw [if_neg (hocc i (by omega))]
      exact ih (i + 1) (by omega) (by omega)

theorem fopen_scan_full (iodesc : List IODESC) :
    ∀ n i, (∀ j, i ≤ j → j < i + n → (iodesc.getD j IODESC.closed).file ≠ none) →
      fopen_scan iodesc n i = i + n := by
  intro n
  induction n with
  | zero => intro i _; rfl
  | succ n ih =>
    intro i h
    unfold fopen_scan
    rw [if_neg (h i (le_refl i) (by omega)), ih (i + 1) (fun j h1 h2 => h j (by omega) (by omega))]
    omega

theorem strstr_zero (hay needle : List Nat) :
    strstr hay needle = some 0 ↔ needle.isPrefixOf hay = true := by
  cases hay with
  | nil =>
    unfold strstr
    cases needle with
    | nil => simp
    | cons c t => simp [List.isPrefixOf]
  | cons c rest =>
    unfold strstr
    by_cases hp : needle.isPrefixOf (c :: rest) = true
    · simp [hp]
    · rw [if_neg hp]
      constructor
      · intro h
        cases hs : strstr rest needle with
        | none => rw [hs] at h; cases h
        | some d => rw [hs] at h; simp at h
      · intro h
        exact absurd h hp

theorem validate_user_path_iff (resolve : List Nat → Option (List Nat))
    (defwd newpath : List Nat) :
    validate_user_path resolve defwd newpath ≠ 0 ↔
      ∃ newwd, resolve newpath = some newwd ∧ defwd.isPrefixOf newwd = true := by
  unfold validate_user_path
  cases hr : resolve newpath with
  | none => simp
  | some newwd =>
    dsimp only
    cases hs : strstr newwd defwd with
    | none =>
      have : ¬ defwd.isPrefixOf newwd = true := by
        rw [← strstr_zero, hs]
        simp
      rw [List.isPrefixOf_iff_prefix] at this
      simp [this]
    | some d =>
      dsimp only
      by_cases hd : d = 0
      · subst hd
        have : defwd.isPrefixOf newwd = true := (strstr_zero _ _).mp hs
        rw [List.isPrefixOf_iff_prefix] at this
        simp [this]
      · have : ¬ defwd.isPrefixOf newwd = true := by
          rw [← strstr_zero, hs]
          simpa using hd
        rw [List.isPrefixOf_iff_prefix] at this
        simp [hd, this]

/-! ## FOPEN and FFIRST: C21, C22 and C23 -/

theorem fmode_refused_bits : ∀ f, f < 256 →
    (fmode_refused f ↔ f % 32 ≤ 3 ∨ (16 ≤ f % 32 ∧ f % 32 ≤ 19) ∨ 24 ≤ f % 32) := by
  unfold fmode_refused
  decide

/-- C21, amended: in the execute phase of FOPEN/FFIRST, entered with err 1 from the
parameter phase, the answer is err 146 exactly when `(fmode & 0x0c) == 0` or
`(fmode & 0x18) == 0x18`, that is when the low five bits of `fmode` are 0x00 to 0x03, 0x10 to
0x13 or 0x18 to 0x1f; in that case the handle table is unchanged and the 24 bytes sent
are the old `pcl_dbf`. Otherwise the call returns with an err other than 146, unless in
file mode `opendir` fails on the path. -/
theorem C21_fopen_unsupported_fmode (h : HOST) (u ccom : Nat) (dirname cwd dbf : List Nat)
    (st : PCL) (hP : ccom ≠ 0x50) (hR : ¬ (ccom = 0x52 ∧ st.old_ccom = 0x52))
    (herr : st.unit.dev.status.err = 1) (hb : st.parbuf.getD 8 0 < 256) :
    (fmode_refused (st.parbuf.getD 8 0) ↔
      st.parbuf.getD 8 0 % 32 ≤ 3 ∨
        (16 ≤ st.parbuf.getD 8 0 % 32 ∧ st.parbuf.getD 8 0 % 32 ≤ 19) ∨
        24 ≤ st.parbuf.getD 8 0 % 32) ∧
    (fmode_refused (st.parbuf.getD 8 0) →
      ∃ r, pcl_fopen h u ccom dirname cwd dbf st = some r ∧
        r.1.unit.dev.status.err = 146 ∧ r.1.iodesc = st.iodesc ∧ r.2 = dbf) ∧
    (¬ fmode_refused (st.parbuf.getD 8 0) →
      (∃ r, pcl_fopen h u ccom dirname cwd dbf st = some r ∧
        r.1.unit.dev.status.err ≠ 146) ∨
      (pcl_fopen h u ccom dirname cwd dbf st = none ∧ st.parbuf.getD 8 0 &&& 0x10 = 0 ∧
        h.opendir (create_user_path u dirname cwd (cstr (st.parbuf.drop 35))) = none)) := by
  refine ⟨fmode_refused_bits _ hb, ?_, ?_⟩
  · intro hc
    unfold pcl_fopen
    rw [if_neg hP, if_neg hR]
    dsimp only
    rw [fopen_open_146 h u dirname cwd { st with unit := sio_ack st.unit 0x41 } hc]
    exact ⟨_, rfl, rfl, rfl, rfl⟩
  · intro hc
    unfold pcl_fopen
    rw [if_neg hP, if_neg hR]
    dsimp only
    by_cases hv : validate_user_path h.resolve dirname
        (create_user_path u dirname cwd (cstr (st.parbuf.drop 35))) = 0
    · rw [fopen_open_150 h u dirname cwd { st with unit := sio_ack st.unit 0x41 } hc hv]
      exact Or.inl ⟨_, rfl, by show (150 : Nat) ≠ 146; decide⟩
    · by_cases hi : fopen_scan st.iodesc 16 0 > 15
      · rw [fopen_open_161 h u dirname cwd { st with unit := sio_ack st.unit 0x41 } hc hv hi]
        exact Or.inl ⟨_, rfl, by show (161 : Nat) ≠ 146; decide⟩
      · rcases fopen_open_rest h u dirname cwd { st with unit := sio_ack st.unit 0x41 }
          hc hv hi with ⟨h1, h2, h3⟩ | ⟨e, h1, h2⟩ | ⟨ok, h1, h2⟩
        · rw [h1]
          exact Or.inr ⟨rfl, h2, h3⟩
        · rw [h1]
          refine Or.inl ⟨_, rfl, ?_⟩
          show e ≠ 146
          omega
        · rw [h1]
          refine Or.inl ⟨_, rfl, ?_⟩
          dsimp only
          rw [complete_fopen_err]
          have herr' : ({ st with unit := sio_ack st.unit 0x41 } : PCL).unit.dev.status.err = 1 :=
            herr
          rcases fopen_finish_err h u dirname ok { st with unit := sio_ack st.unit 0x41 }
            with h3 | h3 | h3 | h3
          · rw [h3]; decide
          · rw [h3]; decide
          · rw [h3]; decide
          · rw [h3, herr']; decide

/-- C22 (where it holds): `validate_user_path` accepts exactly the paths whose resolved
form has the mount root as a string prefix; a request of the execute phase of
FOPEN/FFIRST with a supported `fmode` whose path does not resolve, or resolves to a path
without that prefix, is answered with err 150, the handle table being unchanged. -/
theorem C22_path_prefix_confinement (h : HOST) (u ccom : Nat) (dirname cwd dbf : List Nat)
    (st : PCL) (hP : ccom ≠ 0x50) (hR : ¬ (ccom = 0x52 ∧ st.old_ccom = 0x52))
    (hc : ¬ fmode_refused (st.parbuf.getD 8 0))
    (hout : ∀ newwd ∈ h.resolve (create_user_path u dirname cwd (cstr (st.parbuf.drop 35))),
      dirname.isPrefixOf newwd = false) :
    (∀ newpath, validate_user_path h.resolve dirname newpath ≠ 0 ↔
      ∃ newwd, h.resolve newpath = some newwd ∧ dirname.isPrefixOf newwd = true) ∧
    ∃ r, pcl_fopen h u ccom dirname cwd dbf st = some r ∧
      r.1.unit.dev.status.err = 150 ∧ r.1.iodesc = st.iodesc ∧ r.2 = dbf := by
  refine ⟨fun newpath => validate_user_path_iff h.resolve dirname newpath, ?_⟩
  have hv : validate_user_path h.resolve dirname
      (create_user_path u dirname cwd (cstr (st.parbuf.drop 35))) = 0 := by
    by_contra hne
    obtain ⟨newwd, h1, h2⟩ := (validate_user_path_iff h.resolve dirname _).mp hne
    rw [hout newwd (Option.mem_def.mpr h1)] at h2
    cases h2
  unfold pcl_fopen
  rw [if_neg hP, if_neg hR]
  dsimp only
  rw [fopen_open_150 h u dirname cwd { st with unit := sio_ack st.unit 0x41 } hc hv]
  exact ⟨_, rfl, rfl, rfl, rfl⟩

/-- C23: in the execute phase of FOPEN/FFIRST with a supported `fmode` and an accepted
path, when all sixteen entries of the handle table are occupied the answer is err 161 and
the table is unchanged; otherwise, `i` being the lowest free index, the call leaves the
table as it was (on an error) or changes entry `i` alone, which is then occupied, and
reports `i` as the handle in `parbuf.handle` and in the first byte sent. -/
theorem C23_handle_allocation (h : HOST) (u ccom : Nat) (dirname cwd dbf : List Nat)
    (st : PCL) (hP : ccom ≠ 0x50) (hR : ¬ (ccom = 0x52 ∧ st.old_ccom = 0x52))
    (hc : ¬ fmode_refused (st.parbuf.getD 8 0))
    (hv : validate_user_path h.resolve dirname
      (create_user_path u dirname cwd (cstr (st.parbuf.drop 35))) ≠ 0)
    (hpar : 1 < st.parbuf.length)
    (hdir : st.parbuf.getD 8 0 &&& 0x10 ≠ 0 ∨
      h.opendir (create_user_path u dirname cwd (cstr (st.parbuf.drop 35))) ≠ none) :
    ((∀ j, j < 16 → (st.iodesc.getD j IODESC.closed).file ≠ none) →
      ∃ r, pcl_fopen h u ccom dirname cwd dbf st = some r ∧
        r.1.unit.dev.status.err = 161 ∧ r.1.iodesc = st.iodesc) ∧
    (∀ i, i < 16 → (st.iodesc.getD i IODESC.closed).file = none →
      (∀ j, j < i → (st.iodesc.getD j IODESC.closed).file ≠ none) →
      ∃ r, pcl_fopen h u ccom dirname cwd dbf st = some r ∧
        (r.1.iodesc = st.iodesc ∨
          ∃ io, io.file ≠ none ∧ r.1.iodesc = st.iodesc.set i io ∧
            r.1.parbuf.getD 1 0 = i ∧ r.2.getD 0 0 = i)) := by
  constructor
  · intro hfull
    have hi : fopen_scan st.iodesc 16 0 > 15 := by
      rw [fopen_scan_full st.iodesc 16 0 (fun j _ h2 => hfull j (by omega))]
      decide
    unfold pcl_fopen
    rw [if_neg hP, if_neg hR]
    dsimp only
    rw [fopen_open_161 h u dirname cwd { st with unit := sio_ack st.unit 0x41 } hc hv hi]
    exact ⟨_, rfl, rfl, rfl⟩
  · intro i hi16 hfree hocc
    have hscan : fopen_scan st.iodesc 16 0 = i :=
      fopen_scan_free st.iodesc i hfree hocc 16 0 (Nat.zero_le _) (by omega)
    have hi : ¬ fopen_scan st.iodesc 16 0 > 15 := by
      rw [hscan]; omega
    unfold pcl_fopen
    rw [if_neg hP, if_neg hR]
    dsimp only
    rcases fopen_open_rest h u dirname cwd { st with unit := sio_ack st.unit 0x41 }
      hc hv hi with ⟨h1, h2, h3⟩ | ⟨e, h1, h2⟩ | ⟨ok, h1, h2⟩
    · rcases hdir with hd | hd
      · exact absurd h2 hd
      · exact absurd h3 hd
    · rw [h1]
      exact ⟨_, rfl, Or.inl rfl⟩
    · rw [h1]
      refine ⟨_, rfl, Or.inr ?_⟩
      dsimp only
      have hoki : ok.i = i := by
        rw [h2]; exact hscan
      obtain ⟨io, hio1, hio2⟩ :=
        fopen_finish_iodesc h u dirname ok { st with unit := sio_ack st.unit 0x41 }
      refine ⟨io, ?_, ?_, ?_, ?_⟩
      · rw [hio1]; simp
      · rw [complete_fopen_iodesc, hio2, hoki]
      · rw [complete_fopen_parbuf, fopen_finish_parbuf, hoki]
        show (st.parbuf.set 1 i).getD 1 0 = i
        rw [List.getD_eq_getElem?_getD, List.getElem?_set_self (by omega)]
        rfl
      · rw [fopen_finish_handle h u dirname ok _ (by omega), hoki]



/-- C21 at an example: an FOPEN with `fmode` 0x10 on the mount root "/srv/pcl" is answered
with err 146. -/
theorem C21_fopen_unsupported_fmode_witness :
    ∃ r, pcl_fopen example_host 0 0x52 example_root [] (List.replicate 24 0)
        (fopen_unit 0x10 []) = some r ∧
      r.1.unit.dev.status.err = 146 ∧ r.1.iodesc = (fopen_unit 0x10 []).iodesc ∧
      r.2 = List.replicate 24 0 :=
  (C21_fopen_unsupported_fmode example_host 0 0x52 example_root [] (List.replicate 24 0)
    (fopen_unit 0x10 []) (by decide) (by decide) (by decide) (by decide)).2.1 (by decide)

/-- C21 fails as stated: `fmode` 0x10 alone, which the claim lists as supported, is
answered with err 146, and `fmode` 0x05, which it does not list, is not (no file matches
and the answer is err 170). -/
theorem C21_counterexample :
    (pcl_fopen example_host 0 0x52 example_root [] (List.replicate 24 0)
        (fopen_unit 0x10 [])).map (fun r => r.1.unit.dev.status.err) = some 146 ∧
    (pcl_fopen example_host 0 0x52 example_root [] (List.replicate 24 0)
        (fopen_unit 0x05 [])).map (fun r => r.1.unit.dev.status.err) = some 170 := by
  decide

/-- C22 (where it holds) at an example: the request path `<` on the mount root "/srv/pcl"
resolves to "/srv" and is answered with err 150. -/
theorem C22_path_prefix_confinement_witness :
    ∃ r, pcl_fopen example_host 0 0x52 example_root [] (List.replicate 24 0)
        (fopen_unit 0x04 [0x3c]) = some r ∧
      r.1.unit.dev.status.err = 150 ∧ r.1.iodesc = (fopen_unit 0x04 [0x3c]).iodesc ∧
      r.2 = List.replicate 24 0 :=
  (C22_path_prefix_confinement example_host 0 0x52 example_root [] (List.replicate 24 0)
    (fopen_unit 0x04 [0x3c]) (by decide) (by decide) (by decide) (by decide)).2

/-- C22 fails: on the mount root "/srv/pcl" the request path `<>PCL2` resolves to
"/srv/pcl2", which is neither the root nor beneath it, and FOPEN with `fmode` 0x04 opens
"/srv/pcl2/x.txt" on handle 0 with err 1. -/
theorem C22_counterexample :
    example_host.resolve (create_user_path 0 example_root []
      (cstr ((fopen_unit 0x04 sibling_path).parbuf.drop 35))) = some example_root2 ∧
    inside_root example_root example_root2 = false ∧
    (pcl_fopen example_host 0 0x52 example_root [] (List.replicate 24 0)
        (fopen_unit 0x04 sibling_path)).map
      (fun r => (r.1.unit.dev.status.err, (r.1.iodesc.getD 0 IODESC.closed).file)) =
      some (1, some { data := [1, 2, 3, 4, 5], ioerr := false }) := by
  decide

/-- C23 at an example: with handle 0 occupied, an FOPEN of "x.txt" on the mount root
"/srv/pcl2" leaves the table or occupies entry 1; it does open the file on handle 1. -/
theorem C23_handle_allocation_witness :
    (∃ r, pcl_fopen example_host 0 0x52 example_root2 [] (List.replicate 24 0)
        (fopen_busy_unit 0x04 []) = some r ∧
      (r.1.iodesc = (fopen_busy_unit 0x04 []).iodesc ∨
        ∃ io, io.file ≠ none ∧ r.1.iodesc = (fopen_busy_unit 0x04 []).iodesc.set 1 io ∧
          r.1.parbuf.getD 1 0 = 1 ∧ r.2.getD 0 0 = 1)) ∧
    (pcl_fopen example_host 0 0x52 example_root2 [] (List.replicate 24 0)
        (fopen_busy_unit 0x04 [])).map
      (fun r => (r.1.unit.dev.status.err, r.1.parbuf.getD 1 0,
        (r.1.iodesc.getD 1 IODESC.closed).file)) =
      some (1, 1, some { data := [1, 2, 3, 4, 5], ioerr := false }) :=
  ⟨(C23_handle_allocation example_host 0 0x52 example_root2 [] (List.replicate 24 0)
      (fopen_busy_unit 0x04 []) (by decide) (by decide) (by decide) (by decide) (by decide)
      (Or.inr (by decide))).2 1 (by decide) (by decide) (by decide),
   by decide⟩

end SIO2BSD
